import Mathlib

/-!
# NESemu: 6502 core and memory bus

A shallow embedding of `src/cpu.cpp`, `src/ram.cpp` and `src/rom.cpp`.

* `uint8_t` / `uint16_t` values are natural numbers; every conversion to an
  unsigned type is written as an explicit `% 256` / `% 65536`.
* A `uint8_t*` is a `Ptr`: the backing array it points into and an index.
  Dereferencing returns `none` when the index is outside the allocation.
* The CPU object together with the RAM and ROM objects it references is one
  record `CPU`; handlers are functions `Ptr → CPU → Option (CPU × InstInfo)`.
-/

namespace NESemu

/-! ## Data model -/

/-- Backing arrays: `RAM::memory`, the four arrays allocated in `CPU::CPU`, and
the PRG pages `ROM::prg_rom_pages[page]`. -/
inductive Region where
  | memory
  | ppu_reg
  | apu_io_reg
  | apu_io_test
  | cart_space
  | prg_rom_pages (page : Int)
  deriving DecidableEq, Repr

/-- A `uint8_t*`: an array and an index into it. -/
structure Ptr where
  region : Region
  idx : Nat
  deriving DecidableEq, Repr

/-- Pointer arithmetic `&p[k]`. -/
def Ptr.offset (p : Ptr) (k : Nat) : Ptr := ⟨p.region, p.idx + k⟩

/-- `#define RAM_SIZE 2048` (ram.cpp). -/
def RAM_SIZE : Nat := 2048

/-- `#define PRG_ROM_PAGE_SIZE 16384` (rom.cpp). -/
def PRG_ROM_PAGE_SIZE : Nat := 16384

/-- Allocated length of each array: `new uint8_t[RAM_SIZE]` in `RAM::RAM`,
`new uint8_t[0x0008]`, `[0x0018]`, `[0x0008]`, `[0xBFE0]` in `CPU::CPU`, and
`header[4]` pages of `PRG_ROM_PAGE_SIZE` bytes in `ROM::ROM`. A page number
outside `0 .. header[4]-1` names no allocation. -/
def Region.size (header4 : Nat) : Region → Nat
  | .memory => RAM_SIZE
  | .ppu_reg => 0x0008
  | .apu_io_reg => 0x0018
  | .apu_io_test => 0x0008
  | .cart_space => 0xBFE0
  | .prg_rom_pages page => if 0 ≤ page ∧ page < (header4 : Int) then PRG_ROM_PAGE_SIZE else 0

/-- Bit-field members of `union status`, in declaration order
(`c` is the low order bit, `n` the high order bit). -/
inductive Flag where
  | c | z | i | d | b | u | v | n
  deriving DecidableEq, Repr

/-- Bit position of a flag inside `status.sr`. -/
def Flag.bit : Flag → Nat
  | .c => 0 | .z => 1 | .i => 2 | .d => 3 | .b => 4 | .u => 5 | .v => 6 | .n => 7

/-- The `CPU` object with the `RAM` and `ROM` it references.
`sr` is `status.sr`; `header4` is `rom.header[4]`, the number of PRG pages;
`mem` holds the contents of every backing array. -/
structure CPU where
  a : Nat
  x : Nat
  y : Nat
  pc : Nat
  sp : Nat
  sr : Nat
  header4 : Nat
  mem : Region → Nat → Nat

/-- `struct inst_info`. -/
structure InstInfo where
  inst_name : String
  inst_size : Nat
  deriving DecidableEq, Repr

/-- Dereference for reading, `*p`. -/
def CPU.load (s : CPU) (p : Ptr) : Option Nat :=
  if p.idx < p.region.size s.header4 then some (s.mem p.region p.idx) else none

/-- Assignment through a pointer, `*p = v`; the value is converted to `uint8_t`. -/
def CPU.store (s : CPU) (p : Ptr) (v : Nat) : Option CPU :=
  if p.idx < p.region.size s.header4 then
    some { s with mem := fun r i => if r = p.region ∧ i = p.idx then v % 256 else s.mem r i }
  else none

/-- Read of the one-bit member `status.flag.f`. -/
def CPU.flag (s : CPU) (f : Flag) : Nat := s.sr / 2 ^ f.bit % 2

/-- Assignment `status.flag.f = v`: only the low bit of `v` is kept and only
bit `f` of `status.sr` changes. -/
def CPU.setFlag (s : CPU) (f : Flag) (v : Nat) : CPU :=
  { s with sr := s.sr - (s.sr / 2 ^ f.bit % 2) * 2 ^ f.bit + (v % 2) * 2 ^ f.bit }

/-- A C comparison used as an integer. -/
def b2i (p : Bool) : Nat := if p then 1 else 0

/-! ## ram.cpp, rom.cpp -/

/-- `RAM::get_ram`: `&memory[addr]`. -/
def RAM.get_ram (addr : Nat) : Ptr := ⟨.memory, addr % 65536⟩

/-- `ROM::get_prg_rom_lo`: `&prg_rom_pages[0][addr]`. -/
def ROM.get_prg_rom_lo (addr : Nat) : Ptr := ⟨.prg_rom_pages 0, addr % 65536⟩

/-- `ROM::get_prg_rom_hi`: `&prg_rom_pages[header[4]-1][addr]`. -/
def ROM.get_prg_rom_hi (header4 : Nat) (addr : Nat) : Ptr :=
  ⟨.prg_rom_pages ((header4 : Int) - 1), addr % 65536⟩

/-! ## cpu.cpp: helpers and the bus -/

/-- `fix_endian`: `(bin[1] << 8) + bin[0]`, returned as `uint16_t`. -/
def fix_endian (s : CPU) (bin : Ptr) : Option Nat := do
  let b1 ← s.load (bin.offset 1)
  let b0 ← s.load bin
  pure (((b1 <<< 8) + b0) % 65536)

/-- `sign_bit`: `(byte >> 7) & 0x01` on a `uint8_t` argument. -/
def sign_bit (byte : Nat) : Nat := ((byte % 256) >>> 7) &&& 0x01

/-- `CPU::access_mem`; the argument is converted to `uint16_t`. -/
def access_mem (header4 : Nat) (addr0 : Nat) : Ptr :=
  let addr := addr0 % 65536
  if 0x0000 ≤ addr ∧ addr ≤ 0x1FFF then
    RAM.get_ram (addr % 0x0800)
  else if 0x2000 ≤ addr ∧ addr ≤ 0x3FFF then
    ⟨.ppu_reg, addr % 0x0008⟩
  else if 0x4000 ≤ addr ∧ addr ≤ 0x4017 then
    ⟨.apu_io_reg, addr - 0x4000⟩
  else if 0x4018 ≤ addr ∧ addr ≤ 0x401F then
    ⟨.apu_io_reg, addr - 0x4018⟩
  else if 0x8000 ≤ addr ∧ addr ≤ 0xBFFF then
    ROM.get_prg_rom_lo (addr - 0x8000)
  else if 0xC000 ≤ addr ∧ addr ≤ 0xFFFF then
    ROM.get_prg_rom_hi header4 (addr - 0xC000)
  else
    ⟨.cart_space, addr - 0x4020⟩

/-- `CPU::load_address`: the high byte comes from the same page as the low byte. -/
def load_address (s : CPU) (addr0 : Nat) : Option Nat := do
  let addr := addr0 % 65536
  let hi ← s.load (access_mem s.header4 ((addr &&& 0xFF00) + ((addr + 1) &&& 0xFF)))
  let ld_addr := (hi <<< 8) % 65536
  let lo ← s.load (access_mem s.header4 addr)
  pure ((ld_addr + lo) % 65536)

/-- `CPU::CPU`: register values after construction; the array contents are
whatever the ROM file and the allocator supplied. -/
def CPU.init (header4 : Nat) (mem : Region → Nat → Nat) : CPU :=
  { a := 0x00, x := 0x00, y := 0x00, pc := 0xC000, sp := 0xFD, sr := 0x24,
    header4 := header4, mem := mem }

/-- Target of a `uint8_t* op` in the read-modify-write handlers: `&a` or a
pointer returned by `access_mem`. -/
inductive Loc where
  | reg_a
  | at (p : Ptr)
  deriving DecidableEq, Repr

/-- Read `*op`. -/
def CPU.get (s : CPU) : Loc → Option Nat
  | .reg_a => some s.a
  | .at p => s.load p

/-- Write `*op = v`. -/
def CPU.put (s : CPU) (l : Loc) (v : Nat) : Option CPU :=
  match l with
  | .reg_a => some { s with a := v % 256 }
  | .at p => s.store p v

/-! ## cpu.cpp: instruction handlers

Each handler is split at the end of its `switch`: `*_operand` is the switch
(it returns the operand and `info.inst_size`; an opcode without a `case` leaves
the operand uninitialised, which is `none`), and the handler continues with
the statements after the switch. -/

/-- The `switch` of `CPU::adc`. -/
def adc_operand (inst : Ptr) (s : CPU) : Option (Nat × Nat) := do
  let opc ← s.load inst
  if opc = 0x69 then do
    let i1 ← s.load (inst.offset 1)
    pure (i1, 2)
  else if opc = 0x65 then do
    let i1 ← s.load (inst.offset 1)
    let v ← s.load (access_mem s.header4 i1)
    pure (v, 2)
  else if opc = 0x75 then do
    let i1 ← s.load (inst.offset 1)
    let v ← s.load (access_mem s.header4 ((i1 + s.x) % 256))
    pure (v, 2)
  else if opc = 0x6D then do
    let w ← fix_endian s (inst.offset 1)
    let v ← s.load (access_mem s.header4 w)
    pure (v, 3)
  else if opc = 0x7D then do
    let w ← fix_endian s (inst.offset 1)
    let v ← s.load (access_mem s.header4 (w + s.x))
    pure (v, 3)
  else if opc = 0x79 then do
    let w ← fix_endian s (inst.offset 1)
    let v ← s.load (access_mem s.header4 (w + s.y))
    pure (v, 3)
  else if opc = 0x61 then do
    let i1 ← s.load (inst.offset 1)
    let w ← load_address s ((i1 + s.x) % 256)
    let v ← s.load (access_mem s.header4 w)
    pure (v, 2)
  else if opc = 0x71 then do
    let i1 ← s.load (inst.offset 1)
    let w ← load_address s (i1 % 256)
    let v ← s.load (access_mem s.header4 (w + s.y))
    pure (v, 2)
  else none

/-- `CPU::adc` after the switch (lines 256-263). -/
def adc_finish (s : CPU) (op2 inst_size : Nat) : CPU × InstInfo :=
  let op1 := s.a
  let tmp := (op1 + op2 + s.flag .c) % 65536
  let s := { s with a := tmp % 256 }
  let s := { s with pc := (s.pc + inst_size) % 65536 }
  let s := s.setFlag .c (tmp >>> 8)
  let s := s.setFlag .z (b2i (s.a == 0))
  let s := s.setFlag .v
    (if sign_bit op1 = sign_bit op2 then b2i (sign_bit s.a != sign_bit op1) else 0)
  let s := s.setFlag .n (sign_bit s.a)
  (s, ⟨"ADC", inst_size⟩)

/-- `CPU::adc`. -/
def adc (inst : Ptr) (s : CPU) : Option (CPU × InstInfo) := do
  let r ← adc_operand inst s
  pure (adc_finish s r.1 r.2)

/-- The `switch` of `CPU::sbc`. -/
def sbc_operand (inst : Ptr) (s : CPU) : Option (Nat × Nat) := do
  let opc ← s.load inst
  if opc = 0xE9 then do
    let i1 ← s.load (inst.offset 1)
    pure (i1, 2)
  else if opc = 0xE5 then do
    let i1 ← s.load (inst.offset 1)
    let v ← s.load (access_mem s.header4 i1)
    pure (v, 2)
  else if opc = 0xF5 then do
    let i1 ← s.load (inst.offset 1)
    let v ← s.load (access_mem s.header4 ((i1 + s.x) % 256))
    pure (v, 2)
  else if opc = 0xED then do
    let w ← fix_endian s (inst.offset 1)
    let v ← s.load (access_mem s.header4 w)
    pure (v, 3)
  else if opc = 0xFD then do
    let w ← fix_endian s (inst.offset 1)
    let v ← s.load (access_mem s.header4 (w + s.x))
    pure (v, 3)
  else if opc = 0xF9 then do
    let w ← fix_endian s (inst.offset 1)
    let v ← s.load (access_mem s.header4 (w + s.y))
    pure (v, 3)
  else if opc = 0xE1 then do
    let i1 ← s.load (inst.offset 1)
    let w ← load_address s ((i1 + s.x) % 256)
    let v ← s.load (access_mem s.header4 w)
    pure (v, 2)
  else if opc = 0xF1 then do
    let i1 ← s.load (inst.offset 1)
    let w ← load_address s (i1 % 256)
    let v ← s.load (access_mem s.header4 (w + s.y))
    pure (v, 2)
  else none

/-- `CPU::sbc` after the switch (lines 1033-1040). The subtraction is done in
`int` and converted to `uint16_t`. -/
def sbc_finish (s : CPU) (op2 inst_size : Nat) : CPU × InstInfo :=
  let op1 := s.a
  let tmp := (((op1 : Int) - (op2 : Int) - (1 - (s.flag .c : Int))) % 65536).toNat
  let s := { s with a := tmp % 256 }
  let s := { s with pc := (s.pc + inst_size) % 65536 }
  let s := s.setFlag .c (b2i (sign_bit s.a == 0))
  let s := s.setFlag .z (b2i (s.a == 0))
  let s := s.setFlag .v
    (b2i (sign_bit op1 != sign_bit op2 && sign_bit op1 != sign_bit s.a))
  let s := s.setFlag .n (sign_bit s.a)
  (s, ⟨"SBC", inst_size⟩)

/-- `CPU::sbc`. -/
def sbc (inst : Ptr) (s : CPU) : Option (CPU × InstInfo) := do
  let r ← sbc_operand inst s
  pure (sbc_finish s r.1 r.2)

/-- The `switch` of `CPU::asl`. -/
def asl_operand (inst : Ptr) (s : CPU) : Option (Loc × Nat) := do
  let opc ← s.load inst
  if opc = 0x0A then
    pure (.reg_a, 1)
  else if opc = 0x06 then do
    let i1 ← s.load (inst.offset 1)
    pure (.at (access_mem s.header4 i1), 2)
  else if opc = 0x16 then do
    let i1 ← s.load (inst.offset 1)
    pure (.at (access_mem s.header4 (i1 + s.x)), 2)
  else if opc = 0x0E then do
    let w ← fix_endian s (inst.offset 1)
    pure (.at (access_mem s.header4 w), 3)
  else if opc = 0x1E then do
    let w ← fix_endian s (inst.offset 1)
    pure (.at (access_mem s.header4 (w + s.x)), 3)
  else none

/-- `CPU::asl`. -/
def asl (inst : Ptr) (s : CPU) : Option (CPU × InstInfo) := do
  let (op, inst_size) ← asl_operand inst s
  let s := { s with pc := (s.pc + inst_size) % 65536 }
  let m ← s.get op
  let s := s.setFlag .c (sign_bit m)
  let s ← s.put op (m <<< 1)
  let m ← s.get op
  let s := s.setFlag .z (b2i (m == 0))
  let s := s.setFlag .n (sign_bit m)
  pure (s, ⟨"ASL", inst_size⟩)

/-- The `switch` of `CPU::lsr`. -/
def lsr_operand (inst : Ptr) (s : CPU) : Option (Loc × Nat) := do
  let opc ← s.load inst
  if opc = 0x4A then
    pure (.reg_a, 1)
  else if opc = 0x46 then do
    let i1 ← s.load (inst.offset 1)
    pure (.at (access_mem s.header4 i1), 2)
  else if opc = 0x56 then do
    let i1 ← s.load (inst.offset 1)
    pure (.at (access_mem s.header4 (i1 + s.x)), 2)
  else if opc = 0x4E then do
    let w ← fix_endian s (inst.offset 1)
    pure (.at (access_mem s.header4 w), 3)
  else if opc = 0x5E then do
    let w ← fix_endian s (inst.offset 1)
    pure (.at (access_mem s.header4 (w + s.x)), 3)
  else none

/-- `CPU::lsr`. -/
def lsr (inst : Ptr) (s : CPU) : Option (CPU × InstInfo) := do
  let (op, inst_size) ← lsr_operand inst s
  let s := { s with pc := (s.pc + inst_size) % 65536 }
  let m ← s.get op
  let s := s.setFlag .c (m &&& 0x01)
  let s ← s.put op ((m >>> 1) &&& 0x7F)
  let m ← s.get op
  let s := s.setFlag .z (b2i (m == 0))
  let s := s.setFlag .n (sign_bit m)
  pure (s, ⟨"LSR", inst_size⟩)

/-- The `switch` of `CPU::rol`. -/
def rol_operand (inst : Ptr) (s : CPU) : Option (Loc × Nat) := do
  let opc ← s.load inst
  if opc = 0x2A then
    pure (.reg_a, 1)
  else if opc = 0x26 then do
    let i1 ← s.load (inst.offset 1)
    pure (.at (access_mem s.header4 i1), 2)
  else if opc = 0x36 then do
    let i1 ← s.load (inst.offset 1)
    pure (.at (access_mem s.header4 (i1 + s.x)), 2)
  else if opc = 0x2E then do
    let w ← fix_endian s (inst.offset 1)
    pure (.at (access_mem s.header4 w), 3)
  else if opc = 0x3E then do
    let w ← fix_endian s (inst.offset 1)
    pure (.at (access_mem s.header4 (w + s.x)), 3)
  else none

/-- `CPU::rol`. -/
def rol (inst : Ptr) (s : CPU) : Option (CPU × InstInfo) := do
  let (op, inst_size) ← rol_operand inst s
  let m ← s.get op
  let old_bit7 := sign_bit m
  let s ← s.put op ((m <<< 1) + s.flag .c)
  let s := { s with pc := (s.pc + inst_size) % 65536 }
  let s := s.setFlag .c old_bit7
  let s := s.setFlag .z (b2i (s.a == 0))
  let m ← s.get op
  let s := s.setFlag .n (sign_bit m)
  pure (s, ⟨"ROL", inst_size⟩)

/-- The `switch` of `CPU::ror`. -/
def ror_operand (inst : Ptr) (s : CPU) : Option (Loc × Nat) := do
  let opc ← s.load inst
  if opc = 0x6A then
    pure (.reg_a, 1)
  else if opc = 0x66 then do
    let i1 ← s.load (inst.offset 1)
    pure (.at (access_mem s.header4 i1), 2)
  else if opc = 0x76 then do
    let i1 ← s.load (inst.offset 1)
    pure (.at (access_mem s.header4 (i1 + s.x)), 2)
  else if opc = 0x6E then do
    let w ← fix_endian s (inst.offset 1)
    pure (.at (access_mem s.header4 w), 3)
  else if opc = 0x7E then do
    let w ← fix_endian s (inst.offset 1)
    pure (.at (access_mem s.header4 (w + s.x)), 3)
  else none

/-- `CPU::ror`. -/
def ror (inst : Ptr) (s : CPU) : Option (CPU × InstInfo) := do
  let (op, inst_size) ← ror_operand inst s
  let m ← s.get op
  let old_bit0 := m &&& 0x01
  let s ← s.put op (((m >>> 1) &&& 0x7F) + ((s.flag .c <<< 7) % 256))
  let s := { s with pc := (s.pc + inst_size) % 65536 }
  let s := s.setFlag .c old_bit0
  let s := s.setFlag .z (b2i (s.a == 0))
  let m ← s.get op
  let s := s.setFlag .n (sign_bit m)
  pure (s, ⟨"ROR", inst_size⟩)

/-- The `switch` of `CPU::dec`. -/
def dec_operand (inst : Ptr) (s : CPU) : Option (Loc × Nat) := do
  let opc ← s.load inst
  if opc = 0xC6 then do
    let i1 ← s.load (inst.offset 1)
    pure (.at (access_mem s.header4 i1), 2)
  else if opc = 0xD6 then do
    let i1 ← s.load (inst.offset 1)
    pure (.at (access_mem s.header4 ((i1 + s.x) % 256)), 2)
  else if opc = 0xCE then do
    let w ← fix_endian s (inst.offset 1)
    pure (.at (access_mem s.header4 w), 3)
  else if opc = 0xDE then do
    let w ← fix_endian s (inst.offset 1)
    pure (.at (access_mem s.header4 (w + s.x)), 3)
  else none

/-- `CPU::dec`; `(*op)--` wraps as `uint8_t`. -/
def dec (inst : Ptr) (s : CPU) : Option (CPU × InstInfo) := do
  let (op, inst_size) ← dec_operand inst s
  let m ← s.get op
  let s ← s.put op (m + 255)
  let s := { s with pc := (s.pc + inst_size) % 65536 }
  let m ← s.get op
  let s := s.setFlag .z (b2i (m == 0))
  let s := s.setFlag .n (sign_bit m)
  pure (s, ⟨"DEC", inst_size⟩)

/-- `CPU::jsr`; `sp--` wraps as `uint8_t`. The operand is read after the two
stack writes, as in the source. -/
def jsr (inst : Ptr) (s : CPU) : Option (CPU × InstInfo) := do
  let s := { s with pc := (s.pc + 2) % 65536 }
  let s ← s.store (access_mem s.header4 (0x0100 + s.sp)) ((s.pc >>> 8) &&& 0xFF)
  let s := { s with sp := (s.sp + 255) % 256 }
  let s ← s.store (access_mem s.header4 (0x0100 + s.sp)) (s.pc &&& 0xFF)
  let s := { s with sp := (s.sp + 255) % 256 }
  let w ← fix_endian s (inst.offset 1)
  let s := { s with pc := w }
  pure (s, ⟨"JSR", 3⟩)

/-- `CPU::rts`; `sp++` wraps as `uint8_t`, and both bytes of the return
address are read by `fix_endian` from the one pointer `access_mem(0x0100 + sp)`. -/
def rts (_inst : Ptr) (s : CPU) : Option (CPU × InstInfo) := do
  let s := { s with sp := (s.sp + 1) % 256 }
  let w ← fix_endian s (access_mem s.header4 (0x0100 + s.sp))
  let s := { s with pc := w }
  let s := { s with sp := (s.sp + 1) % 256 }
  let s := { s with pc := (s.pc + 1) % 65536 }
  pure (s, ⟨"RTS", 1⟩)

/-! ### Addressing-mode expressions

The operand expressions below occur verbatim in the `switch` of several
handlers; each one is written once here and used under the handler's own
`case` labels. -/

/-- `access_mem(inst[1])` (zero page). -/
def zero_page (inst : Ptr) (s : CPU) : Option Ptr := do
  let i1 ← s.load (inst.offset 1)
  pure (access_mem s.header4 i1)

/-- `access_mem((uint8_t)(inst[1] + x))` (zero page,X with the cast). -/
def zero_page_x (inst : Ptr) (s : CPU) : Option Ptr := do
  let i1 ← s.load (inst.offset 1)
  pure (access_mem s.header4 ((i1 + s.x) % 256))

/-- `access_mem((uint8_t)(inst[1] + y))` (zero page,Y). -/
def zero_page_y (inst : Ptr) (s : CPU) : Option Ptr := do
  let i1 ← s.load (inst.offset 1)
  pure (access_mem s.header4 ((i1 + s.y) % 256))

/-- `access_mem(fix_endian(&inst[1]))` (absolute). -/
def absolute (inst : Ptr) (s : CPU) : Option Ptr := do
  let w ← fix_endian s (inst.offset 1)
  pure (access_mem s.header4 w)

/-- `access_mem(fix_endian(&inst[1]) + x)` (absolute,X). -/
def absolute_x (inst : Ptr) (s : CPU) : Option Ptr := do
  let w ← fix_endian s (inst.offset 1)
  pure (access_mem s.header4 (w + s.x))

/-- `access_mem(fix_endian(&inst[1]) + y)` (absolute,Y). -/
def absolute_y (inst : Ptr) (s : CPU) : Option Ptr := do
  let w ← fix_endian s (inst.offset 1)
  pure (access_mem s.header4 (w + s.y))

/-- `access_mem(load_address((uint8_t)(inst[1] + x)))` ((indirect,X)). -/
def indirect_x (inst : Ptr) (s : CPU) : Option Ptr := do
  let i1 ← s.load (inst.offset 1)
  let w ← load_address s ((i1 + s.x) % 256)
  pure (access_mem s.header4 w)

/-- `access_mem(load_address((uint8_t)inst[1]) + y)` ((indirect),Y). -/
def indirect_y (inst : Ptr) (s : CPU) : Option Ptr := do
  let i1 ← s.load (inst.offset 1)
  let w ← load_address s (i1 % 256)
  pure (access_mem s.header4 (w + s.y))

/-- The conversion `(int8_t)b` of a `uint8_t` value. -/
def int8 (b : Nat) : Int :=
  if b % 256 < 128 then ((b % 256 : Nat) : Int) else ((b % 256 : Nat) : Int) - 256

/-- The statement `pc += (int8_t)inst[1];` of the branch handlers. -/
def branch_taken (inst : Ptr) (s : CPU) : Option CPU := do
  let off ← s.load (inst.offset 1)
  pure { s with pc := (((s.pc : Int) + int8 off) % 65536).toNat }

/-- The `switch` of `CPU::and_`. -/
def and__operand (inst : Ptr) (s : CPU) : Option (Nat × Nat) := do
  let opc ← s.load inst
  if opc = 0x29 then do
    let v ← s.load (inst.offset 1)
    pure (v, 2)
  else if opc = 0x25 then do
    let v ← (zero_page inst s).bind s.load
    pure (v, 2)
  else if opc = 0x35 then do
    let v ← (zero_page_x inst s).bind s.load
    pure (v, 2)
  else if opc = 0x2D then do
    let v ← (absolute inst s).bind s.load
    pure (v, 3)
  else if opc = 0x3D then do
    let v ← (absolute_x inst s).bind s.load
    pure (v, 3)
  else if opc = 0x39 then do
    let v ← (absolute_y inst s).bind s.load
    pure (v, 3)
  else if opc = 0x21 then do
    let v ← (indirect_x inst s).bind s.load
    pure (v, 2)
  else if opc = 0x31 then do
    let v ← (indirect_y inst s).bind s.load
    pure (v, 2)
  else none

/-- `CPU::and_` after the switch. -/
def and__finish (s : CPU) (op2 inst_size : Nat) : CPU × InstInfo :=
  let op1 := s.a
  let s := { s with a := (op1 &&& op2) % 256 }
  let s := { s with pc := (s.pc + inst_size) % 65536 }
  let s := s.setFlag .z (b2i (s.a == 0))
  let s := s.setFlag .n (sign_bit s.a)
  (s, ⟨"AND", inst_size⟩)

/-- `CPU::and_`. -/
def and_ (inst : Ptr) (s : CPU) : Option (CPU × InstInfo) := do
  let r ← and__operand inst s
  pure (and__finish s r.1 r.2)

/-- `CPU::bcc`: taken when `!status.flag.c`. -/
def bcc (inst : Ptr) (s : CPU) : Option (CPU × InstInfo) := do
  let s ← if s.flag .c = 0 then branch_taken inst s else pure s
  let s := { s with pc := (s.pc + 2) % 65536 }
  pure (s, ⟨"BCC", 2⟩)

/-- `CPU::bcs`: taken when `status.flag.c`. -/
def bcs (inst : Ptr) (s : CPU) : Option (CPU × InstInfo) := do
  let s ← if s.flag .c ≠ 0 then branch_taken inst s else pure s
  let s := { s with pc := (s.pc + 2) % 65536 }
  pure (s, ⟨"BCS", 2⟩)

/-- `CPU::beq`: taken when `status.flag.z`. -/
def beq (inst : Ptr) (s : CPU) : Option (CPU × InstInfo) := do
  let s ← if s.flag .z ≠ 0 then branch_taken inst s else pure s
  let s := { s with pc := (s.pc + 2) % 65536 }
  pure (s, ⟨"BEQ", 2⟩)

/-- The `switch` of `CPU::bit`. -/
def bit_operand (inst : Ptr) (s : CPU) : Option (Nat × Nat) := do
  let opc ← s.load inst
  if opc = 0x24 then do
    let v ← (zero_page inst s).bind s.load
    pure (v, 2)
  else if opc = 0x2C then do
    let v ← (absolute inst s).bind s.load
    pure (v, 3)
  else none

/-- `CPU::bit` after the switch. -/
def bit_finish (s : CPU) (op inst_size : Nat) : CPU × InstInfo :=
  let s := { s with pc := (s.pc + inst_size) % 65536 }
  let s := s.setFlag .z (b2i ((s.a &&& op) == 0))
  let s := s.setFlag .v ((op >>> 6) &&& 0x01)
  let s := s.setFlag .n (sign_bit op)
  (s, ⟨"BIT", inst_size⟩)

/-- `CPU::bit`. -/
def bit (inst : Ptr) (s : CPU) : Option (CPU × InstInfo) := do
  let r ← bit_operand inst s
  pure (bit_finish s r.1 r.2)

/-- `CPU::bmi`: taken when `status.flag.n`. -/
def bmi (inst : Ptr) (s : CPU) : Option (CPU × InstInfo) := do
  let s ← if s.flag .n ≠ 0 then branch_taken inst s else pure s
  let s := { s with pc := (s.pc + 2) % 65536 }
  pure (s, ⟨"BMI", 2⟩)

/-- `CPU::bne`: taken when `!status.flag.z`. -/
def bne (inst : Ptr) (s : CPU) : Option (CPU × InstInfo) := do
  let s ← if s.flag .z = 0 then branch_taken inst s else pure s
  let s := { s with pc := (s.pc + 2) % 65536 }
  pure (s, ⟨"BNE", 2⟩)

/-- `CPU::bpl`: taken when `!status.flag.n`. -/
def bpl (inst : Ptr) (s : CPU) : Option (CPU × InstInfo) := do
  let s ← if s.flag .n = 0 then branch_taken inst s else pure s
  let s := { s with pc := (s.pc + 2) % 65536 }
  pure (s, ⟨"BPL", 2⟩)

/-- `CPU::brk`. -/
def brk (_inst : Ptr) (s : CPU) : Option (CPU × InstInfo) := do
  let s := { s with pc := (s.pc + 1) % 65536 }
  let s ← s.store (access_mem s.header4 (0x0100 + s.sp)) ((s.pc >>> 8) &&& 0xFF)
  let s := { s with sp := (s.sp + 255) % 256 }
  let s ← s.store (access_mem s.header4 (0x0100 + s.sp)) (s.pc &&& 0xFF)
  let s := { s with sp := (s.sp + 255) % 256 }
  let s ← s.store (access_mem s.header4 (0x0100 + s.sp)) (s.sr ||| 0x10)
  let s := { s with sp := (s.sp + 255) % 256 }
  let w ← fix_endian s (access_mem s.header4 0xFFFE)
  let s := { s with pc := w }
  let s := s.setFlag .b 1
  pure (s, ⟨"BRK", 1⟩)

/-- `CPU::bvc`: taken when `!status.flag.v`. -/
def bvc (inst : Ptr) (s : CPU) : Option (CPU × InstInfo) := do
  let s ← if s.flag .v = 0 then branch_taken inst s else pure s
  let s := { s with pc := (s.pc + 2) % 65536 }
  pure (s, ⟨"BVC", 2⟩)

/-- `CPU::bvs`: taken when `status.flag.v`. -/
def bvs (inst : Ptr) (s : CPU) : Option (CPU × InstInfo) := do
  let s ← if s.flag .v ≠ 0 then branch_taken inst s else pure s
  let s := { s with pc := (s.pc + 2) % 65536 }
  pure (s, ⟨"BVS", 2⟩)

/-- `CPU::clc`. -/
def clc (_inst : Ptr) (s : CPU) : Option (CPU × InstInfo) :=
  let s := s.setFlag .c 0
  let s := { s with pc := (s.pc + 1) % 65536 }
  some (s, ⟨"CLC", 1⟩)

/-- `CPU::cld`. -/
def cld (_inst : Ptr) (s : CPU) : Option (CPU × InstInfo) :=
  let s := s.setFlag .d 0
  let s := { s with pc := (s.pc + 1) % 65536 }
  some (s, ⟨"CLD", 1⟩)

/-- `CPU::cli`. -/
def cli (_inst : Ptr) (s : CPU) : Option (CPU × InstInfo) :=
  let s := s.setFlag .i 0
  let s := { s with pc := (s.pc + 1) % 65536 }
  some (s, ⟨"CLI", 1⟩)

/-- `CPU::clv`. -/
def clv (_inst : Ptr) (s : CPU) : Option (CPU × InstInfo) :=
  let s := s.setFlag .v 0
  let s := { s with pc := (s.pc + 1) % 65536 }
  some (s, ⟨"CLV", 1⟩)

/-- The `switch` of `CPU::cmp`. -/
def cmp_operand (inst : Ptr) (s : CPU) : Option (Nat × Nat) := do
  let opc ← s.load inst
  if opc = 0xC9 then do
    let v ← s.load (inst.offset 1)
    pure (v, 2)
  else if opc = 0xC5 then do
    let v ← (zero_page inst s).bind s.load
    pure (v, 2)
  else if opc = 0xD5 then do
    let v ← (zero_page_x inst s).bind s.load
    pure (v, 2)
  else if opc = 0xCD then do
    let v ← (absolute inst s).bind s.load
    pure (v, 3)
  else if opc = 0xDD then do
    let v ← (absolute_x inst s).bind s.load
    pure (v, 3)
  else if opc = 0xD9 then do
    let v ← (absolute_y inst s).bind s.load
    pure (v, 3)
  else if opc = 0xC1 then do
    let v ← (indirect_x inst s).bind s.load
    pure (v, 2)
  else if opc = 0xD1 then do
    let v ← (indirect_y inst s).bind s.load
    pure (v, 2)
  else none

/-- `CPU::cmp` after the switch; `a - op` is an `int` converted to the
`uint8_t` parameter of `sign_bit`. -/
def cmp_finish (s : CPU) (op inst_size : Nat) : CPU × InstInfo :=
  let s := { s with pc := (s.pc + inst_size) % 65536 }
  let s := s.setFlag .c (b2i (decide (s.a ≥ op)))
  let s := s.setFlag .z (b2i (s.a == op))
  let s := s.setFlag .n (sign_bit ((((s.a : Int) - (op : Int)) % 256).toNat))
  (s, ⟨"CMP", inst_size⟩)

/-- `CPU::cmp`. -/
def cmp (inst : Ptr) (s : CPU) : Option (CPU × InstInfo) := do
  let r ← cmp_operand inst s
  pure (cmp_finish s r.1 r.2)

/-- The `switch` of `CPU::cpx`. -/
def cpx_operand (inst : Ptr) (s : CPU) : Option (Nat × Nat) := do
  let opc ← s.load inst
  if opc = 0xE0 then do
    let v ← s.load (inst.offset 1)
    pure (v, 2)
  else if opc = 0xE4 then do
    let v ← (zero_page inst s).bind s.load
    pure (v, 2)
  else if opc = 0xEC then do
    let v ← (absolute inst s).bind s.load
    pure (v, 3)
  else none

/-- `CPU::cpx` after the switch; `x - op` is an `int` converted to the
`uint8_t` parameter of `sign_bit`. -/
def cpx_finish (s : CPU) (op inst_size : Nat) : CPU × InstInfo :=
  let s := { s with pc := (s.pc + inst_size) % 65536 }
  let s := s.setFlag .c (b2i (decide (s.x ≥ op)))
  let s := s.setFlag .z (b2i (s.x == op))
  let s := s.setFlag .n (sign_bit ((((s.x : Int) - (op : Int)) % 256).toNat))
  (s, ⟨"CPX", inst_size⟩)

/-- `CPU::cpx`. -/
def cpx (inst : Ptr) (s : CPU) : Option (CPU × InstInfo) := do
  let r ← cpx_operand inst s
  pure (cpx_finish s r.1 r.2)

/-- The `switch` of `CPU::cpy`. -/
def cpy_operand (inst : Ptr) (s : CPU) : Option (Nat × Nat) := do
  let opc ← s.load inst
  if opc = 0xC0 then do
    let v ← s.load (inst.offset 1)
    pure (v, 2)
  else if opc = 0xC4 then do
    let v ← (zero_page inst s).bind s.load
    pure (v, 2)
  else if opc = 0xCC then do
    let v ← (absolute inst s).bind s.load
    pure (v, 3)
  else none

/-- `CPU::cpy` after the switch; `y - op` is an `int` converted to the
`uint8_t` parameter of `sign_bit`. -/
def cpy_finish (s : CPU) (op inst_size : Nat) : CPU × InstInfo :=
  let s := { s with pc := (s.pc + inst_size) % 65536 }
  let s := s.setFlag .c (b2i (decide (s.y ≥ op)))
  let s := s.setFlag .z (b2i (s.y == op))
  let s := s.setFlag .n (sign_bit ((((s.y : Int) - (op : Int)) % 256).toNat))
  (s, ⟨"CPY", inst_size⟩)

/-- `CPU::cpy`. -/
def cpy (inst : Ptr) (s : CPU) : Option (CPU × InstInfo) := do
  let r ← cpy_operand inst s
  pure (cpy_finish s r.1 r.2)

/-- `CPU::dex`; `x--` wraps as `uint8_t`. -/
def dex (_inst : Ptr) (s : CPU) : Option (CPU × InstInfo) :=
  let s := { s with x := (s.x + 255) % 256 }
  let s := { s with pc := (s.pc + 1) % 65536 }
  let s := s.setFlag .z (b2i (s.x == 0))
  let s := s.setFlag .n (sign_bit s.x)
  some (s, ⟨"DEX", 1⟩)

/-- `CPU::dey`; `y--` wraps as `uint8_t`. -/
def dey (_inst : Ptr) (s : CPU) : Option (CPU × InstInfo) :=
  let s := { s with y := (s.y + 255) % 256 }
  let s := { s with pc := (s.pc + 1) % 65536 }
  let s := s.setFlag .z (b2i (s.y == 0))
  let s := s.setFlag .n (sign_bit s.y)
  some (s, ⟨"DEY", 1⟩)

/-- The `switch` of `CPU::eor`. -/
def eor_operand (inst : Ptr) (s : CPU) : Option (Nat × Nat) := do
  let opc ← s.load inst
  if opc = 0x49 then do
    let v ← s.load (inst.offset 1)
    pure (v, 2)
  else if opc = 0x45 then do
    let v ← (zero_page inst s).bind s.load
    pure (v, 2)
  else if opc = 0x55 then do
    let v ← (zero_page_x inst s).bind s.load
    pure (v, 2)
  else if opc = 0x4D then do
    let v ← (absolute inst s).bind s.load
    pure (v, 3)
  else if opc = 0x5D then do
    let v ← (absolute_x inst s).bind s.load
    pure (v, 3)
  else if opc = 0x59 then do
    let v ← (absolute_y inst s).bind s.load
    pure (v, 3)
  else if opc = 0x41 then do
    let v ← (indirect_x inst s).bind s.load
    pure (v, 2)
  else if opc = 0x51 then do
    let v ← (indirect_y inst s).bind s.load
    pure (v, 2)
  else none

/-- `CPU::eor` after the switch. -/
def eor_finish (s : CPU) (op2 inst_size : Nat) : CPU × InstInfo :=
  let op1 := s.a
  let s := { s with a := (op1 ^^^ op2) % 256 }
  let s := { s with pc := (s.pc + inst_size) % 65536 }
  let s := s.setFlag .z (b2i (s.a == 0))
  let s := s.setFlag .n (sign_bit s.a)
  (s, ⟨"EOR", inst_size⟩)

/-- `CPU::eor`. -/
def eor (inst : Ptr) (s : CPU) : Option (CPU × InstInfo) := do
  let r ← eor_operand inst s
  pure (eor_finish s r.1 r.2)

/-- The `switch` of `CPU::inc`. -/
def inc_operand (inst : Ptr) (s : CPU) : Option (Ptr × Nat) := do
  let opc ← s.load inst
  if opc = 0xE6 then do
    let p ← zero_page inst s
    pure (p, 2)
  else if opc = 0xF6 then do
    let p ← zero_page_x inst s
    pure (p, 2)
  else if opc = 0xEE then do
    let p ← absolute inst s
    pure (p, 3)
  else if opc = 0xFE then do
    let p ← absolute_x inst s
    pure (p, 3)
  else none

/-- `CPU::inc`; `(*op)++` wraps as `uint8_t`. -/
def inc (inst : Ptr) (s : CPU) : Option (CPU × InstInfo) := do
  let (op, inst_size) ← inc_operand inst s
  let m ← s.load op
  let s ← s.store op (m + 1)
  let s := { s with pc := (s.pc + inst_size) % 65536 }
  let m ← s.load op
  let s := s.setFlag .z (b2i (m == 0))
  let s := s.setFlag .n (sign_bit m)
  pure (s, ⟨"INC", inst_size⟩)

/-- `CPU::inx`; `x++` wraps as `uint8_t`. -/
def inx (_inst : Ptr) (s : CPU) : Option (CPU × InstInfo) :=
  let s := { s with x := (s.x + 1) % 256 }
  let s := { s with pc := (s.pc + 1) % 65536 }
  let s := s.setFlag .z (b2i (s.x == 0))
  let s := s.setFlag .n (sign_bit s.x)
  some (s, ⟨"INX", 1⟩)

/-- `CPU::iny`; `y++` wraps as `uint8_t`. -/
def iny (_inst : Ptr) (s : CPU) : Option (CPU × InstInfo) :=
  let s := { s with y := (s.y + 1) % 256 }
  let s := { s with pc := (s.pc + 1) % 65536 }
  let s := s.setFlag .z (b2i (s.y == 0))
  let s := s.setFlag .n (sign_bit s.y)
  some (s, ⟨"INY", 1⟩)

/-- `CPU::jmp`; an opcode without a `case` leaves `pc` as it is. -/
def jmp (inst : Ptr) (s : CPU) : Option (CPU × InstInfo) := do
  let opc ← s.load inst
  let s ←
    if opc = 0x4C then do
      let w ← fix_endian s (inst.offset 1)
      pure { s with pc := w }
    else if opc = 0x6C then do
      let w ← fix_endian s (inst.offset 1)
      let t ← load_address s w
      pure { s with pc := t }
    else pure s
  pure (s, ⟨"JMP", 3⟩)

/-- The `switch` of `CPU::lda`. -/
def lda_operand (inst : Ptr) (s : CPU) : Option (Nat × Nat) := do
  let opc ← s.load inst
  if opc = 0xA9 then do
    let v ← s.load (inst.offset 1)
    pure (v, 2)
  else if opc = 0xA5 then do
    let v ← (zero_page inst s).bind s.load
    pure (v, 2)
  else if opc = 0xB5 then do
    let v ← (zero_page_x inst s).bind s.load
    pure (v, 2)
  else if opc = 0xAD then do
    let v ← (absolute inst s).bind s.load
    pure (v, 3)
  else if opc = 0xBD then do
    let v ← (absolute_x inst s).bind s.load
    pure (v, 3)
  else if opc = 0xB9 then do
    let v ← (absolute_y inst s).bind s.load
    pure (v, 3)
  else if opc = 0xA1 then do
    let v ← (indirect_x inst s).bind s.load
    pure (v, 2)
  else if opc = 0xB1 then do
    let v ← (indirect_y inst s).bind s.load
    pure (v, 2)
  else none

/-- `CPU::lda` after the switch. -/
def lda_finish (s : CPU) (op inst_size : Nat) : CPU × InstInfo :=
  let s := { s with a := op }
  let s := { s with pc := (s.pc + inst_size) % 65536 }
  let s := s.setFlag .z (b2i (s.a == 0))
  let s := s.setFlag .n (sign_bit s.a)
  (s, ⟨"LDA", inst_size⟩)

/-- `CPU::lda`. -/
def lda (inst : Ptr) (s : CPU) : Option (CPU × InstInfo) := do
  let r ← lda_operand inst s
  pure (lda_finish s r.1 r.2)

/-- The `switch` of `CPU::ldx`. -/
def ldx_operand (inst : Ptr) (s : CPU) : Option (Nat × Nat) := do
  let opc ← s.load inst
  if opc = 0xA2 then do
    let v ← s.load (inst.offset 1)
    pure (v, 2)
  else if opc = 0xA6 then do
    let v ← (zero_page inst s).bind s.load
    pure (v, 2)
  else if opc = 0xB6 then do
    let v ← (zero_page_y inst s).bind s.load
    pure (v, 2)
  else if opc = 0xAE then do
    let v ← (absolute inst s).bind s.load
    pure (v, 3)
  else if opc = 0xBE then do
    let v ← (absolute_y inst s).bind s.load
    pure (v, 3)
  else none

/-- `CPU::ldx` after the switch. -/
def ldx_finish (s : CPU) (op inst_size : Nat) : CPU × InstInfo :=
  let s := { s with x := op }
  let s := { s with pc := (s.pc + inst_size) % 65536 }
  let s := s.setFlag .z (b2i (s.x == 0))
  let s := s.setFlag .n (sign_bit s.x)
  (s, ⟨"LDX", inst_size⟩)

/-- `CPU::ldx`. -/
def ldx (inst : Ptr) (s : CPU) : Option (CPU × InstInfo) := do
  let r ← ldx_operand inst s
  pure (ldx_finish s r.1 r.2)

/-- The `switch` of `CPU::ldy`. -/
def ldy_operand (inst : Ptr) (s : CPU) : Option (Nat × Nat) := do
  let opc ← s.load inst
  if opc = 0xA0 then do
    let v ← s.load (inst.offset 1)
    pure (v, 2)
  else if opc = 0xA4 then do
    let v ← (zero_page inst s).bind s.load
    pure (v, 2)
  else if opc = 0xB4 then do
    let v ← (zero_page_x inst s).bind s.load
    pure (v, 2)
  else if opc = 0xAC then do
    let v ← (absolute inst s).bind s.load
    pure (v, 3)
  else if opc = 0xBC then do
    let v ← (absolute_x inst s).bind s.load
    pure (v, 3)
  else none

/-- `CPU::ldy` after the switch. -/
def ldy_finish (s : CPU) (op inst_size : Nat) : CPU × InstInfo :=
  let s := { s with y := op }
  let s := { s with pc := (s.pc + inst_size) % 65536 }
  let s := s.setFlag .z (b2i (s.y == 0))
  let s := s.setFlag .n (sign_bit s.y)
  (s, ⟨"LDY", inst_size⟩)

/-- `CPU::ldy`. -/
def ldy (inst : Ptr) (s : CPU) : Option (CPU × InstInfo) := do
  let r ← ldy_operand inst s
  pure (ldy_finish s r.1 r.2)

/-- `CPU::nop`. -/
def nop (_inst : Ptr) (s : CPU) : Option (CPU × InstInfo) :=
  let s := { s with pc := (s.pc + 1) % 65536 }
  some (s, ⟨"NOP", 1⟩)

/-- The `switch` of `CPU::ora`. -/
def ora_operand (inst : Ptr) (s : CPU) : Option (Nat × Nat) := do
  let opc ← s.load inst
  if opc = 0x09 then do
    let v ← s.load (inst.offset 1)
    pure (v, 2)
  else if opc = 0x05 then do
    let v ← (zero_page inst s).bind s.load
    pure (v, 2)
  else if opc = 0x15 then do
    let v ← (zero_page_x inst s).bind s.load
    pure (v, 2)
  else if opc = 0x0D then do
    let v ← (absolute inst s).bind s.load
    pure (v, 3)
  else if opc = 0x1D then do
    let v ← (absolute_x inst s).bind s.load
    pure (v, 3)
  else if opc = 0x19 then do
    let v ← (absolute_y inst s).bind s.load
    pure (v, 3)
  else if opc = 0x01 then do
    let v ← (indirect_x inst s).bind s.load
    pure (v, 2)
  else if opc = 0x11 then do
    let v ← (indirect_y inst s).bind s.load
    pure (v, 2)
  else none

/-- `CPU::ora` after the switch. -/
def ora_finish (s : CPU) (op2 inst_size : Nat) : CPU × InstInfo :=
  let op1 := s.a
  let s := { s with a := (op1 ||| op2) % 256 }
  let s := { s with pc := (s.pc + inst_size) % 65536 }
  let s := s.setFlag .z (b2i (s.a == 0))
  let s := s.setFlag .n (sign_bit s.a)
  (s, ⟨"ORA", inst_size⟩)

/-- `CPU::ora`. -/
def ora (inst : Ptr) (s : CPU) : Option (CPU × InstInfo) := do
  let r ← ora_operand inst s
  pure (ora_finish s r.1 r.2)

/-- `CPU::pha`; `sp--` wraps as `uint8_t`. -/
def pha (_inst : Ptr) (s : CPU) : Option (CPU × InstInfo) := do
  let s := { s with pc := (s.pc + 1) % 65536 }
  let s ← s.store (access_mem s.header4 (0x0100 + s.sp)) s.a
  let s := { s with sp := (s.sp + 255) % 256 }
  pure (s, ⟨"PHA", 1⟩)

/-- `CPU::php`. -/
def php (_inst : Ptr) (s : CPU) : Option (CPU × InstInfo) := do
  let s := { s with pc := (s.pc + 1) % 65536 }
  let s ← s.store (access_mem s.header4 (0x0100 + s.sp)) (s.sr ||| 0x10)
  let s := { s with sp := (s.sp + 255) % 256 }
  pure (s, ⟨"PHP", 1⟩)

/-- `CPU::pla`; `sp++` wraps as `uint8_t`. -/
def pla (_inst : Ptr) (s : CPU) : Option (CPU × InstInfo) := do
  let s := { s with pc := (s.pc + 1) % 65536 }
  let s := { s with sp := (s.sp + 1) % 256 }
  let v ← s.load (access_mem s.header4 (0x0100 + s.sp))
  let s := { s with a := v }
  let s := s.setFlag .z (b2i (s.a == 0))
  let s := s.setFlag .n (sign_bit s.a)
  pure (s, ⟨"PLA", 1⟩)

/-- `CPU::plp`. -/
def plp (_inst : Ptr) (s : CPU) : Option (CPU × InstInfo) := do
  let s := { s with pc := (s.pc + 1) % 65536 }
  let s := { s with sp := (s.sp + 1) % 256 }
  let v ← s.load (access_mem s.header4 (0x0100 + s.sp))
  let s := { s with sr := v }
  let s := s.setFlag .b 0
  let s := s.setFlag .u 1
  pure (s, ⟨"PLP", 1⟩)

/-- `CPU::rti`. -/
def rti (_inst : Ptr) (s : CPU) : Option (CPU × InstInfo) := do
  let s := { s with sp := (s.sp + 1) % 256 }
  let v ← s.load (access_mem s.header4 (0x0100 + s.sp))
  let s := { s with sr := v }
  let s := { s with sp := (s.sp + 1) % 256 }
  let w ← fix_endian s (access_mem s.header4 (0x0100 + s.sp))
  let s := { s with pc := w }
  let s := { s with sp := (s.sp + 1) % 256 }
  let s := s.setFlag .b 0
  let s := s.setFlag .u 1
  pure (s, ⟨"RTI", 1⟩)

/-- `CPU::sec`. -/
def sec (_inst : Ptr) (s : CPU) : Option (CPU × InstInfo) :=
  let s := s.setFlag .c 1
  let s := { s with pc := (s.pc + 1) % 65536 }
  some (s, ⟨"SEC", 1⟩)

/-- `CPU::sed`. -/
def sed (_inst : Ptr) (s : CPU) : Option (CPU × InstInfo) :=
  let s := s.setFlag .d 1
  let s := { s with pc := (s.pc + 1) % 65536 }
  some (s, ⟨"SED", 1⟩)

/-- `CPU::sei`. -/
def sei (_inst : Ptr) (s : CPU) : Option (CPU × InstInfo) :=
  let s := s.setFlag .i 1
  let s := { s with pc := (s.pc + 1) % 65536 }
  some (s, ⟨"SEI", 1⟩)

/-- The `switch` of `CPU::sta`. -/
def sta_operand (inst : Ptr) (s : CPU) : Option (Ptr × Nat) := do
  let opc ← s.load inst
  if opc = 0x85 then do
    let p ← zero_page inst s
    pure (p, 2)
  else if opc = 0x95 then do
    let p ← zero_page_x inst s
    pure (p, 2)
  else if opc = 0x8D then do
    let p ← absolute inst s
    pure (p, 3)
  else if opc = 0x9D then do
    let p ← absolute_x inst s
    pure (p, 3)
  else if opc = 0x99 then do
    let p ← absolute_y inst s
    pure (p, 3)
  else if opc = 0x81 then do
    let p ← indirect_x inst s
    pure (p, 2)
  else if opc = 0x91 then do
    let p ← indirect_y inst s
    pure (p, 2)
  else none

/-- `CPU::sta`. -/
def sta (inst : Ptr) (s : CPU) : Option (CPU × InstInfo) := do
  let (op, inst_size) ← sta_operand inst s
  let s ← s.store op s.a
  let s := { s with pc := (s.pc + inst_size) % 65536 }
  pure (s, ⟨"STA", inst_size⟩)

/-- The `switch` of `CPU::stx`. -/
def stx_operand (inst : Ptr) (s : CPU) : Option (Ptr × Nat) := do
  let opc ← s.load inst
  if opc = 0x86 then do
    let p ← zero_page inst s
    pure (p, 2)
  else if opc = 0x96 then do
    let p ← zero_page_y inst s
    pure (p, 2)
  else if opc = 0x8E then do
    let p ← absolute inst s
    pure (p, 3)
  else none

/-- `CPU::stx`. -/
def stx (inst : Ptr) (s : CPU) : Option (CPU × InstInfo) := do
  let (op, inst_size) ← stx_operand inst s
  let s ← s.store op s.x
  let s := { s with pc := (s.pc + inst_size) % 65536 }
  pure (s, ⟨"STX", inst_size⟩)

/-- The `switch` of `CPU::sty`. -/
def sty_operand (inst : Ptr) (s : CPU) : Option (Ptr × Nat) := do
  let opc ← s.load inst
  if opc = 0x84 then do
    let p ← zero_page inst s
    pure (p, 2)
  else if opc = 0x94 then do
    let p ← zero_page_x inst s
    pure (p, 2)
  else if opc = 0x8C then do
    let p ← absolute inst s
    pure (p, 3)
  else none

/-- `CPU::sty`. -/
def sty (inst : Ptr) (s : CPU) : Option (CPU × InstInfo) := do
  let (op, inst_size) ← sty_operand inst s
  let s ← s.store op s.y
  let s := { s with pc := (s.pc + inst_size) % 65536 }
  pure (s, ⟨"STY", inst_size⟩)

/-- `CPU::tax`. -/
def tax (_inst : Ptr) (s : CPU) : Option (CPU × InstInfo) :=
  let s := { s with x := s.a }
  let s := { s with pc := (s.pc + 1) % 65536 }
  let s := s.setFlag .z (b2i (s.x == 0))
  let s := s.setFlag .n (sign_bit s.x)
  some (s, ⟨"TAX", 1⟩)

/-- `CPU::tay`. -/
def tay (_inst : Ptr) (s : CPU) : Option (CPU × InstInfo) :=
  let s := { s with y := s.a }
  let s := { s with pc := (s.pc + 1) % 65536 }
  let s := s.setFlag .z (b2i (s.y == 0))
  let s := s.setFlag .n (sign_bit s.y)
  some (s, ⟨"TAY", 1⟩)

/-- `CPU::tsx`. -/
def tsx (_inst : Ptr) (s : CPU) : Option (CPU × InstInfo) :=
  let s := { s with x := s.sp }
  let s := { s with pc := (s.pc + 1) % 65536 }
  let s := s.setFlag .z (b2i (s.x == 0))
  let s := s.setFlag .n (sign_bit s.x)
  some (s, ⟨"TSX", 1⟩)

/-- `CPU::txa`. -/
def txa (_inst : Ptr) (s : CPU) : Option (CPU × InstInfo) :=
  let s := { s with a := s.x }
  let s := { s with pc := (s.pc + 1) % 65536 }
  let s := s.setFlag .z (b2i (s.a == 0))
  let s := s.setFlag .n (sign_bit s.a)
  some (s, ⟨"TXA", 1⟩)

/-- `CPU::txs`. -/
def txs (_inst : Ptr) (s : CPU) : Option (CPU × InstInfo) :=
  let s := { s with sp := s.x }
  let s := { s with pc := (s.pc + 1) % 65536 }
  some (s, ⟨"TXS", 1⟩)

/-- `CPU::tya`. -/
def tya (_inst : Ptr) (s : CPU) : Option (CPU × InstInfo) :=
  let s := { s with a := s.y }
  let s := { s with pc := (s.pc + 1) % 65536 }
  let s := s.setFlag .z (b2i (s.a == 0))
  let s := s.setFlag .n (sign_bit s.a)
  some (s, ⟨"TYA", 1⟩)

/-- `CPU::ill_nop`; an opcode without a `case` keeps the initial `inst_size` of 1. -/
def ill_nop (inst : Ptr) (s : CPU) : Option (CPU × InstInfo) := do
  let opc ← s.load inst
  let inst_size :=
    if opc ∈ [0x1A, 0x3A, 0x5A, 0x7A, 0xDA, 0xFA] then 1
    else if opc ∈ [0x80, 0x82, 0x89, 0xC2, 0xE2, 0x04, 0x44, 0x64, 0x14, 0x34,
        0x54, 0x74, 0xD4, 0xF4] then 2
    else if opc ∈ [0x0C, 0x1C, 0x3C, 0x5C, 0x7C, 0xDC, 0xFC] then 3
    else 1
  let s := { s with pc := (s.pc + inst_size) % 65536 }
  pure (s, ⟨"NOP", inst_size⟩)

/-- `CPU::exec_inst`: the dispatch on `inst[0]`, with the `case` labels in source
order; any other byte returns `null_info = {"BAD", 1}` and changes nothing. -/
def exec_inst (inst : Ptr) (s : CPU) : Option (CPU × InstInfo) := do
  let opc ← s.load inst
  if opc ∈ [0x69, 0x65, 0x75, 0x6D, 0x7D, 0x79, 0x61, 0x71] then adc inst s
  else if opc ∈ [0x29, 0x25, 0x35, 0x2D, 0x3D, 0x39, 0x21, 0x31] then and_ inst s
  else if opc ∈ [0x0A, 0x06, 0x16, 0x0E, 0x1E] then asl inst s
  else if opc ∈ [0x90] then bcc inst s
  else if opc ∈ [0xB0] then bcs inst s
  else if opc ∈ [0xF0] then beq inst s
  else if opc ∈ [0x24, 0x2C] then bit inst s
  else if opc ∈ [0x30] then bmi inst s
  else if opc ∈ [0xD0] then bne inst s
  else if opc ∈ [0x10] then bpl inst s
  else if opc ∈ [0x00] then brk inst s
  else if opc ∈ [0x50] then bvc inst s
  else if opc ∈ [0x70] then bvs inst s
  else if opc ∈ [0x18] then clc inst s
  else if opc ∈ [0xD8] then cld inst s
  else if opc ∈ [0x58] then cli inst s
  else if opc ∈ [0xB8] then clv inst s
  else if opc ∈ [0xC9, 0xC5, 0xD5, 0xCD, 0xDD, 0xD9, 0xC1, 0xD1] then cmp inst s
  else if opc ∈ [0xE0, 0xE4, 0xEC] then cpx inst s
  else if opc ∈ [0xC0, 0xC4, 0xCC] then cpy inst s
  else if opc ∈ [0xC6, 0xD6, 0xCE, 0xDE] then dec inst s
  else if opc ∈ [0xCA] then dex inst s
  else if opc ∈ [0x88] then dey inst s
  else if opc ∈ [0x49, 0x45, 0x55, 0x4D, 0x5D, 0x59, 0x41, 0x51] then eor inst s
  else if opc ∈ [0xE6, 0xF6, 0xEE, 0xFE] then inc inst s
  else if opc ∈ [0xE8] then inx inst s
  else if opc ∈ [0xC8] then iny inst s
  else if opc ∈ [0x4C, 0x6C] then jmp inst s
  else if opc ∈ [0x20] then jsr inst s
  else if opc ∈ [0xA9, 0xA5, 0xB5, 0xAD, 0xBD, 0xB9, 0xA1, 0xB1] then lda inst s
  else if opc ∈ [0xA2, 0xA6, 0xB6, 0xAE, 0xBE] then ldx inst s
  else if opc ∈ [0xA0, 0xA4, 0xB4, 0xAC, 0xBC] then ldy inst s
  else if opc ∈ [0x4A, 0x46, 0x56, 0x4E, 0x5E] then lsr inst s
  else if opc ∈ [0xEA] then nop inst s
  else if opc ∈ [0x09, 0x05, 0x15, 0x0D, 0x1D, 0x19, 0x01, 0x11] then ora inst s
  else if opc ∈ [0x48] then pha inst s
  else if opc ∈ [0x08] then php inst s
  else if opc ∈ [0x68] then pla inst s
  else if opc ∈ [0x28] then plp inst s
  else if opc ∈ [0x2A, 0x26, 0x36, 0x2E, 0x3E] then rol inst s
  else if opc ∈ [0x6A, 0x66, 0x76, 0x6E, 0x7E] then ror inst s
  else if opc ∈ [0x40] then rti inst s
  else if opc ∈ [0x60] then rts inst s
  else if opc ∈ [0xE9, 0xE5, 0xF5, 0xED, 0xFD, 0xF9, 0xE1, 0xF1] then sbc inst s
  else if opc ∈ [0x38] then sec inst s
  else if opc ∈ [0xF8] then sed inst s
  else if opc ∈ [0x78] then sei inst s
  else if opc ∈ [0x85, 0x95, 0x8D, 0x9D, 0x99, 0x81, 0x91] then sta inst s
  else if opc ∈ [0x86, 0x96, 0x8E] then stx inst s
  else if opc ∈ [0x84, 0x94, 0x8C] then sty inst s
  else if opc ∈ [0xAA] then tax inst s
  else if opc ∈ [0xA8] then tay inst s
  else if opc ∈ [0xBA] then tsx inst s
  else if opc ∈ [0x8A] then txa inst s
  else if opc ∈ [0x9A] then txs inst s
  else if opc ∈ [0x98] then tya inst s
  else if opc ∈ [0x1A, 0x3A, 0x5A, 0x7A, 0xDA, 0xFA, 0x80, 0x82, 0x89, 0xC2, 0xE2, 0x04, 0x44,
      0x64, 0x14, 0x34, 0x54, 0x74, 0xD4, 0xF4, 0x0C, 0x1C, 0x3C, 0x5C, 0x7C, 0xDC, 0xFC] then ill_nop inst s
  else pure (s, ⟨"BAD", 1⟩)

/-- The `exec_inst(access_mem(pc))` calls of the first `n` iterations of the loop
in `CPU::run`, with the `InstInfo` records they return (the loop itself ends
after the first record named "BAD"; the `log` output is not part of this
function). -/
def exec_steps : Nat → CPU → Option (CPU × List InstInfo)
  | 0, s => some (s, [])
  | n + 1, s => do
    let r ← exec_inst (access_mem s.header4 s.pc) s
    let rest ← exec_steps n r.1
    pure (rest.1, r.2 :: rest.2)

/-- The fetch of `CPU::run` for one handler: `handler(access_mem(pc))`. -/
def fetch_exec (handler : Ptr → CPU → Option (CPU × InstInfo)) (s : CPU) :
    Option (CPU × InstInfo) :=
  handler (access_mem s.header4 s.pc) s


/-! ## Sample machines used to instantiate the theorems -/

/-- Array contents that are zero everywhere. -/
def zero_mem : Region → Nat → Nat := fun _ _ => 0

/-- A one-page cartridge whose PRG page starts with the given bytes
(so they appear at `$C000`, `$C001`, ...), everything else zero. -/
def prg_mem (code : List Nat) : Region → Nat → Nat := fun r i =>
  if r = .prg_rom_pages 0 then code.getD i 0 else 0

/-- Work RAM holding `m` at `$0010`, and a one-page cartridge starting with
the given bytes. -/
def zp_mem (code : List Nat) (m : Nat) : Region → Nat → Nat := fun r i =>
  if r = .prg_rom_pages 0 then code.getD i 0
  else if r = .memory ∧ i = 0x10 then m
  else 0

/-- Scenario S2: the machine at reset with `A = $50`, `C = 0`, running `69 50`
(ADC #$50) at `$C000`. -/
def adc_sample : CPU := { CPU.init 1 (prg_mem [0x69, 0x50]) with a := 0x50 }

/-- Scenario S3: `A = $50`, `C = 1`, running `E9 F0` (SBC #$F0) at `$C000`. -/
def sbc_sample : CPU := { CPU.init 1 (prg_mem [0xE9, 0xF0]) with a := 0x50, sr := 0x25 }

/-- The ADC counterpart of `sbc_sample`: `A = $50`, `C = 1`, running `69 0F`
(ADC #$0F, and `$0F = $F0 XOR $FF`). -/
def adc_complement_sample : CPU :=
  { CPU.init 1 (prg_mem [0x69, 0x0F]) with a := 0x50, sr := 0x25 }

/-- `A = $01`, `C = 0`, byte `$80` at `$0010`, running `26 10` (ROL $10). -/
def rol_sample : CPU := { CPU.init 1 (zp_mem [0x26, 0x10] 0x80) with a := 0x01 }

/-- `A = $01`, `C = 0`, byte `$01` at `$0010`, running `66 10` (ROR $10). -/
def ror_sample : CPU := { CPU.init 1 (zp_mem [0x66, 0x10] 0x01) with a := 0x01 }

/-- Work RAM holding `$01` at `$0000` and `$02` at `$0100`, and a one-page
cartridge starting with the given bytes. -/
def zpx_mem (code : List Nat) : Region → Nat → Nat := fun r i =>
  if r = .prg_rom_pages 0 then code.getD i 0
  else if r = .memory ∧ i = 0x000 then 0x01
  else if r = .memory ∧ i = 0x100 then 0x02
  else 0

/-- `X = $01`, `C = 0`, running the two bytes `opc FF` at `$C000`. -/
def zpx_sample (opc : Nat) : CPU := { CPU.init 1 (zpx_mem [opc, 0xFF]) with x := 0x01 }

/-- Work RAM holding `$02` at `$01FF`, `$C0` at `$0100` and `$AA` at `$0200`;
the cartridge starts with `60` (RTS). -/
def rts_mem : Region → Nat → Nat := fun r i =>
  if r = .prg_rom_pages 0 then [0x60].getD i 0
  else if r = .memory ∧ i = 0x1FF then 0x02
  else if r = .memory ∧ i = 0x100 then 0xC0
  else if r = .memory ∧ i = 0x200 then 0xAA
  else 0

/-- `SP = $FE`, running RTS at `$C000` over `rts_mem`. -/
def rts_sample : CPU := { CPU.init 1 rts_mem with sp := 0xFE }

/-- Scenario S5 with a chosen stack pointer: `$C000: 20 10 C0` (JSR $C010),
`$C003: A9 42`, `$C010: 60` (RTS); work RAM is zero. -/
def jsr_sample (sp : Nat) : CPU :=
  { CPU.init 1 (prg_mem ([0x20, 0x10, 0xC0, 0xA9, 0x42] ++ List.replicate 11 0 ++ [0x60]))
    with sp := sp }

/-- A one-page cartridge starting with `28 40` (PLP, RTI), with `$00` at `$01FE`
and `$DF` at `$01FF` in work RAM. -/
def plp_rti_mem : Region → Nat → Nat := fun r i =>
  if r = .prg_rom_pages 0 then (if i = 0 then 0x28 else if i = 1 then 0x40 else 0)
  else if r = .memory then (if i = 0x1FE then 0x00 else if i = 0x1FF then 0xDF else 0)
  else 0


/-- `P = $20` (I clear), `SP = $FD`, running `00` (BRK) at `$C000`; the vector at
`$FFFE/$FFFF` is zero. -/
def brk_sample : CPU := { CPU.init 1 (prg_mem [0x00]) with sr := 0x20 }

/-! ## Spec-side definitions compared with the code -/

/-- Spec §4.4, (Indirect,X): the effective address `mem[z] | mem[(z+1) mod 256] << 8`
with `z = (b + X) mod 256`, each byte read through the bus. -/
def spec_indirect_x (s : CPU) (b : Nat) : Option Nat := do
  let z := (b + s.x) % 256
  let lo ← s.load (access_mem s.header4 z)
  let hi ← s.load (access_mem s.header4 ((z + 1) % 256))
  pure (lo ||| (hi <<< 8))

/-- Spec §4.4, (Indirect),Y: the effective address
`((mem[b] | mem[(b+1) mod 256] << 8) + Y) mod 65536`. -/
def spec_indirect_y (s : CPU) (b : Nat) : Option Nat := do
  let lo ← s.load (access_mem s.header4 b)
  let hi ← s.load (access_mem s.header4 ((b + 1) % 256))
  pure (((lo ||| (hi <<< 8)) + s.y) % 65536)

/-- Spec §4.5, taken branch: `(PC + 2 + signext8(offset)) mod 65536`, where offsets
`$80-$FF` stand for `offset - 256`. -/
def spec_branch_target (pc off : Nat) : Nat :=
  (((pc : Int) + 2 + (if off < 128 then (off : Int) else (off : Int) - 256)) % 65536).toNat

/-! ## More sample machines -/

/-- Scenario S4: `6C FF 02` (JMP ($02FF)) at `$C000`, with `$34` at `$02FF` and `$12`
at `$0200` in work RAM. -/
def jmp_mem : Region → Nat → Nat := fun r i =>
  if r = .prg_rom_pages 0 then (if i = 0 then 0x6C else if i = 1 then 0xFF else if i = 2 then 0x02 else 0)
  else if r = .memory then (if i = 0x2FF then 0x34 else if i = 0x200 then 0x12 else 0)
  else 0

/-- The machine at reset over `jmp_mem`. -/
def jmp_sample : CPU := CPU.init 1 jmp_mem

/-- `A1 80` (LDA ($80,X)) at `$C000`, with `$34` at `$00FF` and `$12` at `$0000` in
work RAM. -/
def ind_mem : Region → Nat → Nat := fun r i =>
  if r = .prg_rom_pages 0 then (if i = 0 then 0xA1 else if i = 1 then 0x80 else 0)
  else if r = .memory then (if i = 0xFF then 0x34 else if i = 0x00 then 0x12 else 0)
  else 0

/-- `X = $7F`, `Y = $01`, running over `ind_mem`: the zero-page pointer is at
`$FF`, so its high byte comes from `$00`. -/
def ind_sample : CPU := { CPU.init 1 ind_mem with x := 0x7F, y := 0x01 }

/-- `C = 1`, byte `$B5` at `$0010`, running `26 10` (ROL $10) at `$C000` followed by
`66 10` (ROR $10) at `$C002`. -/
def rot_sample : CPU := { CPU.init 1 (zp_mem [0x26, 0x10, 0x66, 0x10] 0xB5) with sr := 0x25 }

/-- `A = $80`, `SP = $00` (so that a push wraps to `$FF`), zeroed memory. -/
def pha_sample : CPU := { CPU.init 1 zero_mem with a := 0x80, sp := 0x00 }

/-- `JSR $C010` placed in the stack page: `PC = $01FB`, `SP = $FD`, work RAM holds
`20 10 C0` at `$01FB-$01FD`, so the operand bytes are the two stack slots that
`jsr` writes. -/
def jsr_stack_sample : CPU :=
  { CPU.init 1 (fun r i =>
      if r = .memory then
        (if i = 0x1FB then 0x20 else if i = 0x1FC then 0x10 else if i = 0x1FD then 0xC0 else 0)
      else 0)
    with pc := 0x01FB }

/-- The machine at reset (`Z = 0`) running `D0 FB` (BNE with offset `$FB`, i.e. -5)
at `$C000`. -/
def branch_sample : CPU := CPU.init 1 (prg_mem [0xD0, 0xFB])

/-- `A = $40` running `C9 50` (CMP #$50) at `$C000`. -/
def cmp_sample : CPU := { CPU.init 1 (prg_mem [0xC9, 0x50]) with a := 0x40 }

/-- `A = $0F`, byte `$C0` at `$0010`, running `24 10` (BIT $10) at `$C000`. -/
def bit_sample : CPU := { CPU.init 1 (zp_mem [0x24, 0x10] 0xC0) with a := 0x0F }

/-- The machine at reset with `P = $EF`, running `18` (CLC) at `$C000`. -/
def clc_sample : CPU := { CPU.init 1 (prg_mem [0x18]) with sr := 0xEF }

/-- The machine at reset running the three-byte illegal NOP `0C 34 12` at `$C000`. -/
def ill_nop_sample : CPU := CPU.init 1 (prg_mem [0x0C, 0x34, 0x12])

/-- The machine at reset running `A9 00` (LDA #$00) at `$C000`. -/
def lda_zero_sample : CPU := CPU.init 1 (prg_mem [0xA9, 0x00])

/-- The machine at reset running `A9 80` (LDA #$80) at `$C000`. -/
def lda_neg_sample : CPU := CPU.init 1 (prg_mem [0xA9, 0x80])

/-! ## Opcode tables -/

/-- Every `case` label of the `switch` in `CPU::exec_inst`, in source order, one
list for each `return` statement. -/
def exec_inst_labels : List Nat :=
  [0x69, 0x65, 0x75, 0x6D, 0x7D, 0x79, 0x61, 0x71] ++
  [0x29, 0x25, 0x35, 0x2D, 0x3D, 0x39, 0x21, 0x31] ++
  [0x0A, 0x06, 0x16, 0x0E, 0x1E] ++
  [0x90] ++
  [0xB0] ++
  [0xF0] ++
  [0x24, 0x2C] ++
  [0x30] ++
  [0xD0] ++
  [0x10] ++
  [0x00] ++
  [0x50] ++
  [0x70] ++
  [0x18] ++
  [0xD8] ++
  [0x58] ++
  [0xB8] ++
  [0xC9, 0xC5, 0xD5, 0xCD, 0xDD, 0xD9, 0xC1, 0xD1] ++
  [0xE0, 0xE4, 0xEC] ++
  [0xC0, 0xC4, 0xCC] ++
  [0xC6, 0xD6, 0xCE, 0xDE] ++
  [0xCA] ++
  [0x88] ++
  [0x49, 0x45, 0x55, 0x4D, 0x5D, 0x59, 0x41, 0x51] ++
  [0xE6, 0xF6, 0xEE, 0xFE] ++
  [0xE8] ++
  [0xC8] ++
  [0x4C, 0x6C] ++
  [0x20] ++
  [0xA9, 0xA5, 0xB5, 0xAD, 0xBD, 0xB9, 0xA1, 0xB1] ++
  [0xA2, 0xA6, 0xB6, 0xAE, 0xBE] ++
  [0xA0, 0xA4, 0xB4, 0xAC, 0xBC] ++
  [0x4A, 0x46, 0x56, 0x4E, 0x5E] ++
  [0xEA] ++
  [0x09, 0x05, 0x15, 0x0D, 0x1D, 0x19, 0x01, 0x11] ++
  [0x48] ++
  [0x08] ++
  [0x68] ++
  [0x28] ++
  [0x2A, 0x26, 0x36, 0x2E, 0x3E] ++
  [0x6A, 0x66, 0x76, 0x6E, 0x7E] ++
  [0x40] ++
  [0x60] ++
  [0xE9, 0xE5, 0xF5, 0xED, 0xFD, 0xF9, 0xE1, 0xF1] ++
  [0x38] ++
  [0xF8] ++
  [0x78] ++
  [0x85, 0x95, 0x8D, 0x9D, 0x99, 0x81, 0x91] ++
  [0x86, 0x96, 0x8E] ++
  [0x84, 0x94, 0x8C] ++
  [0xAA] ++
  [0xA8] ++
  [0xBA] ++
  [0x8A] ++
  [0x9A] ++
  [0x98] ++
  [0x1A, 0x3A, 0x5A, 0x7A, 0xDA, 0xFA, 0x80, 0x82, 0x89, 0xC2, 0xE2, 0x04, 0x44, 0x64, 0x14, 0x34,
   0x54, 0x74, 0xD4, 0xF4, 0x0C, 0x1C, 0x3C, 0x5C, 0x7C, 0xDC, 0xFC]

/-- Spec §4.4: the thirteen addressing modes. -/
inductive Mode where
  | implied | accumulator | immediate | zero_page | zero_page_x | zero_page_y
  | absolute | absolute_x | absolute_y | indirect | indirect_x | indirect_y | relative
  deriving DecidableEq, Repr

/-- Spec §4.4, column "Length". -/
def Mode.length : Mode → Nat
  | .implied => 1 | .accumulator => 1 | .immediate => 2
  | .zero_page => 2 | .zero_page_x => 2 | .zero_page_y => 2
  | .absolute => 3 | .absolute_x => 3 | .absolute_y => 3 | .indirect => 3
  | .indirect_x => 2 | .indirect_y => 2 | .relative => 2

/-- The documented opcodes of the MOS 6502 under each addressing mode (151 in all). -/
def Mode.opcodes : Mode → List Nat
  | .implied =>
    [0x00, 0x08, 0x18, 0x28, 0x38, 0x40, 0x48, 0x58, 0x60, 0x68, 0x78, 0x88, 0x98, 0xA8, 0xB8,
     0xC8, 0xD8, 0xE8, 0xF8, 0x8A, 0x9A, 0xAA, 0xBA, 0xCA, 0xEA]
  | .accumulator =>
    [0x0A, 0x2A, 0x4A, 0x6A]
  | .immediate =>
    [0x09, 0x29, 0x49, 0x69, 0xA9, 0xC9, 0xE9, 0xA0, 0xA2, 0xC0, 0xE0]
  | .zero_page =>
    [0x05, 0x25, 0x45, 0x65, 0x85, 0xA5, 0xC5, 0xE5, 0x06, 0x26, 0x46, 0x66, 0x86, 0xA6, 0xC6,
     0xE6, 0x24, 0x84, 0xA4, 0xC4, 0xE4]
  | .zero_page_x =>
    [0x15, 0x35, 0x55, 0x75, 0x95, 0xB5, 0xD5, 0xF5, 0x16, 0x36, 0x56, 0x76, 0xD6, 0xF6, 0x94,
     0xB4]
  | .zero_page_y =>
    [0x96, 0xB6]
  | .absolute =>
    [0x0D, 0x2D, 0x4D, 0x6D, 0x8D, 0xAD, 0xCD, 0xED, 0x0E, 0x2E, 0x4E, 0x6E, 0x8E, 0xAE, 0xCE,
     0xEE, 0x2C, 0x8C, 0xAC, 0xCC, 0xEC, 0x4C, 0x20]
  | .absolute_x =>
    [0x1D, 0x3D, 0x5D, 0x7D, 0x9D, 0xBD, 0xDD, 0xFD, 0x1E, 0x3E, 0x5E, 0x7E, 0xDE, 0xFE, 0xBC]
  | .absolute_y =>
    [0x19, 0x39, 0x59, 0x79, 0x99, 0xB9, 0xD9, 0xF9, 0xBE]
  | .indirect =>
    [0x6C]
  | .indirect_x =>
    [0x01, 0x21, 0x41, 0x61, 0x81, 0xA1, 0xC1, 0xE1]
  | .indirect_y =>
    [0x11, 0x31, 0x51, 0x71, 0x91, 0xB1, 0xD1, 0xF1]
  | .relative =>
    [0x10, 0x30, 0x50, 0x70, 0x90, 0xB0, 0xD0, 0xF0]

/-- The 151 documented opcodes. -/
def documented_opcodes : List Nat :=
  Mode.opcodes .implied ++
  Mode.opcodes .accumulator ++
  Mode.opcodes .immediate ++
  Mode.opcodes .zero_page ++
  Mode.opcodes .zero_page_x ++
  Mode.opcodes .zero_page_y ++
  Mode.opcodes .absolute ++
  Mode.opcodes .absolute_x ++
  Mode.opcodes .absolute_y ++
  Mode.opcodes .indirect ++
  Mode.opcodes .indirect_x ++
  Mode.opcodes .indirect_y ++
  Mode.opcodes .relative

/-- Spec §4.5, "Illegal NOPs": the 27 opcodes with the listed length. -/
def illegal_nop_opcodes : Nat → List Nat
  | 1 => [0x1A, 0x3A, 0x5A, 0x7A, 0xDA, 0xFA]
  | 2 => [0x80, 0x82, 0x89, 0xC2, 0xE2, 0x04, 0x44, 0x64, 0x14, 0x34, 0x54, 0x74, 0xD4, 0xF4]
  | 3 => [0x0C, 0x1C, 0x3C, 0x5C, 0x7C, 0xDC, 0xFC]
  | _ => []

/-- The addressing mode of a documented opcode. -/
def spec_mode (opc : Nat) : Option Mode :=
  if opc ∈ Mode.opcodes .implied then some .implied
  else if opc ∈ Mode.opcodes .accumulator then some .accumulator
  else if opc ∈ Mode.opcodes .immediate then some .immediate
  else if opc ∈ Mode.opcodes .zero_page then some .zero_page
  else if opc ∈ Mode.opcodes .zero_page_x then some .zero_page_x
  else if opc ∈ Mode.opcodes .zero_page_y then some .zero_page_y
  else if opc ∈ Mode.opcodes .absolute then some .absolute
  else if opc ∈ Mode.opcodes .absolute_x then some .absolute_x
  else if opc ∈ Mode.opcodes .absolute_y then some .absolute_y
  else if opc ∈ Mode.opcodes .indirect then some .indirect
  else if opc ∈ Mode.opcodes .indirect_x then some .indirect_x
  else if opc ∈ Mode.opcodes .indirect_y then some .indirect_y
  else if opc ∈ Mode.opcodes .relative then some .relative
  else none

/-- The instruction length the spec assigns to an opcode: the length of its
addressing mode (§4.4) or the listed length of an illegal NOP (§4.5). -/
def spec_length (opc : Nat) : Option Nat :=
  if opc ∈ illegal_nop_opcodes 1 then some 1
  else if opc ∈ illegal_nop_opcodes 2 then some 2
  else if opc ∈ illegal_nop_opcodes 3 then some 3
  else (spec_mode opc).map Mode.length

/-- The opcodes of JMP, JSR, RTS, RTI, BRK and the eight branches. -/
def control_transfer_opcodes : List Nat :=
  [0x4C, 0x6C, 0x20, 0x60, 0x40, 0x00] ++ Mode.opcodes .relative

/-- The machine at reset running `8D 00 02` (STA $0200) at `$C000`. -/
def sta_sample : CPU := CPU.init 1 (prg_mem [0x8D, 0x00, 0x02])

/-- Spec §4.3, `read16(addr)`: `resolve(addr) | (resolve(addr+1) << 8)`, each byte
resolved through the address decoder, the addresses taken mod 65536. -/
def spec_read16 (s : CPU) (addr : Nat) : Option Nat := do
  let lo ← s.load (access_mem s.header4 addr)
  let hi ← s.load (access_mem s.header4 (addr + 1))
  pure (lo ||| (hi <<< 8))

/-- Array contents with `4C 34` (JMP, low operand byte) in the last two bytes of work
RAM, of the PRG page and at `apu_io_reg[6..7]`; the byte that the bus places next
(`$0800` = `$0000` and `$2000`, `$4020`) is `$12`, and `apu_io_reg[8]` is `$AB`. -/
def bus_edge_mem : Region → Nat → Nat := fun r i =>
  if r = .memory then
    (if i = 0x7FE then 0x4C else if i = 0x7FF then 0x34 else if i = 0 then 0x12 else 0)
  else if r = .prg_rom_pages 0 then
    (if i = 0x3FFE then 0x4C else if i = 0x3FFF then 0x34 else 0)
  else if r = .apu_io_reg then
    (if i = 6 then 0x4C else if i = 7 then 0x34 else if i = 8 then 0xAB else 0)
  else if r = .ppu_reg then (if i = 0 then 0x12 else 0)
  else if r = .cart_space then (if i = 0 then 0x12 else 0)
  else 0

/-- The machine at reset over `bus_edge_mem` with `PC = p`. -/
def bus_edge_sample (p : Nat) : CPU := { CPU.init 1 bus_edge_mem with pc := p }

/-! ## `CPU::log` and `CPU::run` -/

/-- `struct cpu_state`. -/
structure CPUState where
  a : Nat
  x : Nat
  y : Nat
  pc : Nat
  sp : Nat
  sr : Nat
  deriving DecidableEq, Repr

/-- `CPU::save_cpu_state`: `{a, x, y, pc, sp, status.sr}`. -/
def save_cpu_state (s : CPU) : CPUState :=
  { a := s.a, x := s.x, y := s.y, pc := s.pc, sp := s.sp, sr := s.sr }

/-- One digit of printf's `X` conversion. -/
def hex_digit (d : Nat) : Char :=
  if d < 10 then Char.ofNat (48 + d) else Char.ofNat (55 + d)

/-- The digits printf's `X` conversion writes for `v`, most significant first,
without padding; `fuel` bounds their number. -/
def hex_digits : Nat → Nat → List Char
  | 0, _ => []
  | fuel + 1, v =>
    if v < 16 then [hex_digit v] else hex_digits fuel (v / 16) ++ [hex_digit (v % 16)]

/-- The conversions `%04X` and `%02X`: the digits of `v` padded on the left with
zeros to at least `width` characters (the argument is an `int` of at most 8 digits). -/
def printf_X (width v : Nat) : String :=
  let ds := hex_digits 8 v
  String.mk (List.replicate (width - ds.length) '0' ++ ds)

/-- One round of the `for` loop of `CPU::log`: `printf("%02X ", access_mem(state.pc)[i])`
when `i < info.inst_size`, three spaces otherwise. -/
def log_byte (s : CPU) (info : InstInfo) (state : CPUState) (i : Nat) : Option String :=
  if i < info.inst_size then do
    let b ← s.load ((access_mem s.header4 state.pc).offset i)
    pure (printf_X 2 b ++ " ")
  else pure "   "

/-- `CPU::log`: the characters written by its `printf` calls, in order. The bytes
are read from the arrays as they are when `log` runs, by pointer arithmetic from
`access_mem(state.pc)`. -/
def log (s : CPU) (info : InstInfo) (state : CPUState) : Option String := do
  let out := printf_X 4 state.pc ++ "  "
  let b0 ← log_byte s info state 0
  let b1 ← log_byte s info state 1
  let b2 ← log_byte s info state 2
  let out := out ++ b0 ++ b1 ++ b2
  let out := out ++ " " ++ info.inst_name ++ "  "
  let out := out ++ "A:" ++ printf_X 2 state.a ++ " X:" ++ printf_X 2 state.x
    ++ " Y:" ++ printf_X 2 state.y ++ " P:" ++ printf_X 2 state.sr
    ++ " SP:" ++ printf_X 2 state.sp
  pure (out ++ "\n")

/-- Scenario S1: the machine at reset running `4C F5 C5` (JMP $C5F5) at `$C000`. -/
def trace_sample : CPU := CPU.init 1 (prg_mem [0x4C, 0xF5, 0xC5])

/-- Spec §4.6: digit `d` of an uppercase hexadecimal numeral. -/
def spec_hex_digit (d : Nat) : Char := "0123456789ABCDEF".toList.getD d '0'

/-- Spec §4.6: `v` written with exactly `k` uppercase hexadecimal digits. -/
def spec_hex (k v : Nat) : String :=
  String.mk ((List.range k).reverse.map fun i => spec_hex_digit (v / 16 ^ i % 16))

/-- Spec §4.6 and claim C24: the trace line for the snapshot `state`, the instruction
bytes `bytes` (one to three of them) and the mnemonic `name`: the PC as four digits,
two spaces, each byte as two digits followed by a space with three spaces for each
missing byte, one space, the mnemonic, two spaces, the register fields, newline. -/
def spec_trace_line (state : CPUState) (bytes : List Nat) (name : String) : String :=
  spec_hex 4 state.pc ++ "  "
    ++ String.join ((List.range 3).map fun i =>
        match bytes.get? i with
        | some b => spec_hex 2 b ++ " "
        | none => "   ")
    ++ " " ++ name ++ "  "
    ++ "A:" ++ spec_hex 2 state.a ++ " X:" ++ spec_hex 2 state.x
    ++ " Y:" ++ spec_hex 2 state.y ++ " P:" ++ spec_hex 2 state.sr
    ++ " SP:" ++ spec_hex 2 state.sp ++ "\n"

/-- `CPU::run`, returning the final state and the lines written by `log`, one for
each iteration. `fuel` bounds the number of iterations: the result is `none` when
the loop has not ended within `fuel` iterations or when an access leaves its array.
The loop continues while `strcmp(info.inst_name, "BAD") != 0`. -/
def run : Nat → CPU → Option (CPU × List String)
  | 0, _ => none
  | fuel + 1, s => do
    let state := save_cpu_state s
    let r ← exec_inst (access_mem s.header4 s.pc) s
    let line ← log r.1 r.2 state
    if r.2.inst_name ≠ "BAD" then do
      let rest ← run fuel r.1
      pure (rest.1, line :: rest.2)
    else pure (r.1, [line])

/-- Claim C22's opcode set: the 151 documented opcodes and the 27 illegal NOPs. -/
def spec_opcodes : List Nat :=
  documented_opcodes ++ (illegal_nop_opcodes 1 ++
    (illegal_nop_opcodes 2 ++ illegal_nop_opcodes 3))

/-- The machine at reset running `EA` (NOP) followed by the unknown opcode `02`. -/
def bad_sample : CPU := CPU.init 1 (prg_mem [0xEA, 0x02])

/-! ## Theorems -/

/-! ### Bit-field and memory lemmas -/

theorem flag_setFlag_same (s : CPU) (f : Flag) (v : Nat) :
    (s.setFlag f v).flag f = v % 2 := by
  cases f <;> simp only [CPU.flag, CPU.setFlag, Flag.bit] <;> omega

theorem flag_setFlag_diff (s : CPU) (f g : Flag) (v : Nat) (h : f ≠ g) :
    (s.setFlag f v).flag g = s.flag g := by
  cases f <;> cases g <;> first
    | exact absurd rfl h
    | (simp only [CPU.flag, CPU.setFlag, Flag.bit]; omega)

theorem flag_lt_two (s : CPU) (f : Flag) : s.flag f < 2 := by
  unfold CPU.flag; omega

theorem sign_bit_eq (m : Nat) : sign_bit m = m % 256 / 128 := by
  unfold sign_bit
  have h : (1 : Nat) = 2 ^ 1 - 1 := by norm_num
  rw [Nat.shiftRight_eq_div_pow, h, Nat.and_pow_two_sub_one_eq_mod]
  omega

theorem flag_setFlag (s : CPU) (f g : Flag) (v : Nat) :
    (s.setFlag f v).flag g = if f = g then v % 2 else s.flag g := by
  by_cases h : f = g
  · subst h; rw [if_pos rfl]; exact flag_setFlag_same s f v
  · rw [if_neg h]; exact flag_setFlag_diff s f g v h

@[simp] theorem setFlag_a (s : CPU) (f : Flag) (v : Nat) : (s.setFlag f v).a = s.a := rfl
@[simp] theorem setFlag_x (s : CPU) (f : Flag) (v : Nat) : (s.setFlag f v).x = s.x := rfl
@[simp] theorem setFlag_y (s : CPU) (f : Flag) (v : Nat) : (s.setFlag f v).y = s.y := rfl
@[simp] theorem setFlag_pc (s : CPU) (f : Flag) (v : Nat) : (s.setFlag f v).pc = s.pc := rfl
@[simp] theorem setFlag_sp (s : CPU) (f : Flag) (v : Nat) : (s.setFlag f v).sp = s.sp := rfl
@[simp] theorem setFlag_mem (s : CPU) (f : Flag) (v : Nat) : (s.setFlag f v).mem = s.mem := rfl
@[simp] theorem setFlag_header4 (s : CPU) (f : Flag) (v : Nat) :
    (s.setFlag f v).header4 = s.header4 := rfl

/-! ### C1 - C3: the address decoder -/

/-- C1: addresses `$0000-$1FFF` resolve to work-RAM byte `a mod 2048`, the same
pointer as `a mod $0800` resolves to; addresses `$2000-$3FFF` resolve to PPU
register `(a - $2000) mod 8`, the same pointer as `$2000 + (a - $2000) mod 8`. -/
theorem access_mem_mirroring (header4 a : Nat) :
    (a ≤ 0x1FFF →
      access_mem header4 a = access_mem header4 (a % 0x0800) ∧
      access_mem header4 a = ⟨.memory, a % 2048⟩) ∧
    (0x2000 ≤ a ∧ a ≤ 0x3FFF →
      access_mem header4 a = access_mem header4 (0x2000 + (a - 0x2000) % 8) ∧
      access_mem header4 a = ⟨.ppu_reg, (a - 0x2000) % 8⟩) := by
  constructor
  · intro h
    have h1 : a % 65536 = a := by omega
    have h2 : a % 0x0800 % 65536 = a % 0x0800 := by omega
    have h3 : a % 0x0800 ≤ 0x1FFF := by omega
    simp only [access_mem, RAM.get_ram, h1, h2, h3, h, Nat.zero_le, and_self, if_true,
      Ptr.mk.injEq, true_and]
    refine ⟨?_, ?_⟩ <;> first | trivial | omega
  · rintro ⟨hlo, hhi⟩
    have key : ∀ b : Nat, 0x2000 ≤ b → b ≤ 0x3FFF →
        access_mem header4 b = ⟨.ppu_reg, b % 8⟩ := by
      intro b hb1 hb2
      have hb : b % 65536 = b := by omega
      simp only [access_mem, hb]
      rw [if_neg (by omega), if_pos ⟨hb1, hb2⟩]
    rw [key a hlo hhi, key _ (by omega) (by omega)]
    simp only [Ptr.mk.injEq, true_and]
    refine ⟨?_, ?_⟩ <;> omega

theorem access_mem_mirroring_witness :
    (access_mem 1 0x1802 = access_mem 1 0x0002 ∧ access_mem 1 0x1802 = ⟨.memory, 2⟩) ∧
    (access_mem 1 0x3FF9 = access_mem 1 0x2001 ∧ access_mem 1 0x3FF9 = ⟨.ppu_reg, 1⟩) :=
  ⟨(access_mem_mirroring 1 0x1802).1 (by decide),
   (access_mem_mirroring 1 0x3FF9).2 (by decide)⟩


/-- C2: for every address the decoder returns a pointer into exactly one of
work RAM (index below 2048), `ppu_reg` (below 8), `apu_io_reg` (below 24),
`cart_space` (below `$BFE0`) or the first or last PRG page (below 16384); with
at least one PRG page the index is inside the allocation and the dereference
succeeds. -/
theorem access_mem_in_bounds (s : CPU) (addr : Nat) (hpages : 1 ≤ s.header4) :
    (match (access_mem s.header4 addr).region with
      | .memory => (access_mem s.header4 addr).idx < 2048
      | .ppu_reg => (access_mem s.header4 addr).idx < 8
      | .apu_io_reg => (access_mem s.header4 addr).idx < 24
      | .apu_io_test => False
      | .cart_space => (access_mem s.header4 addr).idx < 0xBFE0
      | .prg_rom_pages page =>
          (page = 0 ∨ page = (s.header4 : Int) - 1) ∧
          (access_mem s.header4 addr).idx < 16384) ∧
    (access_mem s.header4 addr).idx < (access_mem s.header4 addr).region.size s.header4 ∧
    ∃ v, s.load (access_mem s.header4 addr) = some v := by
  have hb : (access_mem s.header4 addr).idx <
      (access_mem s.header4 addr).region.size s.header4 := by
    simp only [access_mem, RAM.get_ram, ROM.get_prg_rom_lo, ROM.get_prg_rom_hi]
    split_ifs <;>
      simp only [Region.size, RAM_SIZE, PRG_ROM_PAGE_SIZE] <;>
      first
        | omega
        | (rw [if_pos (by omega)]; omega)
  refine ⟨?_, hb, ?_⟩
  · simp only [access_mem, RAM.get_ram, ROM.get_prg_rom_lo, ROM.get_prg_rom_hi]
    split_ifs <;> simp only [true_or, or_true, true_and] <;> omega
  · exact ⟨_, by rw [CPU.load, if_pos hb]⟩

theorem access_mem_in_bounds_witness :
    (access_mem 1 0xFFFF).region = .prg_rom_pages 0 ∧
    (access_mem 1 0xFFFF).idx < 16384 ∧
    ∃ v, (CPU.init 1 zero_mem).load (access_mem 1 0xFFFF) = some v :=
  have h := access_mem_in_bounds (CPU.init 1 zero_mem) 0xFFFF (by decide)
  ⟨by decide, by decide, h.2.2⟩

/-- C3 (the code differs): `$4018` resolves to the same byte of `apu_io_reg` as
`$4000`, so a store to `$4000` changes the value read at `$4018`. -/
theorem apu_io_test_window_aliases :
    access_mem 1 0x4018 = access_mem 1 0x4000 ∧
    access_mem 1 0x4018 = ⟨.apu_io_reg, 0⟩ ∧
    (CPU.init 1 zero_mem).load (access_mem 1 0x4018) = some 0 ∧
    ((CPU.init 1 zero_mem).store (access_mem 1 0x4000) 0xAB).bind
      (fun s => s.load (access_mem 1 0x4018)) = some 0xAB := by
  refine ⟨by decide, by decide, by decide, by decide⟩


/-! ### C4 - C6: ADC and SBC -/

theorem xor_ff (M : Nat) (h : M < 256) : M ^^^ 0xFF = 255 - M := by
  interval_cases M <;> rfl

/-- C4: whenever the addressing-mode switch of `adc` yields the operand byte `M`
(with length `n`), `adc` returns, the accumulator becomes `(A + M + C0) mod 256`,
the carry flag is 1 exactly when `A + M + C0 > 255`, Z is 1 exactly when the new
accumulator is 0, N is bit 7 of the new accumulator, and V is 1 exactly when
`A` and `M` have the same sign and the result has the other sign. -/
theorem adc_result_and_carry (inst : Ptr) (s : CPU) (M n : Nat)
    (hop : adc_operand inst s = some (M, n)) (hA : s.a < 256) (hM : M < 256) :
    ∃ s', adc inst s = some (s', ⟨"ADC", n⟩) ∧
      s'.a = (s.a + M + s.flag .c) % 256 ∧
      (s'.flag .c = 1 ↔ s.a + M + s.flag .c > 255) ∧
      (s'.flag .z = 1 ↔ s'.a = 0) ∧
      s'.flag .n = s'.a / 128 % 2 ∧
      (s'.flag .v = 1 ↔ (s.a / 128 = M / 128 ∧ s'.a / 128 ≠ s.a / 128)) := by
  have hc := flag_lt_two s .c
  refine ⟨(adc_finish s M n).1, ?_, ?_, ?_, ?_, ?_, ?_⟩
  · simp [adc, hop, adc_finish]
  · simp [adc_finish]
    omega
  · simp only [adc_finish, flag_setFlag, Nat.shiftRight_eq_div_pow]
    simp
    omega
  · simp only [adc_finish, flag_setFlag, b2i]
    simp
    split_ifs with h1 <;> simp [h1]
  · simp only [adc_finish, flag_setFlag, sign_bit_eq]
    simp
  · simp only [adc_finish, flag_setFlag, sign_bit_eq, b2i]
    simp
    split_ifs <;> simp <;> omega

theorem adc_result_and_carry_witness :
    ∃ s', fetch_exec adc adc_sample = some (s', ⟨"ADC", 2⟩) ∧
      s'.a = 0xA0 ∧ s'.flag .c = 0 ∧ s'.flag .v = 1 ∧ s'.flag .n = 1 ∧ s'.flag .z = 0 := by
  obtain ⟨s', h, ha, hc, hz, hn, hv⟩ :=
    adc_result_and_carry (access_mem 1 0xC000) adc_sample 0x50 2
      (by decide) (by decide) (by decide)
  have hc0 : adc_sample.flag .c = 0 := by decide
  have ha0 : adc_sample.a = 0x50 := rfl
  rw [hc0, ha0] at ha hc
  rw [ha0] at hv
  have b1 := flag_lt_two s' .c
  have b2 := flag_lt_two s' .v
  have b3 := flag_lt_two s' .z
  rw [ha] at hz hn hv
  refine ⟨s', h, ha, ?_, ?_, ?_, ?_⟩
  · omega
  · omega
  · omega
  · omega

/-- C5 (the code differs): in scenario S3 (`A = $50`, `C = 1`, SBC #$F0) `sbc`
leaves `A = $60` and sets the carry flag to 1, although
`A + (M XOR $FF) + C0 = $60` does not exceed 255. -/
theorem sbc_carry_at_borrow :
    ∃ s', fetch_exec sbc sbc_sample = some (s', ⟨"SBC", 2⟩) ∧
      s'.a = 0x60 ∧ s'.flag .c = 1 ∧
      ¬ (sbc_sample.a + (0xF0 ^^^ 0xFF) + sbc_sample.flag .c > 255) :=
  ⟨(sbc_finish sbc_sample 0xF0 2).1, by rfl, by decide, by decide, by decide⟩

/-- C6: when the switch of `sbc` yields operand `M` in a state `s`, and the switch
of `adc` yields `M XOR $FF` in a state `t` with the same accumulator and carry,
both handlers return and agree on the accumulator and on Z, N and V; and V is 1
after `sbc` exactly when the sign of the old accumulator differs both from the
sign of `M` and from the sign of the result. -/
theorem sbc_agrees_with_adc (i1 i2 : Ptr) (s t : CPU) (M n1 n2 : Nat)
    (h1 : sbc_operand i1 s = some (M, n1))
    (h2 : adc_operand i2 t = some (M ^^^ 0xFF, n2))
    (hst : t.a = s.a ∧ t.flag .c = s.flag .c)
    (hA : s.a < 256) (hM : M < 256) :
    ∃ s' t', sbc i1 s = some (s', ⟨"SBC", n1⟩) ∧ adc i2 t = some (t', ⟨"ADC", n2⟩) ∧
      s'.a = t'.a ∧ s'.flag .z = t'.flag .z ∧ s'.flag .n = t'.flag .n ∧
      s'.flag .v = t'.flag .v ∧
      (s'.flag .v = 1 ↔ (sign_bit s.a ≠ sign_bit M ∧ sign_bit s.a ≠ sign_bit s'.a)) := by
  obtain ⟨hta, htc⟩ := hst
  have hc := flag_lt_two s .c
  rw [xor_ff M hM] at h2
  have key : (((s.a : Int) - (M : Int) - (1 - (s.flag .c : Int))) % 65536).toNat % 256
      = (s.a + (255 - M) + s.flag .c) % 65536 % 256 := by omega
  refine ⟨(sbc_finish s M n1).1, (adc_finish t (255 - M) n2).1, ?_, ?_, ?_, ?_, ?_, ?_, ?_⟩
  · simp [sbc, h1, sbc_finish]
  · simp [adc, h2, adc_finish]
  · simp only [sbc_finish, adc_finish, setFlag_a, hta, htc, key]
  · simp only [sbc_finish, adc_finish, setFlag_a, flag_setFlag, hta, htc, key]
    simp
  · simp only [sbc_finish, adc_finish, setFlag_a, flag_setFlag, hta, htc, key]
    simp
  · simp only [sbc_finish, adc_finish, setFlag_a, flag_setFlag, hta, htc, key]
    simp only [sign_bit_eq, b2i]
    simp
    split_ifs <;> first | rfl | omega
  · simp only [sbc_finish, setFlag_a, flag_setFlag, b2i]
    simp
    split_ifs with h <;> (try simp) <;> tauto

theorem sbc_agrees_with_adc_witness :
    ∃ s' t', fetch_exec sbc sbc_sample = some (s', ⟨"SBC", 2⟩) ∧
      fetch_exec adc adc_complement_sample = some (t', ⟨"ADC", 2⟩) ∧
      s'.a = t'.a ∧ s'.flag .z = t'.flag .z ∧ s'.flag .n = t'.flag .n ∧
      s'.flag .v = t'.flag .v ∧
      (s'.flag .v = 1 ↔ (sign_bit 0x50 ≠ sign_bit 0xF0 ∧ sign_bit 0x50 ≠ sign_bit s'.a)) :=
  sbc_agrees_with_adc (access_mem 1 0xC000) (access_mem 1 0xC000) sbc_sample
    adc_complement_sample 0xF0 2 2 (by decide) (by decide) ⟨rfl, by decide⟩
    (by decide) (by decide)

/-! ### C7: ROL and ROR -/

/-- C7 (the code differs): ROL $10 on the byte `$80` and ROR $10 on the byte
`$01`, each with `C = 0` and `A = $01`, store `$00` and set the carry, yet leave
Z = 0, because Z is computed from the accumulator. -/
theorem rol_ror_zero_flag_from_a :
    (fetch_exec rol rol_sample).map
        (fun r => (r.2, r.1.load (access_mem 1 0x10), r.1.flag .c, r.1.flag .z, r.1.flag .n))
      = some (⟨"ROL", 2⟩, some 0x00, 1, 0, 0) ∧
    (fetch_exec ror ror_sample).map
        (fun r => (r.2, r.1.load (access_mem 1 0x10), r.1.flag .c, r.1.flag .z, r.1.flag .n))
      = some (⟨"ROR", 2⟩, some 0x00, 1, 0, 0) := by
  constructor <;> decide
/-! ### C8: zero page,X -/

/-- C8 (the code differs): with operand byte `$FF` and `X = $01`, the zero-page,X
forms of ASL, LSR, ROL and ROR (`$16`, `$56`, `$36`, `$76`) leave the byte at
`$0000` untouched and modify the byte at `$0100`, whereas DEC (`$D6`), which
casts the sum to `uint8_t`, modifies the byte at `$0000`. -/
theorem zero_page_x_unwrapped_in_shifts :
    (fetch_exec asl (zpx_sample 0x16)).map
        (fun r => (r.1.load (access_mem 1 0x0000), r.1.load (access_mem 1 0x0100)))
      = some (some 0x01, some 0x04) ∧
    (fetch_exec lsr (zpx_sample 0x56)).map
        (fun r => (r.1.load (access_mem 1 0x0000), r.1.load (access_mem 1 0x0100)))
      = some (some 0x01, some 0x01) ∧
    (fetch_exec rol (zpx_sample 0x36)).map
        (fun r => (r.1.load (access_mem 1 0x0000), r.1.load (access_mem 1 0x0100)))
      = some (some 0x01, some 0x04) ∧
    (fetch_exec ror (zpx_sample 0x76)).map
        (fun r => (r.1.load (access_mem 1 0x0000), r.1.load (access_mem 1 0x0100)))
      = some (some 0x01, some 0x01) ∧
    (fetch_exec dec (zpx_sample 0xD6)).map
        (fun r => (r.1.load (access_mem 1 0x0000), r.1.load (access_mem 1 0x0100)))
      = some (some 0x00, some 0x02) := by
  refine ⟨?_, ?_, ?_, ?_, ?_⟩ <;> decide

/-! ### C9, C10: RTS and the JSR/RTS pair -/

/-- C9 (the code differs): with `SP = $FE`, `$02` at `$01FF`, `$C0` at `$0100` and
`$AA` at `$0200`, `rts` takes the high byte from `$0200`: it returns with
`PC = $AA03` (not `$C003`) and `SP = $00`. -/
theorem rts_high_byte_past_stack_page :
    rts_sample.load (access_mem 1 0x01FF) = some 0x02 ∧
    rts_sample.load (access_mem 1 0x0100) = some 0xC0 ∧
    rts_sample.load (access_mem 1 0x0200) = some 0xAA ∧
    (fetch_exec rts rts_sample).map (fun r => (r.2, r.1.pc, r.1.sp))
      = some (⟨"RTS", 1⟩, 0xAA03, 0x00) := by
  refine ⟨?_, ?_, ?_, ?_⟩ <;> decide

/-- C10 (the code differs): in scenario S5 started with `SP = $00`, JSR writes the
return address `$C002` to `$0100` (high) and `$01FF` (low) and jumps to the RTS at
`$C010`; that RTS reads the high byte from `$0200` and returns to `$0003`, not
`$C003`. Started with `SP = $FD` the pair returns to `$C003` with `SP = $FD`. -/
theorem jsr_rts_round_trip_at_sp_zero :
    (fetch_exec jsr (jsr_sample 0x00)).map (fun r => (r.2, r.1.pc, r.1.sp))
      = some (⟨"JSR", 3⟩, 0xC010, 0xFE) ∧
    (fetch_exec jsr (jsr_sample 0x00)).map
        (fun r => (r.1.load (access_mem 1 r.1.pc), r.1.load (access_mem 1 0x0100),
          r.1.load (access_mem 1 0x01FF), r.1.load (access_mem 1 0x0200)))
      = some (some 0x60, some 0xC0, some 0x02, some 0x00) ∧
    ((fetch_exec jsr (jsr_sample 0x00)).bind (fun r => fetch_exec rts r.1)).map
        (fun r => (r.2, r.1.pc, r.1.sp))
      = some (⟨"RTS", 1⟩, 0x0003, 0x00) ∧
    ((fetch_exec jsr (jsr_sample 0xFD)).bind (fun r => fetch_exec rts r.1)).map
        (fun r => (r.2, r.1.pc, r.1.sp))
      = some (⟨"RTS", 1⟩, 0xC003, 0xFD) := by
  refine ⟨?_, ?_, ?_, ?_⟩ <;> decide


/-! ### Bits 4 and 5 of `status.sr` under each handler -/

theorem sr_setFlag_keep (s : CPU) (f : Flag) (v : Nat) (hb : f ≠ .b) (hu : f ≠ .u) :
    (s.setFlag f v).sr / 16 % 4 = s.sr / 16 % 4 := by
  cases f <;> first
    | exact absurd rfl hb
    | exact absurd rfl hu
    | (simp only [CPU.setFlag, Flag.bit]; omega)

theorem store_eq {s s' : CPU} {p : Ptr} {v : Nat} (h : s.store p v = some s') :
    s' = { s with mem := fun r i => if r = p.region ∧ i = p.idx then v % 256 else s.mem r i } := by
  unfold CPU.store at h
  split at h
  · exact (Option.some.inj h).symm
  · exact absurd h (by simp)

theorem store_sr {s s' : CPU} {p : Ptr} {v : Nat} (h : s.store p v = some s') :
    s'.sr = s.sr := by
  rw [store_eq h]

theorem put_sr {s s' : CPU} {l : Loc} {v : Nat} (h : s.put l v = some s') : s'.sr = s.sr := by
  cases l with
  | reg_a => simp only [CPU.put, Option.some.injEq] at h; subst h; rfl
  | «at» p => rw [store_eq h]

theorem branch_taken_sr {inst : Ptr} {s s' : CPU} (h : branch_taken inst s = some s') :
    s'.sr = s.sr := by
  simp only [branch_taken, Option.bind_eq_bind, Option.bind_eq_some, Option.pure_def,
    Option.some.injEq] at h
  obtain ⟨off, -, rfl⟩ := h
  rfl

theorem adc_bu {inst : Ptr} {s s' : CPU} {info : InstInfo}
    (h : adc inst s = some (s', info)) :
    s'.sr / 16 % 4 = s.sr / 16 % 4 ∧ info.inst_name = "ADC" := by
  simp only [adc, Option.bind_eq_bind, Option.bind_eq_some, Option.pure_def,
    Option.some.injEq] at h
  obtain ⟨r, -, h⟩ := h
  have h1 : s' = (adc_finish s r.1 r.2).1 := by rw [h]
  have h2 : info = (adc_finish s r.1 r.2).2 := by rw [h]
  subst h1 h2
  simp [adc_finish, sr_setFlag_keep]

theorem and__bu {inst : Ptr} {s s' : CPU} {info : InstInfo}
    (h : and_ inst s = some (s', info)) :
    s'.sr / 16 % 4 = s.sr / 16 % 4 ∧ info.inst_name = "AND" := by
  simp only [and_, Option.bind_eq_bind, Option.bind_eq_some, Option.pure_def,
    Option.some.injEq] at h
  obtain ⟨r, -, h⟩ := h
  have h1 : s' = (and__finish s r.1 r.2).1 := by rw [h]
  have h2 : info = (and__finish s r.1 r.2).2 := by rw [h]
  subst h1 h2
  simp [and__finish, sr_setFlag_keep]

theorem asl_bu {inst : Ptr} {s s' : CPU} {info : InstInfo}
    (h : asl inst s = some (s', info)) :
    s'.sr / 16 % 4 = s.sr / 16 % 4 ∧ info.inst_name = "ASL" := by
  simp only [asl, Option.bind_eq_bind, Option.bind_eq_some, Option.pure_def, Option.some.injEq,
    Prod.mk.injEq] at h
  obtain ⟨a, -, m, -, s3, hput, m2, -, rfl, rfl⟩ := h
  simp [sr_setFlag_keep, put_sr hput]

theorem bcc_bu {inst : Ptr} {s s' : CPU} {info : InstInfo}
    (h : bcc inst s = some (s', info)) :
    s'.sr / 16 % 4 = s.sr / 16 % 4 ∧ info.inst_name = "BCC" := by
  unfold bcc at h
  split_ifs at h <;>
    simp only [Option.bind_eq_bind, Option.bind_eq_some, Option.pure_def, Option.some.injEq,
      Prod.mk.injEq, exists_eq_left'] at h
  · obtain ⟨s1, h1, rfl, rfl⟩ := h
    simp [branch_taken_sr h1]
  · obtain ⟨rfl, rfl⟩ := h
    simp

theorem bcs_bu {inst : Ptr} {s s' : CPU} {info : InstInfo}
    (h : bcs inst s = some (s', info)) :
    s'.sr / 16 % 4 = s.sr / 16 % 4 ∧ info.inst_name = "BCS" := by
  unfold bcs at h
  split_ifs at h <;>
    simp only [Option.bind_eq_bind, Option.bind_eq_some, Option.pure_def, Option.some.injEq,
      Prod.mk.injEq, exists_eq_left'] at h
  · obtain ⟨s1, h1, rfl, rfl⟩ := h
    simp [branch_taken_sr h1]
  · obtain ⟨rfl, rfl⟩ := h
    simp

theorem beq_bu {inst : Ptr} {s s' : CPU} {info : InstInfo}
    (h : beq inst s = some (s', info)) :
    s'.sr / 16 % 4 = s.sr / 16 % 4 ∧ info.inst_name = "BEQ" := by
  unfold beq at h
  split_ifs at h <;>
    simp only [Option.bind_eq_bind, Option.bind_eq_some, Option.pure_def, Option.some.injEq,
      Prod.mk.injEq, exists_eq_left'] at h
  · obtain ⟨s1, h1, rfl, rfl⟩ := h
    simp [branch_taken_sr h1]
  · obtain ⟨rfl, rfl⟩ := h
    simp

theorem bit_bu {inst : Ptr} {s s' : CPU} {info : InstInfo}
    (h : bit inst s = some (s', info)) :
    s'.sr / 16 % 4 = s.sr / 16 % 4 ∧ info.inst_name = "BIT" := by
  simp only [bit, Option.bind_eq_bind, Option.bind_eq_some, Option.pure_def,
    Option.some.injEq] at h
  obtain ⟨r, -, h⟩ := h
  have h1 : s' = (bit_finish s r.1 r.2).1 := by rw [h]
  have h2 : info = (bit_finish s r.1 r.2).2 := by rw [h]
  subst h1 h2
  simp [bit_finish, sr_setFlag_keep]

theorem bmi_bu {inst : Ptr} {s s' : CPU} {info : InstInfo}
    (h : bmi inst s = some (s', info)) :
    s'.sr / 16 % 4 = s.sr / 16 % 4 ∧ info.inst_name = "BMI" := by
  unfold bmi at h
  split_ifs at h <;>
    simp only [Option.bind_eq_bind, Option.bind_eq_some, Option.pure_def, Option.some.injEq,
      Prod.mk.injEq, exists_eq_left'] at h
  · obtain ⟨s1, h1, rfl, rfl⟩ := h
    simp [branch_taken_sr h1]
  · obtain ⟨rfl, rfl⟩ := h
    simp

theorem bne_bu {inst : Ptr} {s s' : CPU} {info : InstInfo}
    (h : bne inst s = some (s', info)) :
    s'.sr / 16 % 4 = s.sr / 16 % 4 ∧ info.inst_name = "BNE" := by
  unfold bne at h
  split_ifs at h <;>
    simp only [Option.bind_eq_bind, Option.bind_eq_some, Option.pure_def, Option.some.injEq,
      Prod.mk.injEq, exists_eq_left'] at h
  · obtain ⟨s1, h1, rfl, rfl⟩ := h
    simp [branch_taken_sr h1]
  · obtain ⟨rfl, rfl⟩ := h
    simp

theorem bpl_bu {inst : Ptr} {s s' : CPU} {info : InstInfo}
    (h : bpl inst s = some (s', info)) :
    s'.sr / 16 % 4 = s.sr / 16 % 4 ∧ info.inst_name = "BPL" := by
  unfold bpl at h
  split_ifs at h <;>
    simp only [Option.bind_eq_bind, Option.bind_eq_some, Option.pure_def, Option.some.injEq,
      Prod.mk.injEq, exists_eq_left'] at h
  · obtain ⟨s1, h1, rfl, rfl⟩ := h
    simp [branch_taken_sr h1]
  · obtain ⟨rfl, rfl⟩ := h
    simp

theorem bvc_bu {inst : Ptr} {s s' : CPU} {info : InstInfo}
    (h : bvc inst s = some (s', info)) :
    s'.sr / 16 % 4 = s.sr / 16 % 4 ∧ info.inst_name = "BVC" := by
  unfold bvc at h
  split_ifs at h <;>
    simp only [Option.bind_eq_bind, Option.bind_eq_some, Option.pure_def, Option.some.injEq,
      Prod.mk.injEq, exists_eq_left'] at h
  · obtain ⟨s1, h1, rfl, rfl⟩ := h
    simp [branch_taken_sr h1]
  · obtain ⟨rfl, rfl⟩ := h
    simp

theorem bvs_bu {inst : Ptr} {s s' : CPU} {info : InstInfo}
    (h : bvs inst s = some (s', info)) :
    s'.sr / 16 % 4 = s.sr / 16 % 4 ∧ info.inst_name = "BVS" := by
  unfold bvs at h
  split_ifs at h <;>
    simp only [Option.bind_eq_bind, Option.bind_eq_some, Option.pure_def, Option.some.injEq,
      Prod.mk.injEq, exists_eq_left'] at h
  · obtain ⟨s1, h1, rfl, rfl⟩ := h
    simp [branch_taken_sr h1]
  · obtain ⟨rfl, rfl⟩ := h
    simp

theorem clc_bu {inst : Ptr} {s s' : CPU} {info : InstInfo}
    (h : clc inst s = some (s', info)) :
    s'.sr / 16 % 4 = s.sr / 16 % 4 ∧ info.inst_name = "CLC" := by
  simp only [clc, Option.some.injEq, Prod.mk.injEq] at h
  obtain ⟨rfl, rfl⟩ := h
  simp [sr_setFlag_keep]

theorem cld_bu {inst : Ptr} {s s' : CPU} {info : InstInfo}
    (h : cld inst s = some (s', info)) :
    s'.sr / 16 % 4 = s.sr / 16 % 4 ∧ info.inst_name = "CLD" := by
  simp only [cld, Option.some.injEq, Prod.mk.injEq] at h
  obtain ⟨rfl, rfl⟩ := h
  simp [sr_setFlag_keep]

theorem cli_bu {inst : Ptr} {s s' : CPU} {info : InstInfo}
    (h : cli inst s = some (s', info)) :
    s'.sr / 16 % 4 = s.sr / 16 % 4 ∧ info.inst_name = "CLI" := by
  simp only [cli, Option.some.injEq, Prod.mk.injEq] at h
  obtain ⟨rfl, rfl⟩ := h
  simp [sr_setFlag_keep]

theorem clv_bu {inst : Ptr} {s s' : CPU} {info : InstInfo}
    (h : clv inst s = some (s', info)) :
    s'.sr / 16 % 4 = s.sr / 16 % 4 ∧ info.inst_name = "CLV" := by
  simp only [clv, Option.some.injEq, Prod.mk.injEq] at h
  obtain ⟨rfl, rfl⟩ := h
  simp [sr_setFlag_keep]

theorem cmp_bu {inst : Ptr} {s s' : CPU} {info : InstInfo}
    (h : cmp inst s = some (s', info)) :
    s'.sr / 16 % 4 = s.sr / 16 % 4 ∧ info.inst_name = "CMP" := by
  simp only [cmp, Option.bind_eq_bind, Option.bind_eq_some, Option.pure_def,
    Option.some.injEq] at h
  obtain ⟨r, -, h⟩ := h
  have h1 : s' = (cmp_finish s r.1 r.2).1 := by rw [h]
  have h2 : info = (cmp_finish s r.1 r.2).2 := by rw [h]
  subst h1 h2
  simp [cmp_finish, sr_setFlag_keep]

theorem cpx_bu {inst : Ptr} {s s' : CPU} {info : InstInfo}
    (h : cpx inst s = some (s', info)) :
    s'.sr / 16 % 4 = s.sr / 16 % 4 ∧ info.inst_name = "CPX" := by
  simp only [cpx, Option.bind_eq_bind, Option.bind_eq_some, Option.pure_def,
    Option.some.injEq] at h
  obtain ⟨r, -, h⟩ := h
  have h1 : s' = (cpx_finish s r.1 r.2).1 := by rw [h]
  have h2 : info = (cpx_finish s r.1 r.2).2 := by rw [h]
  subst h1 h2
  simp [cpx_finish, sr_setFlag_keep]

theorem cpy_bu {inst : Ptr} {s s' : CPU} {info : InstInfo}
    (h : cpy inst s = some (s', info)) :
    s'.sr / 16 % 4 = s.sr / 16 % 4 ∧ info.inst_name = "CPY" := by
  simp only [cpy, Option.bind_eq_bind, Option.bind_eq_some, Option.pure_def,
    Option.some.injEq] at h
  obtain ⟨r, -, h⟩ := h
  have h1 : s' = (cpy_finish s r.1 r.2).1 := by rw [h]
  have h2 : info = (cpy_finish s r.1 r.2).2 := by rw [h]
  subst h1 h2
  simp [cpy_finish, sr_setFlag_keep]

theorem dec_bu {inst : Ptr} {s s' : CPU} {info : InstInfo}
    (h : dec inst s = some (s', info)) :
    s'.sr / 16 % 4 = s.sr / 16 % 4 ∧ info.inst_name = "DEC" := by
  simp only [dec, Option.bind_eq_bind, Option.bind_eq_some, Option.pure_def, Option.some.injEq,
    Prod.mk.injEq] at h
  obtain ⟨a, -, m, -, s3, hput, m2, -, rfl, rfl⟩ := h
  simp [sr_setFlag_keep, put_sr hput]

theorem dex_bu {inst : Ptr} {s s' : CPU} {info : InstInfo}
    (h : dex inst s = some (s', info)) :
    s'.sr / 16 % 4 = s.sr / 16 % 4 ∧ info.inst_name = "DEX" := by
  simp only [dex, Option.some.injEq, Prod.mk.injEq] at h
  obtain ⟨rfl, rfl⟩ := h
  simp [sr_setFlag_keep]

theorem dey_bu {inst : Ptr} {s s' : CPU} {info : InstInfo}
    (h : dey inst s = some (s', info)) :
    s'.sr / 16 % 4 = s.sr / 16 % 4 ∧ info.inst_name = "DEY" := by
  simp only [dey, Option.some.injEq, Prod.mk.injEq] at h
  obtain ⟨rfl, rfl⟩ := h
  simp [sr_setFlag_keep]

theorem eor_bu {inst : Ptr} {s s' : CPU} {info : InstInfo}
    (h : eor inst s = some (s', info)) :
    s'.sr / 16 % 4 = s.sr / 16 % 4 ∧ info.inst_name = "EOR" := by
  simp only [eor, Option.bind_eq_bind, Option.bind_eq_some, Option.pure_def,
    Option.some.injEq] at h
  obtain ⟨r, -, h⟩ := h
  have h1 : s' = (eor_finish s r.1 r.2).1 := by rw [h]
  have h2 : info = (eor_finish s r.1 r.2).2 := by rw [h]
  subst h1 h2
  simp [eor_finish, sr_setFlag_keep]

theorem inc_bu {inst : Ptr} {s s' : CPU} {info : InstInfo}
    (h : inc inst s = some (s', info)) :
    s'.sr / 16 % 4 = s.sr / 16 % 4 ∧ info.inst_name = "INC" := by
  simp only [inc, Option.bind_eq_bind, Option.bind_eq_some, Option.pure_def, Option.some.injEq,
    Prod.mk.injEq] at h
  obtain ⟨a, -, m, -, s3, hput, m2, -, rfl, rfl⟩ := h
  simp [sr_setFlag_keep, store_sr hput]

theorem inx_bu {inst : Ptr} {s s' : CPU} {info : InstInfo}
    (h : inx inst s = some (s', info)) :
    s'.sr / 16 % 4 = s.sr / 16 % 4 ∧ info.inst_name = "INX" := by
  simp only [inx, Option.some.injEq, Prod.mk.injEq] at h
  obtain ⟨rfl, rfl⟩ := h
  simp [sr_setFlag_keep]

theorem iny_bu {inst : Ptr} {s s' : CPU} {info : InstInfo}
    (h : iny inst s = some (s', info)) :
    s'.sr / 16 % 4 = s.sr / 16 % 4 ∧ info.inst_name = "INY" := by
  simp only [iny, Option.some.injEq, Prod.mk.injEq] at h
  obtain ⟨rfl, rfl⟩ := h
  simp [sr_setFlag_keep]

theorem jsr_bu {inst : Ptr} {s s' : CPU} {info : InstInfo}
    (h : jsr inst s = some (s', info)) :
    s'.sr / 16 % 4 = s.sr / 16 % 4 ∧ info.inst_name = "JSR" := by
  simp only [jsr, Option.bind_eq_bind, Option.bind_eq_some, Option.pure_def, Option.some.injEq,
    Prod.mk.injEq] at h
  obtain ⟨s1, h1, s2, h2, w, -, rfl, rfl⟩ := h
  simp [store_sr h2, store_sr h1]

theorem lda_bu {inst : Ptr} {s s' : CPU} {info : InstInfo}
    (h : lda inst s = some (s', info)) :
    s'.sr / 16 % 4 = s.sr / 16 % 4 ∧ info.inst_name = "LDA" := by
  simp only [lda, Option.bind_eq_bind, Option.bind_eq_some, Option.pure_def,
    Option.some.injEq] at h
  obtain ⟨r, -, h⟩ := h
  have h1 : s' = (lda_finish s r.1 r.2).1 := by rw [h]
  have h2 : info = (lda_finish s r.1 r.2).2 := by rw [h]
  subst h1 h2
  simp [lda_finish, sr_setFlag_keep]

theorem ldx_bu {inst : Ptr} {s s' : CPU} {info : InstInfo}
    (h : ldx inst s = some (s', info)) :
    s'.sr / 16 % 4 = s.sr / 16 % 4 ∧ info.inst_name = "LDX" := by
  simp only [ldx, Option.bind_eq_bind, Option.bind_eq_some, Option.pure_def,
    Option.some.injEq] at h
  obtain ⟨r, -, h⟩ := h
  have h1 : s' = (ldx_finish s r.1 r.2).1 := by rw [h]
  have h2 : info = (ldx_finish s r.1 r.2).2 := by rw [h]
  subst h1 h2
  simp [ldx_finish, sr_setFlag_keep]

theorem ldy_bu {inst : Ptr} {s s' : CPU} {info : InstInfo}
    (h : ldy inst s = some (s', info)) :
    s'.sr / 16 % 4 = s.sr / 16 % 4 ∧ info.inst_name = "LDY" := by
  simp only [ldy, Option.bind_eq_bind, Option.bind_eq_some, Option.pure_def,
    Option.some.injEq] at h
  obtain ⟨r, -, h⟩ := h
  have h1 : s' = (ldy_finish s r.1 r.2).1 := by rw [h]
  have h2 : info = (ldy_finish s r.1 r.2).2 := by rw [h]
  subst h1 h2
  simp [ldy_finish, sr_setFlag_keep]

theorem lsr_bu {inst : Ptr} {s s' : CPU} {info : InstInfo}
    (h : lsr inst s = some (s', info)) :
    s'.sr / 16 % 4 = s.sr / 16 % 4 ∧ info.inst_name = "LSR" := by
  simp only [lsr, Option.bind_eq_bind, Option.bind_eq_some, Option.pure_def, Option.some.injEq,
    Prod.mk.injEq] at h
  obtain ⟨a, -, m, -, s3, hput, m2, -, rfl, rfl⟩ := h
  simp [sr_setFlag_keep, put_sr hput]

theorem nop_bu {inst : Ptr} {s s' : CPU} {info : InstInfo}
    (h : nop inst s = some (s', info)) :
    s'.sr / 16 % 4 = s.sr / 16 % 4 ∧ info.inst_name = "NOP" := by
  simp only [nop, Option.some.injEq, Prod.mk.injEq] at h
  obtain ⟨rfl, rfl⟩ := h
  simp [sr_setFlag_keep]

theorem ora_bu {inst : Ptr} {s s' : CPU} {info : InstInfo}
    (h : ora inst s = some (s', info)) :
    s'.sr / 16 % 4 = s.sr / 16 % 4 ∧ info.inst_name = "ORA" := by
  simp only [ora, Option.bind_eq_bind, Option.bind_eq_some, Option.pure_def,
    Option.some.injEq] at h
  obtain ⟨r, -, h⟩ := h
  have h1 : s' = (ora_finish s r.1 r.2).1 := by rw [h]
  have h2 : info = (ora_finish s r.1 r.2).2 := by rw [h]
  subst h1 h2
  simp [ora_finish, sr_setFlag_keep]

theorem pha_bu {inst : Ptr} {s s' : CPU} {info : InstInfo}
    (h : pha inst s = some (s', info)) :
    s'.sr / 16 % 4 = s.sr / 16 % 4 ∧ info.inst_name = "PHA" := by
  simp only [pha, Option.bind_eq_bind, Option.bind_eq_some, Option.pure_def, Option.some.injEq,
    Prod.mk.injEq] at h
  obtain ⟨s1, h1, rfl, rfl⟩ := h
  simp [store_sr h1]

theorem php_bu {inst : Ptr} {s s' : CPU} {info : InstInfo}
    (h : php inst s = some (s', info)) :
    s'.sr / 16 % 4 = s.sr / 16 % 4 ∧ info.inst_name = "PHP" := by
  simp only [php, Option.bind_eq_bind, Option.bind_eq_some, Option.pure_def, Option.some.injEq,
    Prod.mk.injEq] at h
  obtain ⟨s1, h1, rfl, rfl⟩ := h
  simp [store_sr h1]

theorem pla_bu {inst : Ptr} {s s' : CPU} {info : InstInfo}
    (h : pla inst s = some (s', info)) :
    s'.sr / 16 % 4 = s.sr / 16 % 4 ∧ info.inst_name = "PLA" := by
  simp only [pla, Option.bind_eq_bind, Option.bind_eq_some, Option.pure_def, Option.some.injEq,
    Prod.mk.injEq] at h
  obtain ⟨v, -, rfl, rfl⟩ := h
  simp [sr_setFlag_keep]

theorem rol_bu {inst : Ptr} {s s' : CPU} {info : InstInfo}
    (h : rol inst s = some (s', info)) :
    s'.sr / 16 % 4 = s.sr / 16 % 4 ∧ info.inst_name = "ROL" := by
  simp only [rol, Option.bind_eq_bind, Option.bind_eq_some, Option.pure_def, Option.some.injEq,
    Prod.mk.injEq] at h
  obtain ⟨a, -, m, -, s3, hput, m2, -, rfl, rfl⟩ := h
  simp [sr_setFlag_keep, put_sr hput]

theorem ror_bu {inst : Ptr} {s s' : CPU} {info : InstInfo}
    (h : ror inst s = some (s', info)) :
    s'.sr / 16 % 4 = s.sr / 16 % 4 ∧ info.inst_name = "ROR" := by
  simp only [ror, Option.bind_eq_bind, Option.bind_eq_some, Option.pure_def, Option.some.injEq,
    Prod.mk.injEq] at h
  obtain ⟨a, -, m, -, s3, hput, m2, -, rfl, rfl⟩ := h
  simp [sr_setFlag_keep, put_sr hput]

theorem rts_bu {inst : Ptr} {s s' : CPU} {info : InstInfo}
    (h : rts inst s = some (s', info)) :
    s'.sr / 16 % 4 = s.sr / 16 % 4 ∧ info.inst_name = "RTS" := by
  simp only [rts, Option.bind_eq_bind, Option.bind_eq_some, Option.pure_def, Option.some.injEq,
    Prod.mk.injEq] at h
  obtain ⟨v, -, rfl, rfl⟩ := h
  simp

theorem sbc_bu {inst : Ptr} {s s' : CPU} {info : InstInfo}
    (h : sbc inst s = some (s', info)) :
    s'.sr / 16 % 4 = s.sr / 16 % 4 ∧ info.inst_name = "SBC" := by
  simp only [sbc, Option.bind_eq_bind, Option.bind_eq_some, Option.pure_def,
    Option.some.injEq] at h
  obtain ⟨r, -, h⟩ := h
  have h1 : s' = (sbc_finish s r.1 r.2).1 := by rw [h]
  have h2 : info = (sbc_finish s r.1 r.2).2 := by rw [h]
  subst h1 h2
  simp [sbc_finish, sr_setFlag_keep]

theorem sec_bu {inst : Ptr} {s s' : CPU} {info : InstInfo}
    (h : sec inst s = some (s', info)) :
    s'.sr / 16 % 4 = s.sr / 16 % 4 ∧ info.inst_name = "SEC" := by
  simp only [sec, Option.some.injEq, Prod.mk.injEq] at h
  obtain ⟨rfl, rfl⟩ := h
  simp [sr_setFlag_keep]

theorem sed_bu {inst : Ptr} {s s' : CPU} {info : InstInfo}
    (h : sed inst s = some (s', info)) :
    s'.sr / 16 % 4 = s.sr / 16 % 4 ∧ info.inst_name = "SED" := by
  simp only [sed, Option.some.injEq, Prod.mk.injEq] at h
  obtain ⟨rfl, rfl⟩ := h
  simp [sr_setFlag_keep]

theorem sei_bu {inst : Ptr} {s s' : CPU} {info : InstInfo}
    (h : sei inst s = some (s', info)) :
    s'.sr / 16 % 4 = s.sr / 16 % 4 ∧ info.inst_name = "SEI" := by
  simp only [sei, Option.some.injEq, Prod.mk.injEq] at h
  obtain ⟨rfl, rfl⟩ := h
  simp [sr_setFlag_keep]

theorem sta_bu {inst : Ptr} {s s' : CPU} {info : InstInfo}
    (h : sta inst s = some (s', info)) :
    s'.sr / 16 % 4 = s.sr / 16 % 4 ∧ info.inst_name = "STA" := by
  simp only [sta, Option.bind_eq_bind, Option.bind_eq_some, Option.pure_def, Option.some.injEq,
    Prod.mk.injEq] at h
  obtain ⟨a, -, s3, hput, rfl, rfl⟩ := h
  simp [store_sr hput]

theorem stx_bu {inst : Ptr} {s s' : CPU} {info : InstInfo}
    (h : stx inst s = some (s', info)) :
    s'.sr / 16 % 4 = s.sr / 16 % 4 ∧ info.inst_name = "STX" := by
  simp only [stx, Option.bind_eq_bind, Option.bind_eq_some, Option.pure_def, Option.some.injEq,
    Prod.mk.injEq] at h
  obtain ⟨a, -, s3, hput, rfl, rfl⟩ := h
  simp [store_sr hput]

theorem sty_bu {inst : Ptr} {s s' : CPU} {info : InstInfo}
    (h : sty inst s = some (s', info)) :
    s'.sr / 16 % 4 = s.sr / 16 % 4 ∧ info.inst_name = "STY" := by
  simp only [sty, Option.bind_eq_bind, Option.bind_eq_some, Option.pure_def, Option.some.injEq,
    Prod.mk.injEq] at h
  obtain ⟨a, -, s3, hput, rfl, rfl⟩ := h
  simp [store_sr hput]

theorem tax_bu {inst : Ptr} {s s' : CPU} {info : InstInfo}
    (h : tax inst s = some (s', info)) :
    s'.sr / 16 % 4 = s.sr / 16 % 4 ∧ info.inst_name = "TAX" := by
  simp only [tax, Option.some.injEq, Prod.mk.injEq] at h
  obtain ⟨rfl, rfl⟩ := h
  simp [sr_setFlag_keep]

theorem tay_bu {inst : Ptr} {s s' : CPU} {info : InstInfo}
    (h : tay inst s = some (s', info)) :
    s'.sr / 16 % 4 = s.sr / 16 % 4 ∧ info.inst_name = "TAY" := by
  simp only [tay, Option.some.injEq, Prod.mk.injEq] at h
  obtain ⟨rfl, rfl⟩ := h
  simp [sr_setFlag_keep]

theorem tsx_bu {inst : Ptr} {s s' : CPU} {info : InstInfo}
    (h : tsx inst s = some (s', info)) :
    s'.sr / 16 % 4 = s.sr / 16 % 4 ∧ info.inst_name = "TSX" := by
  simp only [tsx, Option.some.injEq, Prod.mk.injEq] at h
  obtain ⟨rfl, rfl⟩ := h
  simp [sr_setFlag_keep]

theorem txa_bu {inst : Ptr} {s s' : CPU} {info : InstInfo}
    (h : txa inst s = some (s', info)) :
    s'.sr / 16 % 4 = s.sr / 16 % 4 ∧ info.inst_name = "TXA" := by
  simp only [txa, Option.some.injEq, Prod.mk.injEq] at h
  obtain ⟨rfl, rfl⟩ := h
  simp [sr_setFlag_keep]

theorem txs_bu {inst : Ptr} {s s' : CPU} {info : InstInfo}
    (h : txs inst s = some (s', info)) :
    s'.sr / 16 % 4 = s.sr / 16 % 4 ∧ info.inst_name = "TXS" := by
  simp only [txs, Option.some.injEq, Prod.mk.injEq] at h
  obtain ⟨rfl, rfl⟩ := h
  simp [sr_setFlag_keep]

theorem tya_bu {inst : Ptr} {s s' : CPU} {info : InstInfo}
    (h : tya inst s = some (s', info)) :
    s'.sr / 16 % 4 = s.sr / 16 % 4 ∧ info.inst_name = "TYA" := by
  simp only [tya, Option.some.injEq, Prod.mk.injEq] at h
  obtain ⟨rfl, rfl⟩ := h
  simp [sr_setFlag_keep]

theorem ill_nop_bu {inst : Ptr} {s s' : CPU} {info : InstInfo}
    (h : ill_nop inst s = some (s', info)) :
    s'.sr / 16 % 4 = s.sr / 16 % 4 ∧ info.inst_name = "NOP" := by
  simp only [ill_nop, Option.bind_eq_bind, Option.bind_eq_some, Option.pure_def, Option.some.injEq,
    Prod.mk.injEq] at h
  obtain ⟨opc, -, rfl, rfl⟩ := h
  simp

theorem jmp_bu {inst : Ptr} {s s' : CPU} {info : InstInfo}
    (h : jmp inst s = some (s', info)) :
    s'.sr / 16 % 4 = s.sr / 16 % 4 ∧ info.inst_name = "JMP" := by
  unfold jmp at h
  simp only [Option.bind_eq_bind, Option.bind_eq_some] at h
  obtain ⟨opc, -, h⟩ := h
  split_ifs at h <;>
    simp only [Option.bind_eq_bind, Option.bind_eq_some, Option.pure_def, Option.some.injEq,
      Prod.mk.injEq] at h
  · obtain ⟨w, -, s1, rfl, rfl, rfl⟩ := h
    simp
  · obtain ⟨w, -, t, -, s1, rfl, rfl, rfl⟩ := h
    simp
  · obtain ⟨s1, rfl, rfl, rfl⟩ := h
    simp

theorem plp_bu {inst : Ptr} {s s' : CPU} {info : InstInfo}
    (h : plp inst s = some (s', info)) :
    s'.flag .b = 0 ∧ s'.flag .u = 1 ∧ info.inst_name = "PLP" := by
  simp only [plp, Option.bind_eq_bind, Option.bind_eq_some, Option.pure_def, Option.some.injEq,
    Prod.mk.injEq] at h
  obtain ⟨v, -, rfl, rfl⟩ := h
  simp [flag_setFlag]

theorem rti_bu {inst : Ptr} {s s' : CPU} {info : InstInfo}
    (h : rti inst s = some (s', info)) :
    s'.flag .b = 0 ∧ s'.flag .u = 1 ∧ info.inst_name = "RTI" := by
  simp only [rti, Option.bind_eq_bind, Option.bind_eq_some, Option.pure_def, Option.some.injEq,
    Prod.mk.injEq] at h
  obtain ⟨v, -, w, -, rfl, rfl⟩ := h
  simp [flag_setFlag]

theorem brk_bu {inst : Ptr} {s s' : CPU} {info : InstInfo}
    (h : brk inst s = some (s', info)) :
    s'.flag .b = 1 ∧ s'.flag .u = s.flag .u ∧ info.inst_name = "BRK" := by
  simp only [brk, Option.bind_eq_bind, Option.bind_eq_some, Option.pure_def, Option.some.injEq,
    Prod.mk.injEq] at h
  obtain ⟨s1, h1, s2, h2, s3, h3, w, -, rfl, rfl⟩ := h
  simp only [flag_setFlag]
  simp [CPU.flag, store_sr h3, store_sr h2, store_sr h1]

/-- What `exec_inst` does to bits 4 and 5: U stays set, and B stays clear unless
the handler is `brk`, which runs only for opcode `$00`. -/
theorem exec_inst_bu {inst : Ptr} {s s' : CPU} {info : InstInfo}
    (h : exec_inst inst s = some (s', info)) :
    (s.flag .u = 1 → s'.flag .u = 1) ∧
    (info.inst_name ≠ "BRK" → s.flag .b = 0 → s'.flag .b = 0) ∧
    (info.inst_name = "BRK" → s.load inst = some 0x00) := by
  have keep : ∀ {Q : Prop} {t t' : CPU} {i : InstInfo} {name : String},
      (t'.sr / 16 % 4 = t.sr / 16 % 4 ∧ i.inst_name = name) → name ≠ "BRK" →
      (t.flag .u = 1 → t'.flag .u = 1) ∧
      (i.inst_name ≠ "BRK" → t.flag .b = 0 → t'.flag .b = 0) ∧
      (i.inst_name = "BRK" → Q) := by
    intro Q t t' i name ⟨hsr, hname⟩ hne
    refine ⟨?_, ?_, ?_⟩
    · simp only [CPU.flag, Flag.bit]; omega
    · simp only [CPU.flag, Flag.bit]; omega
    · intro hb; exact absurd (hname ▸ hb) hne
  have reset : ∀ {Q : Prop} {t' : CPU} {i : InstInfo} {name : String},
      (t'.flag .b = 0 ∧ t'.flag .u = 1 ∧ i.inst_name = name) → name ≠ "BRK" →
      (s.flag .u = 1 → t'.flag .u = 1) ∧
      (i.inst_name ≠ "BRK" → s.flag .b = 0 → t'.flag .b = 0) ∧
      (i.inst_name = "BRK" → Q) := by
    intro Q t' i name ⟨hb, hu, hname⟩ hne
    exact ⟨fun _ => hu, fun _ _ => hb, fun hx => absurd (hname ▸ hx) hne⟩
  unfold exec_inst at h
  cases hl : s.load inst with
  | none => rw [hl] at h; exact absurd h (by simp)
  | some opc =>
    rw [hl, Option.bind_eq_bind, Option.some_bind] at h
    by_cases hk : opc ∈ [0x69, 0x65, 0x75, 0x6D, 0x7D, 0x79, 0x61, 0x71]
    · rw [if_pos hk] at h
      exact keep (adc_bu h) (by decide)
    rw [if_neg hk] at h
    clear hk
    by_cases hk : opc ∈ [0x29, 0x25, 0x35, 0x2D, 0x3D, 0x39, 0x21, 0x31]
    · rw [if_pos hk] at h
      exact keep (and__bu h) (by decide)
    rw [if_neg hk] at h
    clear hk
    by_cases hk : opc ∈ [0x0A, 0x06, 0x16, 0x0E, 0x1E]
    · rw [if_pos hk] at h
      exact keep (asl_bu h) (by decide)
    rw [if_neg hk] at h
    clear hk
    by_cases hk : opc ∈ [0x90]
    · rw [if_pos hk] at h
      exact keep (bcc_bu h) (by decide)
    rw [if_neg hk] at h
    clear hk
    by_cases hk : opc ∈ [0xB0]
    · rw [if_pos hk] at h
      exact keep (bcs_bu h) (by decide)
    rw [if_neg hk] at h
    clear hk
    by_cases hk : opc ∈ [0xF0]
    · rw [if_pos hk] at h
      exact keep (beq_bu h) (by decide)
    rw [if_neg hk] at h
    clear hk
    by_cases hk : opc ∈ [0x24, 0x2C]
    · rw [if_pos hk] at h
      exact keep (bit_bu h) (by decide)
    rw [if_neg hk] at h
    clear hk
    by_cases hk : opc ∈ [0x30]
    · rw [if_pos hk] at h
      exact keep (bmi_bu h) (by decide)
    rw [if_neg hk] at h
    clear hk
    by_cases hk : opc ∈ [0xD0]
    · rw [if_pos hk] at h
      exact keep (bne_bu h) (by decide)
    rw [if_neg hk] at h
    clear hk
    by_cases hk : opc ∈ [0x10]
    · rw [if_pos hk] at h
      exact keep (bpl_bu h) (by decide)
    rw [if_neg hk] at h
    clear hk
    by_cases hk : opc ∈ [0x00]
    · rw [if_pos hk] at h
      obtain ⟨hb, hu, hn⟩ := brk_bu h
      simp only [List.mem_singleton] at hk
      exact ⟨fun h1 => hu ▸ h1, fun hx => absurd hn hx, fun _ => by rw [hk]⟩
    rw [if_neg hk] at h
    clear hk
    by_cases hk : opc ∈ [0x50]
    · rw [if_pos hk] at h
      exact keep (bvc_bu h) (by decide)
    rw [if_neg hk] at h
    clear hk
    by_cases hk : opc ∈ [0x70]
    · rw [if_pos hk] at h
      exact keep (bvs_bu h) (by decide)
    rw [if_neg hk] at h
    clear hk
    by_cases hk : opc ∈ [0x18]
    · rw [if_pos hk] at h
      exact keep (clc_bu h) (by decide)
    rw [if_neg hk] at h
    clear hk
    by_cases hk : opc ∈ [0xD8]
    · rw [if_pos hk] at h
      exact keep (cld_bu h) (by decide)
    rw [if_neg hk] at h
    clear hk
    by_cases hk : opc ∈ [0x58]
    · rw [if_pos hk] at h
      exact keep (cli_bu h) (by decide)
    rw [if_neg hk] at h
    clear hk
    by_cases hk : opc ∈ [0xB8]
    · rw [if_pos hk] at h
      exact keep (clv_bu h) (by decide)
    rw [if_neg hk] at h
    clear hk
    by_cases hk : opc ∈ [0xC9, 0xC5, 0xD5, 0xCD, 0xDD, 0xD9, 0xC1, 0xD1]
    · rw [if_pos hk] at h
      exact keep (cmp_bu h) (by decide)
    rw [if_neg hk] at h
    clear hk
    by_cases hk : opc ∈ [0xE0, 0xE4, 0xEC]
    · rw [if_pos hk] at h
      exact keep (cpx_bu h) (by decide)
    rw [if_neg hk] at h
    clear hk
    by_cases hk : opc ∈ [0xC0, 0xC4, 0xCC]
    · rw [if_pos hk] at h
      exact keep (cpy_bu h) (by decide)
    rw [if_neg hk] at h
    clear hk
    by_cases hk : opc ∈ [0xC6, 0xD6, 0xCE, 0xDE]
    · rw [if_pos hk] at h
      exact keep (dec_bu h) (by decide)
    rw [if_neg hk] at h
    clear hk
    by_cases hk : opc ∈ [0xCA]
    · rw [if_pos hk] at h
      exact keep (dex_bu h) (by decide)
    rw [if_neg hk] at h
    clear hk
    by_cases hk : opc ∈ [0x88]
    · rw [if_pos hk] at h
      exact keep (dey_bu h) (by decide)
    rw [if_neg hk] at h
    clear hk
    by_cases hk : opc ∈ [0x49, 0x45, 0x55, 0x4D, 0x5D, 0x59, 0x41, 0x51]
    · rw [if_pos hk] at h
      exact keep (eor_bu h) (by decide)
    rw [if_neg hk] at h
    clear hk
    by_cases hk : opc ∈ [0xE6, 0xF6, 0xEE, 0xFE]
    · rw [if_pos hk] at h
      exact keep (inc_bu h) (by decide)
    rw [if_neg hk] at h
    clear hk
    by_cases hk : opc ∈ [0xE8]
    · rw [if_pos hk] at h
      exact keep (inx_bu h) (by decide)
    rw [if_neg hk] at h
    clear hk
    by_cases hk : opc ∈ [0xC8]
    · rw [if_pos hk] at h
      exact keep (iny_bu h) (by decide)
    rw [if_neg hk] at h
    clear hk
    by_cases hk : opc ∈ [0x4C, 0x6C]
    · rw [if_pos hk] at h
      exact keep (jmp_bu h) (by decide)
    rw [if_neg hk] at h
    clear hk
    by_cases hk : opc ∈ [0x20]
    · rw [if_pos hk] at h
      exact keep (jsr_bu h) (by decide)
    rw [if_neg hk] at h
    clear hk
    by_cases hk : opc ∈ [0xA9, 0xA5, 0xB5, 0xAD, 0xBD, 0xB9, 0xA1, 0xB1]
    · rw [if_pos hk] at h
      exact keep (lda_bu h) (by decide)
    rw [if_neg hk] at h
    clear hk
    by_cases hk : opc ∈ [0xA2, 0xA6, 0xB6, 0xAE, 0xBE]
    · rw [if_pos hk] at h
      exact keep (ldx_bu h) (by decide)
    rw [if_neg hk] at h
    clear hk
    by_cases hk : opc ∈ [0xA0, 0xA4, 0xB4, 0xAC, 0xBC]
    · rw [if_pos hk] at h
      exact keep (ldy_bu h) (by decide)
    rw [if_neg hk] at h
    clear hk
    by_cases hk : opc ∈ [0x4A, 0x46, 0x56, 0x4E, 0x5E]
    · rw [if_pos hk] at h
      exact keep (lsr_bu h) (by decide)
    rw [if_neg hk] at h
    clear hk
    by_cases hk : opc ∈ [0xEA]
    · rw [if_pos hk] at h
      exact keep (nop_bu h) (by decide)
    rw [if_neg hk] at h
    clear hk
    by_cases hk : opc ∈ [0x09, 0x05, 0x15, 0x0D, 0x1D, 0x19, 0x01, 0x11]
    · rw [if_pos hk] at h
      exact keep (ora_bu h) (by decide)
    rw [if_neg hk] at h
    clear hk
    by_cases hk : opc ∈ [0x48]
    · rw [if_pos hk] at h
      exact keep (pha_bu h) (by decide)
    rw [if_neg hk] at h
    clear hk
    by_cases hk : opc ∈ [0x08]
    · rw [if_pos hk] at h
      exact keep (php_bu h) (by decide)
    rw [if_neg hk] at h
    clear hk
    by_cases hk : opc ∈ [0x68]
    · rw [if_pos hk] at h
      exact keep (pla_bu h) (by decide)
    rw [if_neg hk] at h
    clear hk
    by_cases hk : opc ∈ [0x28]
    · rw [if_pos hk] at h
      exact reset (plp_bu h) (by decide)
    rw [if_neg hk] at h
    clear hk
    by_cases hk : opc ∈ [0x2A, 0x26, 0x36, 0x2E, 0x3E]
    · rw [if_pos hk] at h
      exact keep (rol_bu h) (by decide)
    rw [if_neg hk] at h
    clear hk
    by_cases hk : opc ∈ [0x6A, 0x66, 0x76, 0x6E, 0x7E]
    · rw [if_pos hk] at h
      exact keep (ror_bu h) (by decide)
    rw [if_neg hk] at h
    clear hk
    by_cases hk : opc ∈ [0x40]
    · rw [if_pos hk] at h
      exact reset (rti_bu h) (by decide)
    rw [if_neg hk] at h
    clear hk
    by_cases hk : opc ∈ [0x60]
    · rw [if_pos hk] at h
      exact keep (rts_bu h) (by decide)
    rw [if_neg hk] at h
    clear hk
    by_cases hk : opc ∈ [0xE9, 0xE5, 0xF5, 0xED, 0xFD, 0xF9, 0xE1, 0xF1]
    · rw [if_pos hk] at h
      exact keep (sbc_bu h) (by decide)
    rw [if_neg hk] at h
    clear hk
    by_cases hk : opc ∈ [0x38]
    · rw [if_pos hk] at h
      exact keep (sec_bu h) (by decide)
    rw [if_neg hk] at h
    clear hk
    by_cases hk : opc ∈ [0xF8]
    · rw [if_pos hk] at h
      exact keep (sed_bu h) (by decide)
    rw [if_neg hk] at h
    clear hk
    by_cases hk : opc ∈ [0x78]
    · rw [if_pos hk] at h
      exact keep (sei_bu h) (by decide)
    rw [if_neg hk] at h
    clear hk
    by_cases hk : opc ∈ [0x85, 0x95, 0x8D, 0x9D, 0x99, 0x81, 0x91]
    · rw [if_pos hk] at h
      exact keep (sta_bu h) (by decide)
    rw [if_neg hk] at h
    clear hk
    by_cases hk : opc ∈ [0x86, 0x96, 0x8E]
    · rw [if_pos hk] at h
      exact keep (stx_bu h) (by decide)
    rw [if_neg hk] at h
    clear hk
    by_cases hk : opc ∈ [0x84, 0x94, 0x8C]
    · rw [if_pos hk] at h
      exact keep (sty_bu h) (by decide)
    rw [if_neg hk] at h
    clear hk
    by_cases hk : opc ∈ [0xAA]
    · rw [if_pos hk] at h
      exact keep (tax_bu h) (by decide)
    rw [if_neg hk] at h
    clear hk
    by_cases hk : opc ∈ [0xA8]
    · rw [if_pos hk] at h
      exact keep (tay_bu h) (by decide)
    rw [if_neg hk] at h
    clear hk
    by_cases hk : opc ∈ [0xBA]
    · rw [if_pos hk] at h
      exact keep (tsx_bu h) (by decide)
    rw [if_neg hk] at h
    clear hk
    by_cases hk : opc ∈ [0x8A]
    · rw [if_pos hk] at h
      exact keep (txa_bu h) (by decide)
    rw [if_neg hk] at h
    clear hk
    by_cases hk : opc ∈ [0x9A]
    · rw [if_pos hk] at h
      exact keep (txs_bu h) (by decide)
    rw [if_neg hk] at h
    clear hk
    by_cases hk : opc ∈ [0x98]
    · rw [if_pos hk] at h
      exact keep (tya_bu h) (by decide)
    rw [if_neg hk] at h
    clear hk
    by_cases hk : opc ∈ [0x1A, 0x3A, 0x5A, 0x7A, 0xDA, 0xFA, 0x80, 0x82, 0x89, 0xC2, 0xE2, 0x04, 0x44,
        0x64, 0x14, 0x34, 0x54, 0x74, 0xD4, 0xF4, 0x0C, 0x1C, 0x3C, 0x5C, 0x7C, 0xDC, 0xFC]
    · rw [if_pos hk] at h
      exact keep (ill_nop_bu h) (by decide)
    rw [if_neg hk] at h
    clear hk
    simp only [Option.pure_def, Option.some.injEq, Prod.mk.injEq] at h
    obtain ⟨rfl, rfl⟩ := h
    exact ⟨fun h1 => h1, fun _ h1 => h1, fun hx => absurd hx (by decide)⟩

/-! ### C12, C13: bits B and U of the live status register -/

theorem exec_steps_u : ∀ (n : Nat) (s s' : CPU) (infos : List InstInfo),
    s.flag .u = 1 → exec_steps n s = some (s', infos) → s'.flag .u = 1 := by
  intro n
  induction n with
  | zero =>
    intro s s' infos hu h
    simp only [exec_steps, Option.some.injEq, Prod.mk.injEq] at h
    rw [← h.1]; exact hu
  | succ n ih =>
    intro s s' infos hu h
    simp only [exec_steps, Option.bind_eq_bind, Option.bind_eq_some, Option.pure_def,
      Option.some.injEq, Prod.mk.injEq] at h
    obtain ⟨r, hr, rest, hrest, rfl, -⟩ := h
    exact ih r.1 rest.1 rest.2 ((exec_inst_bu hr).1 hu) hrest

theorem exec_steps_b : ∀ (n : Nat) (s s' : CPU) (infos : List InstInfo),
    s.flag .b = 0 → exec_steps n s = some (s', infos) →
    (∀ i ∈ infos, i.inst_name ≠ "BRK") → s'.flag .b = 0 := by
  intro n
  induction n with
  | zero =>
    intro s s' infos hb h _
    simp only [exec_steps, Option.some.injEq, Prod.mk.injEq] at h
    rw [← h.1]; exact hb
  | succ n ih =>
    intro s s' infos hb h hno
    simp only [exec_steps, Option.bind_eq_bind, Option.bind_eq_some, Option.pure_def,
      Option.some.injEq, Prod.mk.injEq] at h
    obtain ⟨r, hr, rest, hrest, rfl, rfl⟩ := h
    exact ih r.1 rest.1 rest.2
      ((exec_inst_bu hr).2.1 (hno r.2 (List.mem_cons_self _ _)) hb) hrest
      (fun i hi => hno i (List.mem_cons_of_mem _ hi))

/-- C13: the reset state has U = 1; `exec_inst` returns a state with U = 1 whenever
it is entered with U = 1, for every opcode byte and memory content (PLP and RTI
included); hence U = 1 after any number of executed instructions from reset. -/
theorem u_flag_always_set (header4 : Nat) (mem : Region → Nat → Nat) :
    (CPU.init header4 mem).flag .u = 1 ∧
    (∀ (inst : Ptr) (s s' : CPU) (info : InstInfo),
      s.flag .u = 1 → exec_inst inst s = some (s', info) → s'.flag .u = 1) ∧
    (∀ (n : Nat) (s' : CPU) (infos : List InstInfo),
      exec_steps n (CPU.init header4 mem) = some (s', infos) → s'.flag .u = 1) := by
  have h0 : (CPU.init header4 mem).flag .u = 1 := by simp [CPU.init, CPU.flag, Flag.bit]
  exact ⟨h0, fun inst s s' info hu h => (exec_inst_bu h).1 hu,
    fun n s' infos h => exec_steps_u n _ s' infos h0 h⟩

theorem u_flag_always_set_witness :
    exec_steps 2 (CPU.init 1 plp_rti_mem) =
      some ({ a := 0, x := 0, y := 0, pc := 0x0000, sp := 0x01, sr := 0xEF, header4 := 1,
              mem := plp_rti_mem }, [⟨"PLP", 1⟩, ⟨"RTI", 1⟩]) ∧
    CPU.flag { a := 0, x := 0, y := 0, pc := 0x0000, sp := 0x01, sr := 0xEF, header4 := 1,
               mem := plp_rti_mem } .u = 1 :=
  ⟨by rfl, (u_flag_always_set 1 plp_rti_mem).2.2 2 _ _ (by rfl)⟩

/-- C12 (counterexample): from the reset state, executing the single instruction
`00` (BRK) at `$C000` leaves B = 1 in the live status register. -/
theorem brk_sets_b_from_reset :
    (exec_steps 1 (CPU.init 1 (prg_mem [0x00]))).map (fun r => (r.1.flag .b, r.2))
      = some (1, [⟨"BRK", 1⟩]) := by
  decide

/-- C12 (amended): the reset state has B = 0; `exec_inst` entered with B = 0
returns a state with B = 0 unless it ran `brk` (mnemonic "BRK", which happens
only for opcode `$00`); hence B = 0 after any sequence of executed instructions
from reset that contains no BRK. -/
theorem b_flag_clear_without_brk (header4 : Nat) (mem : Region → Nat → Nat) :
    (CPU.init header4 mem).flag .b = 0 ∧
    (∀ (inst : Ptr) (s s' : CPU) (info : InstInfo),
      s.flag .b = 0 → exec_inst inst s = some (s', info) →
      (info.inst_name = "BRK" → s.load inst = some 0x00) ∧
      (info.inst_name ≠ "BRK" → s'.flag .b = 0)) ∧
    (∀ (n : Nat) (s' : CPU) (infos : List InstInfo),
      exec_steps n (CPU.init header4 mem) = some (s', infos) →
      (∀ i ∈ infos, i.inst_name ≠ "BRK") → s'.flag .b = 0) := by
  have h0 : (CPU.init header4 mem).flag .b = 0 := by simp [CPU.init, CPU.flag, Flag.bit]
  exact ⟨h0, fun inst s s' info hb h => ⟨(exec_inst_bu h).2.2, fun hn => (exec_inst_bu h).2.1 hn hb⟩,
    fun n s' infos h hno => exec_steps_b n _ s' infos h0 h hno⟩

theorem b_flag_clear_without_brk_witness :
    exec_steps 2 (CPU.init 1 plp_rti_mem) =
      some ({ a := 0, x := 0, y := 0, pc := 0x0000, sp := 0x01, sr := 0xEF, header4 := 1,
              mem := plp_rti_mem }, [⟨"PLP", 1⟩, ⟨"RTI", 1⟩]) ∧
    CPU.flag { a := 0, x := 0, y := 0, pc := 0x0000, sp := 0x01, sr := 0xEF, header4 := 1,
               mem := plp_rti_mem } .b = 0 :=
  ⟨by rfl, (b_flag_clear_without_brk 1 plp_rti_mem).2.2 2 _ _ (by rfl) (by decide)⟩

/-! ### Stack and vector accesses -/

theorem access_mem_stack (h4 sp : Nat) (hsp : sp < 256) :
    access_mem h4 (0x0100 + sp) = ⟨.memory, 0x0100 + sp⟩ := by
  have h1 : (0x0100 + sp) % 65536 = 0x0100 + sp := by omega
  simp only [access_mem, h1, RAM.get_ram]
  rw [if_pos (by omega)]
  simp only [Ptr.mk.injEq, true_and]
  omega

theorem store_stack (s : CPU) (sp v : Nat) (hsp : sp < 256) :
    s.store (access_mem s.header4 (0x0100 + sp)) v =
      some { s with mem := fun r i =>
        if r = .memory ∧ i = 0x0100 + sp then v % 256 else s.mem r i } := by
  rw [access_mem_stack _ _ hsp]
  simp only [CPU.store, Region.size, RAM_SIZE]
  rw [if_pos (by omega)]

theorem load_stack (s : CPU) (sp : Nat) (hsp : sp < 256) :
    s.load (access_mem s.header4 (0x0100 + sp)) = some (s.mem .memory (0x0100 + sp)) := by
  rw [access_mem_stack _ _ hsp]
  simp only [CPU.load, Region.size, RAM_SIZE]
  rw [if_pos (by omega)]

theorem fix_endian_vector (a x y pc sp sr h4 : Nat) (mem : Region → Nat → Nat)
    (hpages : 1 ≤ h4) :
    fix_endian { a := a, x := x, y := y, pc := pc, sp := sp, sr := sr, header4 := h4, mem := mem }
        (access_mem h4 0xFFFE) =
      some ((mem (.prg_rom_pages ((h4 : Int) - 1)) 0x3FFF <<< 8
        + mem (.prg_rom_pages ((h4 : Int) - 1)) 0x3FFE) % 65536) := by
  have h1 : access_mem h4 0xFFFE = ⟨.prg_rom_pages ((h4 : Int) - 1), 0x3FFE⟩ := by
    simp [access_mem, ROM.get_prg_rom_hi]
  have h2 : (0 : Int) ≤ (h4 : Int) - 1 ∧ (h4 : Int) - 1 < (h4 : Int) := by
    omega
  simp only [fix_endian, h1, Ptr.offset, CPU.load, Region.size, PRG_ROM_PAGE_SIZE, if_pos h2]
  simp

theorem mod_lt_256 (n : Nat) : n % 256 < 256 := Nat.mod_lt _ (by decide)

theorem and_255 (x : Nat) : x &&& 0xFF = x % 256 := by
  have h : (0xFF : Nat) = 2 ^ 8 - 1 := by norm_num
  rw [h, Nat.and_pow_two_sub_one_eq_mod]

theorem shr_8 (x : Nat) : x >>> 8 = x / 256 := by
  rw [Nat.shiftRight_eq_div_pow]

theorem shl_8 (x : Nat) : x <<< 8 = x * 256 := by
  rw [Nat.shiftLeft_eq]

theorem or_16_lt (x : Nat) (h : x < 256) : x ||| 0x10 < 256 :=
  Nat.or_lt_two_pow (n := 8) h (by norm_num)

theorem load_vector (s : CPU) (hpages : 1 ≤ s.header4) :
    s.load (access_mem s.header4 0xFFFE)
      = some (s.mem (.prg_rom_pages ((s.header4 : Int) - 1)) 0x3FFE) ∧
    s.load (access_mem s.header4 0xFFFF)
      = some (s.mem (.prg_rom_pages ((s.header4 : Int) - 1)) 0x3FFF) := by
  have h1 : access_mem s.header4 0xFFFE = ⟨.prg_rom_pages ((s.header4 : Int) - 1), 0x3FFE⟩ := by
    simp [access_mem, ROM.get_prg_rom_hi]
  have h3 : access_mem s.header4 0xFFFF = ⟨.prg_rom_pages ((s.header4 : Int) - 1), 0x3FFF⟩ := by
    simp [access_mem, ROM.get_prg_rom_hi]
  have h2 : (0 : Int) ≤ (s.header4 : Int) - 1 ∧ (s.header4 : Int) - 1 < (s.header4 : Int) := by
    omega
  simp only [h1, h3, CPU.load, Region.size, PRG_ROM_PAGE_SIZE, if_pos h2]
  simp

/-! ### C11: BRK -/

/-- C11 (counterexample): BRK at `$C000` with `SP = $FD` and `P = $20` (I clear) pushes
`$C0` and then `$01`, the two bytes of `$C001` and not of `$C002`, and leaves
I = 0 while setting B = 1. -/
theorem brk_pushes_c001_and_keeps_i :
    (fetch_exec brk brk_sample).map
        (fun r => (r.1.load (access_mem 1 0x01FD), r.1.load (access_mem 1 0x01FC),
          r.1.flag .i, r.1.flag .b))
      = some (some 0xC0, some 0x01, 0, 1) := by
  decide

/-- C11 (amended): for every state with `PC = p`, `brk` returns; it has written the
high byte of `p + 1` at `$0100 + SP`, the low byte of `p + 1` at
`$0100 + (SP - 1) mod 256` and `P | $10` at `$0100 + (SP - 2) mod 256`; `SP` has
decreased by 3 modulo 256; B is 1 and every other status bit (I included) is
unchanged; A, X, Y are unchanged; and `PC` is the little-endian word stored at
`$FFFE/$FFFF`. -/
theorem brk_pushes_pc_plus_one (inst : Ptr) (s : CPU) (hsp : s.sp < 256)
    (hsr : s.sr < 256) (hpages : 1 ≤ s.header4) :
    ∃ s', brk inst s = some (s', ⟨"BRK", 1⟩) ∧
      s'.load (access_mem s.header4 (0x0100 + s.sp)) = some ((s.pc + 1) % 65536 / 256) ∧
      s'.load (access_mem s.header4 (0x0100 + (s.sp + 255) % 256)) = some ((s.pc + 1) % 256) ∧
      s'.load (access_mem s.header4 (0x0100 + (s.sp + 254) % 256)) = some (s.sr ||| 0x10) ∧
      s'.sp = (s.sp + 253) % 256 ∧
      s'.flag .b = 1 ∧ (∀ f, f ≠ .b → s'.flag f = s.flag f) ∧
      s'.a = s.a ∧ s'.x = s.x ∧ s'.y = s.y ∧
      ∃ lo hi, s.load (access_mem s.header4 0xFFFE) = some lo ∧
        s.load (access_mem s.header4 0xFFFF) = some hi ∧
        s'.pc = (lo + 256 * hi) % 65536 := by
  have h := (rfl : brk inst s = brk inst s)
  conv at h =>
    rhs
    simp only [brk, Option.bind_eq_bind, store_stack _ _ _ hsp, store_stack _ _ _ (mod_lt_256 _),
      Option.some_bind, fix_endian_vector _ _ _ _ _ _ _ _ hpages, Option.pure_def, reduceCtorEq,
      false_and, if_false]
  have hor := or_16_lt s.sr hsr
  refine ⟨_, h, ?_, ?_, ?_, ?_, ?_, ?_, rfl, rfl, rfl, ?_⟩
  · rw [access_mem_stack _ _ hsp]
    simp only [CPU.load, CPU.setFlag, Region.size, RAM_SIZE, and_255, shr_8]
    rw [if_pos (by omega)]
    simp only [true_and]
    rw [if_neg (by omega), if_neg (by omega), if_pos trivial]
    congr 1
    omega
  · rw [access_mem_stack _ _ (mod_lt_256 _)]
    simp only [CPU.load, CPU.setFlag, Region.size, RAM_SIZE, and_255, shr_8]
    rw [if_pos (by omega)]
    simp only [true_and]
    rw [if_neg (by omega), if_pos trivial]
    congr 1
    omega
  · rw [access_mem_stack _ _ (mod_lt_256 _)]
    simp only [CPU.load, CPU.setFlag, Region.size, RAM_SIZE, and_255, shr_8]
    rw [if_pos (by omega)]
    simp only [true_and]
    rw [if_pos (by omega)]
    congr 1
    omega
  · simp only [CPU.setFlag]
    omega
  · exact flag_setFlag_same _ _ _
  · intro f hf
    rw [flag_setFlag_diff _ _ _ _ (Ne.symm hf)]
    rfl
  · refine ⟨_, _, (load_vector s hpages).1, (load_vector s hpages).2, ?_⟩
    simp only [CPU.setFlag, shl_8]
    omega

theorem brk_pushes_pc_plus_one_witness :
    ∃ s', fetch_exec brk brk_sample = some (s', ⟨"BRK", 1⟩) ∧
      s'.load (access_mem 1 0x01FD) = some 0xC0 ∧
      s'.load (access_mem 1 0x01FC) = some 0x01 ∧
      s'.load (access_mem 1 0x01FB) = some 0x30 ∧
      s'.sp = 0xFA ∧ s'.flag .b = 1 := by
  obtain ⟨s', h, h1, h2, h3, h4, h5, -⟩ :=
    brk_pushes_pc_plus_one (access_mem 1 0xC000) brk_sample (by decide) (by decide) (by decide)
  exact ⟨s', h, h1, h2, h3, h4, h5⟩

/-! ### C14: JMP and `load_address` -/

theorem shl_8_add_or (hi lo : Nat) (hlo : lo < 256) : hi <<< 8 + lo = hi <<< 8 ||| lo := by
  have h := Nat.mul_add_lt_is_or (i := 8) (b := lo) (by norm_num; exact hlo) hi
  rw [shl_8, Nat.mul_comm]
  exact h

theorem or_shl_8 (lo hi : Nat) (hlo : lo < 256) : lo ||| (hi <<< 8) = hi <<< 8 + lo := by
  rw [Nat.or_comm]
  exact (shl_8_add_or hi lo hlo).symm

theorem page_wrap_addr (q : Nat) :
    (q &&& 0xFF00) ||| ((q + 1) &&& 0xFF) = (q &&& 0xFF00) + ((q + 1) &&& 0xFF) := by
  have h1 : q &&& 0xFF00 = (q >>> 8 &&& 0xFF) <<< 8 := by
    apply Nat.eq_of_testBit_eq
    intro i
    simp only [Nat.testBit_and, Nat.testBit_shiftLeft, Nat.testBit_shiftRight]
    by_cases hi : 8 ≤ i
    · have e : 8 + (i - 8) = i := by omega
      have h2 : Nat.testBit 0xFF00 i = Nat.testBit 0xFF (i - 8) := by
        have : (0xFF00 : Nat) = 0xFF <<< 8 := by decide
        rw [this, Nat.testBit_shiftLeft]
        simp [hi]
      simp [hi, e, h2]
    · have h2 : Nat.testBit 0xFF00 i = false := by
        have : i < 8 := by omega
        interval_cases i <;> rfl
      simp [hi, h2]
  rw [h1, and_255 (q + 1)]
  exact (shl_8_add_or _ _ (Nat.mod_lt _ (by norm_num))).symm

/-- C14: for every 16-bit pointer `q`, with `lo` the byte the bus returns at `q` and
`hi` the byte at `(q & $FF00) | ((q+1) & $FF)`, `load_address(q) = lo | hi << 8`;
`exec_inst` on opcode `$6C` with operand `q` returns the state with `PC` set to
that value and nothing else changed, and on opcode `$4C` with operand `t` the
state with `PC = t`. -/
theorem jmp_indirect_page_wrap (s : CPU) (q lo hi : Nat) (hq : q < 65536)
    (hlo : s.load (access_mem s.header4 q) = some lo)
    (hhi : s.load (access_mem s.header4 ((q &&& 0xFF00) ||| ((q + 1) &&& 0xFF))) = some hi)
    (hlo256 : lo < 256) (hhi256 : hi < 256) :
    load_address s q = some (lo ||| (hi <<< 8)) ∧
    (∀ inst : Ptr, s.load inst = some 0x6C → fix_endian s (inst.offset 1) = some q →
      jmp inst s = some ({ s with pc := lo ||| (hi <<< 8) }, ⟨"JMP", 3⟩) ∧
      exec_inst inst s = jmp inst s) ∧
    (∀ (inst : Ptr) (t : Nat), s.load inst = some 0x4C → fix_endian s (inst.offset 1) = some t →
      jmp inst s = some ({ s with pc := t }, ⟨"JMP", 3⟩) ∧
      exec_inst inst s = jmp inst s) := by
  have hq' : q % 65536 = q := Nat.mod_eq_of_lt hq
  rw [page_wrap_addr] at hhi
  have hla : load_address s q = some (lo ||| (hi <<< 8)) := by
    simp only [load_address, hq', hhi, hlo, Option.bind_eq_bind, Option.some_bind, Option.pure_def,
      Option.some.injEq]
    rw [or_shl_8 lo hi hlo256, shl_8]
    omega
  refine ⟨hla, ?_, ?_⟩
  · intro inst hopc hfe
    constructor
    · simp [jmp, hopc, hfe, hla]
    · simp [exec_inst, hopc]
  · intro inst t hopc hfe
    constructor
    · simp [jmp, hopc, hfe]
    · simp [exec_inst, hopc]

theorem jmp_indirect_page_wrap_witness :
    load_address jmp_sample 0x02FF = some 0x1234 ∧
    fetch_exec exec_inst jmp_sample = some ({ jmp_sample with pc := 0x1234 }, ⟨"JMP", 3⟩) := by
  obtain ⟨h1, h2, -⟩ := jmp_indirect_page_wrap jmp_sample 0x02FF 0x34 0x12 (by decide) (by decide)
    (by decide) (by decide) (by decide)
  obtain ⟨h3, h4⟩ := h2 (access_mem 1 0xC000) (by decide) (by decide)
  exact ⟨h1, h4.trans h3⟩


/-! ### C15: (Indirect,X) and (Indirect),Y -/

theorem access_mem_mod (h4 a : Nat) : access_mem h4 (a % 65536) = access_mem h4 a := by
  simp only [access_mem, Nat.mod_mod]

theorem access_mem_zp (h4 z : Nat) (hz : z < 256) : access_mem h4 z = ⟨.memory, z⟩ := by
  have h1 : z % 65536 = z := by omega
  simp only [access_mem, h1, RAM.get_ram]
  rw [if_pos (by omega)]
  simp only [Ptr.mk.injEq, true_and]
  omega

theorem load_zp (s : CPU) (z : Nat) (hz : z < 256) :
    s.load (access_mem s.header4 z) = some (s.mem .memory z) := by
  rw [access_mem_zp _ _ hz]
  simp only [CPU.load, Region.size, RAM_SIZE]
  rw [if_pos (by omega)]

theorem and_ff00_zp (z : Nat) (hz : z < 256) : z &&& 0xFF00 = 0 := by
  interval_cases z <;> rfl

theorem load_address_zp (s : CPU) (z : Nat) (hz : z < 256)
    (hmem : ∀ i, s.mem .memory i < 256) :
    load_address s z = some (s.mem .memory z ||| (s.mem .memory ((z + 1) % 256) <<< 8)) := by
  have h1 : z % 65536 = z := by omega
  have h2 := hmem z
  have h3 := hmem ((z + 1) % 256)
  simp only [load_address, h1, and_ff00_zp z hz, and_255, Nat.zero_add,
    load_zp s _ (mod_lt_256 (z + 1)), load_zp s z hz, Option.bind_eq_bind, Option.some_bind,
    Option.pure_def, Option.some.injEq]
  rw [or_shl_8 _ _ h2, shl_8]
  omega

theorem indirect_x_spec (s : CPU) (inst : Ptr) (b : Nat)
    (hb : s.load (inst.offset 1) = some b) (hmem : ∀ i, s.mem .memory i < 256) :
    indirect_x inst s = (spec_indirect_x s b).map (access_mem s.header4) := by
  have hz := mod_lt_256 (b + s.x)
  simp only [indirect_x, spec_indirect_x, hb, load_address_zp s _ hz hmem, load_zp s _ hz,
    load_zp s _ (mod_lt_256 ((b + s.x) % 256 + 1)), Option.bind_eq_bind, Option.some_bind,
    Option.pure_def, Option.map_some']

theorem indirect_y_spec (s : CPU) (inst : Ptr) (b : Nat)
    (hb : s.load (inst.offset 1) = some b) (hb256 : b < 256)
    (hmem : ∀ i, s.mem .memory i < 256) :
    indirect_y inst s = (spec_indirect_y s b).map (access_mem s.header4) := by
  have hb' : b % 256 = b := Nat.mod_eq_of_lt hb256
  simp only [indirect_y, spec_indirect_y, hb, hb', load_address_zp s _ hb256 hmem,
    load_zp s _ hb256, load_zp s _ (mod_lt_256 (b + 1)), Option.bind_eq_bind, Option.some_bind,
    Option.pure_def, Option.map_some', access_mem_mod]

/-- C15: with operand byte `b`, the (Indirect,X) expression of the handlers resolves
the address `mem[z] | mem[(z+1) mod 256] << 8`, `z = (b + X) mod 256`, and the
(Indirect),Y expression resolves `((mem[b] | mem[(b+1) mod 256] << 8) + Y) mod 65536`
(both addresses always exist, the pointer bytes being read inside the zero
page); and each of the sixteen opcodes of ADC, AND, CMP, EOR, LDA, ORA, SBC and STA
in these two modes takes its operand at that address, with length 2. -/
theorem indirect_modes (s : CPU) (inst : Ptr) (b : Nat)
    (hb : s.load (inst.offset 1) = some b) (hb256 : b < 256)
    (hmem : ∀ i, s.mem .memory i < 256) :
    (∃ ax ay, spec_indirect_x s b = some ax ∧ spec_indirect_y s b = some ay ∧
      indirect_x inst s = some (access_mem s.header4 ax) ∧
      indirect_y inst s = some (access_mem s.header4 ay) ∧
      (s.load inst = some 0x61 →
        adc_operand inst s = (s.load (access_mem s.header4 ax)).map (fun v => (v, 2))) ∧
      (s.load inst = some 0x71 →
        adc_operand inst s = (s.load (access_mem s.header4 ay)).map (fun v => (v, 2))) ∧
      (s.load inst = some 0x21 →
        and__operand inst s = (s.load (access_mem s.header4 ax)).map (fun v => (v, 2))) ∧
      (s.load inst = some 0x31 →
        and__operand inst s = (s.load (access_mem s.header4 ay)).map (fun v => (v, 2))) ∧
      (s.load inst = some 0xC1 →
        cmp_operand inst s = (s.load (access_mem s.header4 ax)).map (fun v => (v, 2))) ∧
      (s.load inst = some 0xD1 →
        cmp_operand inst s = (s.load (access_mem s.header4 ay)).map (fun v => (v, 2))) ∧
      (s.load inst = some 0x41 →
        eor_operand inst s = (s.load (access_mem s.header4 ax)).map (fun v => (v, 2))) ∧
      (s.load inst = some 0x51 →
        eor_operand inst s = (s.load (access_mem s.header4 ay)).map (fun v => (v, 2))) ∧
      (s.load inst = some 0xA1 →
        lda_operand inst s = (s.load (access_mem s.header4 ax)).map (fun v => (v, 2))) ∧
      (s.load inst = some 0xB1 →
        lda_operand inst s = (s.load (access_mem s.header4 ay)).map (fun v => (v, 2))) ∧
      (s.load inst = some 0x01 →
        ora_operand inst s = (s.load (access_mem s.header4 ax)).map (fun v => (v, 2))) ∧
      (s.load inst = some 0x11 →
        ora_operand inst s = (s.load (access_mem s.header4 ay)).map (fun v => (v, 2))) ∧
      (s.load inst = some 0xE1 →
        sbc_operand inst s = (s.load (access_mem s.header4 ax)).map (fun v => (v, 2))) ∧
      (s.load inst = some 0xF1 →
        sbc_operand inst s = (s.load (access_mem s.header4 ay)).map (fun v => (v, 2))) ∧
      (s.load inst = some 0x81 → sta_operand inst s = some (access_mem s.header4 ax, 2)) ∧
      (s.load inst = some 0x91 → sta_operand inst s = some (access_mem s.header4 ay, 2))) := by
  have hx := indirect_x_spec s inst b hb hmem
  have hy := indirect_y_spec s inst b hb hb256 hmem
  have hz := mod_lt_256 (b + s.x)
  have sx : spec_indirect_x s b = some (s.mem .memory ((b + s.x) % 256) |||
      (s.mem .memory (((b + s.x) % 256 + 1) % 256) <<< 8)) := by
    simp only [spec_indirect_x, load_zp s _ hz, load_zp s _ (mod_lt_256 ((b + s.x) % 256 + 1)),
      Option.bind_eq_bind, Option.some_bind, Option.pure_def]
  have sy : spec_indirect_y s b = some (((s.mem .memory b |||
      (s.mem .memory ((b + 1) % 256) <<< 8)) + s.y) % 65536) := by
    simp only [spec_indirect_y, load_zp s _ hb256, load_zp s _ (mod_lt_256 (b + 1)),
      Option.bind_eq_bind, Option.some_bind, Option.pure_def]
  rw [sx, Option.map_some'] at hx
  rw [sy, Option.map_some'] at hy
  have hx' := hx
  have hy' := hy
  simp only [indirect_x, hb, Option.bind_eq_bind, Option.some_bind] at hx'
  simp only [indirect_y, hb, Option.bind_eq_bind, Option.some_bind] at hy'
  refine ⟨_, _, sx, sy, hx, hy, ?_, ?_, ?_, ?_, ?_, ?_, ?_, ?_, ?_, ?_, ?_, ?_, ?_, ?_, ?_, ?_⟩
  all_goals intro hopc
  all_goals
    simp only [adc_operand, sbc_operand, and__operand, cmp_operand, eor_operand, lda_operand,
      ora_operand, sta_operand, hopc, hb, hx, hy, load_address_zp s _ hz hmem,
      load_address_zp s _ hb256 hmem, Nat.mod_eq_of_lt hb256, access_mem_mod,
      Option.bind_eq_bind, Option.some_bind, Option.pure_def, Option.some.injEq,
      Nat.reduceEqDiff, if_false, if_true]
  all_goals first
    | rfl
    | (cases s.load (access_mem s.header4 _) <;> rfl)

theorem indirect_modes_witness :
    spec_indirect_x ind_sample 0x80 = some 0x1234 ∧
    spec_indirect_y ind_sample 0x80 = some 0x0001 ∧
    indirect_x (access_mem 1 0xC000) ind_sample = some (access_mem 1 0x1234) ∧
    lda_operand (access_mem 1 0xC000) ind_sample
      = (ind_sample.load (access_mem 1 0x1234)).map (fun v => (v, 2)) := by
  have hmem : ∀ i, ind_sample.mem .memory i < 256 := by
    intro i
    simp only [ind_sample, CPU.init, ind_mem]
    split_ifs <;> simp
  obtain ⟨ax, ay, hsx, hsy, hix, -, -, -, -, -, -, -, -, -, hlda, -⟩ :=
    indirect_modes ind_sample (access_mem 1 0xC000) 0x80 (by decide) (by decide) hmem
  have ex : spec_indirect_x ind_sample 0x80 = some 0x1234 := by decide
  have ey : spec_indirect_y ind_sample 0x80 = some 0x0001 := by decide
  have hax : ax = 0x1234 := Option.some.inj (hsx.symm.trans ex)
  subst hax
  exact ⟨ex, ey, hix, hlda (by decide)⟩


/-! ### C16: ROL/ROR round trip -/

theorem load_eq_some {s : CPU} {p : Ptr} {m : Nat} (h : s.load p = some m) :
    p.idx < p.region.size s.header4 ∧ s.mem p.region p.idx = m := by
  unfold CPU.load at h
  split at h
  · exact ⟨by assumption, Option.some.inj h⟩
  · exact absurd h (by simp)

theorem shl_1 (x : Nat) : x <<< 1 = 2 * x := by
  rw [Nat.shiftLeft_eq]; omega

theorem shr_1 (x : Nat) : x >>> 1 = x / 2 := by
  rw [Nat.shiftRight_eq_div_pow]

theorem shl_7 (x : Nat) : x <<< 7 = x * 128 := by
  rw [Nat.shiftLeft_eq]

theorem and_7F (x : Nat) : x &&& 0x7F = x % 128 := by
  have h : (0x7F : Nat) = 2 ^ 7 - 1 := by norm_num
  rw [h, Nat.and_pow_two_sub_one_eq_mod]

theorem and_1 (x : Nat) : x &&& 0x01 = x % 2 := by
  have h : (0x01 : Nat) = 2 ^ 1 - 1 := by norm_num
  rw [h, Nat.and_pow_two_sub_one_eq_mod]

theorem rol_step (s : CPU) (inst : Ptr) (loc : Loc) (n M : Nat)
    (hop : rol_operand inst s = some (loc, n)) (hM : s.get loc = some M) (hM256 : M < 256) :
    ∃ s1, rol inst s = some (s1, ⟨"ROL", n⟩) ∧
      s1.get loc = some ((2 * M + s.flag .c) % 256) ∧ s1.flag .c = M / 128 := by
  have hc := flag_lt_two s .c
  cases loc with
  | reg_a =>
    simp only [CPU.get, Option.some.injEq] at hM
    have h := (rfl : rol inst s = rol inst s)
    conv at h =>
      rhs
      simp only [rol, hop, CPU.get, CPU.put, Option.bind_eq_bind, Option.some_bind,
        Option.pure_def]
    refine ⟨_, h, ?_, ?_⟩
    · simp only [CPU.get, setFlag_a, shl_1, hM]
    · simp only [flag_setFlag, sign_bit_eq, hM]
      simp
      omega
  | «at» p =>
    obtain ⟨hp, hm⟩ := load_eq_some hM
    have h := (rfl : rol inst s = rol inst s)
    conv at h =>
      rhs
      simp only [rol, hop, CPU.get, CPU.put, CPU.load, CPU.store, hp, if_true, hm,
        Option.bind_eq_bind, Option.some_bind, Option.pure_def, setFlag_mem, setFlag_header4,
        and_self]
    refine ⟨_, h, ?_, ?_⟩
    · simp only [CPU.get, CPU.load, setFlag_mem, setFlag_header4, hp, if_true, and_self, shl_1]
    · simp only [flag_setFlag, sign_bit_eq]
      simp
      omega

theorem ror_step (s : CPU) (inst : Ptr) (loc : Loc) (n M : Nat)
    (hop : ror_operand inst s = some (loc, n)) (hM : s.get loc = some M) (hM256 : M < 256) :
    ∃ s1, ror inst s = some (s1, ⟨"ROR", n⟩) ∧
      s1.get loc = some (M / 2 + s.flag .c * 128) ∧ s1.flag .c = M % 2 := by
  have hc := flag_lt_two s .c
  cases loc with
  | reg_a =>
    simp only [CPU.get, Option.some.injEq] at hM
    have h := (rfl : ror inst s = ror inst s)
    conv at h =>
      rhs
      simp only [ror, hop, CPU.get, CPU.put, Option.bind_eq_bind, Option.some_bind,
        Option.pure_def]
    refine ⟨_, h, ?_, ?_⟩
    · simp only [CPU.get, setFlag_a, shr_1, shl_7, and_7F, hM, Option.some.injEq]
      omega
    · simp only [flag_setFlag, and_1, hM]
      simp
  | «at» p =>
    obtain ⟨hp, hm⟩ := load_eq_some hM
    have h := (rfl : ror inst s = ror inst s)
    conv at h =>
      rhs
      simp only [ror, hop, CPU.get, CPU.put, CPU.load, CPU.store, hp, if_true, hm,
        Option.bind_eq_bind, Option.some_bind, Option.pure_def, setFlag_mem, setFlag_header4,
        and_self]
    refine ⟨_, h, ?_, ?_⟩
    · simp only [CPU.get, CPU.load, setFlag_mem, setFlag_header4, hp, if_true, and_self, shr_1,
        shl_7, and_7F, Option.some.injEq]
      omega
    · simp only [flag_setFlag, and_1]
      simp

/-- C16: for a location holding the byte `M`, when the switch of `rol` selects it,
`rol` returns, and when the switch of `ror` then selects the same location, `ror`
returns with the location holding `M` again and the carry equal to the carry
before the pair; likewise for `ror` followed by `rol`. -/
theorem rol_ror_round_trip (s : CPU) (i1 i2 : Ptr) (loc : Loc) (n1 n2 M : Nat)
    (hM : s.get loc = some M) (hM256 : M < 256) :
    (rol_operand i1 s = some (loc, n1) →
      ∃ s1, rol i1 s = some (s1, ⟨"ROL", n1⟩) ∧
        (ror_operand i2 s1 = some (loc, n2) →
          ∃ s2, ror i2 s1 = some (s2, ⟨"ROR", n2⟩) ∧
            s2.get loc = some M ∧ s2.flag .c = s.flag .c)) ∧
    (ror_operand i1 s = some (loc, n1) →
      ∃ s1, ror i1 s = some (s1, ⟨"ROR", n1⟩) ∧
        (rol_operand i2 s1 = some (loc, n2) →
          ∃ s2, rol i2 s1 = some (s2, ⟨"ROL", n2⟩) ∧
            s2.get loc = some M ∧ s2.flag .c = s.flag .c)) := by
  have hc := flag_lt_two s .c
  constructor
  · intro hop
    obtain ⟨s1, h1, hg1, hc1⟩ := rol_step s i1 loc n1 M hop hM hM256
    refine ⟨s1, h1, fun hop2 => ?_⟩
    obtain ⟨s2, h2, hg2, hc2⟩ :=
      ror_step s1 i2 loc n2 _ hop2 hg1 (Nat.mod_lt _ (by norm_num))
    refine ⟨s2, h2, ?_, ?_⟩
    · rw [hg2, hc1, Option.some.injEq]; omega
    · rw [hc2]; omega
  · intro hop
    obtain ⟨s1, h1, hg1, hc1⟩ := ror_step s i1 loc n1 M hop hM hM256
    refine ⟨s1, h1, fun hop2 => ?_⟩
    obtain ⟨s2, h2, hg2, hc2⟩ :=
      rol_step s1 i2 loc n2 _ hop2 hg1 (by omega)
    refine ⟨s2, h2, ?_, ?_⟩
    · rw [hg2, hc1, Option.some.injEq]; omega
    · rw [hc2]; omega

theorem rol_ror_round_trip_witness :
    ∃ s1 s2, rol (access_mem 1 0xC000) rot_sample = some (s1, ⟨"ROL", 2⟩) ∧
      ror (access_mem 1 0xC002) s1 = some (s2, ⟨"ROR", 2⟩) ∧
      s2.get (.at (access_mem 1 0x10)) = some 0xB5 ∧ s2.flag .c = 1 := by
  obtain ⟨s1, h1, h2⟩ := (rol_ror_round_trip rot_sample (access_mem 1 0xC000)
    (access_mem 1 0xC002) (.at (access_mem 1 0x10)) 2 2 0xB5 (by decide) (by decide)).1
    (by decide)
  have hs : ror_operand (access_mem 1 0xC002) s1 = some (.at (access_mem 1 0x10), 2) := by
    have e : (rol (access_mem 1 0xC000) rot_sample).map
        (fun r => ror_operand (access_mem 1 0xC002) r.1)
        = some (some (.at (access_mem 1 0x10), 2)) := by decide
    rw [h1, Option.map_some', Option.some.injEq] at e
    exact e
  obtain ⟨s2, h3, h4, h5⟩ := h2 hs
  exact ⟨s1, s2, h1, h3, h4, h5.trans (by decide)⟩


/-! ### C17, C18: PHA/PLA and PHP/PLP -/

theorem pla_spec (t : CPU) (inst : Ptr) :
    ∃ t', pla inst t = some (t', ⟨"PLA", 1⟩) ∧
      t'.a = t.mem .memory (0x0100 + (t.sp + 1) % 256) ∧
      t'.sp = (t.sp + 1) % 256 ∧ t'.pc = (t.pc + 1) % 65536 ∧
      t'.flag .z = b2i (t'.a == 0) % 2 ∧ t'.flag .n = sign_bit t'.a % 2 := by
  have h := (rfl : pla inst t = pla inst t)
  conv at h =>
    rhs
    simp only [pla, Option.bind_eq_bind, load_stack _ _ (mod_lt_256 _), Option.some_bind,
      Option.pure_def]
  refine ⟨_, h, rfl, rfl, rfl, ?_, ?_⟩
  · rw [flag_setFlag_diff _ _ _ _ (by decide), flag_setFlag_same]
    rfl
  · rw [flag_setFlag_same]
    rfl

/-- C17: for every `A` and `SP`, `pha` returns with `SP` decremented modulo 256, and
`pla` executed afterwards, whatever value `A` has taken in between, returns with
`A` equal to the pushed value, Z = 1 exactly when it is 0, N equal to its bit 7,
`SP` back at its original value and `PC` advanced by 2 modulo 65536. -/
theorem pha_pla_round_trip (s : CPU) (i1 i2 : Ptr) (hA : s.a < 256) (hsp : s.sp < 256) :
    ∃ s1, pha i1 s = some (s1, ⟨"PHA", 1⟩) ∧ s1.sp = (s.sp + 255) % 256 ∧
      ∀ a' : Nat, ∃ s2, pla i2 { s1 with a := a' } = some (s2, ⟨"PLA", 1⟩) ∧
        s2.a = s.a ∧ (s2.flag .z = 1 ↔ s.a = 0) ∧ s2.flag .n = s.a / 128 ∧
        s2.sp = s.sp ∧ s2.pc = (s.pc + 2) % 65536 := by
  have h := (rfl : pha i1 s = pha i1 s)
  conv at h =>
    rhs
    simp only [pha, Option.bind_eq_bind, store_stack _ _ _ hsp, Option.some_bind, Option.pure_def]
  refine ⟨_, h, rfl, fun a' => ?_⟩
  have e : 0x0100 + ((s.sp + 255) % 256 + 1) % 256 = 0x0100 + s.sp := by omega
  obtain ⟨s2, h2, ha, hsp2, hpc2, hz, hn⟩ := pla_spec
    { a := a', x := s.x, y := s.y, pc := (s.pc + 1) % 65536, sp := (s.sp + 255) % 256,
      sr := s.sr, header4 := s.header4,
      mem := fun r i => if r = Region.memory ∧ i = 0x0100 + s.sp then s.a % 256 else s.mem r i }
    i2
  simp only [e, and_self, if_true, Nat.mod_eq_of_lt hA] at ha
  refine ⟨s2, h2, ha, ?_, ?_, ?_, ?_⟩
  · rw [hz, ha]
    simp only [b2i]
    by_cases h0 : s.a = 0 <;> simp [h0]
  · rw [hn, ha, sign_bit_eq]
    omega
  · rw [hsp2]
    show ((s.sp + 255) % 256 + 1) % 256 = s.sp
    omega
  · rw [hpc2]
    show ((s.pc + 1) % 65536 + 1) % 65536 = (s.pc + 2) % 65536
    omega

theorem plp_bits (v : Nat) (hv : v < 256) :
    v - v / 2 ^ 4 % 2 * 2 ^ 4 + 0 % 2 * 2 ^ 4
        - (v - v / 2 ^ 4 % 2 * 2 ^ 4 + 0 % 2 * 2 ^ 4) / 2 ^ 5 % 2 * 2 ^ 5 + 1 % 2 * 2 ^ 5
      = (v &&& 0xEF) ||| 0x20 := by
  interval_cases v <;> rfl

theorem plp_bits_fix (v : Nat) (hv : v < 256) (hb : v / 2 ^ 4 % 2 = 0) (hu : v / 2 ^ 5 % 2 = 1) :
    (v &&& 0xEF) ||| 0x20 = v := by
  interval_cases v <;> first | rfl | (exfalso; revert hb hu; decide)

theorem plp_spec (t : CPU) (inst : Ptr) (v : Nat)
    (hv : t.load (access_mem t.header4 (0x0100 + (t.sp + 1) % 256)) = some v) (hv256 : v < 256) :
    ∃ t', plp inst t = some (t', ⟨"PLP", 1⟩) ∧ t'.sr = (v &&& 0xEF) ||| 0x20 ∧
      t'.flag .b = 0 ∧ t'.flag .u = 1 ∧ t'.sp = (t.sp + 1) % 256 := by
  rw [load_stack _ _ (mod_lt_256 _), Option.some.injEq] at hv
  have h2 := (rfl : plp inst t = plp inst t)
  conv at h2 =>
    rhs
    simp only [plp, Option.bind_eq_bind, load_stack _ _ (mod_lt_256 _), hv, Option.some_bind,
      Option.pure_def]
  refine ⟨_, h2, ?_, ?_, ?_, rfl⟩
  · simp only [CPU.setFlag, Flag.bit]
    rw [plp_bits _ hv256]
  · rw [flag_setFlag_diff _ _ _ _ (by decide), flag_setFlag_same]
  · rw [flag_setFlag_same]

/-- C18: `php` stores `P | $10` at `$0100 + SP`, decrements `SP` modulo 256 and leaves
`P` unchanged; `plp` loads the byte `v` at `$0100 + (SP+1) mod 256` as
`P = (v AND $EF) OR $20` (B = 0, U = 1); `php` followed by `plp` gives
`P' = (P AND $EF) OR $20` and the original `SP`, and `P' = P` when U = 1 and B = 0. -/
theorem php_plp (s : CPU) (i1 i2 : Ptr) (hsp : s.sp < 256) (hsr : s.sr < 256) :
    (∃ s1, php i1 s = some (s1, ⟨"PHP", 1⟩) ∧
      s1.load (access_mem s.header4 (0x0100 + s.sp)) = some (s.sr ||| 0x10) ∧
      s1.sp = (s.sp + 255) % 256 ∧ s1.sr = s.sr ∧
      ∃ s2, plp i2 s1 = some (s2, ⟨"PLP", 1⟩) ∧
        s2.sr = (s.sr &&& 0xEF) ||| 0x20 ∧ s2.sp = s.sp ∧
        (s.flag .u = 1 → s.flag .b = 0 → s2.sr = s.sr)) ∧
    (∀ v : Nat, s.load (access_mem s.header4 (0x0100 + (s.sp + 1) % 256)) = some v → v < 256 →
      ∃ s', plp i2 s = some (s', ⟨"PLP", 1⟩) ∧ s'.sr = (v &&& 0xEF) ||| 0x20 ∧
        s'.flag .b = 0 ∧ s'.flag .u = 1 ∧ s'.sp = (s.sp + 1) % 256) := by
  have hor := or_16_lt s.sr hsr
  refine ⟨?_, fun v hv hv256 => plp_spec s i2 v hv hv256⟩
  have h := (rfl : php i1 s = php i1 s)
  conv at h =>
    rhs
    simp only [php, Option.bind_eq_bind, store_stack _ _ _ hsp, Option.some_bind,
      Option.pure_def]
  have e : (0x0100 : Nat) + ((s.sp + 255) % 256 + 1) % 256 = 0x0100 + s.sp := by omega
  have hbits : ((s.sr ||| 0x10) &&& 0xEF) ||| 0x20 = (s.sr &&& 0xEF) ||| 0x20 := by
    have := hsr
    interval_cases s.sr <;> rfl
  obtain ⟨s2, h2, hsr2, -, -, hsp2⟩ := plp_spec
    { a := s.a, x := s.x, y := s.y, pc := (s.pc + 1) % 65536, sp := (s.sp + 255) % 256,
      sr := s.sr, header4 := s.header4,
      mem := fun r i => if r = Region.memory ∧ i = 0x0100 + s.sp then (s.sr ||| 0x10) % 256
        else s.mem r i }
    i2 (s.sr ||| 0x10)
    (by
      rw [load_stack _ _ (mod_lt_256 _)]
      simp only [e, and_self, if_true, Nat.mod_eq_of_lt hor]) hor
  refine ⟨_, h, ?_, rfl, rfl, s2, h2, ?_, ?_, ?_⟩
  · rw [access_mem_stack _ _ hsp]
    simp only [CPU.load, Region.size, RAM_SIZE]
    rw [if_pos (by omega)]
    simp only [and_self, if_true, Nat.mod_eq_of_lt hor]
  · rw [hsr2, hbits]
  · rw [hsp2]
    show ((s.sp + 255) % 256 + 1) % 256 = s.sp
    omega
  · intro hu hb
    rw [hsr2, hbits]
    exact plp_bits_fix _ hsr hb hu

theorem pha_pla_round_trip_witness :
    ∃ s1, pha (access_mem 1 0xC000) pha_sample = some (s1, ⟨"PHA", 1⟩) ∧ s1.sp = 0xFF ∧
      ∃ s2, pla (access_mem 1 0xC001) { s1 with a := 0x00 } = some (s2, ⟨"PLA", 1⟩) ∧
        s2.a = 0x80 ∧ s2.flag .n = 1 ∧ s2.sp = 0x00 ∧ s2.pc = 0xC002 := by
  obtain ⟨s1, h1, h2, h3⟩ := pha_pla_round_trip pha_sample (access_mem 1 0xC000)
    (access_mem 1 0xC001) (by decide) (by decide)
  obtain ⟨s2, h4, h5, -, h6, h7, h8⟩ := h3 0x00
  exact ⟨s1, h1, h2, s2, h4, h5, h6, h7, h8⟩


theorem php_plp_witness :
    ∃ s1 s2, php (access_mem 1 0xC000) (CPU.init 1 zero_mem) = some (s1, ⟨"PHP", 1⟩) ∧
      s1.load (access_mem 1 0x01FD) = some 0x34 ∧
      plp (access_mem 1 0xC001) s1 = some (s2, ⟨"PLP", 1⟩) ∧
      s2.sr = 0x24 ∧ s2.sp = 0xFD := by
  obtain ⟨s1, h1, h2, -, -, s2, h3, h4, h5, -⟩ := (php_plp (CPU.init 1 zero_mem)
    (access_mem 1 0xC000) (access_mem 1 0xC001) (by decide) (by decide)).1
  exact ⟨s1, s2, h1, h2, h3, h4, h5⟩


/-! ### C19: JSR -/

/-- C19 (counterexample): a `JSR $C010` located at `$01FB` with `SP = $FD` has its
operand bytes at `$01FC/$01FD`, the two stack slots it writes; `jsr` reads the
operand after the writes and sets `PC = $01FD`, not `$C010`. -/
theorem jsr_operand_overwritten :
    fix_endian jsr_stack_sample ((access_mem 1 0x01FB).offset 1) = some 0xC010 ∧
    (fetch_exec jsr jsr_stack_sample).map (fun r => (r.2, r.1.pc, r.1.sp))
      = some (⟨"JSR", 3⟩, 0x01FD, 0xFB) := by
  constructor <;> decide


/-- C19 (amended): for every state whose operand bytes `inst[1]`, `inst[2]` are not the
two stack bytes at `$0100 + SP` and `$0100 + (SP-1) mod 256` (in particular for
every JSR outside work RAM), with `t` the 16-bit operand, `jsr` returns; it has
written the high byte of `PC + 2` at `$0100 + SP` and the low byte at
`$0100 + (SP-1) mod 256`; `SP` has decreased by 2 modulo 256; `PC = t`; and
A, X, Y and the status register are unchanged. -/
theorem jsr_semantics (inst : Ptr) (s : CPU) (t : Nat) (hsp : s.sp < 256)
    (hop : fix_endian s (inst.offset 1) = some t)
    (hno : inst.region = .memory → ∀ k : Nat, k = 1 ∨ k = 2 →
      inst.idx + k ≠ 0x0100 + s.sp ∧ inst.idx + k ≠ 0x0100 + (s.sp + 255) % 256) :
    ∃ s', jsr inst s = some (s', ⟨"JSR", 3⟩) ∧
      s'.load (access_mem s.header4 (0x0100 + s.sp)) = some ((s.pc + 2) % 65536 / 256) ∧
      s'.load (access_mem s.header4 (0x0100 + (s.sp + 255) % 256)) = some ((s.pc + 2) % 256) ∧
      s'.sp = (s.sp + 254) % 256 ∧ s'.pc = t ∧
      s'.a = s.a ∧ s'.x = s.x ∧ s'.y = s.y ∧ s'.sr = s.sr := by
  -- the operand bytes are the same before and after the two stack writes
  have hfe : ∀ (a x y pc sp sr : Nat),
      fix_endian (CPU.mk a x y pc sp sr s.header4
        (fun r i =>
          if r = Region.memory ∧ i = 0x0100 + (s.sp + 255) % 256 then
            (((s.pc + 2) % 65536) &&& 0xFF) % 256
          else if r = Region.memory ∧ i = 0x0100 + s.sp then
            ((((s.pc + 2) % 65536) >>> 8) &&& 0xFF) % 256
          else s.mem r i)) (inst.offset 1) = some t := by
    intro a x y pc sp sr
    rw [← hop]
    simp only [fix_endian, CPU.load, Ptr.offset]
    by_cases hr : inst.region = Region.memory
    · obtain ⟨h1a, h1b⟩ := hno hr 1 (Or.inl rfl)
      obtain ⟨h2a, h2b⟩ := hno hr 2 (Or.inr rfl)
      have h2a' : ¬ (inst.idx + 1 + 1 = 0x0100 + s.sp) := by omega
      have h2b' : ¬ (inst.idx + 1 + 1 = 0x0100 + (s.sp + 255) % 256) := by omega
      simp only [h1a, h1b, h2a', h2b', and_false, if_false]
    · simp only [hr, false_and, if_false]
  have h := (rfl : jsr inst s = jsr inst s)
  conv at h =>
    rhs
    simp only [jsr, Option.bind_eq_bind, store_stack _ _ _ hsp, store_stack _ _ _ (mod_lt_256 _),
      Option.some_bind, Option.pure_def, hfe]
  refine ⟨_, h, ?_, ?_, ?_, rfl, rfl, rfl, rfl, rfl⟩
  · rw [access_mem_stack _ _ hsp]
    simp only [CPU.load, Region.size, RAM_SIZE, and_255, shr_8]
    rw [if_pos (by omega)]
    simp only [true_and]
    rw [if_neg (by omega), if_pos trivial]
    congr 1
    omega
  · rw [access_mem_stack _ _ (mod_lt_256 _)]
    simp only [CPU.load, Region.size, RAM_SIZE, and_255, shr_8]
    rw [if_pos (by omega)]
    simp only [true_and, if_true]
    congr 1
    omega
  · show ((s.sp + 255) % 256 + 255) % 256 = (s.sp + 254) % 256
    omega

theorem jsr_semantics_witness :
    ∃ s', fetch_exec jsr (jsr_sample 0xFD) = some (s', ⟨"JSR", 3⟩) ∧
      s'.load (access_mem 1 0x01FD) = some 0xC0 ∧
      s'.load (access_mem 1 0x01FC) = some 0x02 ∧
      s'.sp = 0xFB ∧ s'.pc = 0xC010 := by
  obtain ⟨s', h, h1, h2, h3, h4, -⟩ := jsr_semantics (access_mem 1 0xC000) (jsr_sample 0xFD)
    0xC010 (by decide) (by decide) (fun hr => absurd hr (by decide))
  exact ⟨s', h, h1, h2, h3, h4⟩


/-! ### C20: branches -/

theorem branch_taken_eq (s : CPU) (inst : Ptr) (off : Nat)
    (hoff : s.load (inst.offset 1) = some off) (hoff256 : off < 256) :
    (branch_taken inst s).map (fun t => { t with pc := (t.pc + 2) % 65536 })
      = some { s with pc := spec_branch_target s.pc off } := by
  simp only [branch_taken, hoff, Option.bind_eq_bind, Option.some_bind, Option.pure_def,
    Option.map_some', Option.some.injEq, spec_branch_target, int8, Nat.mod_eq_of_lt hoff256]
  congr 1
  split_ifs <;> omega

/-- C20: for each branch opcode (`$90` BCC, `$B0` BCS, `$D0` BNE, `$F0` BEQ, `$10` BPL,
`$30` BMI, `$50` BVC, `$70` BVS) with offset byte `off`, `exec_inst` returns the
input state with only `PC` changed: to `(PC + 2 + signext8(off)) mod 65536` when
the predicate on the flag holds and to `(PC + 2) mod 65536` otherwise. -/
theorem branch_semantics (s : CPU) (inst : Ptr) (off : Nat)
    (hoff : s.load (inst.offset 1) = some off) (hoff256 : off < 256) :
    (s.load inst = some 0x90 → exec_inst inst s = some
      ({ s with pc := if s.flag .c = 0 then spec_branch_target s.pc off else (s.pc + 2) % 65536 },
        ⟨"BCC", 2⟩)) ∧
    (s.load inst = some 0xB0 → exec_inst inst s = some
      ({ s with pc := if s.flag .c = 1 then spec_branch_target s.pc off else (s.pc + 2) % 65536 },
        ⟨"BCS", 2⟩)) ∧
    (s.load inst = some 0xD0 → exec_inst inst s = some
      ({ s with pc := if s.flag .z = 0 then spec_branch_target s.pc off else (s.pc + 2) % 65536 },
        ⟨"BNE", 2⟩)) ∧
    (s.load inst = some 0xF0 → exec_inst inst s = some
      ({ s with pc := if s.flag .z = 1 then spec_branch_target s.pc off else (s.pc + 2) % 65536 },
        ⟨"BEQ", 2⟩)) ∧
    (s.load inst = some 0x10 → exec_inst inst s = some
      ({ s with pc := if s.flag .n = 0 then spec_branch_target s.pc off else (s.pc + 2) % 65536 },
        ⟨"BPL", 2⟩)) ∧
    (s.load inst = some 0x30 → exec_inst inst s = some
      ({ s with pc := if s.flag .n = 1 then spec_branch_target s.pc off else (s.pc + 2) % 65536 },
        ⟨"BMI", 2⟩)) ∧
    (s.load inst = some 0x50 → exec_inst inst s = some
      ({ s with pc := if s.flag .v = 0 then spec_branch_target s.pc off else (s.pc + 2) % 65536 },
        ⟨"BVC", 2⟩)) ∧
    (s.load inst = some 0x70 → exec_inst inst s = some
      ({ s with pc := if s.flag .v = 1 then spec_branch_target s.pc off else (s.pc + 2) % 65536 },
        ⟨"BVS", 2⟩)) := by
  have hb := branch_taken_eq s inst off hoff hoff256
  have hc := flag_lt_two s .c
  have hz := flag_lt_two s .z
  have hn := flag_lt_two s .n
  have hv := flag_lt_two s .v
  cases hbt : branch_taken inst s with
  | none => rw [hbt] at hb; exact absurd hb (by simp)
  | some t =>
    rw [hbt, Option.map_some', Option.some.injEq] at hb
    refine ⟨?_, ?_, ?_, ?_, ?_, ?_, ?_, ?_⟩ <;> intro hopc
    · have e : exec_inst inst s = bcc inst s := by simp [exec_inst, hopc]
      rw [e]
      by_cases h0 : s.flag .c = 0
      · simp only [bcc, h0, if_true, hbt, Option.bind_eq_bind, Option.some_bind,
          Option.pure_def, hb]
      · simp only [bcc, h0, if_false, Option.bind_eq_bind, Option.pure_def,
          Option.some_bind]
    · have e : exec_inst inst s = bcs inst s := by simp [exec_inst, hopc]
      rw [e]
      by_cases h0 : s.flag .c = 0
      · have h1 : ¬ s.flag .c = 1 := by omega
        simp only [bcs, h0, h1, ne_eq, not_true_eq_false, if_false, Option.bind_eq_bind,
          Option.pure_def, Option.some_bind]
        rfl
      · have h1 : s.flag .c = 1 := by omega
        simp only [bcs, h1, ne_eq, one_ne_zero, not_false_eq_true, if_true, hbt,
          Option.bind_eq_bind, Option.some_bind, Option.pure_def, hb]
    · have e : exec_inst inst s = bne inst s := by simp [exec_inst, hopc]
      rw [e]
      by_cases h0 : s.flag .z = 0
      · simp only [bne, h0, if_true, hbt, Option.bind_eq_bind, Option.some_bind,
          Option.pure_def, hb]
      · simp only [bne, h0, if_false, Option.bind_eq_bind, Option.pure_def,
          Option.some_bind]
    · have e : exec_inst inst s = beq inst s := by simp [exec_inst, hopc]
      rw [e]
      by_cases h0 : s.flag .z = 0
      · have h1 : ¬ s.flag .z = 1 := by omega
        simp only [beq, h0, h1, ne_eq, not_true_eq_false, if_false, Option.bind_eq_bind,
          Option.pure_def, Option.some_bind]
        rfl
      · have h1 : s.flag .z = 1 := by omega
        simp only [beq, h1, ne_eq, one_ne_zero, not_false_eq_true, if_true, hbt,
          Option.bind_eq_bind, Option.some_bind, Option.pure_def, hb]
    · have e : exec_inst inst s = bpl inst s := by simp [exec_inst, hopc]
      rw [e]
      by_cases h0 : s.flag .n = 0
      · simp only [bpl, h0, if_true, hbt, Option.bind_eq_bind, Option.some_bind,
          Option.pure_def, hb]
      · simp only [bpl, h0, if_false, Option.bind_eq_bind, Option.pure_def,
          Option.some_bind]
    · have e : exec_inst inst s = bmi inst s := by simp [exec_inst, hopc]
      rw [e]
      by_cases h0 : s.flag .n = 0
      · have h1 : ¬ s.flag .n = 1 := by omega
        simp only [bmi, h0, h1, ne_eq, not_true_eq_false, if_false, Option.bind_eq_bind,
          Option.pure_def, Option.some_bind]
        rfl
      · have h1 : s.flag .n = 1 := by omega
        simp only [bmi, h1, ne_eq, one_ne_zero, not_false_eq_true, if_true, hbt,
          Option.bind_eq_bind, Option.some_bind, Option.pure_def, hb]
    · have e : exec_inst inst s = bvc inst s := by simp [exec_inst, hopc]
      rw [e]
      by_cases h0 : s.flag .v = 0
      · simp only [bvc, h0, if_true, hbt, Option.bind_eq_bind, Option.some_bind,
          Option.pure_def, hb]
      · simp only [bvc, h0, if_false, Option.bind_eq_bind, Option.pure_def,
          Option.some_bind]
    · have e : exec_inst inst s = bvs inst s := by simp [exec_inst, hopc]
      rw [e]
      by_cases h0 : s.flag .v = 0
      · have h1 : ¬ s.flag .v = 1 := by omega
        simp only [bvs, h0, h1, ne_eq, not_true_eq_false, if_false, Option.bind_eq_bind,
          Option.pure_def, Option.some_bind]
        rfl
      · have h1 : s.flag .v = 1 := by omega
        simp only [bvs, h1, ne_eq, one_ne_zero, not_false_eq_true, if_true, hbt,
          Option.bind_eq_bind, Option.some_bind, Option.pure_def, hb]

theorem branch_semantics_witness :
    fetch_exec exec_inst branch_sample
      = some ({ branch_sample with pc := 0xBFFD }, ⟨"BNE", 2⟩) :=
  (branch_semantics branch_sample (access_mem 1 0xC000) 0xFB (by decide) (by decide)).2.2.1
    (by decide)

/-! ### C21: CMP, CPX, CPY -/

theorem compare_flags (s : CPU) (r M n : Nat) (t : CPU)
    (ht : t = ((({ s with pc := (s.pc + n) % 65536 } : CPU).setFlag .c (b2i (decide (r ≥ M)))).setFlag .z
      (b2i (r == M))).setFlag .n (sign_bit ((((r : Int) - (M : Int)) % 256).toNat))) :
    (t.flag .c = 1 ↔ r ≥ M) ∧ (t.flag .z = 1 ↔ r = M) ∧
    t.flag .n = (((r : Int) - (M : Int)) % 256).toNat / 128 ∧
    t.a = s.a ∧ t.x = s.x ∧ t.y = s.y ∧ t.sp = s.sp ∧
    t.flag .v = s.flag .v ∧ t.flag .i = s.flag .i ∧ t.flag .d = s.flag .d ∧
    t.mem = s.mem := by
  subst ht
  simp only [flag_setFlag, sign_bit_eq, b2i, setFlag_a, setFlag_x, setFlag_y, setFlag_sp,
    setFlag_pc, setFlag_mem]
  simp only [CPU.flag]
  refine ⟨?_, ?_, ?_, ?_⟩
  · by_cases h : r ≥ M <;> simp [h]
  · by_cases h : r = M <;> simp [h]
  · simp; omega
  · simp

theorem exec_inst_cmp (s : CPU) (inst : Ptr) (M n : Nat) (h : cmp_operand inst s = some (M, n)) :
    exec_inst inst s = some (cmp_finish s M n) := by
  have hc : cmp inst s = some (cmp_finish s M n) := by simp [cmp, h]
  have h' := h
  unfold cmp_operand at h'
  cases hl : s.load inst with
  | none => rw [hl] at h'; simp at h'
  | some opc =>
    rw [hl] at h'
    simp only [Option.bind_eq_bind, Option.some_bind] at h'
    split_ifs at h' with h1 h2 h3 h4 h5 h6 h7 h8 <;>
      (subst opc; unfold exec_inst; rw [hl]
       simp +decide only [Option.bind_eq_bind, Option.some_bind, ↓reduceIte]
       exact hc)

theorem exec_inst_cpx (s : CPU) (inst : Ptr) (M n : Nat) (h : cpx_operand inst s = some (M, n)) :
    exec_inst inst s = some (cpx_finish s M n) := by
  have hc : cpx inst s = some (cpx_finish s M n) := by simp [cpx, h]
  have h' := h
  unfold cpx_operand at h'
  cases hl : s.load inst with
  | none => rw [hl] at h'; simp at h'
  | some opc =>
    rw [hl] at h'
    simp only [Option.bind_eq_bind, Option.some_bind] at h'
    split_ifs at h' with h1 h2 h3 <;>
      (subst opc; unfold exec_inst; rw [hl]
       simp +decide only [Option.bind_eq_bind, Option.some_bind, ↓reduceIte]
       exact hc)

theorem exec_inst_cpy (s : CPU) (inst : Ptr) (M n : Nat) (h : cpy_operand inst s = some (M, n)) :
    exec_inst inst s = some (cpy_finish s M n) := by
  have hc : cpy inst s = some (cpy_finish s M n) := by simp [cpy, h]
  have h' := h
  unfold cpy_operand at h'
  cases hl : s.load inst with
  | none => rw [hl] at h'; simp at h'
  | some opc =>
    rw [hl] at h'
    simp only [Option.bind_eq_bind, Option.some_bind] at h'
    split_ifs at h' with h1 h2 h3 <;>
      (subst opc; unfold exec_inst; rw [hl]
       simp +decide only [Option.bind_eq_bind, Option.some_bind, ↓reduceIte]
       exact hc)

/-- C21: when the `switch` of `cmp` (resp. `cpx`, `cpy`) yields operand `M` and
length `n`, `exec_inst` returns `CMP` (resp. `CPX`, `CPY`) with `C = 1` iff
`r >= M`, `Z = 1` iff `r = M`, `N` = bit 7 of `(r - M) mod 256`, where `r` is `A`
(resp. `X`, `Y`); `A`, `X`, `Y`, `SP`, `V`, `I`, `D` and memory are unchanged. -/
theorem compare_semantics (s : CPU) (inst : Ptr) (M n : Nat) :
    (cmp_operand inst s = some (M, n) → ∃ t, exec_inst inst s = some (t, ⟨"CMP", n⟩) ∧
      (t.flag .c = 1 ↔ s.a ≥ M) ∧ (t.flag .z = 1 ↔ s.a = M) ∧
      t.flag .n = (((s.a : Int) - (M : Int)) % 256).toNat / 128 ∧
      t.a = s.a ∧ t.x = s.x ∧ t.y = s.y ∧ t.sp = s.sp ∧
      t.flag .v = s.flag .v ∧ t.flag .i = s.flag .i ∧ t.flag .d = s.flag .d ∧
      t.mem = s.mem) ∧
    (cpx_operand inst s = some (M, n) → ∃ t, exec_inst inst s = some (t, ⟨"CPX", n⟩) ∧
      (t.flag .c = 1 ↔ s.x ≥ M) ∧ (t.flag .z = 1 ↔ s.x = M) ∧
      t.flag .n = (((s.x : Int) - (M : Int)) % 256).toNat / 128 ∧
      t.a = s.a ∧ t.x = s.x ∧ t.y = s.y ∧ t.sp = s.sp ∧
      t.flag .v = s.flag .v ∧ t.flag .i = s.flag .i ∧ t.flag .d = s.flag .d ∧
      t.mem = s.mem) ∧
    (cpy_operand inst s = some (M, n) → ∃ t, exec_inst inst s = some (t, ⟨"CPY", n⟩) ∧
      (t.flag .c = 1 ↔ s.y ≥ M) ∧ (t.flag .z = 1 ↔ s.y = M) ∧
      t.flag .n = (((s.y : Int) - (M : Int)) % 256).toNat / 128 ∧
      t.a = s.a ∧ t.x = s.x ∧ t.y = s.y ∧ t.sp = s.sp ∧
      t.flag .v = s.flag .v ∧ t.flag .i = s.flag .i ∧ t.flag .d = s.flag .d ∧
      t.mem = s.mem) := by
  refine ⟨fun h => ?_, fun h => ?_, fun h => ?_⟩
  · exact ⟨(cmp_finish s M n).1, exec_inst_cmp s inst M n h, compare_flags s s.a M n _ rfl⟩
  · exact ⟨(cpx_finish s M n).1, exec_inst_cpx s inst M n h, compare_flags s s.x M n _ rfl⟩
  · exact ⟨(cpy_finish s M n).1, exec_inst_cpy s inst M n h, compare_flags s s.y M n _ rfl⟩

theorem compare_semantics_witness :
    ∃ t, fetch_exec exec_inst cmp_sample = some (t, ⟨"CMP", 2⟩) ∧
      (t.flag .c = 1 ↔ cmp_sample.a ≥ 0x50) ∧ (t.flag .z = 1 ↔ cmp_sample.a = 0x50) ∧
      t.flag .n = (((cmp_sample.a : Int) - ((0x50 : Nat) : Int)) % 256).toNat / 128 ∧
      t.a = cmp_sample.a ∧ t.x = cmp_sample.x ∧ t.y = cmp_sample.y ∧ t.sp = cmp_sample.sp ∧
      t.flag .v = cmp_sample.flag .v ∧ t.flag .i = cmp_sample.flag .i ∧
      t.flag .d = cmp_sample.flag .d ∧ t.mem = cmp_sample.mem :=
  (compare_semantics cmp_sample (access_mem 1 0xC000) 0x50 2).1 (by decide)

/-! ### C25: BIT -/

theorem shr_6 (x : Nat) : x >>> 6 = x / 64 := by
  rw [Nat.shiftRight_eq_div_pow]

theorem exec_inst_bit (s : CPU) (inst : Ptr) (M n : Nat) (h : bit_operand inst s = some (M, n)) :
    exec_inst inst s = some (bit_finish s M n) := by
  have hc : bit inst s = some (bit_finish s M n) := by simp [bit, h]
  have h' := h
  unfold bit_operand at h'
  cases hl : s.load inst with
  | none => rw [hl] at h'; simp at h'
  | some opc =>
    rw [hl] at h'
    simp only [Option.bind_eq_bind, Option.some_bind] at h'
    split_ifs at h' with h1 h2 <;>
      (subst opc; unfold exec_inst; rw [hl]
       simp +decide only [Option.bind_eq_bind, Option.some_bind, ↓reduceIte]
       exact hc)

/-- C25: when the `switch` of `bit` (opcode `$24` zero page or `$2C` absolute)
yields operand `M` and length `n`, `exec_inst` returns `BIT` with `Z = 1` iff
`A AND M = 0`, `V` = bit 6 of `M`, `N` = bit 7 of `M`; `A`, `X`, `Y`, `SP`, `C`,
`I`, `D` and memory are unchanged. -/
theorem bit_semantics (s : CPU) (inst : Ptr) (M n : Nat)
    (h : bit_operand inst s = some (M, n)) :
    ∃ t, exec_inst inst s = some (t, ⟨"BIT", n⟩) ∧
      (t.flag .z = 1 ↔ s.a &&& M = 0) ∧
      t.flag .v = M / 64 % 2 ∧ t.flag .n = M / 128 % 2 ∧
      t.a = s.a ∧ t.x = s.x ∧ t.y = s.y ∧ t.sp = s.sp ∧
      t.flag .c = s.flag .c ∧ t.flag .i = s.flag .i ∧ t.flag .d = s.flag .d ∧
      t.mem = s.mem := by
  refine ⟨(bit_finish s M n).1, exec_inst_bit s inst M n h, ?_⟩
  simp only [bit_finish, flag_setFlag, sign_bit_eq, b2i, setFlag_a, setFlag_x, setFlag_y,
    setFlag_sp, setFlag_mem, and_1, shr_6]
  simp only [CPU.flag]
  refine ⟨?_, ?_, ?_, ?_⟩
  · by_cases h0 : s.a &&& M = 0 <;> simp [h0]
  · simp
  · simp; omega
  · simp

theorem bit_semantics_witness :
    ∃ t, fetch_exec exec_inst bit_sample = some (t, ⟨"BIT", 2⟩) ∧
      (t.flag .z = 1 ↔ bit_sample.a &&& 0xC0 = 0) ∧
      t.flag .v = 0xC0 / 64 % 2 ∧ t.flag .n = 0xC0 / 128 % 2 ∧
      t.a = bit_sample.a ∧ t.x = bit_sample.x ∧ t.y = bit_sample.y ∧ t.sp = bit_sample.sp ∧
      t.flag .c = bit_sample.flag .c ∧ t.flag .i = bit_sample.flag .i ∧
      t.flag .d = bit_sample.flag .d ∧ t.mem = bit_sample.mem :=
  bit_semantics bit_sample (access_mem 1 0xC000) 0xC0 2 (by decide)

/-! ### C27: flag set/clear instructions -/

theorem flag_write_post (s : CPU) (f : Flag) (v : Nat) (hv : v < 2) (t : CPU)
    (ht : t = { s.setFlag f v with pc := (s.pc + 1) % 65536 }) :
    t.flag f = v ∧ (∀ g, g ≠ f → t.flag g = s.flag g) ∧
      t.a = s.a ∧ t.x = s.x ∧ t.y = s.y ∧ t.sp = s.sp ∧ t.mem = s.mem ∧
      t.pc = (s.pc + 1) % 65536 := by
  subst ht
  refine ⟨?_, fun g hg => ?_, rfl, rfl, rfl, rfl, rfl, rfl⟩
  · have h := flag_setFlag_same s f v
    rw [Nat.mod_eq_of_lt hv] at h
    exact h
  · exact flag_setFlag_diff s f g v (Ne.symm hg)

/-- C27: each of CLC (`$18`), SEC (`$38`), CLI (`$58`), SEI (`$78`), CLV (`$B8`),
CLD (`$D8`), SED (`$F8`) returns length 1, writes its own flag (`C:=0`, `C:=1`,
`I:=0`, `I:=1`, `V:=0`, `D:=0`, `D:=1`), leaves every other status bit, `A`, `X`,
`Y`, `SP` and memory unchanged and sets `PC` to `(PC + 1) mod 65536`. -/
theorem flag_instructions (s : CPU) (inst : Ptr) :
    (s.load inst = some 0x18 → ∃ t, exec_inst inst s = some (t, ⟨"CLC", 1⟩) ∧
      t.flag .c = 0 ∧ (∀ g, g ≠ .c → t.flag g = s.flag g) ∧
      t.a = s.a ∧ t.x = s.x ∧ t.y = s.y ∧ t.sp = s.sp ∧ t.mem = s.mem ∧
      t.pc = (s.pc + 1) % 65536) ∧
    (s.load inst = some 0x38 → ∃ t, exec_inst inst s = some (t, ⟨"SEC", 1⟩) ∧
      t.flag .c = 1 ∧ (∀ g, g ≠ .c → t.flag g = s.flag g) ∧
      t.a = s.a ∧ t.x = s.x ∧ t.y = s.y ∧ t.sp = s.sp ∧ t.mem = s.mem ∧
      t.pc = (s.pc + 1) % 65536) ∧
    (s.load inst = some 0x58 → ∃ t, exec_inst inst s = some (t, ⟨"CLI", 1⟩) ∧
      t.flag .i = 0 ∧ (∀ g, g ≠ .i → t.flag g = s.flag g) ∧
      t.a = s.a ∧ t.x = s.x ∧ t.y = s.y ∧ t.sp = s.sp ∧ t.mem = s.mem ∧
      t.pc = (s.pc + 1) % 65536) ∧
    (s.load inst = some 0x78 → ∃ t, exec_inst inst s = some (t, ⟨"SEI", 1⟩) ∧
      t.flag .i = 1 ∧ (∀ g, g ≠ .i → t.flag g = s.flag g) ∧
      t.a = s.a ∧ t.x = s.x ∧ t.y = s.y ∧ t.sp = s.sp ∧ t.mem = s.mem ∧
      t.pc = (s.pc + 1) % 65536) ∧
    (s.load inst = some 0xB8 → ∃ t, exec_inst inst s = some (t, ⟨"CLV", 1⟩) ∧
      t.flag .v = 0 ∧ (∀ g, g ≠ .v → t.flag g = s.flag g) ∧
      t.a = s.a ∧ t.x = s.x ∧ t.y = s.y ∧ t.sp = s.sp ∧ t.mem = s.mem ∧
      t.pc = (s.pc + 1) % 65536) ∧
    (s.load inst = some 0xD8 → ∃ t, exec_inst inst s = some (t, ⟨"CLD", 1⟩) ∧
      t.flag .d = 0 ∧ (∀ g, g ≠ .d → t.flag g = s.flag g) ∧
      t.a = s.a ∧ t.x = s.x ∧ t.y = s.y ∧ t.sp = s.sp ∧ t.mem = s.mem ∧
      t.pc = (s.pc + 1) % 65536) ∧
    (s.load inst = some 0xF8 → ∃ t, exec_inst inst s = some (t, ⟨"SED", 1⟩) ∧
      t.flag .d = 1 ∧ (∀ g, g ≠ .d → t.flag g = s.flag g) ∧
      t.a = s.a ∧ t.x = s.x ∧ t.y = s.y ∧ t.sp = s.sp ∧ t.mem = s.mem ∧
      t.pc = (s.pc + 1) % 65536) := by
  refine ⟨?_, ?_, ?_, ?_, ?_, ?_, ?_⟩ <;> intro hl
  · have e : exec_inst inst s = clc inst s := by
      unfold exec_inst; rw [hl]
      simp +decide only [Option.bind_eq_bind, Option.some_bind, ↓reduceIte]
    exact ⟨_, e, flag_write_post s .c 0 (by decide) _ rfl⟩
  · have e : exec_inst inst s = sec inst s := by
      unfold exec_inst; rw [hl]
      simp +decide only [Option.bind_eq_bind, Option.some_bind, ↓reduceIte]
    exact ⟨_, e, flag_write_post s .c 1 (by decide) _ rfl⟩
  · have e : exec_inst inst s = cli inst s := by
      unfold exec_inst; rw [hl]
      simp +decide only [Option.bind_eq_bind, Option.some_bind, ↓reduceIte]
    exact ⟨_, e, flag_write_post s .i 0 (by decide) _ rfl⟩
  · have e : exec_inst inst s = sei inst s := by
      unfold exec_inst; rw [hl]
      simp +decide only [Option.bind_eq_bind, Option.some_bind, ↓reduceIte]
    exact ⟨_, e, flag_write_post s .i 1 (by decide) _ rfl⟩
  · have e : exec_inst inst s = clv inst s := by
      unfold exec_inst; rw [hl]
      simp +decide only [Option.bind_eq_bind, Option.some_bind, ↓reduceIte]
    exact ⟨_, e, flag_write_post s .v 0 (by decide) _ rfl⟩
  · have e : exec_inst inst s = cld inst s := by
      unfold exec_inst; rw [hl]
      simp +decide only [Option.bind_eq_bind, Option.some_bind, ↓reduceIte]
    exact ⟨_, e, flag_write_post s .d 0 (by decide) _ rfl⟩
  · have e : exec_inst inst s = sed inst s := by
      unfold exec_inst; rw [hl]
      simp +decide only [Option.bind_eq_bind, Option.some_bind, ↓reduceIte]
    exact ⟨_, e, flag_write_post s .d 1 (by decide) _ rfl⟩

theorem flag_instructions_witness :
    ∃ t, fetch_exec exec_inst clc_sample = some (t, ⟨"CLC", 1⟩) ∧
      t.flag .c = 0 ∧ (∀ g, g ≠ .c → t.flag g = clc_sample.flag g) ∧
      t.a = clc_sample.a ∧ t.x = clc_sample.x ∧ t.y = clc_sample.y ∧
      t.sp = clc_sample.sp ∧ t.mem = clc_sample.mem ∧
      t.pc = (clc_sample.pc + 1) % 65536 :=
  (flag_instructions clc_sample (access_mem 1 0xC000)).1 (by decide)

/-! ### C23: illegal NOPs -/

theorem exec_inst_ill_nop (s : CPU) (inst : Ptr) (opc k : Nat) (hl : s.load inst = some opc)
    (hm : opc ∈ [0x1A, 0x3A, 0x5A, 0x7A, 0xDA, 0xFA] ∧ k = 1 ∨
      opc ∈ [0x80, 0x82, 0x89, 0xC2, 0xE2, 0x04, 0x44, 0x64, 0x14, 0x34, 0x54, 0x74, 0xD4, 0xF4]
        ∧ k = 2 ∨
      opc ∈ [0x0C, 0x1C, 0x3C, 0x5C, 0x7C, 0xDC, 0xFC] ∧ k = 3) :
    exec_inst inst s = some ({ s with pc := (s.pc + k) % 65536 }, ⟨"NOP", k⟩) := by
  simp only [List.mem_cons, List.mem_singleton, List.not_mem_nil, or_false] at hm
  rcases hm with ⟨h | h | h | h | h | h, rfl⟩ |
      ⟨h | h | h | h | h | h | h | h | h | h | h | h | h | h, rfl⟩ |
      ⟨h | h | h | h | h | h | h, rfl⟩ <;>
    (subst h; unfold exec_inst; rw [hl]
     simp +decide only [Option.bind_eq_bind, Option.some_bind, ↓reduceIte]
     unfold ill_nop; rw [hl]
     simp +decide only [Option.bind_eq_bind, Option.some_bind, Option.pure_def, ↓reduceIte])

/-- C23: opcodes `$1A,$3A,$5A,$7A,$DA,$FA` return `NOP` with length 1,
`$80,$82,$89,$C2,$E2,$04,$44,$64,$14,$34,$54,$74,$D4,$F4` length 2 and
`$0C,$1C,$3C,$5C,$7C,$DC,$FC` length 3; the state returned is the input state with
`PC` replaced by `(PC + length) mod 65536` and nothing else changed. -/
theorem illegal_nops (s : CPU) (inst : Ptr) (opc : Nat) (hl : s.load inst = some opc) :
    (opc ∈ [0x1A, 0x3A, 0x5A, 0x7A, 0xDA, 0xFA] →
      exec_inst inst s = some ({ s with pc := (s.pc + 1) % 65536 }, ⟨"NOP", 1⟩)) ∧
    (opc ∈ [0x80, 0x82, 0x89, 0xC2, 0xE2, 0x04, 0x44, 0x64, 0x14, 0x34, 0x54, 0x74, 0xD4, 0xF4] →
      exec_inst inst s = some ({ s with pc := (s.pc + 2) % 65536 }, ⟨"NOP", 2⟩)) ∧
    (opc ∈ [0x0C, 0x1C, 0x3C, 0x5C, 0x7C, 0xDC, 0xFC] →
      exec_inst inst s = some ({ s with pc := (s.pc + 3) % 65536 }, ⟨"NOP", 3⟩)) :=
  ⟨fun h => exec_inst_ill_nop s inst opc 1 hl (Or.inl ⟨h, rfl⟩),
   fun h => exec_inst_ill_nop s inst opc 2 hl (Or.inr (Or.inl ⟨h, rfl⟩)),
   fun h => exec_inst_ill_nop s inst opc 3 hl (Or.inr (Or.inr ⟨h, rfl⟩))⟩

theorem illegal_nops_witness :
    fetch_exec exec_inst ill_nop_sample
      = some ({ ill_nop_sample with pc := (ill_nop_sample.pc + 3) % 65536 }, ⟨"NOP", 3⟩) :=
  (illegal_nops ill_nop_sample (access_mem 1 0xC000) 0x0C (by decide)).2.2 (by decide)

/-! ### C30: the overflow rule of ADC -/

theorem sign_bit_testBit (m : Nat) : sign_bit m = (m.testBit 7).toNat := by
  rw [sign_bit_eq, Nat.toNat_testBit]
  omega

theorem and_80_ne_zero (x : Nat) : x &&& 0x80 ≠ 0 ↔ x.testBit 7 = true := by
  have h : (0x80 : Nat) = 2 ^ 7 := by norm_num
  rw [h, Nat.and_two_pow]
  cases x.testBit 7 <;> simp

theorem overflow_rule (a m r : Nat) :
    ((if sign_bit a = sign_bit m then b2i (sign_bit r != sign_bit a) else 0) % 2 = 1) ↔
      (a ^^^ r) &&& (m ^^^ r) &&& 0x80 ≠ 0 := by
  rw [and_80_ne_zero, Nat.testBit_and, Nat.testBit_xor, Nat.testBit_xor,
    sign_bit_testBit, sign_bit_testBit, sign_bit_testBit]
  cases a.testBit 7 <;> cases m.testBit 7 <;> cases r.testBit 7 <;> decide

/-- C30: when the `switch` of `adc` yields operand `M`, the V flag that `adc`
leaves is 1 exactly when `((A_old XOR result) AND (M XOR result) AND $80) != 0`,
where `result` is the new accumulator, for every carry-in. -/
theorem adc_overflow_bit_formula (inst : Ptr) (s : CPU) (M n : Nat)
    (hop : adc_operand inst s = some (M, n)) :
    ∃ s', adc inst s = some (s', ⟨"ADC", n⟩) ∧
      s'.a = (s.a + M + s.flag .c) % 65536 % 256 ∧
      (s'.flag .v = 1 ↔ (s.a ^^^ s'.a) &&& (M ^^^ s'.a) &&& 0x80 ≠ 0) := by
  refine ⟨(adc_finish s M n).1, ?_, ?_, ?_⟩
  · simp [adc, hop, adc_finish]
  · simp [adc_finish]
  · rw [← overflow_rule]
    simp only [adc_finish, flag_setFlag]
    simp

theorem adc_overflow_bit_formula_witness :
    ∃ s', fetch_exec adc adc_sample = some (s', ⟨"ADC", 2⟩) ∧
      s'.a = (adc_sample.a + 0x50 + adc_sample.flag .c) % 65536 % 256 ∧
      (s'.flag .v = 1 ↔ (adc_sample.a ^^^ s'.a) &&& (0x50 ^^^ s'.a) &&& 0x80 ≠ 0) :=
  adc_overflow_bit_formula (access_mem 1 0xC000) adc_sample 0x50 2 (by decide)

/-! ### C26: Z and N after loads, transfers, increments and decrements -/

theorem zn_post (s0 s : CPU) (r : Nat) (hsr : s0.sr = s.sr) (t : CPU)
    (ht : t = (s0.setFlag .z (b2i (r == 0))).setFlag .n (sign_bit r)) :
    (t.flag .z = 1 ↔ r = 0) ∧ t.flag .n = r / 128 % 2 ∧
      t.flag .c = s.flag .c ∧ t.flag .v = s.flag .v := by
  subst ht
  simp only [flag_setFlag, sign_bit_eq, b2i]
  simp only [CPU.flag, hsr]
  refine ⟨?_, ?_, ?_, ?_⟩
  · by_cases h : r = 0 <;> simp [h]
  · simp; omega
  · simp
  · simp

theorem store_load (s : CPU) (p : Ptr) (v : Nat) (hb : p.idx < p.region.size s.header4) :
    ∃ s1, s.store p v = some s1 ∧ s1.sr = s.sr ∧ s1.header4 = s.header4 ∧
      s1.load p = some (v % 256) ∧
      ∀ pc, ({ s1 with pc := pc } : CPU).load p = some (v % 256) := by
  refine ⟨{ s with mem := fun r i => if r = p.region ∧ i = p.idx then v % 256 else s.mem r i },
    by rw [CPU.store, if_pos hb], rfl, rfl, ?_, fun pc => ?_⟩ <;>
    simp [CPU.load, hb]

theorem inc_spec (s : CPU) (inst p : Ptr) (n m : Nat)
    (hop : inc_operand inst s = some (p, n)) (hm : s.load p = some m) :
    ∃ s0 : CPU, s0.sr = s.sr ∧ s0.load p = some ((m + 1) % 256) ∧
      inc inst s = some ((s0.setFlag .z (b2i ((m + 1) % 256 == 0))).setFlag .n
        (sign_bit ((m + 1) % 256)), ⟨"INC", n⟩) := by
  obtain ⟨hb, -⟩ := load_eq_some hm
  obtain ⟨s1, h1, hsr, -, -, hl⟩ := store_load s p (m + 1) hb
  refine ⟨{ s1 with pc := (s1.pc + n) % 65536 }, hsr, hl _, ?_⟩
  simp only [inc, hop, hm, h1, hl, Option.bind_eq_bind, Option.some_bind, Option.pure_def]

theorem dec_spec (s : CPU) (inst p : Ptr) (n m : Nat)
    (hop : dec_operand inst s = some (.at p, n)) (hm : s.load p = some m) :
    ∃ s0 : CPU, s0.sr = s.sr ∧ s0.load p = some ((m + 255) % 256) ∧
      dec inst s = some ((s0.setFlag .z (b2i ((m + 255) % 256 == 0))).setFlag .n
        (sign_bit ((m + 255) % 256)), ⟨"DEC", n⟩) := by
  obtain ⟨hb, -⟩ := load_eq_some hm
  obtain ⟨s1, h1, hsr, -, -, hl⟩ := store_load s p (m + 255) hb
  refine ⟨{ s1 with pc := (s1.pc + n) % 65536 }, hsr, hl _, ?_⟩
  simp only [dec, hop, CPU.get, CPU.put, hm, h1, hl, Option.bind_eq_bind, Option.some_bind,
    Option.pure_def]

theorem exec_inst_lda (s : CPU) (inst : Ptr) (r : Nat × Nat)
    (h : lda_operand inst s = some r) : exec_inst inst s = lda inst s := by
  unfold lda_operand at h
  cases hl : s.load inst with
  | none => rw [hl] at h; simp at h
  | some opc =>
    rw [hl] at h
    simp only [Option.bind_eq_bind, Option.some_bind] at h
    split_ifs at h with h1 h2 h3 h4 h5 h6 h7 h8 <;>
      (subst opc; unfold exec_inst; rw [hl]
       simp +decide only [Option.bind_eq_bind, Option.some_bind, ↓reduceIte])

theorem exec_inst_ldx (s : CPU) (inst : Ptr) (r : Nat × Nat)
    (h : ldx_operand inst s = some r) : exec_inst inst s = ldx inst s := by
  unfold ldx_operand at h
  cases hl : s.load inst with
  | none => rw [hl] at h; simp at h
  | some opc =>
    rw [hl] at h
    simp only [Option.bind_eq_bind, Option.some_bind] at h
    split_ifs at h with h1 h2 h3 h4 h5 <;>
      (subst opc; unfold exec_inst; rw [hl]
       simp +decide only [Option.bind_eq_bind, Option.some_bind, ↓reduceIte])

theorem exec_inst_ldy (s : CPU) (inst : Ptr) (r : Nat × Nat)
    (h : ldy_operand inst s = some r) : exec_inst inst s = ldy inst s := by
  unfold ldy_operand at h
  cases hl : s.load inst with
  | none => rw [hl] at h; simp at h
  | some opc =>
    rw [hl] at h
    simp only [Option.bind_eq_bind, Option.some_bind] at h
    split_ifs at h with h1 h2 h3 h4 h5 <;>
      (subst opc; unfold exec_inst; rw [hl]
       simp +decide only [Option.bind_eq_bind, Option.some_bind, ↓reduceIte])

theorem exec_inst_inc (s : CPU) (inst : Ptr) (r : Ptr × Nat)
    (h : inc_operand inst s = some r) : exec_inst inst s = inc inst s := by
  unfold inc_operand at h
  cases hl : s.load inst with
  | none => rw [hl] at h; simp at h
  | some opc =>
    rw [hl] at h
    simp only [Option.bind_eq_bind, Option.some_bind] at h
    split_ifs at h with h1 h2 h3 h4 <;>
      (subst opc; unfold exec_inst; rw [hl]
       simp +decide only [Option.bind_eq_bind, Option.some_bind, ↓reduceIte])

theorem exec_inst_dec (s : CPU) (inst : Ptr) (r : Loc × Nat)
    (h : dec_operand inst s = some r) : exec_inst inst s = dec inst s := by
  unfold dec_operand at h
  cases hl : s.load inst with
  | none => rw [hl] at h; simp at h
  | some opc =>
    rw [hl] at h
    simp only [Option.bind_eq_bind, Option.some_bind] at h
    split_ifs at h with h1 h2 h3 h4 <;>
      (subst opc; unfold exec_inst; rw [hl]
       simp +decide only [Option.bind_eq_bind, Option.some_bind, ↓reduceIte])

/-- C26: for LDA, LDX, LDY (operand `M` from the handler's `switch`), TAX, TAY,
TSX, TXA, TYA, INX, INY, DEX, DEY (opcode byte given) and INC, DEC (target `p`
holding `m`), `exec_inst` returns, the destination holds the stated result
(increments and decrements taken mod 256), `Z = 1` iff that result is 0, `N` is
bit 7 of it, and `C` and `V` are unchanged. -/
theorem zn_policy (s : CPU) (inst p : Ptr) (M n m : Nat) :
    (lda_operand inst s = some (M, n) → ∃ t, exec_inst inst s = some (t, ⟨"LDA", n⟩) ∧
      t.a = M ∧ (t.flag .z = 1 ↔ M = 0) ∧ t.flag .n = M / 128 % 2 ∧
      t.flag .c = s.flag .c ∧ t.flag .v = s.flag .v) ∧
    (ldx_operand inst s = some (M, n) → ∃ t, exec_inst inst s = some (t, ⟨"LDX", n⟩) ∧
      t.x = M ∧ (t.flag .z = 1 ↔ M = 0) ∧ t.flag .n = M / 128 % 2 ∧
      t.flag .c = s.flag .c ∧ t.flag .v = s.flag .v) ∧
    (ldy_operand inst s = some (M, n) → ∃ t, exec_inst inst s = some (t, ⟨"LDY", n⟩) ∧
      t.y = M ∧ (t.flag .z = 1 ↔ M = 0) ∧ t.flag .n = M / 128 % 2 ∧
      t.flag .c = s.flag .c ∧ t.flag .v = s.flag .v) ∧
    (s.load inst = some 0xAA → ∃ t, exec_inst inst s = some (t, ⟨"TAX", 1⟩) ∧
      t.x = s.a ∧ (t.flag .z = 1 ↔ t.x = 0) ∧ t.flag .n = t.x / 128 % 2 ∧
      t.flag .c = s.flag .c ∧ t.flag .v = s.flag .v) ∧
    (s.load inst = some 0xA8 → ∃ t, exec_inst inst s = some (t, ⟨"TAY", 1⟩) ∧
      t.y = s.a ∧ (t.flag .z = 1 ↔ t.y = 0) ∧ t.flag .n = t.y / 128 % 2 ∧
      t.flag .c = s.flag .c ∧ t.flag .v = s.flag .v) ∧
    (s.load inst = some 0xBA → ∃ t, exec_inst inst s = some (t, ⟨"TSX", 1⟩) ∧
      t.x = s.sp ∧ (t.flag .z = 1 ↔ t.x = 0) ∧ t.flag .n = t.x / 128 % 2 ∧
      t.flag .c = s.flag .c ∧ t.flag .v = s.flag .v) ∧
    (s.load inst = some 0x8A → ∃ t, exec_inst inst s = some (t, ⟨"TXA", 1⟩) ∧
      t.a = s.x ∧ (t.flag .z = 1 ↔ t.a = 0) ∧ t.flag .n = t.a / 128 % 2 ∧
      t.flag .c = s.flag .c ∧ t.flag .v = s.flag .v) ∧
    (s.load inst = some 0x98 → ∃ t, exec_inst inst s = some (t, ⟨"TYA", 1⟩) ∧
      t.a = s.y ∧ (t.flag .z = 1 ↔ t.a = 0) ∧ t.flag .n = t.a / 128 % 2 ∧
      t.flag .c = s.flag .c ∧ t.flag .v = s.flag .v) ∧
    (s.load inst = some 0xE8 → ∃ t, exec_inst inst s = some (t, ⟨"INX", 1⟩) ∧
      t.x = (s.x + 1) % 256 ∧ (t.flag .z = 1 ↔ t.x = 0) ∧ t.flag .n = t.x / 128 % 2 ∧
      t.flag .c = s.flag .c ∧ t.flag .v = s.flag .v) ∧
    (s.load inst = some 0xC8 → ∃ t, exec_inst inst s = some (t, ⟨"INY", 1⟩) ∧
      t.y = (s.y + 1) % 256 ∧ (t.flag .z = 1 ↔ t.y = 0) ∧ t.flag .n = t.y / 128 % 2 ∧
      t.flag .c = s.flag .c ∧ t.flag .v = s.flag .v) ∧
    (s.load inst = some 0xCA → ∃ t, exec_inst inst s = some (t, ⟨"DEX", 1⟩) ∧
      t.x = (s.x + 255) % 256 ∧ (t.flag .z = 1 ↔ t.x = 0) ∧ t.flag .n = t.x / 128 % 2 ∧
      t.flag .c = s.flag .c ∧ t.flag .v = s.flag .v) ∧
    (s.load inst = some 0x88 → ∃ t, exec_inst inst s = some (t, ⟨"DEY", 1⟩) ∧
      t.y = (s.y + 255) % 256 ∧ (t.flag .z = 1 ↔ t.y = 0) ∧ t.flag .n = t.y / 128 % 2 ∧
      t.flag .c = s.flag .c ∧ t.flag .v = s.flag .v) ∧
    (inc_operand inst s = some (p, n) → s.load p = some m →
      ∃ t, exec_inst inst s = some (t, ⟨"INC", n⟩) ∧
      t.load p = some ((m + 1) % 256) ∧ (t.flag .z = 1 ↔ ((m + 1) % 256) = 0) ∧
      t.flag .n = ((m + 1) % 256) / 128 % 2 ∧
      t.flag .c = s.flag .c ∧ t.flag .v = s.flag .v) ∧
    (dec_operand inst s = some (.at p, n) → s.load p = some m →
      ∃ t, exec_inst inst s = some (t, ⟨"DEC", n⟩) ∧
      t.load p = some ((m + 255) % 256) ∧ (t.flag .z = 1 ↔ ((m + 255) % 256) = 0) ∧
      t.flag .n = ((m + 255) % 256) / 128 % 2 ∧
      t.flag .c = s.flag .c ∧ t.flag .v = s.flag .v) := by
  refine ⟨?_, ?_, ?_, ?_, ?_, ?_, ?_, ?_, ?_, ?_, ?_, ?_, ?_, ?_⟩
  · intro h
    refine ⟨(lda_finish s M n).1, ?_, rfl,
      zn_post { s with a := M, pc := (s.pc + n) % 65536 } s M rfl _ rfl⟩
    rw [exec_inst_lda s inst _ h, lda, h]
    rfl
  · intro h
    refine ⟨(ldx_finish s M n).1, ?_, rfl,
      zn_post { s with x := M, pc := (s.pc + n) % 65536 } s M rfl _ rfl⟩
    rw [exec_inst_ldx s inst _ h, ldx, h]
    rfl
  · intro h
    refine ⟨(ldy_finish s M n).1, ?_, rfl,
      zn_post { s with y := M, pc := (s.pc + n) % 65536 } s M rfl _ rfl⟩
    rw [exec_inst_ldy s inst _ h, ldy, h]
    rfl
  · intro hl
    have e : exec_inst inst s = tax inst s := by
      unfold exec_inst; rw [hl]
      simp +decide only [Option.bind_eq_bind, Option.some_bind, ↓reduceIte]
    exact ⟨_, e, rfl, zn_post { s with x := s.a, pc := (s.pc + 1) % 65536 } s _ rfl _ rfl⟩
  · intro hl
    have e : exec_inst inst s = tay inst s := by
      unfold exec_inst; rw [hl]
      simp +decide only [Option.bind_eq_bind, Option.some_bind, ↓reduceIte]
    exact ⟨_, e, rfl, zn_post { s with y := s.a, pc := (s.pc + 1) % 65536 } s _ rfl _ rfl⟩
  · intro hl
    have e : exec_inst inst s = tsx inst s := by
      unfold exec_inst; rw [hl]
      simp +decide only [Option.bind_eq_bind, Option.some_bind, ↓reduceIte]
    exact ⟨_, e, rfl, zn_post { s with x := s.sp, pc := (s.pc + 1) % 65536 } s _ rfl _ rfl⟩
  · intro hl
    have e : exec_inst inst s = txa inst s := by
      unfold exec_inst; rw [hl]
      simp +decide only [Option.bind_eq_bind, Option.some_bind, ↓reduceIte]
    exact ⟨_, e, rfl, zn_post { s with a := s.x, pc := (s.pc + 1) % 65536 } s _ rfl _ rfl⟩
  · intro hl
    have e : exec_inst inst s = tya inst s := by
      unfold exec_inst; rw [hl]
      simp +decide only [Option.bind_eq_bind, Option.some_bind, ↓reduceIte]
    exact ⟨_, e, rfl, zn_post { s with a := s.y, pc := (s.pc + 1) % 65536 } s _ rfl _ rfl⟩
  · intro hl
    have e : exec_inst inst s = inx inst s := by
      unfold exec_inst; rw [hl]
      simp +decide only [Option.bind_eq_bind, Option.some_bind, ↓reduceIte]
    exact ⟨_, e, rfl, zn_post { s with x := (s.x + 1) % 256, pc := (s.pc + 1) % 65536 } s _ rfl _ rfl⟩
  · intro hl
    have e : exec_inst inst s = iny inst s := by
      unfold exec_inst; rw [hl]
      simp +decide only [Option.bind_eq_bind, Option.some_bind, ↓reduceIte]
    exact ⟨_, e, rfl, zn_post { s with y := (s.y + 1) % 256, pc := (s.pc + 1) % 65536 } s _ rfl _ rfl⟩
  · intro hl
    have e : exec_inst inst s = dex inst s := by
      unfold exec_inst; rw [hl]
      simp +decide only [Option.bind_eq_bind, Option.some_bind, ↓reduceIte]
    exact ⟨_, e, rfl, zn_post { s with x := (s.x + 255) % 256, pc := (s.pc + 1) % 65536 } s _ rfl _ rfl⟩
  · intro hl
    have e : exec_inst inst s = dey inst s := by
      unfold exec_inst; rw [hl]
      simp +decide only [Option.bind_eq_bind, Option.some_bind, ↓reduceIte]
    exact ⟨_, e, rfl, zn_post { s with y := (s.y + 255) % 256, pc := (s.pc + 1) % 65536 } s _ rfl _ rfl⟩
  · intro h hm
    obtain ⟨s0, hsr, hld, e⟩ := inc_spec s inst p n m h hm
    refine ⟨_, (exec_inst_inc s inst _ h).trans e, ?_, zn_post s0 s _ hsr _ rfl⟩
    exact hld
  · intro h hm
    obtain ⟨s0, hsr, hld, e⟩ := dec_spec s inst p n m h hm
    refine ⟨_, (exec_inst_dec s inst _ h).trans e, ?_, zn_post s0 s _ hsr _ rfl⟩
    exact hld

theorem zn_policy_witness :
    (∃ t, fetch_exec exec_inst lda_zero_sample = some (t, ⟨"LDA", 2⟩) ∧
      t.a = 0x00 ∧ t.flag .z = 1 ∧ t.flag .n = 0) ∧
    (∃ t, fetch_exec exec_inst lda_neg_sample = some (t, ⟨"LDA", 2⟩) ∧
      t.a = 0x80 ∧ t.flag .z = 0 ∧ t.flag .n = 1) := by
  constructor
  · obtain ⟨t, h, ha, hz, hn, -, -⟩ :=
      (zn_policy lda_zero_sample (access_mem 1 0xC000) (access_mem 1 0) 0x00 2 0).1 (by decide)
    exact ⟨t, h, ha, hz.2 rfl, hn⟩
  · obtain ⟨t, h, ha, hz, hn, -, -⟩ :=
      (zn_policy lda_neg_sample (access_mem 1 0xC000) (access_mem 1 0) 0x80 2 0).1 (by decide)
    have h2 := flag_lt_two t .z
    have h3 : ¬ t.flag .z = 1 := fun h1 => absurd (hz.1 h1) (by decide)
    exact ⟨t, h, ha, by omega, hn⟩

/-! ### The dispatch of `exec_inst` -/

theorem exec_inst_dispatch {inst : Ptr} {s : CPU} {opc : Nat} {r : CPU × InstInfo}
    (hl : s.load inst = some opc) (h : exec_inst inst s = some r) :
    (opc ∈ [0x69, 0x65, 0x75, 0x6D, 0x7D, 0x79, 0x61, 0x71] ∧ adc inst s = some r) ∨
    (opc ∈ [0x29, 0x25, 0x35, 0x2D, 0x3D, 0x39, 0x21, 0x31] ∧ and_ inst s = some r) ∨
    (opc ∈ [0x0A, 0x06, 0x16, 0x0E, 0x1E] ∧ asl inst s = some r) ∨
    (opc ∈ [0x90] ∧ bcc inst s = some r) ∨
    (opc ∈ [0xB0] ∧ bcs inst s = some r) ∨
    (opc ∈ [0xF0] ∧ beq inst s = some r) ∨
    (opc ∈ [0x24, 0x2C] ∧ bit inst s = some r) ∨
    (opc ∈ [0x30] ∧ bmi inst s = some r) ∨
    (opc ∈ [0xD0] ∧ bne inst s = some r) ∨
    (opc ∈ [0x10] ∧ bpl inst s = some r) ∨
    (opc ∈ [0x00] ∧ brk inst s = some r) ∨
    (opc ∈ [0x50] ∧ bvc inst s = some r) ∨
    (opc ∈ [0x70] ∧ bvs inst s = some r) ∨
    (opc ∈ [0x18] ∧ clc inst s = some r) ∨
    (opc ∈ [0xD8] ∧ cld inst s = some r) ∨
    (opc ∈ [0x58] ∧ cli inst s = some r) ∨
    (opc ∈ [0xB8] ∧ clv inst s = some r) ∨
    (opc ∈ [0xC9, 0xC5, 0xD5, 0xCD, 0xDD, 0xD9, 0xC1, 0xD1] ∧ cmp inst s = some r) ∨
    (opc ∈ [0xE0, 0xE4, 0xEC] ∧ cpx inst s = some r) ∨
    (opc ∈ [0xC0, 0xC4, 0xCC] ∧ cpy inst s = some r) ∨
    (opc ∈ [0xC6, 0xD6, 0xCE, 0xDE] ∧ dec inst s = some r) ∨
    (opc ∈ [0xCA] ∧ dex inst s = some r) ∨
    (opc ∈ [0x88] ∧ dey inst s = some r) ∨
    (opc ∈ [0x49, 0x45, 0x55, 0x4D, 0x5D, 0x59, 0x41, 0x51] ∧ eor inst s = some r) ∨
    (opc ∈ [0xE6, 0xF6, 0xEE, 0xFE] ∧ inc inst s = some r) ∨
    (opc ∈ [0xE8] ∧ inx inst s = some r) ∨
    (opc ∈ [0xC8] ∧ iny inst s = some r) ∨
    (opc ∈ [0x4C, 0x6C] ∧ jmp inst s = some r) ∨
    (opc ∈ [0x20] ∧ jsr inst s = some r) ∨
    (opc ∈ [0xA9, 0xA5, 0xB5, 0xAD, 0xBD, 0xB9, 0xA1, 0xB1] ∧ lda inst s = some r) ∨
    (opc ∈ [0xA2, 0xA6, 0xB6, 0xAE, 0xBE] ∧ ldx inst s = some r) ∨
    (opc ∈ [0xA0, 0xA4, 0xB4, 0xAC, 0xBC] ∧ ldy inst s = some r) ∨
    (opc ∈ [0x4A, 0x46, 0x56, 0x4E, 0x5E] ∧ lsr inst s = some r) ∨
    (opc ∈ [0xEA] ∧ nop inst s = some r) ∨
    (opc ∈ [0x09, 0x05, 0x15, 0x0D, 0x1D, 0x19, 0x01, 0x11] ∧ ora inst s = some r) ∨
    (opc ∈ [0x48] ∧ pha inst s = some r) ∨
    (opc ∈ [0x08] ∧ php inst s = some r) ∨
    (opc ∈ [0x68] ∧ pla inst s = some r) ∨
    (opc ∈ [0x28] ∧ plp inst s = some r) ∨
    (opc ∈ [0x2A, 0x26, 0x36, 0x2E, 0x3E] ∧ rol inst s = some r) ∨
    (opc ∈ [0x6A, 0x66, 0x76, 0x6E, 0x7E] ∧ ror inst s = some r) ∨
    (opc ∈ [0x40] ∧ rti inst s = some r) ∨
    (opc ∈ [0x60] ∧ rts inst s = some r) ∨
    (opc ∈ [0xE9, 0xE5, 0xF5, 0xED, 0xFD, 0xF9, 0xE1, 0xF1] ∧ sbc inst s = some r) ∨
    (opc ∈ [0x38] ∧ sec inst s = some r) ∨
    (opc ∈ [0xF8] ∧ sed inst s = some r) ∨
    (opc ∈ [0x78] ∧ sei inst s = some r) ∨
    (opc ∈ [0x85, 0x95, 0x8D, 0x9D, 0x99, 0x81, 0x91] ∧ sta inst s = some r) ∨
    (opc ∈ [0x86, 0x96, 0x8E] ∧ stx inst s = some r) ∨
    (opc ∈ [0x84, 0x94, 0x8C] ∧ sty inst s = some r) ∨
    (opc ∈ [0xAA] ∧ tax inst s = some r) ∨
    (opc ∈ [0xA8] ∧ tay inst s = some r) ∨
    (opc ∈ [0xBA] ∧ tsx inst s = some r) ∨
    (opc ∈ [0x8A] ∧ txa inst s = some r) ∨
    (opc ∈ [0x9A] ∧ txs inst s = some r) ∨
    (opc ∈ [0x98] ∧ tya inst s = some r) ∨
    (opc ∈ [0x1A, 0x3A, 0x5A, 0x7A, 0xDA, 0xFA, 0x80, 0x82, 0x89, 0xC2, 0xE2, 0x04, 0x44, 0x64,
        0x14, 0x34, 0x54, 0x74, 0xD4, 0xF4, 0x0C, 0x1C, 0x3C, 0x5C, 0x7C, 0xDC, 0xFC] ∧ ill_nop inst s = some r) ∨
    (opc ∉ exec_inst_labels ∧ r = (s, ⟨"BAD", 1⟩)) := by
  unfold exec_inst at h
  rw [hl, Option.bind_eq_bind, Option.some_bind] at h
  by_cases h0 : opc ∈ [0x69, 0x65, 0x75, 0x6D, 0x7D, 0x79, 0x61, 0x71]
  · rw [if_pos h0] at h
    exact Or.inl ⟨h0, h⟩
  rw [if_neg h0] at h
  by_cases h1 : opc ∈ [0x29, 0x25, 0x35, 0x2D, 0x3D, 0x39, 0x21, 0x31]
  · rw [if_pos h1] at h
    exact Or.inr (Or.inl ⟨h1, h⟩)
  rw [if_neg h1] at h
  by_cases h2 : opc ∈ [0x0A, 0x06, 0x16, 0x0E, 0x1E]
  · rw [if_pos h2] at h
    exact Or.inr (Or.inr (Or.inl ⟨h2, h⟩))
  rw [if_neg h2] at h
  by_cases h3 : opc ∈ [0x90]
  · rw [if_pos h3] at h
    exact Or.inr (Or.inr (Or.inr (Or.inl ⟨h3, h⟩)))
  rw [if_neg h3] at h
  by_cases h4 : opc ∈ [0xB0]
  · rw [if_pos h4] at h
    exact Or.inr (Or.inr (Or.inr (Or.inr (Or.inl ⟨h4, h⟩))))
  rw [if_neg h4] at h
  by_cases h5 : opc ∈ [0xF0]
  · rw [if_pos h5] at h
    exact Or.inr (Or.inr (Or.inr (Or.inr (Or.inr (Or.inl ⟨h5, h⟩)))))
  rw [if_neg h5] at h
  by_cases h6 : opc ∈ [0x24, 0x2C]
  · rw [if_pos h6] at h
    exact Or.inr (Or.inr (Or.inr (Or.inr (Or.inr (Or.inr (Or.inl ⟨h6, h⟩))))))
  rw [if_neg h6] at h
  by_cases h7 : opc ∈ [0x30]
  · rw [if_pos h7] at h
    exact Or.inr (Or.inr (Or.inr (Or.inr (Or.inr (Or.inr (Or.inr (Or.inl ⟨h7, h⟩)))))))
  rw [if_neg h7] at h
  by_cases h8 : opc ∈ [0xD0]
  · rw [if_pos h8] at h
    exact Or.inr (Or.inr (Or.inr (Or.inr (Or.inr (Or.inr (Or.inr (Or.inr (Or.inl ⟨h8, h⟩))))))))
  rw [if_neg h8] at h
  by_cases h9 : opc ∈ [0x10]
  · rw [if_pos h9] at h
    exact Or.inr (Or.inr (Or.inr (Or.inr (Or.inr (Or.inr (Or.inr (Or.inr (Or.inr (Or.inl ⟨h9, h⟩)))))))))
  rw [if_neg h9] at h
  by_cases h10 : opc ∈ [0x00]
  · rw [if_pos h10] at h
    exact Or.inr (Or.inr (Or.inr (Or.inr (Or.inr (Or.inr (Or.inr (Or.inr (Or.inr (Or.inr (Or.inl ⟨h10, h⟩))))))))))
  rw [if_neg h10] at h
  by_cases h11 : opc ∈ [0x50]
  · rw [if_pos h11] at h
    exact Or.inr (Or.inr (Or.inr (Or.inr (Or.inr (Or.inr (Or.inr (Or.inr (Or.inr (Or.inr (Or.inr (Or.inl ⟨h11, h⟩)))))))))))
  rw [if_neg h11] at h
  by_cases h12 : opc ∈ [0x70]
  · rw [if_pos h12] at h
    exact Or.inr (Or.inr (Or.inr (Or.inr (Or.inr (Or.inr (Or.inr (Or.inr (Or.inr (Or.inr (Or.inr (Or.inr (Or.inl ⟨h12, h⟩))))))))))))
  rw [if_neg h12] at h
  by_cases h13 : opc ∈ [0x18]
  · rw [if_pos h13] at h
    exact Or.inr (Or.inr (Or.inr (Or.inr (Or.inr (Or.inr (Or.inr (Or.inr (Or.inr (Or.inr (Or.inr (Or.inr (Or.inr (Or.inl ⟨h13, h⟩)))))))))))))
  rw [if_neg h13] at h
  by_cases h14 : opc ∈ [0xD8]
  · rw [if_pos h14] at h
    exact Or.inr (Or.inr (Or.inr (Or.inr (Or.inr (Or.inr (Or.inr (Or.inr (Or.inr (Or.inr (Or.inr (Or.inr (Or.inr (Or.inr (Or.inl ⟨h14, h⟩))))))))))))))
  rw [if_neg h14] at h
  by_cases h15 : opc ∈ [0x58]
  · rw [if_pos h15] at h
    exact Or.inr (Or.inr (Or.inr (Or.inr (Or.inr (Or.inr (Or.inr (Or.inr (Or.inr (Or.inr (Or.inr (Or.inr (Or.inr (Or.inr (Or.inr (Or.inl ⟨h15, h⟩)))))))))))))))
  rw [if_neg h15] at h
  by_cases h16 : opc ∈ [0xB8]
  · rw [if_pos h16] at h
    exact Or.inr (Or.inr (Or.inr (Or.inr (Or.inr (Or.inr (Or.inr (Or.inr (Or.inr (Or.inr (Or.inr (Or.inr (Or.inr (Or.inr (Or.inr (Or.inr (Or.inl ⟨h16, h⟩))))))))))))))))
  rw [if_neg h16] at h
  by_cases h17 : opc ∈ [0xC9, 0xC5, 0xD5, 0xCD, 0xDD, 0xD9, 0xC1, 0xD1]
  · rw [if_pos h17] at h
    exact Or.inr (Or.inr (Or.inr (Or.inr (Or.inr (Or.inr (Or.inr (Or.inr (Or.inr (Or.inr (Or.inr (Or.inr (Or.inr (Or.inr (Or.inr (Or.inr (Or.inr (Or.inl ⟨h17, h⟩)))))))))))))))))
  rw [if_neg h17] at h
  by_cases h18 : opc ∈ [0xE0, 0xE4, 0xEC]
  · rw [if_pos h18] at h
    exact Or.inr (Or.inr (Or.inr (Or.inr (Or.inr (Or.inr (Or.inr (Or.inr (Or.inr (Or.inr (Or.inr (Or.inr (Or.inr (Or.inr (Or.inr (Or.inr (Or.inr (Or.inr (Or.inl ⟨h18, h⟩))))))))))))))))))
  rw [if_neg h18] at h
  by_cases h19 : opc ∈ [0xC0, 0xC4, 0xCC]
  · rw [if_pos h19] at h
    exact Or.inr (Or.inr (Or.inr (Or.inr (Or.inr (Or.inr (Or.inr (Or.inr (Or.inr (Or.inr (Or.inr (Or.inr (Or.inr (Or.inr (Or.inr (Or.inr (Or.inr (Or.inr (Or.inr (Or.inl ⟨h19, h⟩)))))))))))))))))))
  rw [if_neg h19] at h
  by_cases h20 : opc ∈ [0xC6, 0xD6, 0xCE, 0xDE]
  · rw [if_pos h20] at h
    exact Or.inr (Or.inr (Or.inr (Or.inr (Or.inr (Or.inr (Or.inr (Or.inr (Or.inr (Or.inr (Or.inr (Or.inr (Or.inr (Or.inr (Or.inr (Or.inr (Or.inr (Or.inr (Or.inr (Or.inr (Or.inl ⟨h20, h⟩))))))))))))))))))))
  rw [if_neg h20] at h
  by_cases h21 : opc ∈ [0xCA]
  · rw [if_pos h21] at h
    exact Or.inr (Or.inr (Or.inr (Or.inr (Or.inr (Or.inr (Or.inr (Or.inr (Or.inr (Or.inr (Or.inr (Or.inr (Or.inr (Or.inr (Or.inr (Or.inr (Or.inr (Or.inr (Or.inr (Or.inr (Or.inr (Or.inl ⟨h21, h⟩)))))))))))))))))))))
  rw [if_neg h21] at h
  by_cases h22 : opc ∈ [0x88]
  · rw [if_pos h22] at h
    exact Or.inr (Or.inr (Or.inr (Or.inr (Or.inr (Or.inr (Or.inr (Or.inr (Or.inr (Or.inr (Or.inr (Or.inr (Or.inr (Or.inr (Or.inr (Or.inr (Or.inr (Or.inr (Or.inr (Or.inr (Or.inr (Or.inr (Or.inl ⟨h22, h⟩))))))))))))))))))))))
  rw [if_neg h22] at h
  by_cases h23 : opc ∈ [0x49, 0x45, 0x55, 0x4D, 0x5D, 0x59, 0x41, 0x51]
  · rw [if_pos h23] at h
    exact Or.inr (Or.inr (Or.inr (Or.inr (Or.inr (Or.inr (Or.inr (Or.inr (Or.inr (Or.inr (Or.inr (Or.inr (Or.inr (Or.inr (Or.inr (Or.inr (Or.inr (Or.inr (Or.inr (Or.inr (Or.inr (Or.inr (Or.inr (Or.inl ⟨h23, h⟩)))))))))))))))))))))))
  rw [if_neg h23] at h
  by_cases h24 : opc ∈ [0xE6, 0xF6, 0xEE, 0xFE]
  · rw [if_pos h24] at h
    exact Or.inr (Or.inr (Or.inr (Or.inr (Or.inr (Or.inr (Or.inr (Or.inr (Or.inr (Or.inr (Or.inr (Or.inr (Or.inr (Or.inr (Or.inr (Or.inr (Or.inr (Or.inr (Or.inr (Or.inr (Or.inr (Or.inr (Or.inr (Or.inr (Or.inl ⟨h24, h⟩))))))))))))))))))))))))
  rw [if_neg h24] at h
  by_cases h25 : opc ∈ [0xE8]
  · rw [if_pos h25] at h
    exact Or.inr (Or.inr (Or.inr (Or.inr (Or.inr (Or.inr (Or.inr (Or.inr (Or.inr (Or.inr (Or.inr (Or.inr (Or.inr (Or.inr (Or.inr (Or.inr (Or.inr (Or.inr (Or.inr (Or.inr (Or.inr (Or.inr (Or.inr (Or.inr (Or.inr (Or.inl ⟨h25, h⟩)))))))))))))))))))))))))
  rw [if_neg h25] at h
  by_cases h26 : opc ∈ [0xC8]
  · rw [if_pos h26] at h
    exact Or.inr (Or.inr (Or.inr (Or.inr (Or.inr (Or.inr (Or.inr (Or.inr (Or.inr (Or.inr (Or.inr (Or.inr (Or.inr (Or.inr (Or.inr (Or.inr (Or.inr (Or.inr (Or.inr (Or.inr (Or.inr (Or.inr (Or.inr (Or.inr (Or.inr (Or.inr (Or.inl ⟨h26, h⟩))))))))))))))))))))))))))
  rw [if_neg h26] at h
  by_cases h27 : opc ∈ [0x4C, 0x6C]
  · rw [if_pos h27] at h
    exact Or.inr (Or.inr (Or.inr (Or.inr (Or.inr (Or.inr (Or.inr (Or.inr (Or.inr (Or.inr (Or.inr (Or.inr (Or.inr (Or.inr (Or.inr (Or.inr (Or.inr (Or.inr (Or.inr (Or.inr (Or.inr (Or.inr (Or.inr (Or.inr (Or.inr (Or.inr (Or.inr (Or.inl ⟨h27, h⟩)))))))))))))))))))))))))))
  rw [if_neg h27] at h
  by_cases h28 : opc ∈ [0x20]
  · rw [if_pos h28] at h
    exact Or.inr (Or.inr (Or.inr (Or.inr (Or.inr (Or.inr (Or.inr (Or.inr (Or.inr (Or.inr (Or.inr (Or.inr (Or.inr (Or.inr (Or.inr (Or.inr (Or.inr (Or.inr (Or.inr (Or.inr (Or.inr (Or.inr (Or.inr (Or.inr (Or.inr (Or.inr (Or.inr (Or.inr (Or.inl ⟨h28, h⟩))))))))))))))))))))))))))))
  rw [if_neg h28] at h
  by_cases h29 : opc ∈ [0xA9, 0xA5, 0xB5, 0xAD, 0xBD, 0xB9, 0xA1, 0xB1]
  · rw [if_pos h29] at h
    exact Or.inr (Or.inr (Or.inr (Or.inr (Or.inr (Or.inr (Or.inr (Or.inr (Or.inr (Or.inr (Or.inr (Or.inr (Or.inr (Or.inr (Or.inr (Or.inr (Or.inr (Or.inr (Or.inr (Or.inr (Or.inr (Or.inr (Or.inr (Or.inr (Or.inr (Or.inr (Or.inr (Or.inr (Or.inr (Or.inl ⟨h29, h⟩)))))))))))))))))))))))))))))
  rw [if_neg h29] at h
  by_cases h30 : opc ∈ [0xA2, 0xA6, 0xB6, 0xAE, 0xBE]
  · rw [if_pos h30] at h
    exact Or.inr (Or.inr (Or.inr (Or.inr (Or.inr (Or.inr (Or.inr (Or.inr (Or.inr (Or.inr (Or.inr (Or.inr (Or.inr (Or.inr (Or.inr (Or.inr (Or.inr (Or.inr (Or.inr (Or.inr (Or.inr (Or.inr (Or.inr (Or.inr (Or.inr (Or.inr (Or.inr (Or.inr (Or.inr (Or.inr (Or.inl ⟨h30, h⟩))))))))))))))))))))))))))))))
  rw [if_neg h30] at h
  by_cases h31 : opc ∈ [0xA0, 0xA4, 0xB4, 0xAC, 0xBC]
  · rw [if_pos h31] at h
    exact Or.inr (Or.inr (Or.inr (Or.inr (Or.inr (Or.inr (Or.inr (Or.inr (Or.inr (Or.inr (Or.inr (Or.inr (Or.inr (Or.inr (Or.inr (Or.inr (Or.inr (Or.inr (Or.inr (Or.inr (Or.inr (Or.inr (Or.inr (Or.inr (Or.inr (Or.inr (Or.inr (Or.inr (Or.inr (Or.inr (Or.inr (Or.inl ⟨h31, h⟩)))))))))))))))))))))))))))))))
  rw [if_neg h31] at h
  by_cases h32 : opc ∈ [0x4A, 0x46, 0x56, 0x4E, 0x5E]
  · rw [if_pos h32] at h
    exact Or.inr (Or.inr (Or.inr (Or.inr (Or.inr (Or.inr (Or.inr (Or.inr (Or.inr (Or.inr (Or.inr (Or.inr (Or.inr (Or.inr (Or.inr (Or.inr (Or.inr (Or.inr (Or.inr (Or.inr (Or.inr (Or.inr (Or.inr (Or.inr (Or.inr (Or.inr (Or.inr (Or.inr (Or.inr (Or.inr (Or.inr (Or.inr (Or.inl ⟨h32, h⟩))))))))))))))))))))))))))))))))
  rw [if_neg h32] at h
  by_cases h33 : opc ∈ [0xEA]
  · rw [if_pos h33] at h
    exact Or.inr (Or.inr (Or.inr (Or.inr (Or.inr (Or.inr (Or.inr (Or.inr (Or.inr (Or.inr (Or.inr (Or.inr (Or.inr (Or.inr (Or.inr (Or.inr (Or.inr (Or.inr (Or.inr (Or.inr (Or.inr (Or.inr (Or.inr (Or.inr (Or.inr (Or.inr (Or.inr (Or.inr (Or.inr (Or.inr (Or.inr (Or.inr (Or.inr (Or.inl ⟨h33, h⟩)))))))))))))))))))))))))))))))))
  rw [if_neg h33] at h
  by_cases h34 : opc ∈ [0x09, 0x05, 0x15, 0x0D, 0x1D, 0x19, 0x01, 0x11]
  · rw [if_pos h34] at h
    exact Or.inr (Or.inr (Or.inr (Or.inr (Or.inr (Or.inr (Or.inr (Or.inr (Or.inr (Or.inr (Or.inr (Or.inr (Or.inr (Or.inr (Or.inr (Or.inr (Or.inr (Or.inr (Or.inr (Or.inr (Or.inr (Or.inr (Or.inr (Or.inr (Or.inr (Or.inr (Or.inr (Or.inr (Or.inr (Or.inr (Or.inr (Or.inr (Or.inr (Or.inr (Or.inl ⟨h34, h⟩))))))))))))))))))))))))))))))))))
  rw [if_neg h34] at h
  by_cases h35 : opc ∈ [0x48]
  · rw [if_pos h35] at h
    exact Or.inr (Or.inr (Or.inr (Or.inr (Or.inr (Or.inr (Or.inr (Or.inr (Or.inr (Or.inr (Or.inr (Or.inr (Or.inr (Or.inr (Or.inr (Or.inr (Or.inr (Or.inr (Or.inr (Or.inr (Or.inr (Or.inr (Or.inr (Or.inr (Or.inr (Or.inr (Or.inr (Or.inr (Or.inr (Or.inr (Or.inr (Or.inr (Or.inr (Or.inr (Or.inr (Or.inl ⟨h35, h⟩)))))))))))))))))))))))))))))))))))
  rw [if_neg h35] at h
  by_cases h36 : opc ∈ [0x08]
  · rw [if_pos h36] at h
    exact Or.inr (Or.inr (Or.inr (Or.inr (Or.inr (Or.inr (Or.inr (Or.inr (Or.inr (Or.inr (Or.inr (Or.inr (Or.inr (Or.inr (Or.inr (Or.inr (Or.inr (Or.inr (Or.inr (Or.inr (Or.inr (Or.inr (Or.inr (Or.inr (Or.inr (Or.inr (Or.inr (Or.inr (Or.inr (Or.inr (Or.inr (Or.inr (Or.inr (Or.inr (Or.inr (Or.inr (Or.inl ⟨h36, h⟩))))))))))))))))))))))))))))))))))))
  rw [if_neg h36] at h
  by_cases h37 : opc ∈ [0x68]
  · rw [if_pos h37] at h
    exact Or.inr (Or.inr (Or.inr (Or.inr (Or.inr (Or.inr (Or.inr (Or.inr (Or.inr (Or.inr (Or.inr (Or.inr (Or.inr (Or.inr (Or.inr (Or.inr (Or.inr (Or.inr (Or.inr (Or.inr (Or.inr (Or.inr (Or.inr (Or.inr (Or.inr (Or.inr (Or.inr (Or.inr (Or.inr (Or.inr (Or.inr (Or.inr (Or.inr (Or.inr (Or.inr (Or.inr (Or.inr (Or.inl ⟨h37, h⟩)))))))))))))))))))))))))))))))))))))
  rw [if_neg h37] at h
  by_cases h38 : opc ∈ [0x28]
  · rw [if_pos h38] at h
    exact Or.inr (Or.inr (Or.inr (Or.inr (Or.inr (Or.inr (Or.inr (Or.inr (Or.inr (Or.inr (Or.inr (Or.inr (Or.inr (Or.inr (Or.inr (Or.inr (Or.inr (Or.inr (Or.inr (Or.inr (Or.inr (Or.inr (Or.inr (Or.inr (Or.inr (Or.inr (Or.inr (Or.inr (Or.inr (Or.inr (Or.inr (Or.inr (Or.inr (Or.inr (Or.inr (Or.inr (Or.inr (Or.inr (Or.inl ⟨h38, h⟩))))))))))))))))))))))))))))))))))))))
  rw [if_neg h38] at h
  by_cases h39 : opc ∈ [0x2A, 0x26, 0x36, 0x2E, 0x3E]
  · rw [if_pos h39] at h
    exact Or.inr (Or.inr (Or.inr (Or.inr (Or.inr (Or.inr (Or.inr (Or.inr (Or.inr (Or.inr (Or.inr (Or.inr (Or.inr (Or.inr (Or.inr (Or.inr (Or.inr (Or.inr (Or.inr (Or.inr (Or.inr (Or.inr (Or.inr (Or.inr (Or.inr (Or.inr (Or.inr (Or.inr (Or.inr (Or.inr (Or.inr (Or.inr (Or.inr (Or.inr (Or.inr (Or.inr (Or.inr (Or.inr (Or.inr (Or.inl ⟨h39, h⟩)))))))))))))))))))))))))))))))))))))))
  rw [if_neg h39] at h
  by_cases h40 : opc ∈ [0x6A, 0x66, 0x76, 0x6E, 0x7E]
  · rw [if_pos h40] at h
    exact Or.inr (Or.inr (Or.inr (Or.inr (Or.inr (Or.inr (Or.inr (Or.inr (Or.inr (Or.inr (Or.inr (Or.inr (Or.inr (Or.inr (Or.inr (Or.inr (Or.inr (Or.inr (Or.inr (Or.inr (Or.inr (Or.inr (Or.inr (Or.inr (Or.inr (Or.inr (Or.inr (Or.inr (Or.inr (Or.inr (Or.inr (Or.inr (Or.inr (Or.inr (Or.inr (Or.inr (Or.inr (Or.inr (Or.inr (Or.inr (Or.inl ⟨h40, h⟩))))))))))))))))))))))))))))))))))))))))
  rw [if_neg h40] at h
  by_cases h41 : opc ∈ [0x40]
  · rw [if_pos h41] at h
    exact Or.inr (Or.inr (Or.inr (Or.inr (Or.inr (Or.inr (Or.inr (Or.inr (Or.inr (Or.inr (Or.inr (Or.inr (Or.inr (Or.inr (Or.inr (Or.inr (Or.inr (Or.inr (Or.inr (Or.inr (Or.inr (Or.inr (Or.inr (Or.inr (Or.inr (Or.inr (Or.inr (Or.inr (Or.inr (Or.inr (Or.inr (Or.inr (Or.inr (Or.inr (Or.inr (Or.inr (Or.inr (Or.inr (Or.inr (Or.inr (Or.inr (Or.inl ⟨h41, h⟩)))))))))))))))))))))))))))))))))))))))))
  rw [if_neg h41] at h
  by_cases h42 : opc ∈ [0x60]
  · rw [if_pos h42] at h
    exact Or.inr (Or.inr (Or.inr (Or.inr (Or.inr (Or.inr (Or.inr (Or.inr (Or.inr (Or.inr (Or.inr (Or.inr (Or.inr (Or.inr (Or.inr (Or.inr (Or.inr (Or.inr (Or.inr (Or.inr (Or.inr (Or.inr (Or.inr (Or.inr (Or.inr (Or.inr (Or.inr (Or.inr (Or.inr (Or.inr (Or.inr (Or.inr (Or.inr (Or.inr (Or.inr (Or.inr (Or.inr (Or.inr (Or.inr (Or.inr (Or.inr (Or.inr (Or.inl ⟨h42, h⟩))))))))))))))))))))))))))))))))))))))))))
  rw [if_neg h42] at h
  by_cases h43 : opc ∈ [0xE9, 0xE5, 0xF5, 0xED, 0xFD, 0xF9, 0xE1, 0xF1]
  · rw [if_pos h43] at h
    exact Or.inr (Or.inr (Or.inr (Or.inr (Or.inr (Or.inr (Or.inr (Or.inr (Or.inr (Or.inr (Or.inr (Or.inr (Or.inr (Or.inr (Or.inr (Or.inr (Or.inr (Or.inr (Or.inr (Or.inr (Or.inr (Or.inr (Or.inr (Or.inr (Or.inr (Or.inr (Or.inr (Or.inr (Or.inr (Or.inr (Or.inr (Or.inr (Or.inr (Or.inr (Or.inr (Or.inr (Or.inr (Or.inr (Or.inr (Or.inr (Or.inr (Or.inr (Or.inr (Or.inl ⟨h43, h⟩)))))))))))))))))))))))))))))))))))))))))))
  rw [if_neg h43] at h
  by_cases h44 : opc ∈ [0x38]
  · rw [if_pos h44] at h
    exact Or.inr (Or.inr (Or.inr (Or.inr (Or.inr (Or.inr (Or.inr (Or.inr (Or.inr (Or.inr (Or.inr (Or.inr (Or.inr (Or.inr (Or.inr (Or.inr (Or.inr (Or.inr (Or.inr (Or.inr (Or.inr (Or.inr (Or.inr (Or.inr (Or.inr (Or.inr (Or.inr (Or.inr (Or.inr (Or.inr (Or.inr (Or.inr (Or.inr (Or.inr (Or.inr (Or.inr (Or.inr (Or.inr (Or.inr (Or.inr (Or.inr (Or.inr (Or.inr (Or.inr (Or.inl ⟨h44, h⟩))))))))))))))))))))))))))))))))))))))))))))
  rw [if_neg h44] at h
  by_cases h45 : opc ∈ [0xF8]
  · rw [if_pos h45] at h
    exact Or.inr (Or.inr (Or.inr (Or.inr (Or.inr (Or.inr (Or.inr (Or.inr (Or.inr (Or.inr (Or.inr (Or.inr (Or.inr (Or.inr (Or.inr (Or.inr (Or.inr (Or.inr (Or.inr (Or.inr (Or.inr (Or.inr (Or.inr (Or.inr (Or.inr (Or.inr (Or.inr (Or.inr (Or.inr (Or.inr (Or.inr (Or.inr (Or.inr (Or.inr (Or.inr (Or.inr (Or.inr (Or.inr (Or.inr (Or.inr (Or.inr (Or.inr (Or.inr (Or.inr (Or.inr (Or.inl ⟨h45, h⟩)))))))))))))))))))))))))))))))))))))))))))))
  rw [if_neg h45] at h
  by_cases h46 : opc ∈ [0x78]
  · rw [if_pos h46] at h
    exact Or.inr (Or.inr (Or.inr (Or.inr (Or.inr (Or.inr (Or.inr (Or.inr (Or.inr (Or.inr (Or.inr (Or.inr (Or.inr (Or.inr (Or.inr (Or.inr (Or.inr (Or.inr (Or.inr (Or.inr (Or.inr (Or.inr (Or.inr (Or.inr (Or.inr (Or.inr (Or.inr (Or.inr (Or.inr (Or.inr (Or.inr (Or.inr (Or.inr (Or.inr (Or.inr (Or.inr (Or.inr (Or.inr (Or.inr (Or.inr (Or.inr (Or.inr (Or.inr (Or.inr (Or.inr (Or.inr (Or.inl ⟨h46, h⟩))))))))))))))))))))))))))))))))))))))))))))))
  rw [if_neg h46] at h
  by_cases h47 : opc ∈ [0x85, 0x95, 0x8D, 0x9D, 0x99, 0x81, 0x91]
  · rw [if_pos h47] at h
    exact Or.inr (Or.inr (Or.inr (Or.inr (Or.inr (Or.inr (Or.inr (Or.inr (Or.inr (Or.inr (Or.inr (Or.inr (Or.inr (Or.inr (Or.inr (Or.inr (Or.inr (Or.inr (Or.inr (Or.inr (Or.inr (Or.inr (Or.inr (Or.inr (Or.inr (Or.inr (Or.inr (Or.inr (Or.inr (Or.inr (Or.inr (Or.inr (Or.inr (Or.inr (Or.inr (Or.inr (Or.inr (Or.inr (Or.inr (Or.inr (Or.inr (Or.inr (Or.inr (Or.inr (Or.inr (Or.inr (Or.inr (Or.inl ⟨h47, h⟩)))))))))))))))))))))))))))))))))))))))))))))))
  rw [if_neg h47] at h
  by_cases h48 : opc ∈ [0x86, 0x96, 0x8E]
  · rw [if_pos h48] at h
    exact Or.inr (Or.inr (Or.inr (Or.inr (Or.inr (Or.inr (Or.inr (Or.inr (Or.inr (Or.inr (Or.inr (Or.inr (Or.inr (Or.inr (Or.inr (Or.inr (Or.inr (Or.inr (Or.inr (Or.inr (Or.inr (Or.inr (Or.inr (Or.inr (Or.inr (Or.inr (Or.inr (Or.inr (Or.inr (Or.inr (Or.inr (Or.inr (Or.inr (Or.inr (Or.inr (Or.inr (Or.inr (Or.inr (Or.inr (Or.inr (Or.inr (Or.inr (Or.inr (Or.inr (Or.inr (Or.inr (Or.inr (Or.inr (Or.inl ⟨h48, h⟩))))))))))))))))))))))))))))))))))))))))))))))))
  rw [if_neg h48] at h
  by_cases h49 : opc ∈ [0x84, 0x94, 0x8C]
  · rw [if_pos h49] at h
    exact Or.inr (Or.inr (Or.inr (Or.inr (Or.inr (Or.inr (Or.inr (Or.inr (Or.inr (Or.inr (Or.inr (Or.inr (Or.inr (Or.inr (Or.inr (Or.inr (Or.inr (Or.inr (Or.inr (Or.inr (Or.inr (Or.inr (Or.inr (Or.inr (Or.inr (Or.inr (Or.inr (Or.inr (Or.inr (Or.inr (Or.inr (Or.inr (Or.inr (Or.inr (Or.inr (Or.inr (Or.inr (Or.inr (Or.inr (Or.inr (Or.inr (Or.inr (Or.inr (Or.inr (Or.inr (Or.inr (Or.inr (Or.inr (Or.inr (Or.inl ⟨h49, h⟩)))))))))))))))))))))))))))))))))))))))))))))))))
  rw [if_neg h49] at h
  by_cases h50 : opc ∈ [0xAA]
  · rw [if_pos h50] at h
    exact Or.inr (Or.inr (Or.inr (Or.inr (Or.inr (Or.inr (Or.inr (Or.inr (Or.inr (Or.inr (Or.inr (Or.inr (Or.inr (Or.inr (Or.inr (Or.inr (Or.inr (Or.inr (Or.inr (Or.inr (Or.inr (Or.inr (Or.inr (Or.inr (Or.inr (Or.inr (Or.inr (Or.inr (Or.inr (Or.inr (Or.inr (Or.inr (Or.inr (Or.inr (Or.inr (Or.inr (Or.inr (Or.inr (Or.inr (Or.inr (Or.inr (Or.inr (Or.inr (Or.inr (Or.inr (Or.inr (Or.inr (Or.inr (Or.inr (Or.inr (Or.inl ⟨h50, h⟩))))))))))))))))))))))))))))))))))))))))))))))))))
  rw [if_neg h50] at h
  by_cases h51 : opc ∈ [0xA8]
  · rw [if_pos h51] at h
    exact Or.inr (Or.inr (Or.inr (Or.inr (Or.inr (Or.inr (Or.inr (Or.inr (Or.inr (Or.inr (Or.inr (Or.inr (Or.inr (Or.inr (Or.inr (Or.inr (Or.inr (Or.inr (Or.inr (Or.inr (Or.inr (Or.inr (Or.inr (Or.inr (Or.inr (Or.inr (Or.inr (Or.inr (Or.inr (Or.inr (Or.inr (Or.inr (Or.inr (Or.inr (Or.inr (Or.inr (Or.inr (Or.inr (Or.inr (Or.inr (Or.inr (Or.inr (Or.inr (Or.inr (Or.inr (Or.inr (Or.inr (Or.inr (Or.inr (Or.inr (Or.inr (Or.inl ⟨h51, h⟩)))))))))))))))))))))))))))))))))))))))))))))))))))
  rw [if_neg h51] at h
  by_cases h52 : opc ∈ [0xBA]
  · rw [if_pos h52] at h
    exact Or.inr (Or.inr (Or.inr (Or.inr (Or.inr (Or.inr (Or.inr (Or.inr (Or.inr (Or.inr (Or.inr (Or.inr (Or.inr (Or.inr (Or.inr (Or.inr (Or.inr (Or.inr (Or.inr (Or.inr (Or.inr (Or.inr (Or.inr (Or.inr (Or.inr (Or.inr (Or.inr (Or.inr (Or.inr (Or.inr (Or.inr (Or.inr (Or.inr (Or.inr (Or.inr (Or.inr (Or.inr (Or.inr (Or.inr (Or.inr (Or.inr (Or.inr (Or.inr (Or.inr (Or.inr (Or.inr (Or.inr (Or.inr (Or.inr (Or.inr (Or.inr (Or.inr (Or.inl ⟨h52, h⟩))))))))))))))))))))))))))))))))))))))))))))))))))))
  rw [if_neg h52] at h
  by_cases h53 : opc ∈ [0x8A]
  · rw [if_pos h53] at h
    exact Or.inr (Or.inr (Or.inr (Or.inr (Or.inr (Or.inr (Or.inr (Or.inr (Or.inr (Or.inr (Or.inr (Or.inr (Or.inr (Or.inr (Or.inr (Or.inr (Or.inr (Or.inr (Or.inr (Or.inr (Or.inr (Or.inr (Or.inr (Or.inr (Or.inr (Or.inr (Or.inr (Or.inr (Or.inr (Or.inr (Or.inr (Or.inr (Or.inr (Or.inr (Or.inr (Or.inr (Or.inr (Or.inr (Or.inr (Or.inr (Or.inr (Or.inr (Or.inr (Or.inr (Or.inr (Or.inr (Or.inr (Or.inr (Or.inr (Or.inr (Or.inr (Or.inr (Or.inr (Or.inl ⟨h53, h⟩)))))))))))))))))))))))))))))))))))))))))))))))))))))
  rw [if_neg h53] at h
  by_cases h54 : opc ∈ [0x9A]
  · rw [if_pos h54] at h
    exact Or.inr (Or.inr (Or.inr (Or.inr (Or.inr (Or.inr (Or.inr (Or.inr (Or.inr (Or.inr (Or.inr (Or.inr (Or.inr (Or.inr (Or.inr (Or.inr (Or.inr (Or.inr (Or.inr (Or.inr (Or.inr (Or.inr (Or.inr (Or.inr (Or.inr (Or.inr (Or.inr (Or.inr (Or.inr (Or.inr (Or.inr (Or.inr (Or.inr (Or.inr (Or.inr (Or.inr (Or.inr (Or.inr (Or.inr (Or.inr (Or.inr (Or.inr (Or.inr (Or.inr (Or.inr (Or.inr (Or.inr (Or.inr (Or.inr (Or.inr (Or.inr (Or.inr (Or.inr (Or.inr (Or.inl ⟨h54, h⟩))))))))))))))))))))))))))))))))))))))))))))))))))))))
  rw [if_neg h54] at h
  by_cases h55 : opc ∈ [0x98]
  · rw [if_pos h55] at h
    exact Or.inr (Or.inr (Or.inr (Or.inr (Or.inr (Or.inr (Or.inr (Or.inr (Or.inr (Or.inr (Or.inr (Or.inr (Or.inr (Or.inr (Or.inr (Or.inr (Or.inr (Or.inr (Or.inr (Or.inr (Or.inr (Or.inr (Or.inr (Or.inr (Or.inr (Or.inr (Or.inr (Or.inr (Or.inr (Or.inr (Or.inr (Or.inr (Or.inr (Or.inr (Or.inr (Or.inr (Or.inr (Or.inr (Or.inr (Or.inr (Or.inr (Or.inr (Or.inr (Or.inr (Or.inr (Or.inr (Or.inr (Or.inr (Or.inr (Or.inr (Or.inr (Or.inr (Or.inr (Or.inr (Or.inr (Or.inl ⟨h55, h⟩)))))))))))))))))))))))))))))))))))))))))))))))))))))))
  rw [if_neg h55] at h
  by_cases h56 : opc ∈ [0x1A, 0x3A, 0x5A, 0x7A, 0xDA, 0xFA, 0x80, 0x82, 0x89, 0xC2, 0xE2, 0x04, 0x44, 0x64,
      0x14, 0x34, 0x54, 0x74, 0xD4, 0xF4, 0x0C, 0x1C, 0x3C, 0x5C, 0x7C, 0xDC, 0xFC]
  · rw [if_pos h56] at h
    exact Or.inr (Or.inr (Or.inr (Or.inr (Or.inr (Or.inr (Or.inr (Or.inr (Or.inr (Or.inr (Or.inr (Or.inr (Or.inr (Or.inr (Or.inr (Or.inr (Or.inr (Or.inr (Or.inr (Or.inr (Or.inr (Or.inr (Or.inr (Or.inr (Or.inr (Or.inr (Or.inr (Or.inr (Or.inr (Or.inr (Or.inr (Or.inr (Or.inr (Or.inr (Or.inr (Or.inr (Or.inr (Or.inr (Or.inr (Or.inr (Or.inr (Or.inr (Or.inr (Or.inr (Or.inr (Or.inr (Or.inr (Or.inr (Or.inr (Or.inr (Or.inr (Or.inr (Or.inr (Or.inr (Or.inr (Or.inr (Or.inl ⟨h56, h⟩))))))))))))))))))))))))))))))))))))))))))))))))))))))))
  rw [if_neg h56] at h
  refine Or.inr (Or.inr (Or.inr (Or.inr (Or.inr (Or.inr (Or.inr (Or.inr (Or.inr (Or.inr (Or.inr (Or.inr (Or.inr (Or.inr (Or.inr (Or.inr (Or.inr (Or.inr (Or.inr (Or.inr (Or.inr (Or.inr (Or.inr (Or.inr (Or.inr (Or.inr (Or.inr (Or.inr (Or.inr (Or.inr (Or.inr (Or.inr (Or.inr (Or.inr (Or.inr (Or.inr (Or.inr (Or.inr (Or.inr (Or.inr (Or.inr (Or.inr (Or.inr (Or.inr (Or.inr (Or.inr (Or.inr (Or.inr (Or.inr (Or.inr (Or.inr (Or.inr (Or.inr (Or.inr (Or.inr (Or.inr (Or.inr (⟨?_, (Option.some.inj h).symm⟩)))))))))))))))))))))))))))))))))))))))))))))))))))))))))
  simp only [exec_inst_labels, List.mem_append, not_or]
  exact ⟨⟨⟨⟨⟨⟨⟨⟨⟨⟨⟨⟨⟨⟨⟨⟨⟨⟨⟨⟨⟨⟨⟨⟨⟨⟨⟨⟨⟨⟨⟨⟨⟨⟨⟨⟨⟨⟨⟨⟨⟨⟨⟨⟨⟨⟨⟨⟨⟨⟨⟨⟨⟨⟨⟨⟨h0, h1⟩, h2⟩, h3⟩, h4⟩, h5⟩, h6⟩, h7⟩, h8⟩, h9⟩, h10⟩, h11⟩, h12⟩
    , h13⟩, h14⟩, h15⟩, h16⟩, h17⟩, h18⟩, h19⟩, h20⟩, h21⟩, h22⟩, h23⟩, h24⟩
    , h25⟩, h26⟩, h27⟩, h28⟩, h29⟩, h30⟩, h31⟩, h32⟩, h33⟩, h34⟩, h35⟩, h36⟩
    , h37⟩, h38⟩, h39⟩, h40⟩, h41⟩, h42⟩, h43⟩, h44⟩, h45⟩, h46⟩, h47⟩, h48⟩
    , h49⟩, h50⟩, h51⟩, h52⟩, h53⟩, h54⟩, h55⟩, h56⟩

theorem exec_inst_bad {inst : Ptr} {s : CPU} {opc : Nat}
    (hl : s.load inst = some opc) (hk : opc ∉ exec_inst_labels) :
    exec_inst inst s = some (s, ⟨"BAD", 1⟩) := by
  unfold exec_inst
  rw [hl, Option.bind_eq_bind, Option.some_bind]
  rw [if_neg (fun hm => hk ((by decide : ∀ c ∈ [0x69, 0x65, 0x75, 0x6D, 0x7D, 0x79, 0x61, 0x71],
    c ∈ exec_inst_labels) opc hm))]
  rw [if_neg (fun hm => hk ((by decide : ∀ c ∈ [0x29, 0x25, 0x35, 0x2D, 0x3D, 0x39, 0x21, 0x31],
    c ∈ exec_inst_labels) opc hm))]
  rw [if_neg (fun hm => hk ((by decide : ∀ c ∈ [0x0A, 0x06, 0x16, 0x0E, 0x1E],
    c ∈ exec_inst_labels) opc hm))]
  rw [if_neg (fun hm => hk ((by decide : ∀ c ∈ [0x90],
    c ∈ exec_inst_labels) opc hm))]
  rw [if_neg (fun hm => hk ((by decide : ∀ c ∈ [0xB0],
    c ∈ exec_inst_labels) opc hm))]
  rw [if_neg (fun hm => hk ((by decide : ∀ c ∈ [0xF0],
    c ∈ exec_inst_labels) opc hm))]
  rw [if_neg (fun hm => hk ((by decide : ∀ c ∈ [0x24, 0x2C],
    c ∈ exec_inst_labels) opc hm))]
  rw [if_neg (fun hm => hk ((by decide : ∀ c ∈ [0x30],
    c ∈ exec_inst_labels) opc hm))]
  rw [if_neg (fun hm => hk ((by decide : ∀ c ∈ [0xD0],
    c ∈ exec_inst_labels) opc hm))]
  rw [if_neg (fun hm => hk ((by decide : ∀ c ∈ [0x10],
    c ∈ exec_inst_labels) opc hm))]
  rw [if_neg (fun hm => hk ((by decide : ∀ c ∈ [0x00],
    c ∈ exec_inst_labels) opc hm))]
  rw [if_neg (fun hm => hk ((by decide : ∀ c ∈ [0x50],
    c ∈ exec_inst_labels) opc hm))]
  rw [if_neg (fun hm => hk ((by decide : ∀ c ∈ [0x70],
    c ∈ exec_inst_labels) opc hm))]
  rw [if_neg (fun hm => hk ((by decide : ∀ c ∈ [0x18],
    c ∈ exec_inst_labels) opc hm))]
  rw [if_neg (fun hm => hk ((by decide : ∀ c ∈ [0xD8],
    c ∈ exec_inst_labels) opc hm))]
  rw [if_neg (fun hm => hk ((by decide : ∀ c ∈ [0x58],
    c ∈ exec_inst_labels) opc hm))]
  rw [if_neg (fun hm => hk ((by decide : ∀ c ∈ [0xB8],
    c ∈ exec_inst_labels) opc hm))]
  rw [if_neg (fun hm => hk ((by decide : ∀ c ∈ [0xC9, 0xC5, 0xD5, 0xCD, 0xDD, 0xD9, 0xC1, 0xD1],
    c ∈ exec_inst_labels) opc hm))]
  rw [if_neg (fun hm => hk ((by decide : ∀ c ∈ [0xE0, 0xE4, 0xEC],
    c ∈ exec_inst_labels) opc hm))]
  rw [if_neg (fun hm => hk ((by decide : ∀ c ∈ [0xC0, 0xC4, 0xCC],
    c ∈ exec_inst_labels) opc hm))]
  rw [if_neg (fun hm => hk ((by decide : ∀ c ∈ [0xC6, 0xD6, 0xCE, 0xDE],
    c ∈ exec_inst_labels) opc hm))]
  rw [if_neg (fun hm => hk ((by decide : ∀ c ∈ [0xCA],
    c ∈ exec_inst_labels) opc hm))]
  rw [if_neg (fun hm => hk ((by decide : ∀ c ∈ [0x88],
    c ∈ exec_inst_labels) opc hm))]
  rw [if_neg (fun hm => hk ((by decide : ∀ c ∈ [0x49, 0x45, 0x55, 0x4D, 0x5D, 0x59, 0x41, 0x51],
    c ∈ exec_inst_labels) opc hm))]
  rw [if_neg (fun hm => hk ((by decide : ∀ c ∈ [0xE6, 0xF6, 0xEE, 0xFE],
    c ∈ exec_inst_labels) opc hm))]
  rw [if_neg (fun hm => hk ((by decide : ∀ c ∈ [0xE8],
    c ∈ exec_inst_labels) opc hm))]
  rw [if_neg (fun hm => hk ((by decide : ∀ c ∈ [0xC8],
    c ∈ exec_inst_labels) opc hm))]
  rw [if_neg (fun hm => hk ((by decide : ∀ c ∈ [0x4C, 0x6C],
    c ∈ exec_inst_labels) opc hm))]
  rw [if_neg (fun hm => hk ((by decide : ∀ c ∈ [0x20],
    c ∈ exec_inst_labels) opc hm))]
  rw [if_neg (fun hm => hk ((by decide : ∀ c ∈ [0xA9, 0xA5, 0xB5, 0xAD, 0xBD, 0xB9, 0xA1, 0xB1],
    c ∈ exec_inst_labels) opc hm))]
  rw [if_neg (fun hm => hk ((by decide : ∀ c ∈ [0xA2, 0xA6, 0xB6, 0xAE, 0xBE],
    c ∈ exec_inst_labels) opc hm))]
  rw [if_neg (fun hm => hk ((by decide : ∀ c ∈ [0xA0, 0xA4, 0xB4, 0xAC, 0xBC],
    c ∈ exec_inst_labels) opc hm))]
  rw [if_neg (fun hm => hk ((by decide : ∀ c ∈ [0x4A, 0x46, 0x56, 0x4E, 0x5E],
    c ∈ exec_inst_labels) opc hm))]
  rw [if_neg (fun hm => hk ((by decide : ∀ c ∈ [0xEA],
    c ∈ exec_inst_labels) opc hm))]
  rw [if_neg (fun hm => hk ((by decide : ∀ c ∈ [0x09, 0x05, 0x15, 0x0D, 0x1D, 0x19, 0x01, 0x11],
    c ∈ exec_inst_labels) opc hm))]
  rw [if_neg (fun hm => hk ((by decide : ∀ c ∈ [0x48],
    c ∈ exec_inst_labels) opc hm))]
  rw [if_neg (fun hm => hk ((by decide : ∀ c ∈ [0x08],
    c ∈ exec_inst_labels) opc hm))]
  rw [if_neg (fun hm => hk ((by decide : ∀ c ∈ [0x68],
    c ∈ exec_inst_labels) opc hm))]
  rw [if_neg (fun hm => hk ((by decide : ∀ c ∈ [0x28],
    c ∈ exec_inst_labels) opc hm))]
  rw [if_neg (fun hm => hk ((by decide : ∀ c ∈ [0x2A, 0x26, 0x36, 0x2E, 0x3E],
    c ∈ exec_inst_labels) opc hm))]
  rw [if_neg (fun hm => hk ((by decide : ∀ c ∈ [0x6A, 0x66, 0x76, 0x6E, 0x7E],
    c ∈ exec_inst_labels) opc hm))]
  rw [if_neg (fun hm => hk ((by decide : ∀ c ∈ [0x40],
    c ∈ exec_inst_labels) opc hm))]
  rw [if_neg (fun hm => hk ((by decide : ∀ c ∈ [0x60],
    c ∈ exec_inst_labels) opc hm))]
  rw [if_neg (fun hm => hk ((by decide : ∀ c ∈ [0xE9, 0xE5, 0xF5, 0xED, 0xFD, 0xF9, 0xE1, 0xF1],
    c ∈ exec_inst_labels) opc hm))]
  rw [if_neg (fun hm => hk ((by decide : ∀ c ∈ [0x38],
    c ∈ exec_inst_labels) opc hm))]
  rw [if_neg (fun hm => hk ((by decide : ∀ c ∈ [0xF8],
    c ∈ exec_inst_labels) opc hm))]
  rw [if_neg (fun hm => hk ((by decide : ∀ c ∈ [0x78],
    c ∈ exec_inst_labels) opc hm))]
  rw [if_neg (fun hm => hk ((by decide : ∀ c ∈ [0x85, 0x95, 0x8D, 0x9D, 0x99, 0x81, 0x91],
    c ∈ exec_inst_labels) opc hm))]
  rw [if_neg (fun hm => hk ((by decide : ∀ c ∈ [0x86, 0x96, 0x8E],
    c ∈ exec_inst_labels) opc hm))]
  rw [if_neg (fun hm => hk ((by decide : ∀ c ∈ [0x84, 0x94, 0x8C],
    c ∈ exec_inst_labels) opc hm))]
  rw [if_neg (fun hm => hk ((by decide : ∀ c ∈ [0xAA],
    c ∈ exec_inst_labels) opc hm))]
  rw [if_neg (fun hm => hk ((by decide : ∀ c ∈ [0xA8],
    c ∈ exec_inst_labels) opc hm))]
  rw [if_neg (fun hm => hk ((by decide : ∀ c ∈ [0xBA],
    c ∈ exec_inst_labels) opc hm))]
  rw [if_neg (fun hm => hk ((by decide : ∀ c ∈ [0x8A],
    c ∈ exec_inst_labels) opc hm))]
  rw [if_neg (fun hm => hk ((by decide : ∀ c ∈ [0x9A],
    c ∈ exec_inst_labels) opc hm))]
  rw [if_neg (fun hm => hk ((by decide : ∀ c ∈ [0x98],
    c ∈ exec_inst_labels) opc hm))]
  rw [if_neg (fun hm => hk ((by decide : ∀ c ∈ [0x1A, 0x3A, 0x5A, 0x7A, 0xDA, 0xFA, 0x80, 0x82, 0x89, 0xC2, 0xE2, 0x04, 0x44,
      0x64, 0x14, 0x34, 0x54, 0x74, 0xD4, 0xF4, 0x0C, 0x1C, 0x3C, 0x5C, 0x7C, 0xDC, 0xFC],
    c ∈ exec_inst_labels) opc hm))]
  rfl

set_option maxRecDepth 100000 in
theorem labels_eq_spec (c : Nat) :
    c ∈ exec_inst_labels ↔ c ∈ documented_opcodes ++ (illegal_nop_opcodes 1 ++
      (illegal_nop_opcodes 2 ++ illegal_nop_opcodes 3)) :=
  ⟨(by decide : ∀ c ∈ exec_inst_labels, c ∈ documented_opcodes ++ (illegal_nop_opcodes 1 ++
      (illegal_nop_opcodes 2 ++ illegal_nop_opcodes 3))) c,
   (by decide : ∀ c ∈ documented_opcodes ++ (illegal_nop_opcodes 1 ++
      (illegal_nop_opcodes 2 ++ illegal_nop_opcodes 3)), c ∈ exec_inst_labels) c⟩

/-! ### C29: instruction length and PC advancement -/

theorem store_pc {s s' : CPU} {p : Ptr} {v : Nat} (h : s.store p v = some s') :
    s'.pc = s.pc := by
  rw [store_eq h]

theorem put_pc {s s' : CPU} {l : Loc} {v : Nat} (h : s.put l v = some s') : s'.pc = s.pc := by
  cases l with
  | reg_a => simp only [CPU.put, Option.some.injEq] at h; subst h; rfl
  | «at» p => rw [store_eq h]

set_option linter.unusedTactic false in
set_option linter.unreachableTactic false in
theorem adc_operand_len {inst : Ptr} {s : CPU} {opc : Nat} {r : Nat × Nat}
    (hl : s.load inst = some opc) (hk : opc ∈ [0x69, 0x65, 0x75, 0x6D, 0x7D, 0x79, 0x61, 0x71])
    (hr : adc_operand inst s = some r) :
    spec_length opc = some r.2 := by
  unfold adc_operand at hr
  rw [hl] at hr
  simp only [List.mem_cons, List.mem_singleton, List.not_mem_nil, or_false] at hk
  rcases hk with rfl | rfl | rfl | rfl | rfl | rfl | rfl | rfl <;>
    (simp +decide only [Option.bind_eq_bind, Option.some_bind, Option.bind_eq_some,
       Option.pure_def, Option.some.injEq, ↓reduceIte] at hr
     first
     | (subst hr; decide)
     | (obtain ⟨_, _, rfl⟩ := hr; dsimp only; decide)
     | (obtain ⟨_, _, _, _, rfl⟩ := hr; dsimp only; decide)
     | (obtain ⟨_, _, _, _, _, _, rfl⟩ := hr; dsimp only; decide))

theorem adc_len {inst : Ptr} {s s' : CPU} {info : InstInfo} {opc : Nat}
    (hl : s.load inst = some opc) (hk : opc ∈ [0x69, 0x65, 0x75, 0x6D, 0x7D, 0x79, 0x61, 0x71])
    (h : adc inst s = some (s', info)) :
    spec_length opc = some info.inst_size ∧ s'.pc = (s.pc + info.inst_size) % 65536 := by
  simp only [adc, Option.bind_eq_bind, Option.bind_eq_some, Option.pure_def,
    Option.some.injEq] at h
  obtain ⟨r, hr, h⟩ := h
  have h1 : s' = (adc_finish s r.1 r.2).1 := by rw [h]
  have h2 : info = (adc_finish s r.1 r.2).2 := by rw [h]
  subst h1 h2
  exact ⟨adc_operand_len hl hk hr, by simp [adc_finish]⟩

set_option linter.unusedTactic false in
set_option linter.unreachableTactic false in
theorem and__operand_len {inst : Ptr} {s : CPU} {opc : Nat} {r : Nat × Nat}
    (hl : s.load inst = some opc) (hk : opc ∈ [0x29, 0x25, 0x35, 0x2D, 0x3D, 0x39, 0x21, 0x31])
    (hr : and__operand inst s = some r) :
    spec_length opc = some r.2 := by
  unfold and__operand at hr
  rw [hl] at hr
  simp only [List.mem_cons, List.mem_singleton, List.not_mem_nil, or_false] at hk
  rcases hk with rfl | rfl | rfl | rfl | rfl | rfl | rfl | rfl <;>
    (simp +decide only [Option.bind_eq_bind, Option.some_bind, Option.bind_eq_some,
       Option.pure_def, Option.some.injEq, ↓reduceIte] at hr
     first
     | (subst hr; decide)
     | (obtain ⟨_, _, rfl⟩ := hr; dsimp only; decide)
     | (obtain ⟨_, _, _, _, rfl⟩ := hr; dsimp only; decide)
     | (obtain ⟨_, _, _, _, _, _, rfl⟩ := hr; dsimp only; decide))

theorem and__len {inst : Ptr} {s s' : CPU} {info : InstInfo} {opc : Nat}
    (hl : s.load inst = some opc) (hk : opc ∈ [0x29, 0x25, 0x35, 0x2D, 0x3D, 0x39, 0x21, 0x31])
    (h : and_ inst s = some (s', info)) :
    spec_length opc = some info.inst_size ∧ s'.pc = (s.pc + info.inst_size) % 65536 := by
  simp only [and_, Option.bind_eq_bind, Option.bind_eq_some, Option.pure_def,
    Option.some.injEq] at h
  obtain ⟨r, hr, h⟩ := h
  have h1 : s' = (and__finish s r.1 r.2).1 := by rw [h]
  have h2 : info = (and__finish s r.1 r.2).2 := by rw [h]
  subst h1 h2
  exact ⟨and__operand_len hl hk hr, by simp [and__finish]⟩

set_option linter.unusedTactic false in
set_option linter.unreachableTactic false in
theorem bit_operand_len {inst : Ptr} {s : CPU} {opc : Nat} {r : Nat × Nat}
    (hl : s.load inst = some opc) (hk : opc ∈ [0x24, 0x2C])
    (hr : bit_operand inst s = some r) :
    spec_length opc = some r.2 := by
  unfold bit_operand at hr
  rw [hl] at hr
  simp only [List.mem_cons, List.mem_singleton, List.not_mem_nil, or_false] at hk
  rcases hk with rfl | rfl <;>
    (simp +decide only [Option.bind_eq_bind, Option.some_bind, Option.bind_eq_some,
       Option.pure_def, Option.some.injEq, ↓reduceIte] at hr
     first
     | (subst hr; decide)
     | (obtain ⟨_, _, rfl⟩ := hr; dsimp only; decide)
     | (obtain ⟨_, _, _, _, rfl⟩ := hr; dsimp only; decide)
     | (obtain ⟨_, _, _, _, _, _, rfl⟩ := hr; dsimp only; decide))

theorem bit_len {inst : Ptr} {s s' : CPU} {info : InstInfo} {opc : Nat}
    (hl : s.load inst = some opc) (hk : opc ∈ [0x24, 0x2C])
    (h : bit inst s = some (s', info)) :
    spec_length opc = some info.inst_size ∧ s'.pc = (s.pc + info.inst_size) % 65536 := by
  simp only [bit, Option.bind_eq_bind, Option.bind_eq_some, Option.pure_def,
    Option.some.injEq] at h
  obtain ⟨r, hr, h⟩ := h
  have h1 : s' = (bit_finish s r.1 r.2).1 := by rw [h]
  have h2 : info = (bit_finish s r.1 r.2).2 := by rw [h]
  subst h1 h2
  exact ⟨bit_operand_len hl hk hr, by simp [bit_finish]⟩

set_option linter.unusedTactic false in
set_option linter.unreachableTactic false in
theorem cmp_operand_len {inst : Ptr} {s : CPU} {opc : Nat} {r : Nat × Nat}
    (hl : s.load inst = some opc) (hk : opc ∈ [0xC9, 0xC5, 0xD5, 0xCD, 0xDD, 0xD9, 0xC1, 0xD1])
    (hr : cmp_operand inst s = some r) :
    spec_length opc = some r.2 := by
  unfold cmp_operand at hr
  rw [hl] at hr
  simp only [List.mem_cons, List.mem_singleton, List.not_mem_nil, or_false] at hk
  rcases hk with rfl | rfl | rfl | rfl | rfl | rfl | rfl | rfl <;>
    (simp +decide only [Option.bind_eq_bind, Option.some_bind, Option.bind_eq_some,
       Option.pure_def, Option.some.injEq, ↓reduceIte] at hr
     first
     | (subst hr; decide)
     | (obtain ⟨_, _, rfl⟩ := hr; dsimp only; decide)
     | (obtain ⟨_, _, _, _, rfl⟩ := hr; dsimp only; decide)
     | (obtain ⟨_, _, _, _, _, _, rfl⟩ := hr; dsimp only; decide))

theorem cmp_len {inst : Ptr} {s s' : CPU} {info : InstInfo} {opc : Nat}
    (hl : s.load inst = some opc) (hk : opc ∈ [0xC9, 0xC5, 0xD5, 0xCD, 0xDD, 0xD9, 0xC1, 0xD1])
    (h : cmp inst s = some (s', info)) :
    spec_length opc = some info.inst_size ∧ s'.pc = (s.pc + info.inst_size) % 65536 := by
  simp only [cmp, Option.bind_eq_bind, Option.bind_eq_some, Option.pure_def,
    Option.some.injEq] at h
  obtain ⟨r, hr, h⟩ := h
  have h1 : s' = (cmp_finish s r.1 r.2).1 := by rw [h]
  have h2 : info = (cmp_finish s r.1 r.2).2 := by rw [h]
  subst h1 h2
  exact ⟨cmp_operand_len hl hk hr, by simp [cmp_finish]⟩

set_option linter.unusedTactic false in
set_option linter.unreachableTactic false in
theorem cpx_operand_len {inst : Ptr} {s : CPU} {opc : Nat} {r : Nat × Nat}
    (hl : s.load inst = some opc) (hk : opc ∈ [0xE0, 0xE4, 0xEC])
    (hr : cpx_operand inst s = some r) :
    spec_length opc = some r.2 := by
  unfold cpx_operand at hr
  rw [hl] at hr
  simp only [List.mem_cons, List.mem_singleton, List.not_mem_nil, or_false] at hk
  rcases hk with rfl | rfl | rfl <;>
    (simp +decide only [Option.bind_eq_bind, Option.some_bind, Option.bind_eq_some,
       Option.pure_def, Option.some.injEq, ↓reduceIte] at hr
     first
     | (subst hr; decide)
     | (obtain ⟨_, _, rfl⟩ := hr; dsimp only; decide)
     | (obtain ⟨_, _, _, _, rfl⟩ := hr; dsimp only; decide)
     | (obtain ⟨_, _, _, _, _, _, rfl⟩ := hr; dsimp only; decide))

theorem cpx_len {inst : Ptr} {s s' : CPU} {info : InstInfo} {opc : Nat}
    (hl : s.load inst = some opc) (hk : opc ∈ [0xE0, 0xE4, 0xEC])
    (h : cpx inst s = some (s', info)) :
    spec_length opc = some info.inst_size ∧ s'.pc = (s.pc + info.inst_size) % 65536 := by
  simp only [cpx, Option.bind_eq_bind, Option.bind_eq_some, Option.pure_def,
    Option.some.injEq] at h
  obtain ⟨r, hr, h⟩ := h
  have h1 : s' = (cpx_finish s r.1 r.2).1 := by rw [h]
  have h2 : info = (cpx_finish s r.1 r.2).2 := by rw [h]
  subst h1 h2
  exact ⟨cpx_operand_len hl hk hr, by simp [cpx_finish]⟩

set_option linter.unusedTactic false in
set_option linter.unreachableTactic false in
theorem cpy_operand_len {inst : Ptr} {s : CPU} {opc : Nat} {r : Nat × Nat}
    (hl : s.load inst = some opc) (hk : opc ∈ [0xC0, 0xC4, 0xCC])
    (hr : cpy_operand inst s = some r) :
    spec_length opc = some r.2 := by
  unfold cpy_operand at hr
  rw [hl] at hr
  simp only [List.mem_cons, List.mem_singleton, List.not_mem_nil, or_false] at hk
  rcases hk with rfl | rfl | rfl <;>
    (simp +decide only [Option.bind_eq_bind, Option.some_bind, Option.bind_eq_some,
       Option.pure_def, Option.some.injEq, ↓reduceIte] at hr
     first
     | (subst hr; decide)
     | (obtain ⟨_, _, rfl⟩ := hr; dsimp only; decide)
     | (obtain ⟨_, _, _, _, rfl⟩ := hr; dsimp only; decide)
     | (obtain ⟨_, _, _, _, _, _, rfl⟩ := hr; dsimp only; decide))

theorem cpy_len {inst : Ptr} {s s' : CPU} {info : InstInfo} {opc : Nat}
    (hl : s.load inst = some opc) (hk : opc ∈ [0xC0, 0xC4, 0xCC])
    (h : cpy inst s = some (s', info)) :
    spec_length opc = some info.inst_size ∧ s'.pc = (s.pc + info.inst_size) % 65536 := by
  simp only [cpy, Option.bind_eq_bind, Option.bind_eq_some, Option.pure_def,
    Option.some.injEq] at h
  obtain ⟨r, hr, h⟩ := h
  have h1 : s' = (cpy_finish s r.1 r.2).1 := by rw [h]
  have h2 : info = (cpy_finish s r.1 r.2).2 := by rw [h]
  subst h1 h2
  exact ⟨cpy_operand_len hl hk hr, by simp [cpy_finish]⟩

set_option linter.unusedTactic false in
set_option linter.unreachableTactic false in
theorem eor_operand_len {inst : Ptr} {s : CPU} {opc : Nat} {r : Nat × Nat}
    (hl : s.load inst = some opc) (hk : opc ∈ [0x49, 0x45, 0x55, 0x4D, 0x5D, 0x59, 0x41, 0x51])
    (hr : eor_operand inst s = some r) :
    spec_length opc = some r.2 := by
  unfold eor_operand at hr
  rw [hl] at hr
  simp only [List.mem_cons, List.mem_singleton, List.not_mem_nil, or_false] at hk
  rcases hk with rfl | rfl | rfl | rfl | rfl | rfl | rfl | rfl <;>
    (simp +decide only [Option.bind_eq_bind, Option.some_bind, Option.bind_eq_some,
       Option.pure_def, Option.some.injEq, ↓reduceIte] at hr
     first
     | (subst hr; decide)
     | (obtain ⟨_, _, rfl⟩ := hr; dsimp only; decide)
     | (obtain ⟨_, _, _, _, rfl⟩ := hr; dsimp only; decide)
     | (obtain ⟨_, _, _, _, _, _, rfl⟩ := hr; dsimp only; decide))

theorem eor_len {inst : Ptr} {s s' : CPU} {info : InstInfo} {opc : Nat}
    (hl : s.load inst = some opc) (hk : opc ∈ [0x49, 0x45, 0x55, 0x4D, 0x5D, 0x59, 0x41, 0x51])
    (h : eor inst s = some (s', info)) :
    spec_length opc = some info.inst_size ∧ s'.pc = (s.pc + info.inst_size) % 65536 := by
  simp only [eor, Option.bind_eq_bind, Option.bind_eq_some, Option.pure_def,
    Option.some.injEq] at h
  obtain ⟨r, hr, h⟩ := h
  have h1 : s' = (eor_finish s r.1 r.2).1 := by rw [h]
  have h2 : info = (eor_finish s r.1 r.2).2 := by rw [h]
  subst h1 h2
  exact ⟨eor_operand_len hl hk hr, by simp [eor_finish]⟩

set_option linter.unusedTactic false in
set_option linter.unreachableTactic false in
theorem lda_operand_len {inst : Ptr} {s : CPU} {opc : Nat} {r : Nat × Nat}
    (hl : s.load inst = some opc) (hk : opc ∈ [0xA9, 0xA5, 0xB5, 0xAD, 0xBD, 0xB9, 0xA1, 0xB1])
    (hr : lda_operand inst s = some r) :
    spec_length opc = some r.2 := by
  unfold lda_operand at hr
  rw [hl] at hr
  simp only [List.mem_cons, List.mem_singleton, List.not_mem_nil, or_false] at hk
  rcases hk with rfl | rfl | rfl | rfl | rfl | rfl | rfl | rfl <;>
    (simp +decide only [Option.bind_eq_bind, Option.some_bind, Option.bind_eq_some,
       Option.pure_def, Option.some.injEq, ↓reduceIte] at hr
     first
     | (subst hr; decide)
     | (obtain ⟨_, _, rfl⟩ := hr; dsimp only; decide)
     | (obtain ⟨_, _, _, _, rfl⟩ := hr; dsimp only; decide)
     | (obtain ⟨_, _, _, _, _, _, rfl⟩ := hr; dsimp only; decide))

theorem lda_len {inst : Ptr} {s s' : CPU} {info : InstInfo} {opc : Nat}
    (hl : s.load inst = some opc) (hk : opc ∈ [0xA9, 0xA5, 0xB5, 0xAD, 0xBD, 0xB9, 0xA1, 0xB1])
    (h : lda inst s = some (s', info)) :
    spec_length opc = some info.inst_size ∧ s'.pc = (s.pc + info.inst_size) % 65536 := by
  simp only [lda, Option.bind_eq_bind, Option.bind_eq_some, Option.pure_def,
    Option.some.injEq] at h
  obtain ⟨r, hr, h⟩ := h
  have h1 : s' = (lda_finish s r.1 r.2).1 := by rw [h]
  have h2 : info = (lda_finish s r.1 r.2).2 := by rw [h]
  subst h1 h2
  exact ⟨lda_operand_len hl hk hr, by simp [lda_finish]⟩

set_option linter.unusedTactic false in
set_option linter.unreachableTactic false in
theorem ldx_operand_len {inst : Ptr} {s : CPU} {opc : Nat} {r : Nat × Nat}
    (hl : s.load inst = some opc) (hk : opc ∈ [0xA2, 0xA6, 0xB6, 0xAE, 0xBE])
    (hr : ldx_operand inst s = some r) :
    spec_length opc = some r.2 := by
  unfold ldx_operand at hr
  rw [hl] at hr
  simp only [List.mem_cons, List.mem_singleton, List.not_mem_nil, or_false] at hk
  rcases hk with rfl | rfl | rfl | rfl | rfl <;>
    (simp +decide only [Option.bind_eq_bind, Option.some_bind, Option.bind_eq_some,
       Option.pure_def, Option.some.injEq, ↓reduceIte] at hr
     first
     | (subst hr; decide)
     | (obtain ⟨_, _, rfl⟩ := hr; dsimp only; decide)
     | (obtain ⟨_, _, _, _, rfl⟩ := hr; dsimp only; decide)
     | (obtain ⟨_, _, _, _, _, _, rfl⟩ := hr; dsimp only; decide))

theorem ldx_len {inst : Ptr} {s s' : CPU} {info : InstInfo} {opc : Nat}
    (hl : s.load inst = some opc) (hk : opc ∈ [0xA2, 0xA6, 0xB6, 0xAE, 0xBE])
    (h : ldx inst s = some (s', info)) :
    spec_length opc = some info.inst_size ∧ s'.pc = (s.pc + info.inst_size) % 65536 := by
  simp only [ldx, Option.bind_eq_bind, Option.bind_eq_some, Option.pure_def,
    Option.some.injEq] at h
  obtain ⟨r, hr, h⟩ := h
  have h1 : s' = (ldx_finish s r.1 r.2).1 := by rw [h]
  have h2 : info = (ldx_finish s r.1 r.2).2 := by rw [h]
  subst h1 h2
  exact ⟨ldx_operand_len hl hk hr, by simp [ldx_finish]⟩

set_option linter.unusedTactic false in
set_option linter.unreachableTactic false in
theorem ldy_operand_len {inst : Ptr} {s : CPU} {opc : Nat} {r : Nat × Nat}
    (hl : s.load inst = some opc) (hk : opc ∈ [0xA0, 0xA4, 0xB4, 0xAC, 0xBC])
    (hr : ldy_operand inst s = some r) :
    spec_length opc = some r.2 := by
  unfold ldy_operand at hr
  rw [hl] at hr
  simp only [List.mem_cons, List.mem_singleton, List.not_mem_nil, or_false] at hk
  rcases hk with rfl | rfl | rfl | rfl | rfl <;>
    (simp +decide only [Option.bind_eq_bind, Option.some_bind, Option.bind_eq_some,
       Option.pure_def, Option.some.injEq, ↓reduceIte] at hr
     first
     | (subst hr; decide)
     | (obtain ⟨_, _, rfl⟩ := hr; dsimp only; decide)
     | (obtain ⟨_, _, _, _, rfl⟩ := hr; dsimp only; decide)
     | (obtain ⟨_, _, _, _, _, _, rfl⟩ := hr; dsimp only; decide))

theorem ldy_len {inst : Ptr} {s s' : CPU} {info : InstInfo} {opc : Nat}
    (hl : s.load inst = some opc) (hk : opc ∈ [0xA0, 0xA4, 0xB4, 0xAC, 0xBC])
    (h : ldy inst s = some (s', info)) :
    spec_length opc = some info.inst_size ∧ s'.pc = (s.pc + info.inst_size) % 65536 := by
  simp only [ldy, Option.bind_eq_bind, Option.bind_eq_some, Option.pure_def,
    Option.some.injEq] at h
  obtain ⟨r, hr, h⟩ := h
  have h1 : s' = (ldy_finish s r.1 r.2).1 := by rw [h]
  have h2 : info = (ldy_finish s r.1 r.2).2 := by rw [h]
  subst h1 h2
  exact ⟨ldy_operand_len hl hk hr, by simp [ldy_finish]⟩

set_option linter.unusedTactic false in
set_option linter.unreachableTactic false in
theorem ora_operand_len {inst : Ptr} {s : CPU} {opc : Nat} {r : Nat × Nat}
    (hl : s.load inst = some opc) (hk : opc ∈ [0x09, 0x05, 0x15, 0x0D, 0x1D, 0x19, 0x01, 0x11])
    (hr : ora_operand inst s = some r) :
    spec_length opc = some r.2 := by
  unfold ora_operand at hr
  rw [hl] at hr
  simp only [List.mem_cons, List.mem_singleton, List.not_mem_nil, or_false] at hk
  rcases hk with rfl | rfl | rfl | rfl | rfl | rfl | rfl | rfl <;>
    (simp +decide only [Option.bind_eq_bind, Option.some_bind, Option.bind_eq_some,
       Option.pure_def, Option.some.injEq, ↓reduceIte] at hr
     first
     | (subst hr; decide)
     | (obtain ⟨_, _, rfl⟩ := hr; dsimp only; decide)
     | (obtain ⟨_, _, _, _, rfl⟩ := hr; dsimp only; decide)
     | (obtain ⟨_, _, _, _, _, _, rfl⟩ := hr; dsimp only; decide))

theorem ora_len {inst : Ptr} {s s' : CPU} {info : InstInfo} {opc : Nat}
    (hl : s.load inst = some opc) (hk : opc ∈ [0x09, 0x05, 0x15, 0x0D, 0x1D, 0x19, 0x01, 0x11])
    (h : ora inst s = some (s', info)) :
    spec_length opc = some info.inst_size ∧ s'.pc = (s.pc + info.inst_size) % 65536 := by
  simp only [ora, Option.bind_eq_bind, Option.bind_eq_some, Option.pure_def,
    Option.some.injEq] at h
  obtain ⟨r, hr, h⟩ := h
  have h1 : s' = (ora_finish s r.1 r.2).1 := by rw [h]
  have h2 : info = (ora_finish s r.1 r.2).2 := by rw [h]
  subst h1 h2
  exact ⟨ora_operand_len hl hk hr, by simp [ora_finish]⟩

set_option linter.unusedTactic false in
set_option linter.unreachableTactic false in
theorem sbc_operand_len {inst : Ptr} {s : CPU} {opc : Nat} {r : Nat × Nat}
    (hl : s.load inst = some opc) (hk : opc ∈ [0xE9, 0xE5, 0xF5, 0xED, 0xFD, 0xF9, 0xE1, 0xF1])
    (hr : sbc_operand inst s = some r) :
    spec_length opc = some r.2 := by
  unfold sbc_operand at hr
  rw [hl] at hr
  simp only [List.mem_cons, List.mem_singleton, List.not_mem_nil, or_false] at hk
  rcases hk with rfl | rfl | rfl | rfl | rfl | rfl | rfl | rfl <;>
    (simp +decide only [Option.bind_eq_bind, Option.some_bind, Option.bind_eq_some,
       Option.pure_def, Option.some.injEq, ↓reduceIte] at hr
     first
     | (subst hr; decide)
     | (obtain ⟨_, _, rfl⟩ := hr; dsimp only; decide)
     | (obtain ⟨_, _, _, _, rfl⟩ := hr; dsimp only; decide)
     | (obtain ⟨_, _, _, _, _, _, rfl⟩ := hr; dsimp only; decide))

theorem sbc_len {inst : Ptr} {s s' : CPU} {info : InstInfo} {opc : Nat}
    (hl : s.load inst = some opc) (hk : opc ∈ [0xE9, 0xE5, 0xF5, 0xED, 0xFD, 0xF9, 0xE1, 0xF1])
    (h : sbc inst s = some (s', info)) :
    spec_length opc = some info.inst_size ∧ s'.pc = (s.pc + info.inst_size) % 65536 := by
  simp only [sbc, Option.bind_eq_bind, Option.bind_eq_some, Option.pure_def,
    Option.some.injEq] at h
  obtain ⟨r, hr, h⟩ := h
  have h1 : s' = (sbc_finish s r.1 r.2).1 := by rw [h]
  have h2 : info = (sbc_finish s r.1 r.2).2 := by rw [h]
  subst h1 h2
  exact ⟨sbc_operand_len hl hk hr, by simp [sbc_finish]⟩

set_option linter.unusedTactic false in
set_option linter.unreachableTactic false in
theorem asl_operand_len {inst : Ptr} {s : CPU} {opc : Nat} {r : Loc × Nat}
    (hl : s.load inst = some opc) (hk : opc ∈ [0x0A, 0x06, 0x16, 0x0E, 0x1E])
    (hr : asl_operand inst s = some r) :
    spec_length opc = some r.2 := by
  unfold asl_operand at hr
  rw [hl] at hr
  simp only [List.mem_cons, List.mem_singleton, List.not_mem_nil, or_false] at hk
  rcases hk with rfl | rfl | rfl | rfl | rfl <;>
    (simp +decide only [Option.bind_eq_bind, Option.some_bind, Option.bind_eq_some,
       Option.pure_def, Option.some.injEq, ↓reduceIte] at hr
     first
     | (subst hr; decide)
     | (obtain ⟨_, _, rfl⟩ := hr; dsimp only; decide)
     | (obtain ⟨_, _, _, _, rfl⟩ := hr; dsimp only; decide)
     | (obtain ⟨_, _, _, _, _, _, rfl⟩ := hr; dsimp only; decide))

theorem asl_len {inst : Ptr} {s s' : CPU} {info : InstInfo} {opc : Nat}
    (hl : s.load inst = some opc) (hk : opc ∈ [0x0A, 0x06, 0x16, 0x0E, 0x1E])
    (h : asl inst s = some (s', info)) :
    spec_length opc = some info.inst_size ∧ s'.pc = (s.pc + info.inst_size) % 65536 := by
  simp only [asl, Option.bind_eq_bind, Option.bind_eq_some, Option.pure_def, Option.some.injEq,
    Prod.mk.injEq] at h
  obtain ⟨a, hr, m, -, s3, hput, m2, -, rfl, rfl⟩ := h
  exact ⟨asl_operand_len hl hk hr, by simp [put_pc hput]⟩

set_option linter.unusedTactic false in
set_option linter.unreachableTactic false in
theorem lsr_operand_len {inst : Ptr} {s : CPU} {opc : Nat} {r : Loc × Nat}
    (hl : s.load inst = some opc) (hk : opc ∈ [0x4A, 0x46, 0x56, 0x4E, 0x5E])
    (hr : lsr_operand inst s = some r) :
    spec_length opc = some r.2 := by
  unfold lsr_operand at hr
  rw [hl] at hr
  simp only [List.mem_cons, List.mem_singleton, List.not_mem_nil, or_false] at hk
  rcases hk with rfl | rfl | rfl | rfl | rfl <;>
    (simp +decide only [Option.bind_eq_bind, Option.some_bind, Option.bind_eq_some,
       Option.pure_def, Option.some.injEq, ↓reduceIte] at hr
     first
     | (subst hr; decide)
     | (obtain ⟨_, _, rfl⟩ := hr; dsimp only; decide)
     | (obtain ⟨_, _, _, _, rfl⟩ := hr; dsimp only; decide)
     | (obtain ⟨_, _, _, _, _, _, rfl⟩ := hr; dsimp only; decide))

theorem lsr_len {inst : Ptr} {s s' : CPU} {info : InstInfo} {opc : Nat}
    (hl : s.load inst = some opc) (hk : opc ∈ [0x4A, 0x46, 0x56, 0x4E, 0x5E])
    (h : lsr inst s = some (s', info)) :
    spec_length opc = some info.inst_size ∧ s'.pc = (s.pc + info.inst_size) % 65536 := by
  simp only [lsr, Option.bind_eq_bind, Option.bind_eq_some, Option.pure_def, Option.some.injEq,
    Prod.mk.injEq] at h
  obtain ⟨a, hr, m, -, s3, hput, m2, -, rfl, rfl⟩ := h
  exact ⟨lsr_operand_len hl hk hr, by simp [put_pc hput]⟩

set_option linter.unusedTactic false in
set_option linter.unreachableTactic false in
theorem rol_operand_len {inst : Ptr} {s : CPU} {opc : Nat} {r : Loc × Nat}
    (hl : s.load inst = some opc) (hk : opc ∈ [0x2A, 0x26, 0x36, 0x2E, 0x3E])
    (hr : rol_operand inst s = some r) :
    spec_length opc = some r.2 := by
  unfold rol_operand at hr
  rw [hl] at hr
  simp only [List.mem_cons, List.mem_singleton, List.not_mem_nil, or_false] at hk
  rcases hk with rfl | rfl | rfl | rfl | rfl <;>
    (simp +decide only [Option.bind_eq_bind, Option.some_bind, Option.bind_eq_some,
       Option.pure_def, Option.some.injEq, ↓reduceIte] at hr
     first
     | (subst hr; decide)
     | (obtain ⟨_, _, rfl⟩ := hr; dsimp only; decide)
     | (obtain ⟨_, _, _, _, rfl⟩ := hr; dsimp only; decide)
     | (obtain ⟨_, _, _, _, _, _, rfl⟩ := hr; dsimp only; decide))

theorem rol_len {inst : Ptr} {s s' : CPU} {info : InstInfo} {opc : Nat}
    (hl : s.load inst = some opc) (hk : opc ∈ [0x2A, 0x26, 0x36, 0x2E, 0x3E])
    (h : rol inst s = some (s', info)) :
    spec_length opc = some info.inst_size ∧ s'.pc = (s.pc + info.inst_size) % 65536 := by
  simp only [rol, Option.bind_eq_bind, Option.bind_eq_some, Option.pure_def, Option.some.injEq,
    Prod.mk.injEq] at h
  obtain ⟨a, hr, m, -, s3, hput, m2, -, rfl, rfl⟩ := h
  exact ⟨rol_operand_len hl hk hr, by simp [put_pc hput]⟩

set_option linter.unusedTactic false in
set_option linter.unreachableTactic false in
theorem ror_operand_len {inst : Ptr} {s : CPU} {opc : Nat} {r : Loc × Nat}
    (hl : s.load inst = some opc) (hk : opc ∈ [0x6A, 0x66, 0x76, 0x6E, 0x7E])
    (hr : ror_operand inst s = some r) :
    spec_length opc = some r.2 := by
  unfold ror_operand at hr
  rw [hl] at hr
  simp only [List.mem_cons, List.mem_singleton, List.not_mem_nil, or_false] at hk
  rcases hk with rfl | rfl | rfl | rfl | rfl <;>
    (simp +decide only [Option.bind_eq_bind, Option.some_bind, Option.bind_eq_some,
       Option.pure_def, Option.some.injEq, ↓reduceIte] at hr
     first
     | (subst hr; decide)
     | (obtain ⟨_, _, rfl⟩ := hr; dsimp only; decide)
     | (obtain ⟨_, _, _, _, rfl⟩ := hr; dsimp only; decide)
     | (obtain ⟨_, _, _, _, _, _, rfl⟩ := hr; dsimp only; decide))

theorem ror_len {inst : Ptr} {s s' : CPU} {info : InstInfo} {opc : Nat}
    (hl : s.load inst = some opc) (hk : opc ∈ [0x6A, 0x66, 0x76, 0x6E, 0x7E])
    (h : ror inst s = some (s', info)) :
    spec_length opc = some info.inst_size ∧ s'.pc = (s.pc + info.inst_size) % 65536 := by
  simp only [ror, Option.bind_eq_bind, Option.bind_eq_some, Option.pure_def, Option.some.injEq,
    Prod.mk.injEq] at h
  obtain ⟨a, hr, m, -, s3, hput, m2, -, rfl, rfl⟩ := h
  exact ⟨ror_operand_len hl hk hr, by simp [put_pc hput]⟩

set_option linter.unusedTactic false in
set_option linter.unreachableTactic false in
theorem dec_operand_len {inst : Ptr} {s : CPU} {opc : Nat} {r : Loc × Nat}
    (hl : s.load inst = some opc) (hk : opc ∈ [0xC6, 0xD6, 0xCE, 0xDE])
    (hr : dec_operand inst s = some r) :
    spec_length opc = some r.2 := by
  unfold dec_operand at hr
  rw [hl] at hr
  simp only [List.mem_cons, List.mem_singleton, List.not_mem_nil, or_false] at hk
  rcases hk with rfl | rfl | rfl | rfl <;>
    (simp +decide only [Option.bind_eq_bind, Option.some_bind, Option.bind_eq_some,
       Option.pure_def, Option.some.injEq, ↓reduceIte] at hr
     first
     | (subst hr; decide)
     | (obtain ⟨_, _, rfl⟩ := hr; dsimp only; decide)
     | (obtain ⟨_, _, _, _, rfl⟩ := hr; dsimp only; decide)
     | (obtain ⟨_, _, _, _, _, _, rfl⟩ := hr; dsimp only; decide))

theorem dec_len {inst : Ptr} {s s' : CPU} {info : InstInfo} {opc : Nat}
    (hl : s.load inst = some opc) (hk : opc ∈ [0xC6, 0xD6, 0xCE, 0xDE])
    (h : dec inst s = some (s', info)) :
    spec_length opc = some info.inst_size ∧ s'.pc = (s.pc + info.inst_size) % 65536 := by
  simp only [dec, Option.bind_eq_bind, Option.bind_eq_some, Option.pure_def, Option.some.injEq,
    Prod.mk.injEq] at h
  obtain ⟨a, hr, m, -, s3, hput, m2, -, rfl, rfl⟩ := h
  exact ⟨dec_operand_len hl hk hr, by simp [put_pc hput]⟩

set_option linter.unusedTactic false in
set_option linter.unreachableTactic false in
theorem inc_operand_len {inst : Ptr} {s : CPU} {opc : Nat} {r : Ptr × Nat}
    (hl : s.load inst = some opc) (hk : opc ∈ [0xE6, 0xF6, 0xEE, 0xFE])
    (hr : inc_operand inst s = some r) :
    spec_length opc = some r.2 := by
  unfold inc_operand at hr
  rw [hl] at hr
  simp only [List.mem_cons, List.mem_singleton, List.not_mem_nil, or_false] at hk
  rcases hk with rfl | rfl | rfl | rfl <;>
    (simp +decide only [Option.bind_eq_bind, Option.some_bind, Option.bind_eq_some,
       Option.pure_def, Option.some.injEq, ↓reduceIte] at hr
     first
     | (subst hr; decide)
     | (obtain ⟨_, _, rfl⟩ := hr; dsimp only; decide)
     | (obtain ⟨_, _, _, _, rfl⟩ := hr; dsimp only; decide)
     | (obtain ⟨_, _, _, _, _, _, rfl⟩ := hr; dsimp only; decide))

theorem inc_len {inst : Ptr} {s s' : CPU} {info : InstInfo} {opc : Nat}
    (hl : s.load inst = some opc) (hk : opc ∈ [0xE6, 0xF6, 0xEE, 0xFE])
    (h : inc inst s = some (s', info)) :
    spec_length opc = some info.inst_size ∧ s'.pc = (s.pc + info.inst_size) % 65536 := by
  simp only [inc, Option.bind_eq_bind, Option.bind_eq_some, Option.pure_def, Option.some.injEq,
    Prod.mk.injEq] at h
  obtain ⟨a, hr, m, -, s3, hput, m2, -, rfl, rfl⟩ := h
  exact ⟨inc_operand_len hl hk hr, by simp [store_pc hput]⟩

set_option linter.unusedTactic false in
set_option linter.unreachableTactic false in
theorem sta_operand_len {inst : Ptr} {s : CPU} {opc : Nat} {r : Ptr × Nat}
    (hl : s.load inst = some opc) (hk : opc ∈ [0x85, 0x95, 0x8D, 0x9D, 0x99, 0x81, 0x91])
    (hr : sta_operand inst s = some r) :
    spec_length opc = some r.2 := by
  unfold sta_operand at hr
  rw [hl] at hr
  simp only [List.mem_cons, List.mem_singleton, List.not_mem_nil, or_false] at hk
  rcases hk with rfl | rfl | rfl | rfl | rfl | rfl | rfl <;>
    (simp +decide only [Option.bind_eq_bind, Option.some_bind, Option.bind_eq_some,
       Option.pure_def, Option.some.injEq, ↓reduceIte] at hr
     first
     | (subst hr; decide)
     | (obtain ⟨_, _, rfl⟩ := hr; dsimp only; decide)
     | (obtain ⟨_, _, _, _, rfl⟩ := hr; dsimp only; decide)
     | (obtain ⟨_, _, _, _, _, _, rfl⟩ := hr; dsimp only; decide))

theorem sta_len {inst : Ptr} {s s' : CPU} {info : InstInfo} {opc : Nat}
    (hl : s.load inst = some opc) (hk : opc ∈ [0x85, 0x95, 0x8D, 0x9D, 0x99, 0x81, 0x91])
    (h : sta inst s = some (s', info)) :
    spec_length opc = some info.inst_size ∧ s'.pc = (s.pc + info.inst_size) % 65536 := by
  simp only [sta, Option.bind_eq_bind, Option.bind_eq_some, Option.pure_def, Option.some.injEq,
    Prod.mk.injEq] at h
  obtain ⟨a, hr, s3, hput, rfl, rfl⟩ := h
  exact ⟨sta_operand_len hl hk hr, by simp [store_pc hput]⟩

set_option linter.unusedTactic false in
set_option linter.unreachableTactic false in
theorem stx_operand_len {inst : Ptr} {s : CPU} {opc : Nat} {r : Ptr × Nat}
    (hl : s.load inst = some opc) (hk : opc ∈ [0x86, 0x96, 0x8E])
    (hr : stx_operand inst s = some r) :
    spec_length opc = some r.2 := by
  unfold stx_operand at hr
  rw [hl] at hr
  simp only [List.mem_cons, List.mem_singleton, List.not_mem_nil, or_false] at hk
  rcases hk with rfl | rfl | rfl <;>
    (simp +decide only [Option.bind_eq_bind, Option.some_bind, Option.bind_eq_some,
       Option.pure_def, Option.some.injEq, ↓reduceIte] at hr
     first
     | (subst hr; decide)
     | (obtain ⟨_, _, rfl⟩ := hr; dsimp only; decide)
     | (obtain ⟨_, _, _, _, rfl⟩ := hr; dsimp only; decide)
     | (obtain ⟨_, _, _, _, _, _, rfl⟩ := hr; dsimp only; decide))

theorem stx_len {inst : Ptr} {s s' : CPU} {info : InstInfo} {opc : Nat}
    (hl : s.load inst = some opc) (hk : opc ∈ [0x86, 0x96, 0x8E])
    (h : stx inst s = some (s', info)) :
    spec_length opc = some info.inst_size ∧ s'.pc = (s.pc + info.inst_size) % 65536 := by
  simp only [stx, Option.bind_eq_bind, Option.bind_eq_some, Option.pure_def, Option.some.injEq,
    Prod.mk.injEq] at h
  obtain ⟨a, hr, s3, hput, rfl, rfl⟩ := h
  exact ⟨stx_operand_len hl hk hr, by simp [store_pc hput]⟩

set_option linter.unusedTactic false in
set_option linter.unreachableTactic false in
theorem sty_operand_len {inst : Ptr} {s : CPU} {opc : Nat} {r : Ptr × Nat}
    (hl : s.load inst = some opc) (hk : opc ∈ [0x84, 0x94, 0x8C])
    (hr : sty_operand inst s = some r) :
    spec_length opc = some r.2 := by
  unfold sty_operand at hr
  rw [hl] at hr
  simp only [List.mem_cons, List.mem_singleton, List.not_mem_nil, or_false] at hk
  rcases hk with rfl | rfl | rfl <;>
    (simp +decide only [Option.bind_eq_bind, Option.some_bind, Option.bind_eq_some,
       Option.pure_def, Option.some.injEq, ↓reduceIte] at hr
     first
     | (subst hr; decide)
     | (obtain ⟨_, _, rfl⟩ := hr; dsimp only; decide)
     | (obtain ⟨_, _, _, _, rfl⟩ := hr; dsimp only; decide)
     | (obtain ⟨_, _, _, _, _, _, rfl⟩ := hr; dsimp only; decide))

theorem sty_len {inst : Ptr} {s s' : CPU} {info : InstInfo} {opc : Nat}
    (hl : s.load inst = some opc) (hk : opc ∈ [0x84, 0x94, 0x8C])
    (h : sty inst s = some (s', info)) :
    spec_length opc = some info.inst_size ∧ s'.pc = (s.pc + info.inst_size) % 65536 := by
  simp only [sty, Option.bind_eq_bind, Option.bind_eq_some, Option.pure_def, Option.some.injEq,
    Prod.mk.injEq] at h
  obtain ⟨a, hr, s3, hput, rfl, rfl⟩ := h
  exact ⟨sty_operand_len hl hk hr, by simp [store_pc hput]⟩

theorem clc_len {inst : Ptr} {s s' : CPU} {info : InstInfo} {opc : Nat}
    (hk : opc ∈ [0x18]) (h : clc inst s = some (s', info)) :
    spec_length opc = some info.inst_size ∧ s'.pc = (s.pc + info.inst_size) % 65536 := by
  simp only [List.mem_singleton] at hk
  subst hk
  simp only [clc, Option.some.injEq, Prod.mk.injEq] at h
  obtain ⟨rfl, rfl⟩ := h
  exact ⟨by decide, by simp⟩

theorem cld_len {inst : Ptr} {s s' : CPU} {info : InstInfo} {opc : Nat}
    (hk : opc ∈ [0xD8]) (h : cld inst s = some (s', info)) :
    spec_length opc = some info.inst_size ∧ s'.pc = (s.pc + info.inst_size) % 65536 := by
  simp only [List.mem_singleton] at hk
  subst hk
  simp only [cld, Option.some.injEq, Prod.mk.injEq] at h
  obtain ⟨rfl, rfl⟩ := h
  exact ⟨by decide, by simp⟩

theorem cli_len {inst : Ptr} {s s' : CPU} {info : InstInfo} {opc : Nat}
    (hk : opc ∈ [0x58]) (h : cli inst s = some (s', info)) :
    spec_length opc = some info.inst_size ∧ s'.pc = (s.pc + info.inst_size) % 65536 := by
  simp only [List.mem_singleton] at hk
  subst hk
  simp only [cli, Option.some.injEq, Prod.mk.injEq] at h
  obtain ⟨rfl, rfl⟩ := h
  exact ⟨by decide, by simp⟩

theorem clv_len {inst : Ptr} {s s' : CPU} {info : InstInfo} {opc : Nat}
    (hk : opc ∈ [0xB8]) (h : clv inst s = some (s', info)) :
    spec_length opc = some info.inst_size ∧ s'.pc = (s.pc + info.inst_size) % 65536 := by
  simp only [List.mem_singleton] at hk
  subst hk
  simp only [clv, Option.some.injEq, Prod.mk.injEq] at h
  obtain ⟨rfl, rfl⟩ := h
  exact ⟨by decide, by simp⟩

theorem dex_len {inst : Ptr} {s s' : CPU} {info : InstInfo} {opc : Nat}
    (hk : opc ∈ [0xCA]) (h : dex inst s = some (s', info)) :
    spec_length opc = some info.inst_size ∧ s'.pc = (s.pc + info.inst_size) % 65536 := by
  simp only [List.mem_singleton] at hk
  subst hk
  simp only [dex, Option.some.injEq, Prod.mk.injEq] at h
  obtain ⟨rfl, rfl⟩ := h
  exact ⟨by decide, by simp⟩

theorem dey_len {inst : Ptr} {s s' : CPU} {info : InstInfo} {opc : Nat}
    (hk : opc ∈ [0x88]) (h : dey inst s = some (s', info)) :
    spec_length opc = some info.inst_size ∧ s'.pc = (s.pc + info.inst_size) % 65536 := by
  simp only [List.mem_singleton] at hk
  subst hk
  simp only [dey, Option.some.injEq, Prod.mk.injEq] at h
  obtain ⟨rfl, rfl⟩ := h
  exact ⟨by decide, by simp⟩

theorem inx_len {inst : Ptr} {s s' : CPU} {info : InstInfo} {opc : Nat}
    (hk : opc ∈ [0xE8]) (h : inx inst s = some (s', info)) :
    spec_length opc = some info.inst_size ∧ s'.pc = (s.pc + info.inst_size) % 65536 := by
  simp only [List.mem_singleton] at hk
  subst hk
  simp only [inx, Option.some.injEq, Prod.mk.injEq] at h
  obtain ⟨rfl, rfl⟩ := h
  exact ⟨by decide, by simp⟩

theorem iny_len {inst : Ptr} {s s' : CPU} {info : InstInfo} {opc : Nat}
    (hk : opc ∈ [0xC8]) (h : iny inst s = some (s', info)) :
    spec_length opc = some info.inst_size ∧ s'.pc = (s.pc + info.inst_size) % 65536 := by
  simp only [List.mem_singleton] at hk
  subst hk
  simp only [iny, Option.some.injEq, Prod.mk.injEq] at h
  obtain ⟨rfl, rfl⟩ := h
  exact ⟨by decide, by simp⟩

theorem nop_len {inst : Ptr} {s s' : CPU} {info : InstInfo} {opc : Nat}
    (hk : opc ∈ [0xEA]) (h : nop inst s = some (s', info)) :
    spec_length opc = some info.inst_size ∧ s'.pc = (s.pc + info.inst_size) % 65536 := by
  simp only [List.mem_singleton] at hk
  subst hk
  simp only [nop, Option.some.injEq, Prod.mk.injEq] at h
  obtain ⟨rfl, rfl⟩ := h
  exact ⟨by decide, by simp⟩

theorem sec_len {inst : Ptr} {s s' : CPU} {info : InstInfo} {opc : Nat}
    (hk : opc ∈ [0x38]) (h : sec inst s = some (s', info)) :
    spec_length opc = some info.inst_size ∧ s'.pc = (s.pc + info.inst_size) % 65536 := by
  simp only [List.mem_singleton] at hk
  subst hk
  simp only [sec, Option.some.injEq, Prod.mk.injEq] at h
  obtain ⟨rfl, rfl⟩ := h
  exact ⟨by decide, by simp⟩

theorem sed_len {inst : Ptr} {s s' : CPU} {info : InstInfo} {opc : Nat}
    (hk : opc ∈ [0xF8]) (h : sed inst s = some (s', info)) :
    spec_length opc = some info.inst_size ∧ s'.pc = (s.pc + info.inst_size) % 65536 := by
  simp only [List.mem_singleton] at hk
  subst hk
  simp only [sed, Option.some.injEq, Prod.mk.injEq] at h
  obtain ⟨rfl, rfl⟩ := h
  exact ⟨by decide, by simp⟩

theorem sei_len {inst : Ptr} {s s' : CPU} {info : InstInfo} {opc : Nat}
    (hk : opc ∈ [0x78]) (h : sei inst s = some (s', info)) :
    spec_length opc = some info.inst_size ∧ s'.pc = (s.pc + info.inst_size) % 65536 := by
  simp only [List.mem_singleton] at hk
  subst hk
  simp only [sei, Option.some.injEq, Prod.mk.injEq] at h
  obtain ⟨rfl, rfl⟩ := h
  exact ⟨by decide, by simp⟩

theorem tax_len {inst : Ptr} {s s' : CPU} {info : InstInfo} {opc : Nat}
    (hk : opc ∈ [0xAA]) (h : tax inst s = some (s', info)) :
    spec_length opc = some info.inst_size ∧ s'.pc = (s.pc + info.inst_size) % 65536 := by
  simp only [List.mem_singleton] at hk
  subst hk
  simp only [tax, Option.some.injEq, Prod.mk.injEq] at h
  obtain ⟨rfl, rfl⟩ := h
  exact ⟨by decide, by simp⟩

theorem tay_len {inst : Ptr} {s s' : CPU} {info : InstInfo} {opc : Nat}
    (hk : opc ∈ [0xA8]) (h : tay inst s = some (s', info)) :
    spec_length opc = some info.inst_size ∧ s'.pc = (s.pc + info.inst_size) % 65536 := by
  simp only [List.mem_singleton] at hk
  subst hk
  simp only [tay, Option.some.injEq, Prod.mk.injEq] at h
  obtain ⟨rfl, rfl⟩ := h
  exact ⟨by decide, by simp⟩

theorem tsx_len {inst : Ptr} {s s' : CPU} {info : InstInfo} {opc : Nat}
    (hk : opc ∈ [0xBA]) (h : tsx inst s = some (s', info)) :
    spec_length opc = some info.inst_size ∧ s'.pc = (s.pc + info.inst_size) % 65536 := by
  simp only [List.mem_singleton] at hk
  subst hk
  simp only [tsx, Option.some.injEq, Prod.mk.injEq] at h
  obtain ⟨rfl, rfl⟩ := h
  exact ⟨by decide, by simp⟩

theorem txa_len {inst : Ptr} {s s' : CPU} {info : InstInfo} {opc : Nat}
    (hk : opc ∈ [0x8A]) (h : txa inst s = some (s', info)) :
    spec_length opc = some info.inst_size ∧ s'.pc = (s.pc + info.inst_size) % 65536 := by
  simp only [List.mem_singleton] at hk
  subst hk
  simp only [txa, Option.some.injEq, Prod.mk.injEq] at h
  obtain ⟨rfl, rfl⟩ := h
  exact ⟨by decide, by simp⟩

theorem txs_len {inst : Ptr} {s s' : CPU} {info : InstInfo} {opc : Nat}
    (hk : opc ∈ [0x9A]) (h : txs inst s = some (s', info)) :
    spec_length opc = some info.inst_size ∧ s'.pc = (s.pc + info.inst_size) % 65536 := by
  simp only [List.mem_singleton] at hk
  subst hk
  simp only [txs, Option.some.injEq, Prod.mk.injEq] at h
  obtain ⟨rfl, rfl⟩ := h
  exact ⟨by decide, by simp⟩

theorem tya_len {inst : Ptr} {s s' : CPU} {info : InstInfo} {opc : Nat}
    (hk : opc ∈ [0x98]) (h : tya inst s = some (s', info)) :
    spec_length opc = some info.inst_size ∧ s'.pc = (s.pc + info.inst_size) % 65536 := by
  simp only [List.mem_singleton] at hk
  subst hk
  simp only [tya, Option.some.injEq, Prod.mk.injEq] at h
  obtain ⟨rfl, rfl⟩ := h
  exact ⟨by decide, by simp⟩

theorem pha_len {inst : Ptr} {s s' : CPU} {info : InstInfo} {opc : Nat}
    (hk : opc ∈ [0x48]) (h : pha inst s = some (s', info)) :
    spec_length opc = some info.inst_size ∧ s'.pc = (s.pc + info.inst_size) % 65536 := by
  simp only [List.mem_singleton] at hk
  subst hk
  simp only [pha, Option.bind_eq_bind, Option.bind_eq_some, Option.pure_def, Option.some.injEq,
    Prod.mk.injEq] at h
  obtain ⟨s1, h1, rfl, rfl⟩ := h
  exact ⟨by decide, by simp [store_pc h1]⟩

theorem php_len {inst : Ptr} {s s' : CPU} {info : InstInfo} {opc : Nat}
    (hk : opc ∈ [0x08]) (h : php inst s = some (s', info)) :
    spec_length opc = some info.inst_size ∧ s'.pc = (s.pc + info.inst_size) % 65536 := by
  simp only [List.mem_singleton] at hk
  subst hk
  simp only [php, Option.bind_eq_bind, Option.bind_eq_some, Option.pure_def, Option.some.injEq,
    Prod.mk.injEq] at h
  obtain ⟨s1, h1, rfl, rfl⟩ := h
  exact ⟨by decide, by simp [store_pc h1]⟩

theorem pla_len {inst : Ptr} {s s' : CPU} {info : InstInfo} {opc : Nat}
    (hk : opc ∈ [0x68]) (h : pla inst s = some (s', info)) :
    spec_length opc = some info.inst_size ∧ s'.pc = (s.pc + info.inst_size) % 65536 := by
  simp only [List.mem_singleton] at hk
  subst hk
  simp only [pla, Option.bind_eq_bind, Option.bind_eq_some, Option.pure_def, Option.some.injEq,
    Prod.mk.injEq] at h
  obtain ⟨v, -, rfl, rfl⟩ := h
  exact ⟨by decide, by simp⟩

theorem plp_len {inst : Ptr} {s s' : CPU} {info : InstInfo} {opc : Nat}
    (hk : opc ∈ [0x28]) (h : plp inst s = some (s', info)) :
    spec_length opc = some info.inst_size ∧ s'.pc = (s.pc + info.inst_size) % 65536 := by
  simp only [List.mem_singleton] at hk
  subst hk
  simp only [plp, Option.bind_eq_bind, Option.bind_eq_some, Option.pure_def, Option.some.injEq,
    Prod.mk.injEq] at h
  obtain ⟨v, -, rfl, rfl⟩ := h
  exact ⟨by decide, by simp⟩

theorem ill_nop_len {inst : Ptr} {s s' : CPU} {info : InstInfo} {opc : Nat}
    (hl : s.load inst = some opc)
    (hk : opc ∈ [0x1A, 0x3A, 0x5A, 0x7A, 0xDA, 0xFA, 0x80, 0x82, 0x89, 0xC2, 0xE2, 0x04, 0x44, 0x64,
        0x14, 0x34, 0x54, 0x74, 0xD4, 0xF4, 0x0C, 0x1C, 0x3C, 0x5C, 0x7C, 0xDC, 0xFC])
    (h : ill_nop inst s = some (s', info)) :
    spec_length opc = some info.inst_size ∧ s'.pc = (s.pc + info.inst_size) % 65536 := by
  unfold ill_nop at h
  rw [hl] at h
  simp only [List.mem_cons, List.mem_singleton, List.not_mem_nil, or_false] at hk
  rcases hk with rfl | rfl | rfl | rfl | rfl | rfl | rfl | rfl | rfl | rfl | rfl | rfl | rfl | rfl |
    rfl | rfl | rfl | rfl | rfl | rfl | rfl | rfl | rfl | rfl | rfl | rfl | rfl <;>
    (simp +decide only [Option.bind_eq_bind, Option.some_bind, Option.pure_def, ↓reduceIte,
       Option.some.injEq, Prod.mk.injEq] at h
     obtain ⟨rfl, rfl⟩ := h
     exact ⟨by decide, rfl⟩)

theorem spec_length_labels {opc n : Nat} (hn : spec_length opc = some n) :
    opc ∈ exec_inst_labels := by
  by_contra hc
  have hs : opc ∉ documented_opcodes ++ (illegal_nop_opcodes 1 ++
      (illegal_nop_opcodes 2 ++ illegal_nop_opcodes 3)) :=
    fun hm => hc ((labels_eq_spec opc).2 hm)
  simp only [documented_opcodes, List.mem_append, not_or, and_assoc] at hs
  obtain ⟨m0, m1, m2, m3, m4, m5, m6, m7, m8, m9, m10, m11, m12, i1, i2, i3⟩ := hs
  have hnone : spec_length opc = none := by
    unfold spec_length spec_mode
    rw [if_neg i1, if_neg i2, if_neg i3, if_neg m0, if_neg m1, if_neg m2, if_neg m3, if_neg m4,
      if_neg m5, if_neg m6, if_neg m7, if_neg m8, if_neg m9, if_neg m10, if_neg m11, if_neg m12]
    rfl
  rw [hnone] at hn
  exact absurd hn (by simp)

/-- C29: for every opcode to which the spec assigns a length `n` (the length of its
addressing mode, §4.4: 1 for implied and accumulator, 2 for immediate, zero page,
zero page,X/Y, (indirect,X), (indirect),Y, 3 for absolute, absolute,X/Y; or the
listed length of an illegal NOP) and that is not JMP, JSR, RTS, RTI, BRK or a
branch, a returning `exec_inst` returns `inst_size = n` and sets `PC` to
`(PC + n) mod 65536`. -/
theorem pc_advance (s : CPU) (inst : Ptr) (opc n : Nat) (s' : CPU) (info : InstInfo)
    (hl : s.load inst = some opc) (hn : spec_length opc = some n)
    (hx : opc ∉ control_transfer_opcodes) (h : exec_inst inst s = some (s', info)) :
    info.inst_size = n ∧ s'.pc = (s.pc + n) % 65536 := by
  have key : spec_length opc = some info.inst_size ∧ s'.pc = (s.pc + info.inst_size) % 65536 := by
    rcases exec_inst_dispatch hl h with
      ⟨hk, h⟩ | ⟨hk, h⟩ | ⟨hk, h⟩ | ⟨hk, h⟩ | ⟨hk, h⟩ | ⟨hk, h⟩ | ⟨hk, h⟩ | ⟨hk, h⟩ |
      ⟨hk, h⟩ | ⟨hk, h⟩ | ⟨hk, h⟩ | ⟨hk, h⟩ | ⟨hk, h⟩ | ⟨hk, h⟩ | ⟨hk, h⟩ | ⟨hk, h⟩ |
      ⟨hk, h⟩ | ⟨hk, h⟩ | ⟨hk, h⟩ | ⟨hk, h⟩ | ⟨hk, h⟩ | ⟨hk, h⟩ | ⟨hk, h⟩ | ⟨hk, h⟩ |
      ⟨hk, h⟩ | ⟨hk, h⟩ | ⟨hk, h⟩ | ⟨hk, h⟩ | ⟨hk, h⟩ | ⟨hk, h⟩ | ⟨hk, h⟩ | ⟨hk, h⟩ |
      ⟨hk, h⟩ | ⟨hk, h⟩ | ⟨hk, h⟩ | ⟨hk, h⟩ | ⟨hk, h⟩ | ⟨hk, h⟩ | ⟨hk, h⟩ | ⟨hk, h⟩ |
      ⟨hk, h⟩ | ⟨hk, h⟩ | ⟨hk, h⟩ | ⟨hk, h⟩ | ⟨hk, h⟩ | ⟨hk, h⟩ | ⟨hk, h⟩ | ⟨hk, h⟩ |
      ⟨hk, h⟩ | ⟨hk, h⟩ | ⟨hk, h⟩ | ⟨hk, h⟩ | ⟨hk, h⟩ | ⟨hk, h⟩ | ⟨hk, h⟩ | ⟨hk, h⟩ |
      ⟨hk, h⟩ | ⟨hk, -⟩
    · exact adc_len hl hk h
    · exact and__len hl hk h
    · exact asl_len hl hk h
    · exact absurd ((by decide : ∀ c ∈ [0x90], c ∈ control_transfer_opcodes) opc hk) hx
    · exact absurd ((by decide : ∀ c ∈ [0xB0], c ∈ control_transfer_opcodes) opc hk) hx
    · exact absurd ((by decide : ∀ c ∈ [0xF0], c ∈ control_transfer_opcodes) opc hk) hx
    · exact bit_len hl hk h
    · exact absurd ((by decide : ∀ c ∈ [0x30], c ∈ control_transfer_opcodes) opc hk) hx
    · exact absurd ((by decide : ∀ c ∈ [0xD0], c ∈ control_transfer_opcodes) opc hk) hx
    · exact absurd ((by decide : ∀ c ∈ [0x10], c ∈ control_transfer_opcodes) opc hk) hx
    · exact absurd ((by decide : ∀ c ∈ [0x00], c ∈ control_transfer_opcodes) opc hk) hx
    · exact absurd ((by decide : ∀ c ∈ [0x50], c ∈ control_transfer_opcodes) opc hk) hx
    · exact absurd ((by decide : ∀ c ∈ [0x70], c ∈ control_transfer_opcodes) opc hk) hx
    · exact clc_len hk h
    · exact cld_len hk h
    · exact cli_len hk h
    · exact clv_len hk h
    · exact cmp_len hl hk h
    · exact cpx_len hl hk h
    · exact cpy_len hl hk h
    · exact dec_len hl hk h
    · exact dex_len hk h
    · exact dey_len hk h
    · exact eor_len hl hk h
    · exact inc_len hl hk h
    · exact inx_len hk h
    · exact iny_len hk h
    · exact absurd ((by decide : ∀ c ∈ [0x4C, 0x6C], c ∈ control_transfer_opcodes) opc hk) hx
    · exact absurd ((by decide : ∀ c ∈ [0x20], c ∈ control_transfer_opcodes) opc hk) hx
    · exact lda_len hl hk h
    · exact ldx_len hl hk h
    · exact ldy_len hl hk h
    · exact lsr_len hl hk h
    · exact nop_len hk h
    · exact ora_len hl hk h
    · exact pha_len hk h
    · exact php_len hk h
    · exact pla_len hk h
    · exact plp_len hk h
    · exact rol_len hl hk h
    · exact ror_len hl hk h
    · exact absurd ((by decide : ∀ c ∈ [0x40], c ∈ control_transfer_opcodes) opc hk) hx
    · exact absurd ((by decide : ∀ c ∈ [0x60], c ∈ control_transfer_opcodes) opc hk) hx
    · exact sbc_len hl hk h
    · exact sec_len hk h
    · exact sed_len hk h
    · exact sei_len hk h
    · exact sta_len hl hk h
    · exact stx_len hl hk h
    · exact sty_len hl hk h
    · exact tax_len hk h
    · exact tay_len hk h
    · exact tsx_len hk h
    · exact txa_len hk h
    · exact txs_len hk h
    · exact tya_len hk h
    · exact ill_nop_len hl hk h
    · exact absurd (spec_length_labels hn) hk
  obtain ⟨k1, k2⟩ := key
  rw [hn, Option.some.injEq] at k1
  subst k1
  exact ⟨rfl, k2⟩

theorem pc_advance_witness :
    ∃ t info, fetch_exec exec_inst sta_sample = some (t, info) ∧
      info.inst_size = 3 ∧ t.pc = (sta_sample.pc + 3) % 65536 := by
  cases hres : exec_inst (access_mem 1 0xC000) sta_sample with
  | none => exact absurd (congrArg Option.isSome hres) (by decide)
  | some r =>
    exact ⟨r.1, r.2, hres, pc_advance sta_sample (access_mem 1 0xC000) 0x8D 3 r.1 r.2
      (by decide) (by decide) (by decide) hres⟩

/-! ### C28: operand bytes and the bus -/

/-- C28 (the code differs): the operand of an absolute-mode instruction is read with
pointer arithmetic from the opcode's address, `fix_endian(&inst[1])`, not through
`access_mem`. With `JMP abs` at `$07FE`, `$1FFE` and `$FFFE` the bus gives the operand
`$1234`, while `inst[2]` is one byte past the end of the array that holds the opcode,
so `exec_inst` has no defined result; at `$401E` both bytes are inside `apu_io_reg`
and the operand is `$AB34` instead of `$1234`. -/
theorem absolute_operand_bypasses_bus :
    (spec_read16 (bus_edge_sample 0x07FE) 0x07FF = some 0x1234 ∧
      fix_endian (bus_edge_sample 0x07FE) ((access_mem 1 0x07FE).offset 1) = none ∧
      (access_mem 1 0x07FE).offset 2 = ⟨.memory, RAM_SIZE⟩ ∧
      (fetch_exec exec_inst (bus_edge_sample 0x07FE)).map (fun r => (r.1.pc, r.2)) = none) ∧
    (spec_read16 (bus_edge_sample 0x1FFE) 0x1FFF = some 0x1234 ∧
      fix_endian (bus_edge_sample 0x1FFE) ((access_mem 1 0x1FFE).offset 1) = none ∧
      (fetch_exec exec_inst (bus_edge_sample 0x1FFE)).map (fun r => (r.1.pc, r.2)) = none) ∧
    (spec_read16 (bus_edge_sample 0xFFFE) 0xFFFF = some 0x1234 ∧
      fix_endian (bus_edge_sample 0xFFFE) ((access_mem 1 0xFFFE).offset 1) = none ∧
      (access_mem 1 0xFFFE).offset 2 = ⟨.prg_rom_pages 0, PRG_ROM_PAGE_SIZE⟩ ∧
      (fetch_exec exec_inst (bus_edge_sample 0xFFFE)).map (fun r => (r.1.pc, r.2)) = none) ∧
    (spec_read16 (bus_edge_sample 0x401E) 0x401F = some 0x1234 ∧
      fix_endian (bus_edge_sample 0x401E) ((access_mem 1 0x401E).offset 1) = some 0xAB34 ∧
      (fetch_exec exec_inst (bus_edge_sample 0x401E)).map (fun r => (r.1.pc, r.2))
        = some (0xAB34, ⟨"JMP", 3⟩)) := by
  refine ⟨⟨?_, ?_, ?_, ?_⟩, ⟨?_, ?_, ?_⟩, ⟨?_, ?_, ?_, ?_⟩, ⟨?_, ?_, ?_⟩⟩ <;> decide

/-! ### C24: the trace line -/

theorem hex_digit_spec (d : Nat) (h : d < 16) : hex_digit d = spec_hex_digit d := by
  interval_cases d <;> rfl

theorem spec_hex_2 (v : Nat) :
    spec_hex 2 v = String.mk [spec_hex_digit (v / 16 % 16), spec_hex_digit (v % 16)] := by
  simp [spec_hex, List.range_succ]

theorem spec_hex_4 (v : Nat) :
    spec_hex 4 v = String.mk [spec_hex_digit (v / 4096 % 16), spec_hex_digit (v / 256 % 16),
      spec_hex_digit (v / 16 % 16), spec_hex_digit (v % 16)] := by
  simp [spec_hex, List.range_succ]

theorem hex_digits_lt_16 (fuel v : Nat) (h : v < 16) :
    hex_digits (fuel + 1) v = [spec_hex_digit v] := by
  rw [hex_digits, if_pos h, hex_digit_spec v h]

theorem hex_digits_ge_16 (fuel v : Nat) (h : 16 ≤ v) :
    hex_digits (fuel + 1) v = hex_digits fuel (v / 16) ++ [spec_hex_digit (v % 16)] := by
  rw [hex_digits, if_neg (by omega), hex_digit_spec _ (Nat.mod_lt _ (by decide))]

theorem printf_X_2 (v : Nat) (h : v < 256) : printf_X 2 v = spec_hex 2 v := by
  rw [spec_hex_2, printf_X]
  by_cases h1 : v < 16
  · rw [hex_digits_lt_16 _ _ h1]
    have e1 : v / 16 % 16 = 0 := by omega
    have e2 : v % 16 = v := by omega
    rw [e1, e2]
    rfl
  · rw [hex_digits_ge_16 _ _ (by omega), hex_digits_lt_16 _ _ (by omega)]
    have e1 : v / 16 % 16 = v / 16 := by omega
    rw [e1]
    rfl

theorem printf_X_4 (v : Nat) (h : v < 65536) : printf_X 4 v = spec_hex 4 v := by
  rw [spec_hex_4, printf_X]
  by_cases h1 : v < 16
  · rw [hex_digits_lt_16 _ _ h1]
    have e1 : v / 4096 % 16 = 0 := by omega
    have e2 : v / 256 % 16 = 0 := by omega
    have e3 : v / 16 % 16 = 0 := by omega
    have e4 : v % 16 = v := by omega
    rw [e1, e2, e3, e4]
    rfl
  · by_cases h2 : v < 256
    · rw [hex_digits_ge_16 _ _ (by omega), hex_digits_lt_16 _ _ (by omega)]
      have e1 : v / 4096 % 16 = 0 := by omega
      have e2 : v / 256 % 16 = 0 := by omega
      have e3 : v / 16 % 16 = v / 16 := by omega
      rw [e1, e2, e3]
      rfl
    · by_cases h3 : v < 4096
      · rw [hex_digits_ge_16 _ _ (by omega), hex_digits_ge_16 _ _ (by omega),
          hex_digits_lt_16 _ _ (by omega)]
        have e1 : v / 4096 % 16 = 0 := by omega
        have e2 : v / 256 % 16 = v / 16 / 16 := by omega
        rw [e1, e2]
        rfl
      · rw [hex_digits_ge_16 _ _ (by omega), hex_digits_ge_16 _ _ (by omega),
          hex_digits_ge_16 _ _ (by omega), hex_digits_lt_16 _ _ (by omega)]
        have e1 : v / 4096 % 16 = v / 16 / 16 / 16 := by omega
        have e2 : v / 256 % 16 = v / 16 / 16 % 16 := by omega
        rw [e1, e2]
        rfl

theorem log_byte_spec (s : CPU) (info : InstInfo) (state : CPUState) (bytes : List Nat)
    (hn : info.inst_size = bytes.length)
    (hb : ∀ i b, bytes.get? i = some b →
      s.load ((access_mem s.header4 state.pc).offset i) = some b ∧ b < 256) (i : Nat) :
    log_byte s info state i = some (match bytes.get? i with
      | some b => spec_hex 2 b ++ " "
      | none => "   ") := by
  unfold log_byte
  cases hg : bytes.get? i with
  | none =>
    have hi : ¬ i < info.inst_size := by
      rw [hn]; exact Nat.not_lt.mpr (List.get?_eq_none.mp hg)
    rw [if_neg hi]
    rfl
  | some b =>
    have hi : i < info.inst_size := by
      rw [hn]
      by_contra hc
      rw [List.get?_eq_none.mpr (Nat.not_lt.mp hc)] at hg
      exact absurd hg (by simp)
    obtain ⟨hl, hb256⟩ := hb i b hg
    rw [if_pos hi, hl, Option.bind_eq_bind, Option.some_bind, printf_X_2 b hb256]
    rfl

/-- C24: for a snapshot with `PC < 65536` and byte-sized registers, and an
instruction record of length `n` (1, 2 or 3 in particular) whose `n` bytes at
`access_mem(PC)[0..n-1]` are `bytes`, `log` writes exactly the line of the spec:
four-digit PC, two spaces, the bytes as two digits and a space each, three spaces
for each missing byte, one space, the mnemonic, two spaces,
`A:AA X:XX Y:YY P:PP SP:SS`, newline. -/
theorem trace_line_format (s : CPU) (info : InstInfo) (state : CPUState) (bytes : List Nat)
    (hn : info.inst_size = bytes.length)
    (hb : ∀ i b, bytes.get? i = some b →
      s.load ((access_mem s.header4 state.pc).offset i) = some b ∧ b < 256)
    (hpc : state.pc < 65536) (ha : state.a < 256) (hx : state.x < 256) (hy : state.y < 256)
    (hsr : state.sr < 256) (hsp : state.sp < 256) :
    log s info state = some (spec_trace_line state bytes info.inst_name) := by
  have l0 := log_byte_spec s info state bytes hn hb
  unfold log
  rw [l0 0, l0 1, l0 2]
  simp only [Option.bind_eq_bind, Option.some_bind, Option.pure_def, spec_trace_line,
    printf_X_4 _ hpc, printf_X_2 _ ha, printf_X_2 _ hx, printf_X_2 _ hy, printf_X_2 _ hsr,
    printf_X_2 _ hsp]
  have hj : ∀ f : Nat → String,
      String.join ((List.range 3).map f) = "" ++ f 0 ++ f 1 ++ f 2 := fun f => rfl
  rw [hj]
  simp only [String.append_assoc, String.empty_append]

theorem trace_line_format_witness :
    (fetch_exec exec_inst trace_sample).bind
        (fun r => log r.1 r.2 (save_cpu_state trace_sample))
      = some "C000  4C F5 C5  JMP  A:00 X:00 Y:00 P:24 SP:FD\n" := by
  have he : fetch_exec exec_inst trace_sample
      = some ({ trace_sample with pc := 0xC5F5 }, ⟨"JMP", 3⟩) := rfl
  rw [he, Option.some_bind]
  exact (trace_line_format { trace_sample with pc := 0xC5F5 } ⟨"JMP", 3⟩
    (save_cpu_state trace_sample) [0x4C, 0xF5, 0xC5] rfl
    (by
      intro i b h
      rcases i with _ | _ | _ | i
      · simp only [List.get?_cons_zero, Option.some.injEq] at h
        subst h
        exact ⟨by decide, by decide⟩
      · simp only [List.get?_cons_succ, List.get?_cons_zero, Option.some.injEq] at h
        subst h
        exact ⟨by decide, by decide⟩
      · simp only [List.get?_cons_succ, List.get?_cons_zero, Option.some.injEq] at h
        subst h
        exact ⟨by decide, by decide⟩
      · simp at h)
    (by decide) (by decide) (by decide) (by decide) (by decide) (by decide)).trans (by decide)

/-! ### C22: unknown opcodes and the end of `run` -/

theorem spec_opcodes_count :
    documented_opcodes.length = 151 ∧
    (illegal_nop_opcodes 1 ++ (illegal_nop_opcodes 2 ++ illegal_nop_opcodes 3)).length = 27 ∧
    spec_opcodes.length = 178 := by
  refine ⟨?_, ?_, ?_⟩ <;> rfl

theorem exec_inst_name {inst : Ptr} {s s' : CPU} {info : InstInfo}
    (h : exec_inst inst s = some (s', info)) (hb : info.inst_name = "BAD") :
    ∃ opc, s.load inst = some opc ∧ opc ∉ exec_inst_labels ∧ s' = s ∧ info = ⟨"BAD", 1⟩ := by
  cases hl : s.load inst with
  | none =>
    unfold exec_inst at h
    rw [hl] at h
    exact absurd h (by simp)
  | some opc =>
    refine ⟨opc, rfl, ?_⟩
    have ne : ∀ {name : String}, info.inst_name = name → name ≠ "BAD" →
        opc ∉ exec_inst_labels ∧ s' = s ∧ info = ⟨"BAD", 1⟩ :=
      fun hname hne => absurd (hname ▸ hb) hne
    rcases exec_inst_dispatch hl h with
      ⟨-, h⟩ | ⟨-, h⟩ | ⟨-, h⟩ | ⟨-, h⟩ | ⟨-, h⟩ | ⟨-, h⟩ | ⟨-, h⟩ | ⟨-, h⟩ |
      ⟨-, h⟩ | ⟨-, h⟩ | ⟨-, h⟩ | ⟨-, h⟩ | ⟨-, h⟩ | ⟨-, h⟩ | ⟨-, h⟩ | ⟨-, h⟩ |
      ⟨-, h⟩ | ⟨-, h⟩ | ⟨-, h⟩ | ⟨-, h⟩ | ⟨-, h⟩ | ⟨-, h⟩ | ⟨-, h⟩ | ⟨-, h⟩ |
      ⟨-, h⟩ | ⟨-, h⟩ | ⟨-, h⟩ | ⟨-, h⟩ | ⟨-, h⟩ | ⟨-, h⟩ | ⟨-, h⟩ | ⟨-, h⟩ |
      ⟨-, h⟩ | ⟨-, h⟩ | ⟨-, h⟩ | ⟨-, h⟩ | ⟨-, h⟩ | ⟨-, h⟩ | ⟨-, h⟩ | ⟨-, h⟩ |
      ⟨-, h⟩ | ⟨-, h⟩ | ⟨-, h⟩ | ⟨-, h⟩ | ⟨-, h⟩ | ⟨-, h⟩ | ⟨-, h⟩ | ⟨-, h⟩ |
      ⟨-, h⟩ | ⟨-, h⟩ | ⟨-, h⟩ | ⟨-, h⟩ | ⟨-, h⟩ | ⟨-, h⟩ | ⟨-, h⟩ | ⟨-, h⟩ |
      ⟨-, h⟩ | ⟨hk, hr⟩
    · exact ne (adc_bu h).2 (by decide)
    · exact ne (and__bu h).2 (by decide)
    · exact ne (asl_bu h).2 (by decide)
    · exact ne (bcc_bu h).2 (by decide)
    · exact ne (bcs_bu h).2 (by decide)
    · exact ne (beq_bu h).2 (by decide)
    · exact ne (bit_bu h).2 (by decide)
    · exact ne (bmi_bu h).2 (by decide)
    · exact ne (bne_bu h).2 (by decide)
    · exact ne (bpl_bu h).2 (by decide)
    · exact ne (brk_bu h).2.2 (by decide)
    · exact ne (bvc_bu h).2 (by decide)
    · exact ne (bvs_bu h).2 (by decide)
    · exact ne (clc_bu h).2 (by decide)
    · exact ne (cld_bu h).2 (by decide)
    · exact ne (cli_bu h).2 (by decide)
    · exact ne (clv_bu h).2 (by decide)
    · exact ne (cmp_bu h).2 (by decide)
    · exact ne (cpx_bu h).2 (by decide)
    · exact ne (cpy_bu h).2 (by decide)
    · exact ne (dec_bu h).2 (by decide)
    · exact ne (dex_bu h).2 (by decide)
    · exact ne (dey_bu h).2 (by decide)
    · exact ne (eor_bu h).2 (by decide)
    · exact ne (inc_bu h).2 (by decide)
    · exact ne (inx_bu h).2 (by decide)
    · exact ne (iny_bu h).2 (by decide)
    · exact ne (jmp_bu h).2 (by decide)
    · exact ne (jsr_bu h).2 (by decide)
    · exact ne (lda_bu h).2 (by decide)
    · exact ne (ldx_bu h).2 (by decide)
    · exact ne (ldy_bu h).2 (by decide)
    · exact ne (lsr_bu h).2 (by decide)
    · exact ne (nop_bu h).2 (by decide)
    · exact ne (ora_bu h).2 (by decide)
    · exact ne (pha_bu h).2 (by decide)
    · exact ne (php_bu h).2 (by decide)
    · exact ne (pla_bu h).2 (by decide)
    · exact ne (plp_bu h).2.2 (by decide)
    · exact ne (rol_bu h).2 (by decide)
    · exact ne (ror_bu h).2 (by decide)
    · exact ne (rti_bu h).2.2 (by decide)
    · exact ne (rts_bu h).2 (by decide)
    · exact ne (sbc_bu h).2 (by decide)
    · exact ne (sec_bu h).2 (by decide)
    · exact ne (sed_bu h).2 (by decide)
    · exact ne (sei_bu h).2 (by decide)
    · exact ne (sta_bu h).2 (by decide)
    · exact ne (stx_bu h).2 (by decide)
    · exact ne (sty_bu h).2 (by decide)
    · exact ne (tax_bu h).2 (by decide)
    · exact ne (tay_bu h).2 (by decide)
    · exact ne (tsx_bu h).2 (by decide)
    · exact ne (txa_bu h).2 (by decide)
    · exact ne (txs_bu h).2 (by decide)
    · exact ne (tya_bu h).2 (by decide)
    · exact ne (ill_nop_bu h).2 (by decide)
    · simp only [Prod.mk.injEq] at hr
      exact ⟨hk, hr.1, hr.2⟩


theorem log_bad (s : CPU) (opc : Nat) (hl : s.load (access_mem s.header4 s.pc) = some opc) :
    ∃ line, log s ⟨"BAD", 1⟩ (save_cpu_state s) = some line := by
  have h0 : (access_mem s.header4 (save_cpu_state s).pc).offset 0
      = access_mem s.header4 s.pc := rfl
  cases hlog : log s ⟨"BAD", 1⟩ (save_cpu_state s) with
  | some line => exact ⟨line, rfl⟩
  | none =>
    unfold log log_byte at hlog
    rw [if_pos (by decide), if_neg (by decide), if_neg (by decide), h0, hl] at hlog
    exact absurd hlog (by simp)

theorem run_stops (s : CPU) (opc : Nat) (hl : s.load (access_mem s.header4 s.pc) = some opc)
    (hk : opc ∉ exec_inst_labels) (fuel : Nat) :
    ∃ line, run (fuel + 1) s = some (s, [line]) := by
  obtain ⟨line, hline⟩ := log_bad s opc hl
  refine ⟨line, ?_⟩
  rw [run, exec_inst_bad hl hk]
  simp only [Option.bind_eq_bind, Option.some_bind, hline, ne_eq, not_true_eq_false, if_false,
    Option.pure_def]

theorem run_continues (s : CPU) (opc : Nat)
    (hl : s.load (access_mem s.header4 s.pc) = some opc) (hk : opc ∈ exec_inst_labels)
    (fuel : Nat) (s' : CPU) (lines : List String) (h : run (fuel + 1) s = some (s', lines)) :
    ∃ s1 info line rest, exec_inst (access_mem s.header4 s.pc) s = some (s1, info) ∧
      info.inst_name ≠ "BAD" ∧ run fuel s1 = some (s', rest) ∧ lines = line :: rest := by
  rw [run] at h
  simp only [Option.bind_eq_bind, Option.bind_eq_some] at h
  obtain ⟨r, hr, line, -, h⟩ := h
  have hne : r.2.inst_name ≠ "BAD" := by
    intro hb
    obtain ⟨opc1, hl1, hk1, -, -⟩ := exec_inst_name hr hb
    rw [hl] at hl1
    exact hk1 (Option.some.inj hl1 ▸ hk)
  rw [if_pos hne] at h
  simp only [Option.bind_eq_some, Option.pure_def, Option.some.injEq, Prod.mk.injEq] at h
  obtain ⟨rest, hrest, h1, h2⟩ := h
  exact ⟨r.1, r.2, line, rest.2, hr, hne, by rw [hrest, ← h1], h2.symm⟩

theorem run_returns : ∀ (fuel : Nat) (s s' : CPU) (lines : List String),
    run fuel s = some (s', lines) →
    ∃ infos opc, exec_steps (lines.length - 1) s = some (s', infos) ∧ 1 ≤ lines.length ∧
      (∀ i ∈ infos, i.inst_name ≠ "BAD") ∧
      s'.load (access_mem s'.header4 s'.pc) = some opc ∧ opc ∉ exec_inst_labels := by
  intro fuel
  induction fuel with
  | zero => intro s s' lines h; exact absurd h (by simp [run])
  | succ fuel ih =>
    intro s s' lines h
    rw [run] at h
    simp only [Option.bind_eq_bind, Option.bind_eq_some] at h
    obtain ⟨r, hr, line, -, h⟩ := h
    by_cases hne : r.2.inst_name ≠ "BAD"
    · rw [if_pos hne] at h
      simp only [Option.bind_eq_some, Option.pure_def, Option.some.injEq, Prod.mk.injEq] at h
      obtain ⟨rest, hrest, h1, h2⟩ := h
      obtain ⟨infos, opc, hsteps, hlen, hnames, hload, hk⟩ := ih r.1 rest.1 rest.2 hrest
      subst h1 h2
      refine ⟨r.2 :: infos, opc, ?_, by simp, ?_, hload, hk⟩
      · have e : (line :: rest.2).length - 1 = (rest.2.length - 1) + 1 := by
          simp only [List.length_cons]; omega
        rw [e, exec_steps, hr]
        simp only [Option.bind_eq_bind, Option.some_bind, hsteps, Option.pure_def]
      · intro i hi
        rcases List.mem_cons.mp hi with rfl | hi
        · exact hne
        · exact hnames i hi
    · rw [if_neg hne] at h
      simp only [Option.pure_def, Option.some.injEq, Prod.mk.injEq] at h
      obtain ⟨h1, h2⟩ := h
      obtain ⟨opc, hl, hk, hs, -⟩ := @exec_inst_name _ _ r.1 r.2 hr (not_not.mp hne)
      subst h1 h2
      rw [hs]
      exact ⟨[], opc, rfl, by simp, by simp, hl, hk⟩

/-- C22: an opcode byte outside the 151 documented opcodes and the 27 illegal NOPs
makes `exec_inst` return `{"BAD", 1}` with the state (A, X, Y, PC, SP, P, every
array) unchanged; every other opcode byte never yields the name "BAD". So `run`
ends in the iteration that fetches an unknown opcode, goes on to the next
iteration after any other opcode, and whenever it returns it has executed
`lines - 1` instructions, none of them "BAD", and stands on an unknown opcode. -/
theorem unknown_opcode_halts (s : CPU) (inst : Ptr) (opc : Nat) (hl : s.load inst = some opc) :
    (opc ∉ spec_opcodes → exec_inst inst s = some (s, ⟨"BAD", 1⟩)) ∧
    (opc ∈ spec_opcodes → ∀ s' info, exec_inst inst s = some (s', info) →
      info.inst_name ≠ "BAD") ∧
    (inst = access_mem s.header4 s.pc → opc ∉ spec_opcodes →
      ∀ fuel, ∃ line, run (fuel + 1) s = some (s, [line])) ∧
    (inst = access_mem s.header4 s.pc → opc ∈ spec_opcodes →
      ∀ fuel s' lines, run (fuel + 1) s = some (s', lines) →
      ∃ s1 info line rest, exec_inst inst s = some (s1, info) ∧ info.inst_name ≠ "BAD" ∧
        run fuel s1 = some (s', rest) ∧ lines = line :: rest) ∧
    (∀ fuel s' lines, run fuel s = some (s', lines) →
      ∃ infos opc1, exec_steps (lines.length - 1) s = some (s', infos) ∧ 1 ≤ lines.length ∧
        (∀ i ∈ infos, i.inst_name ≠ "BAD") ∧
        s'.load (access_mem s'.header4 s'.pc) = some opc1 ∧ opc1 ∉ spec_opcodes) := by
  have hiff : ∀ c, c ∈ exec_inst_labels ↔ c ∈ spec_opcodes := labels_eq_spec
  refine ⟨?_, ?_, ?_, ?_, ?_⟩
  · intro hk
    exact exec_inst_bad hl (fun hm => hk ((hiff opc).1 hm))
  · intro hk s' info h hb
    obtain ⟨opc1, hl1, hk1, -, -⟩ := exec_inst_name h hb
    rw [hl] at hl1
    exact hk1 (Option.some.inj hl1 ▸ (hiff opc).2 hk)
  · intro hi hk fuel
    subst hi
    exact run_stops s opc hl (fun hm => hk ((hiff opc).1 hm)) fuel
  · intro hi hk fuel s' lines h
    subst hi
    exact run_continues s opc hl ((hiff opc).2 hk) fuel s' lines h
  · intro fuel s' lines h
    obtain ⟨infos, opc1, h1, h2, h3, h4, h5⟩ := run_returns fuel s s' lines h
    exact ⟨infos, opc1, h1, h2, h3, h4, fun hm => h5 ((hiff opc1).2 hm)⟩

theorem unknown_opcode_halts_witness :
    exec_inst (access_mem 1 0xC001) bad_sample = some (bad_sample, ⟨"BAD", 1⟩) ∧
    (run 2 bad_sample).map (fun r => (r.1.pc, r.2))
      = some (0xC001, ["C000  EA        NOP  A:00 X:00 Y:00 P:24 SP:FD\n",
          "C001  02        BAD  A:00 X:00 Y:00 P:24 SP:FD\n"]) :=
  ⟨(unknown_opcode_halts bad_sample (access_mem 1 0xC001) 0x02 (by decide)).1 (by decide),
   by decide⟩

/-! ### C31: the dispatch of `exec_inst` and the `switch` of each handler -/

theorem access_mem_lt (h4 addr : Nat) (hpages : 1 ≤ h4) :
    (access_mem h4 addr).idx < (access_mem h4 addr).region.size h4 := by
  simp only [access_mem, RAM.get_ram, ROM.get_prg_rom_lo, ROM.get_prg_rom_hi]
  split_ifs <;>
    simp only [Region.size, RAM_SIZE, PRG_ROM_PAGE_SIZE] <;>
    first
      | omega
      | (rw [if_pos (by omega)]; omega)

theorem load_access_mem (s : CPU) (hpages : 1 ≤ s.header4) (addr : Nat) :
    s.load (access_mem s.header4 addr)
      = some (s.mem (access_mem s.header4 addr).region (access_mem s.header4 addr).idx) := by
  rw [CPU.load, if_pos (access_mem_lt s.header4 addr hpages)]

theorem fix_endian_inst (s : CPU) (inst : Ptr) (b1 b2 : Nat)
    (h1 : s.load (inst.offset 1) = some b1) (h2 : s.load (inst.offset 2) = some b2) :
    fix_endian s (inst.offset 1) = some (((b2 <<< 8) + b1) % 65536) := by
  have e : (inst.offset 1).offset 1 = inst.offset 2 := rfl
  rw [fix_endian, e, h1, h2]
  rfl

theorem adc_routed {inst : Ptr} {s : CPU} {opc : Nat} (hl : s.load inst = some opc)
    (hk : opc ∈ [0x69, 0x65, 0x75, 0x6D, 0x7D, 0x79, 0x61, 0x71]) :
    exec_inst inst s = adc inst s := by
  simp only [List.mem_cons, List.mem_singleton, List.not_mem_nil, or_false] at hk
  rcases hk with rfl | rfl | rfl | rfl | rfl | rfl | rfl | rfl <;>
    (unfold exec_inst; rw [hl]
     simp +decide only [Option.bind_eq_bind, Option.some_bind, ↓reduceIte])

theorem and__routed {inst : Ptr} {s : CPU} {opc : Nat} (hl : s.load inst = some opc)
    (hk : opc ∈ [0x29, 0x25, 0x35, 0x2D, 0x3D, 0x39, 0x21, 0x31]) :
    exec_inst inst s = and_ inst s := by
  simp only [List.mem_cons, List.mem_singleton, List.not_mem_nil, or_false] at hk
  rcases hk with rfl | rfl | rfl | rfl | rfl | rfl | rfl | rfl <;>
    (unfold exec_inst; rw [hl]
     simp +decide only [Option.bind_eq_bind, Option.some_bind, ↓reduceIte])

theorem asl_routed {inst : Ptr} {s : CPU} {opc : Nat} (hl : s.load inst = some opc)
    (hk : opc ∈ [0x0A, 0x06, 0x16, 0x0E, 0x1E]) :
    exec_inst inst s = asl inst s := by
  simp only [List.mem_cons, List.mem_singleton, List.not_mem_nil, or_false] at hk
  rcases hk with rfl | rfl | rfl | rfl | rfl <;>
    (unfold exec_inst; rw [hl]
     simp +decide only [Option.bind_eq_bind, Option.some_bind, ↓reduceIte])

theorem bit_routed {inst : Ptr} {s : CPU} {opc : Nat} (hl : s.load inst = some opc)
    (hk : opc ∈ [0x24, 0x2C]) :
    exec_inst inst s = bit inst s := by
  simp only [List.mem_cons, List.mem_singleton, List.not_mem_nil, or_false] at hk
  rcases hk with rfl | rfl <;>
    (unfold exec_inst; rw [hl]
     simp +decide only [Option.bind_eq_bind, Option.some_bind, ↓reduceIte])

theorem cmp_routed {inst : Ptr} {s : CPU} {opc : Nat} (hl : s.load inst = some opc)
    (hk : opc ∈ [0xC9, 0xC5, 0xD5, 0xCD, 0xDD, 0xD9, 0xC1, 0xD1]) :
    exec_inst inst s = cmp inst s := by
  simp only [List.mem_cons, List.mem_singleton, List.not_mem_nil, or_false] at hk
  rcases hk with rfl | rfl | rfl | rfl | rfl | rfl | rfl | rfl <;>
    (unfold exec_inst; rw [hl]
     simp +decide only [Option.bind_eq_bind, Option.some_bind, ↓reduceIte])

theorem cpx_routed {inst : Ptr} {s : CPU} {opc : Nat} (hl : s.load inst = some opc)
    (hk : opc ∈ [0xE0, 0xE4, 0xEC]) :
    exec_inst inst s = cpx inst s := by
  simp only [List.mem_cons, List.mem_singleton, List.not_mem_nil, or_false] at hk
  rcases hk with rfl | rfl | rfl <;>
    (unfold exec_inst; rw [hl]
     simp +decide only [Option.bind_eq_bind, Option.some_bind, ↓reduceIte])

theorem cpy_routed {inst : Ptr} {s : CPU} {opc : Nat} (hl : s.load inst = some opc)
    (hk : opc ∈ [0xC0, 0xC4, 0xCC]) :
    exec_inst inst s = cpy inst s := by
  simp only [List.mem_cons, List.mem_singleton, List.not_mem_nil, or_false] at hk
  rcases hk with rfl | rfl | rfl <;>
    (unfold exec_inst; rw [hl]
     simp +decide only [Option.bind_eq_bind, Option.some_bind, ↓reduceIte])

theorem dec_routed {inst : Ptr} {s : CPU} {opc : Nat} (hl : s.load inst = some opc)
    (hk : opc ∈ [0xC6, 0xD6, 0xCE, 0xDE]) :
    exec_inst inst s = dec inst s := by
  simp only [List.mem_cons, List.mem_singleton, List.not_mem_nil, or_false] at hk
  rcases hk with rfl | rfl | rfl | rfl <;>
    (unfold exec_inst; rw [hl]
     simp +decide only [Option.bind_eq_bind, Option.some_bind, ↓reduceIte])

theorem eor_routed {inst : Ptr} {s : CPU} {opc : Nat} (hl : s.load inst = some opc)
    (hk : opc ∈ [0x49, 0x45, 0x55, 0x4D, 0x5D, 0x59, 0x41, 0x51]) :
    exec_inst inst s = eor inst s := by
  simp only [List.mem_cons, List.mem_singleton, List.not_mem_nil, or_false] at hk
  rcases hk with rfl | rfl | rfl | rfl | rfl | rfl | rfl | rfl <;>
    (unfold exec_inst; rw [hl]
     simp +decide only [Option.bind_eq_bind, Option.some_bind, ↓reduceIte])

theorem inc_routed {inst : Ptr} {s : CPU} {opc : Nat} (hl : s.load inst = some opc)
    (hk : opc ∈ [0xE6, 0xF6, 0xEE, 0xFE]) :
    exec_inst inst s = inc inst s := by
  simp only [List.mem_cons, List.mem_singleton, List.not_mem_nil, or_false] at hk
  rcases hk with rfl | rfl | rfl | rfl <;>
    (unfold exec_inst; rw [hl]
     simp +decide only [Option.bind_eq_bind, Option.some_bind, ↓reduceIte])

theorem jmp_routed {inst : Ptr} {s : CPU} {opc : Nat} (hl : s.load inst = some opc)
    (hk : opc ∈ [0x4C, 0x6C]) :
    exec_inst inst s = jmp inst s := by
  simp only [List.mem_cons, List.mem_singleton, List.not_mem_nil, or_false] at hk
  rcases hk with rfl | rfl <;>
    (unfold exec_inst; rw [hl]
     simp +decide only [Option.bind_eq_bind, Option.some_bind, ↓reduceIte])

theorem lda_routed {inst : Ptr} {s : CPU} {opc : Nat} (hl : s.load inst = some opc)
    (hk : opc ∈ [0xA9, 0xA5, 0xB5, 0xAD, 0xBD, 0xB9, 0xA1, 0xB1]) :
    exec_inst inst s = lda inst s := by
  simp only [List.mem_cons, List.mem_singleton, List.not_mem_nil, or_false] at hk
  rcases hk with rfl | rfl | rfl | rfl | rfl | rfl | rfl | rfl <;>
    (unfold exec_inst; rw [hl]
     simp +decide only [Option.bind_eq_bind, Option.some_bind, ↓reduceIte])

theorem ldx_routed {inst : Ptr} {s : CPU} {opc : Nat} (hl : s.load inst = some opc)
    (hk : opc ∈ [0xA2, 0xA6, 0xB6, 0xAE, 0xBE]) :
    exec_inst inst s = ldx inst s := by
  simp only [List.mem_cons, List.mem_singleton, List.not_mem_nil, or_false] at hk
  rcases hk with rfl | rfl | rfl | rfl | rfl <;>
    (unfold exec_inst; rw [hl]
     simp +decide only [Option.bind_eq_bind, Option.some_bind, ↓reduceIte])

theorem ldy_routed {inst : Ptr} {s : CPU} {opc : Nat} (hl : s.load inst = some opc)
    (hk : opc ∈ [0xA0, 0xA4, 0xB4, 0xAC, 0xBC]) :
    exec_inst inst s = ldy inst s := by
  simp only [List.mem_cons, List.mem_singleton, List.not_mem_nil, or_false] at hk
  rcases hk with rfl | rfl | rfl | rfl | rfl <;>
    (unfold exec_inst; rw [hl]
     simp +decide only [Option.bind_eq_bind, Option.some_bind, ↓reduceIte])

theorem lsr_routed {inst : Ptr} {s : CPU} {opc : Nat} (hl : s.load inst = some opc)
    (hk : opc ∈ [0x4A, 0x46, 0x56, 0x4E, 0x5E]) :
    exec_inst inst s = lsr inst s := by
  simp only [List.mem_cons, List.mem_singleton, List.not_mem_nil, or_false] at hk
  rcases hk with rfl | rfl | rfl | rfl | rfl <;>
    (unfold exec_inst; rw [hl]
     simp +decide only [Option.bind_eq_bind, Option.some_bind, ↓reduceIte])

theorem ora_routed {inst : Ptr} {s : CPU} {opc : Nat} (hl : s.load inst = some opc)
    (hk : opc ∈ [0x09, 0x05, 0x15, 0x0D, 0x1D, 0x19, 0x01, 0x11]) :
    exec_inst inst s = ora inst s := by
  simp only [List.mem_cons, List.mem_singleton, List.not_mem_nil, or_false] at hk
  rcases hk with rfl | rfl | rfl | rfl | rfl | rfl | rfl | rfl <;>
    (unfold exec_inst; rw [hl]
     simp +decide only [Option.bind_eq_bind, Option.some_bind, ↓reduceIte])

theorem rol_routed {inst : Ptr} {s : CPU} {opc : Nat} (hl : s.load inst = some opc)
    (hk : opc ∈ [0x2A, 0x26, 0x36, 0x2E, 0x3E]) :
    exec_inst inst s = rol inst s := by
  simp only [List.mem_cons, List.mem_singleton, List.not_mem_nil, or_false] at hk
  rcases hk with rfl | rfl | rfl | rfl | rfl <;>
    (unfold exec_inst; rw [hl]
     simp +decide only [Option.bind_eq_bind, Option.some_bind, ↓reduceIte])

theorem ror_routed {inst : Ptr} {s : CPU} {opc : Nat} (hl : s.load inst = some opc)
    (hk : opc ∈ [0x6A, 0x66, 0x76, 0x6E, 0x7E]) :
    exec_inst inst s = ror inst s := by
  simp only [List.mem_cons, List.mem_singleton, List.not_mem_nil, or_false] at hk
  rcases hk with rfl | rfl | rfl | rfl | rfl <;>
    (unfold exec_inst; rw [hl]
     simp +decide only [Option.bind_eq_bind, Option.some_bind, ↓reduceIte])

theorem sbc_routed {inst : Ptr} {s : CPU} {opc : Nat} (hl : s.load inst = some opc)
    (hk : opc ∈ [0xE9, 0xE5, 0xF5, 0xED, 0xFD, 0xF9, 0xE1, 0xF1]) :
    exec_inst inst s = sbc inst s := by
  simp only [List.mem_cons, List.mem_singleton, List.not_mem_nil, or_false] at hk
  rcases hk with rfl | rfl | rfl | rfl | rfl | rfl | rfl | rfl <;>
    (unfold exec_inst; rw [hl]
     simp +decide only [Option.bind_eq_bind, Option.some_bind, ↓reduceIte])

theorem sta_routed {inst : Ptr} {s : CPU} {opc : Nat} (hl : s.load inst = some opc)
    (hk : opc ∈ [0x85, 0x95, 0x8D, 0x9D, 0x99, 0x81, 0x91]) :
    exec_inst inst s = sta inst s := by
  simp only [List.mem_cons, List.mem_singleton, List.not_mem_nil, or_false] at hk
  rcases hk with rfl | rfl | rfl | rfl | rfl | rfl | rfl <;>
    (unfold exec_inst; rw [hl]
     simp +decide only [Option.bind_eq_bind, Option.some_bind, ↓reduceIte])

theorem stx_routed {inst : Ptr} {s : CPU} {opc : Nat} (hl : s.load inst = some opc)
    (hk : opc ∈ [0x86, 0x96, 0x8E]) :
    exec_inst inst s = stx inst s := by
  simp only [List.mem_cons, List.mem_singleton, List.not_mem_nil, or_false] at hk
  rcases hk with rfl | rfl | rfl <;>
    (unfold exec_inst; rw [hl]
     simp +decide only [Option.bind_eq_bind, Option.some_bind, ↓reduceIte])

theorem sty_routed {inst : Ptr} {s : CPU} {opc : Nat} (hl : s.load inst = some opc)
    (hk : opc ∈ [0x84, 0x94, 0x8C]) :
    exec_inst inst s = sty inst s := by
  simp only [List.mem_cons, List.mem_singleton, List.not_mem_nil, or_false] at hk
  rcases hk with rfl | rfl | rfl <;>
    (unfold exec_inst; rw [hl]
     simp +decide only [Option.bind_eq_bind, Option.some_bind, ↓reduceIte])

theorem ill_nop_routed {inst : Ptr} {s : CPU} {opc : Nat} (hl : s.load inst = some opc)
    (hk : opc ∈ [0x1A, 0x3A, 0x5A, 0x7A, 0xDA, 0xFA, 0x80, 0x82, 0x89, 0xC2, 0xE2, 0x04, 0x44,
        0x64, 0x14, 0x34, 0x54, 0x74, 0xD4, 0xF4, 0x0C, 0x1C, 0x3C, 0x5C, 0x7C, 0xDC,
        0xFC]) :
    exec_inst inst s = ill_nop inst s := by
  simp only [List.mem_cons, List.mem_singleton, List.not_mem_nil, or_false] at hk
  rcases hk with rfl | rfl | rfl | rfl | rfl | rfl | rfl | rfl | rfl | rfl | rfl | rfl | rfl |
    rfl | rfl | rfl | rfl | rfl | rfl | rfl | rfl | rfl | rfl | rfl | rfl | rfl | rfl <;>
    (unfold exec_inst; rw [hl]
     simp +decide only [Option.bind_eq_bind, Option.some_bind, ↓reduceIte])

theorem adc_operand_defined {inst : Ptr} {s : CPU} {opc b1 b2 : Nat}
    (hpages : 1 ≤ s.header4) (hl : s.load inst = some opc)
    (h1 : s.load (inst.offset 1) = some b1) (h2 : s.load (inst.offset 2) = some b2)
    (hk : opc ∈ [0x69, 0x65, 0x75, 0x6D, 0x7D, 0x79, 0x61, 0x71]) :
    ∃ r, adc_operand inst s = some r := by
  have hf := fix_endian_inst s inst b1 b2 h1 h2
  have hload := load_access_mem s hpages
  simp only [List.mem_cons, List.mem_singleton, List.not_mem_nil, or_false] at hk
  rcases hk with rfl | rfl | rfl | rfl | rfl | rfl | rfl | rfl <;>
    (unfold adc_operand; rw [hl]
     simp +decide only [Option.bind_eq_bind, Option.some_bind, Option.pure_def, ↓reduceIte,
       zero_page, zero_page_x, zero_page_y, absolute, absolute_x, absolute_y, indirect_x,
       indirect_y, load_address, h1, hf, hload]
     exact ⟨_, rfl⟩)

theorem adc_operand_falls_through {inst : Ptr} {s : CPU} {opc : Nat}
    (hl : s.load inst = some opc)
    (hk : opc ∉ [0x69, 0x65, 0x75, 0x6D, 0x7D, 0x79, 0x61, 0x71]) :
    adc_operand inst s = none := by
  simp only [List.mem_cons, List.mem_singleton, List.not_mem_nil, or_false, not_or] at hk
  obtain ⟨k0, k1, k2, k3, k4, k5, k6, k7⟩ := hk
  unfold adc_operand
  rw [hl, Option.bind_eq_bind, Option.some_bind,
    if_neg k0, if_neg k1, if_neg k2, if_neg k3, if_neg k4, if_neg k5, if_neg k6, if_neg k7]

theorem and__operand_defined {inst : Ptr} {s : CPU} {opc b1 b2 : Nat}
    (hpages : 1 ≤ s.header4) (hl : s.load inst = some opc)
    (h1 : s.load (inst.offset 1) = some b1) (h2 : s.load (inst.offset 2) = some b2)
    (hk : opc ∈ [0x29, 0x25, 0x35, 0x2D, 0x3D, 0x39, 0x21, 0x31]) :
    ∃ r, and__operand inst s = some r := by
  have hf := fix_endian_inst s inst b1 b2 h1 h2
  have hload := load_access_mem s hpages
  simp only [List.mem_cons, List.mem_singleton, List.not_mem_nil, or_false] at hk
  rcases hk with rfl | rfl | rfl | rfl | rfl | rfl | rfl | rfl <;>
    (unfold and__operand; rw [hl]
     simp +decide only [Option.bind_eq_bind, Option.some_bind, Option.pure_def, ↓reduceIte,
       zero_page, zero_page_x, zero_page_y, absolute, absolute_x, absolute_y, indirect_x,
       indirect_y, load_address, h1, hf, hload]
     exact ⟨_, rfl⟩)

theorem and__operand_falls_through {inst : Ptr} {s : CPU} {opc : Nat}
    (hl : s.load inst = some opc)
    (hk : opc ∉ [0x29, 0x25, 0x35, 0x2D, 0x3D, 0x39, 0x21, 0x31]) :
    and__operand inst s = none := by
  simp only [List.mem_cons, List.mem_singleton, List.not_mem_nil, or_false, not_or] at hk
  obtain ⟨k0, k1, k2, k3, k4, k5, k6, k7⟩ := hk
  unfold and__operand
  rw [hl, Option.bind_eq_bind, Option.some_bind,
    if_neg k0, if_neg k1, if_neg k2, if_neg k3, if_neg k4, if_neg k5, if_neg k6, if_neg k7]

theorem asl_operand_defined {inst : Ptr} {s : CPU} {opc b1 b2 : Nat}
    (hpages : 1 ≤ s.header4) (hl : s.load inst = some opc)
    (h1 : s.load (inst.offset 1) = some b1) (h2 : s.load (inst.offset 2) = some b2)
    (hk : opc ∈ [0x0A, 0x06, 0x16, 0x0E, 0x1E]) :
    ∃ r, asl_operand inst s = some r := by
  have hf := fix_endian_inst s inst b1 b2 h1 h2
  have hload := load_access_mem s hpages
  simp only [List.mem_cons, List.mem_singleton, List.not_mem_nil, or_false] at hk
  rcases hk with rfl | rfl | rfl | rfl | rfl <;>
    (unfold asl_operand; rw [hl]
     simp +decide only [Option.bind_eq_bind, Option.some_bind, Option.pure_def, ↓reduceIte,
       zero_page, zero_page_x, zero_page_y, absolute, absolute_x, absolute_y, indirect_x,
       indirect_y, load_address, h1, hf, hload]
     exact ⟨_, rfl⟩)

theorem asl_operand_falls_through {inst : Ptr} {s : CPU} {opc : Nat}
    (hl : s.load inst = some opc)
    (hk : opc ∉ [0x0A, 0x06, 0x16, 0x0E, 0x1E]) :
    asl_operand inst s = none := by
  simp only [List.mem_cons, List.mem_singleton, List.not_mem_nil, or_false, not_or] at hk
  obtain ⟨k0, k1, k2, k3, k4⟩ := hk
  unfold asl_operand
  rw [hl, Option.bind_eq_bind, Option.some_bind,
    if_neg k0, if_neg k1, if_neg k2, if_neg k3, if_neg k4]

theorem bit_operand_defined {inst : Ptr} {s : CPU} {opc b1 b2 : Nat}
    (hpages : 1 ≤ s.header4) (hl : s.load inst = some opc)
    (h1 : s.load (inst.offset 1) = some b1) (h2 : s.load (inst.offset 2) = some b2)
    (hk : opc ∈ [0x24, 0x2C]) :
    ∃ r, bit_operand inst s = some r := by
  have hf := fix_endian_inst s inst b1 b2 h1 h2
  have hload := load_access_mem s hpages
  simp only [List.mem_cons, List.mem_singleton, List.not_mem_nil, or_false] at hk
  rcases hk with rfl | rfl <;>
    (unfold bit_operand; rw [hl]
     simp +decide only [Option.bind_eq_bind, Option.some_bind, Option.pure_def, ↓reduceIte,
       zero_page, zero_page_x, zero_page_y, absolute, absolute_x, absolute_y, indirect_x,
       indirect_y, load_address, h1, hf, hload]
     exact ⟨_, rfl⟩)

theorem bit_operand_falls_through {inst : Ptr} {s : CPU} {opc : Nat}
    (hl : s.load inst = some opc)
    (hk : opc ∉ [0x24, 0x2C]) :
    bit_operand inst s = none := by
  simp only [List.mem_cons, List.mem_singleton, List.not_mem_nil, or_false, not_or] at hk
  obtain ⟨k0, k1⟩ := hk
  unfold bit_operand
  rw [hl, Option.bind_eq_bind, Option.some_bind, if_neg k0, if_neg k1]

theorem cmp_operand_defined {inst : Ptr} {s : CPU} {opc b1 b2 : Nat}
    (hpages : 1 ≤ s.header4) (hl : s.load inst = some opc)
    (h1 : s.load (inst.offset 1) = some b1) (h2 : s.load (inst.offset 2) = some b2)
    (hk : opc ∈ [0xC9, 0xC5, 0xD5, 0xCD, 0xDD, 0xD9, 0xC1, 0xD1]) :
    ∃ r, cmp_operand inst s = some r := by
  have hf := fix_endian_inst s inst b1 b2 h1 h2
  have hload := load_access_mem s hpages
  simp only [List.mem_cons, List.mem_singleton, List.not_mem_nil, or_false] at hk
  rcases hk with rfl | rfl | rfl | rfl | rfl | rfl | rfl | rfl <;>
    (unfold cmp_operand; rw [hl]
     simp +decide only [Option.bind_eq_bind, Option.some_bind, Option.pure_def, ↓reduceIte,
       zero_page, zero_page_x, zero_page_y, absolute, absolute_x, absolute_y, indirect_x,
       indirect_y, load_address, h1, hf, hload]
     exact ⟨_, rfl⟩)

theorem cmp_operand_falls_through {inst : Ptr} {s : CPU} {opc : Nat}
    (hl : s.load inst = some opc)
    (hk : opc ∉ [0xC9, 0xC5, 0xD5, 0xCD, 0xDD, 0xD9, 0xC1, 0xD1]) :
    cmp_operand inst s = none := by
  simp only [List.mem_cons, List.mem_singleton, List.not_mem_nil, or_false, not_or] at hk
  obtain ⟨k0, k1, k2, k3, k4, k5, k6, k7⟩ := hk
  unfold cmp_operand
  rw [hl, Option.bind_eq_bind, Option.some_bind,
    if_neg k0, if_neg k1, if_neg k2, if_neg k3, if_neg k4, if_neg k5, if_neg k6, if_neg k7]

theorem cpx_operand_defined {inst : Ptr} {s : CPU} {opc b1 b2 : Nat}
    (hpages : 1 ≤ s.header4) (hl : s.load inst = some opc)
    (h1 : s.load (inst.offset 1) = some b1) (h2 : s.load (inst.offset 2) = some b2)
    (hk : opc ∈ [0xE0, 0xE4, 0xEC]) :
    ∃ r, cpx_operand inst s = some r := by
  have hf := fix_endian_inst s inst b1 b2 h1 h2
  have hload := load_access_mem s hpages
  simp only [List.mem_cons, List.mem_singleton, List.not_mem_nil, or_false] at hk
  rcases hk with rfl | rfl | rfl <;>
    (unfold cpx_operand; rw [hl]
     simp +decide only [Option.bind_eq_bind, Option.some_bind, Option.pure_def, ↓reduceIte,
       zero_page, zero_page_x, zero_page_y, absolute, absolute_x, absolute_y, indirect_x,
       indirect_y, load_address, h1, hf, hload]
     exact ⟨_, rfl⟩)

theorem cpx_operand_falls_through {inst : Ptr} {s : CPU} {opc : Nat}
    (hl : s.load inst = some opc)
    (hk : opc ∉ [0xE0, 0xE4, 0xEC]) :
    cpx_operand inst s = none := by
  simp only [List.mem_cons, List.mem_singleton, List.not_mem_nil, or_false, not_or] at hk
  obtain ⟨k0, k1, k2⟩ := hk
  unfold cpx_operand
  rw [hl, Option.bind_eq_bind, Option.some_bind, if_neg k0, if_neg k1, if_neg k2]

theorem cpy_operand_defined {inst : Ptr} {s : CPU} {opc b1 b2 : Nat}
    (hpages : 1 ≤ s.header4) (hl : s.load inst = some opc)
    (h1 : s.load (inst.offset 1) = some b1) (h2 : s.load (inst.offset 2) = some b2)
    (hk : opc ∈ [0xC0, 0xC4, 0xCC]) :
    ∃ r, cpy_operand inst s = some r := by
  have hf := fix_endian_inst s inst b1 b2 h1 h2
  have hload := load_access_mem s hpages
  simp only [List.mem_cons, List.mem_singleton, List.not_mem_nil, or_false] at hk
  rcases hk with rfl | rfl | rfl <;>
    (unfold cpy_operand; rw [hl]
     simp +decide only [Option.bind_eq_bind, Option.some_bind, Option.pure_def, ↓reduceIte,
       zero_page, zero_page_x, zero_page_y, absolute, absolute_x, absolute_y, indirect_x,
       indirect_y, load_address, h1, hf, hload]
     exact ⟨_, rfl⟩)

theorem cpy_operand_falls_through {inst : Ptr} {s : CPU} {opc : Nat}
    (hl : s.load inst = some opc)
    (hk : opc ∉ [0xC0, 0xC4, 0xCC]) :
    cpy_operand inst s = none := by
  simp only [List.mem_cons, List.mem_singleton, List.not_mem_nil, or_false, not_or] at hk
  obtain ⟨k0, k1, k2⟩ := hk
  unfold cpy_operand
  rw [hl, Option.bind_eq_bind, Option.some_bind, if_neg k0, if_neg k1, if_neg k2]

theorem dec_operand_defined {inst : Ptr} {s : CPU} {opc b1 b2 : Nat}
    (hpages : 1 ≤ s.header4) (hl : s.load inst = some opc)
    (h1 : s.load (inst.offset 1) = some b1) (h2 : s.load (inst.offset 2) = some b2)
    (hk : opc ∈ [0xC6, 0xD6, 0xCE, 0xDE]) :
    ∃ r, dec_operand inst s = some r := by
  have hf := fix_endian_inst s inst b1 b2 h1 h2
  have hload := load_access_mem s hpages
  simp only [List.mem_cons, List.mem_singleton, List.not_mem_nil, or_false] at hk
  rcases hk with rfl | rfl | rfl | rfl <;>
    (unfold dec_operand; rw [hl]
     simp +decide only [Option.bind_eq_bind, Option.some_bind, Option.pure_def, ↓reduceIte,
       zero_page, zero_page_x, zero_page_y, absolute, absolute_x, absolute_y, indirect_x,
       indirect_y, load_address, h1, hf, hload]
     exact ⟨_, rfl⟩)

theorem dec_operand_falls_through {inst : Ptr} {s : CPU} {opc : Nat}
    (hl : s.load inst = some opc)
    (hk : opc ∉ [0xC6, 0xD6, 0xCE, 0xDE]) :
    dec_operand inst s = none := by
  simp only [List.mem_cons, List.mem_singleton, List.not_mem_nil, or_false, not_or] at hk
  obtain ⟨k0, k1, k2, k3⟩ := hk
  unfold dec_operand
  rw [hl, Option.bind_eq_bind, Option.some_bind, if_neg k0, if_neg k1, if_neg k2, if_neg k3]

theorem eor_operand_defined {inst : Ptr} {s : CPU} {opc b1 b2 : Nat}
    (hpages : 1 ≤ s.header4) (hl : s.load inst = some opc)
    (h1 : s.load (inst.offset 1) = some b1) (h2 : s.load (inst.offset 2) = some b2)
    (hk : opc ∈ [0x49, 0x45, 0x55, 0x4D, 0x5D, 0x59, 0x41, 0x51]) :
    ∃ r, eor_operand inst s = some r := by
  have hf := fix_endian_inst s inst b1 b2 h1 h2
  have hload := load_access_mem s hpages
  simp only [List.mem_cons, List.mem_singleton, List.not_mem_nil, or_false] at hk
  rcases hk with rfl | rfl | rfl | rfl | rfl | rfl | rfl | rfl <;>
    (unfold eor_operand; rw [hl]
     simp +decide only [Option.bind_eq_bind, Option.some_bind, Option.pure_def, ↓reduceIte,
       zero_page, zero_page_x, zero_page_y, absolute, absolute_x, absolute_y, indirect_x,
       indirect_y, load_address, h1, hf, hload]
     exact ⟨_, rfl⟩)

theorem eor_operand_falls_through {inst : Ptr} {s : CPU} {opc : Nat}
    (hl : s.load inst = some opc)
    (hk : opc ∉ [0x49, 0x45, 0x55, 0x4D, 0x5D, 0x59, 0x41, 0x51]) :
    eor_operand inst s = none := by
  simp only [List.mem_cons, List.mem_singleton, List.not_mem_nil, or_false, not_or] at hk
  obtain ⟨k0, k1, k2, k3, k4, k5, k6, k7⟩ := hk
  unfold eor_operand
  rw [hl, Option.bind_eq_bind, Option.some_bind,
    if_neg k0, if_neg k1, if_neg k2, if_neg k3, if_neg k4, if_neg k5, if_neg k6, if_neg k7]

theorem inc_operand_defined {inst : Ptr} {s : CPU} {opc b1 b2 : Nat}
    (hpages : 1 ≤ s.header4) (hl : s.load inst = some opc)
    (h1 : s.load (inst.offset 1) = some b1) (h2 : s.load (inst.offset 2) = some b2)
    (hk : opc ∈ [0xE6, 0xF6, 0xEE, 0xFE]) :
    ∃ r, inc_operand inst s = some r := by
  have hf := fix_endian_inst s inst b1 b2 h1 h2
  have hload := load_access_mem s hpages
  simp only [List.mem_cons, List.mem_singleton, List.not_mem_nil, or_false] at hk
  rcases hk with rfl | rfl | rfl | rfl <;>
    (unfold inc_operand; rw [hl]
     simp +decide only [Option.bind_eq_bind, Option.some_bind, Option.pure_def, ↓reduceIte,
       zero_page, zero_page_x, zero_page_y, absolute, absolute_x, absolute_y, indirect_x,
       indirect_y, load_address, h1, hf, hload]
     exact ⟨_, rfl⟩)

theorem inc_operand_falls_through {inst : Ptr} {s : CPU} {opc : Nat}
    (hl : s.load inst = some opc)
    (hk : opc ∉ [0xE6, 0xF6, 0xEE, 0xFE]) :
    inc_operand inst s = none := by
  simp only [List.mem_cons, List.mem_singleton, List.not_mem_nil, or_false, not_or] at hk
  obtain ⟨k0, k1, k2, k3⟩ := hk
  unfold inc_operand
  rw [hl, Option.bind_eq_bind, Option.some_bind, if_neg k0, if_neg k1, if_neg k2, if_neg k3]

theorem lda_operand_defined {inst : Ptr} {s : CPU} {opc b1 b2 : Nat}
    (hpages : 1 ≤ s.header4) (hl : s.load inst = some opc)
    (h1 : s.load (inst.offset 1) = some b1) (h2 : s.load (inst.offset 2) = some b2)
    (hk : opc ∈ [0xA9, 0xA5, 0xB5, 0xAD, 0xBD, 0xB9, 0xA1, 0xB1]) :
    ∃ r, lda_operand inst s = some r := by
  have hf := fix_endian_inst s inst b1 b2 h1 h2
  have hload := load_access_mem s hpages
  simp only [List.mem_cons, List.mem_singleton, List.not_mem_nil, or_false] at hk
  rcases hk with rfl | rfl | rfl | rfl | rfl | rfl | rfl | rfl <;>
    (unfold lda_operand; rw [hl]
     simp +decide only [Option.bind_eq_bind, Option.some_bind, Option.pure_def, ↓reduceIte,
       zero_page, zero_page_x, zero_page_y, absolute, absolute_x, absolute_y, indirect_x,
       indirect_y, load_address, h1, hf, hload]
     exact ⟨_, rfl⟩)

theorem lda_operand_falls_through {inst : Ptr} {s : CPU} {opc : Nat}
    (hl : s.load inst = some opc)
    (hk : opc ∉ [0xA9, 0xA5, 0xB5, 0xAD, 0xBD, 0xB9, 0xA1, 0xB1]) :
    lda_operand inst s = none := by
  simp only [List.mem_cons, List.mem_singleton, List.not_mem_nil, or_false, not_or] at hk
  obtain ⟨k0, k1, k2, k3, k4, k5, k6, k7⟩ := hk
  unfold lda_operand
  rw [hl, Option.bind_eq_bind, Option.some_bind,
    if_neg k0, if_neg k1, if_neg k2, if_neg k3, if_neg k4, if_neg k5, if_neg k6, if_neg k7]

theorem ldx_operand_defined {inst : Ptr} {s : CPU} {opc b1 b2 : Nat}
    (hpages : 1 ≤ s.header4) (hl : s.load inst = some opc)
    (h1 : s.load (inst.offset 1) = some b1) (h2 : s.load (inst.offset 2) = some b2)
    (hk : opc ∈ [0xA2, 0xA6, 0xB6, 0xAE, 0xBE]) :
    ∃ r, ldx_operand inst s = some r := by
  have hf := fix_endian_inst s inst b1 b2 h1 h2
  have hload := load_access_mem s hpages
  simp only [List.mem_cons, List.mem_singleton, List.not_mem_nil, or_false] at hk
  rcases hk with rfl | rfl | rfl | rfl | rfl <;>
    (unfold ldx_operand; rw [hl]
     simp +decide only [Option.bind_eq_bind, Option.some_bind, Option.pure_def, ↓reduceIte,
       zero_page, zero_page_x, zero_page_y, absolute, absolute_x, absolute_y, indirect_x,
       indirect_y, load_address, h1, hf, hload]
     exact ⟨_, rfl⟩)

theorem ldx_operand_falls_through {inst : Ptr} {s : CPU} {opc : Nat}
    (hl : s.load inst = some opc)
    (hk : opc ∉ [0xA2, 0xA6, 0xB6, 0xAE, 0xBE]) :
    ldx_operand inst s = none := by
  simp only [List.mem_cons, List.mem_singleton, List.not_mem_nil, or_false, not_or] at hk
  obtain ⟨k0, k1, k2, k3, k4⟩ := hk
  unfold ldx_operand
  rw [hl, Option.bind_eq_bind, Option.some_bind,
    if_neg k0, if_neg k1, if_neg k2, if_neg k3, if_neg k4]

theorem ldy_operand_defined {inst : Ptr} {s : CPU} {opc b1 b2 : Nat}
    (hpages : 1 ≤ s.header4) (hl : s.load inst = some opc)
    (h1 : s.load (inst.offset 1) = some b1) (h2 : s.load (inst.offset 2) = some b2)
    (hk : opc ∈ [0xA0, 0xA4, 0xB4, 0xAC, 0xBC]) :
    ∃ r, ldy_operand inst s = some r := by
  have hf := fix_endian_inst s inst b1 b2 h1 h2
  have hload := load_access_mem s hpages
  simp only [List.mem_cons, List.mem_singleton, List.not_mem_nil, or_false] at hk
  rcases hk with rfl | rfl | rfl | rfl | rfl <;>
    (unfold ldy_operand; rw [hl]
     simp +decide only [Option.bind_eq_bind, Option.some_bind, Option.pure_def, ↓reduceIte,
       zero_page, zero_page_x, zero_page_y, absolute, absolute_x, absolute_y, indirect_x,
       indirect_y, load_address, h1, hf, hload]
     exact ⟨_, rfl⟩)

theorem ldy_operand_falls_through {inst : Ptr} {s : CPU} {opc : Nat}
    (hl : s.load inst = some opc)
    (hk : opc ∉ [0xA0, 0xA4, 0xB4, 0xAC, 0xBC]) :
    ldy_operand inst s = none := by
  simp only [List.mem_cons, List.mem_singleton, List.not_mem_nil, or_false, not_or] at hk
  obtain ⟨k0, k1, k2, k3, k4⟩ := hk
  unfold ldy_operand
  rw [hl, Option.bind_eq_bind, Option.some_bind,
    if_neg k0, if_neg k1, if_neg k2, if_neg k3, if_neg k4]

theorem lsr_operand_defined {inst : Ptr} {s : CPU} {opc b1 b2 : Nat}
    (hpages : 1 ≤ s.header4) (hl : s.load inst = some opc)
    (h1 : s.load (inst.offset 1) = some b1) (h2 : s.load (inst.offset 2) = some b2)
    (hk : opc ∈ [0x4A, 0x46, 0x56, 0x4E, 0x5E]) :
    ∃ r, lsr_operand inst s = some r := by
  have hf := fix_endian_inst s inst b1 b2 h1 h2
  have hload := load_access_mem s hpages
  simp only [List.mem_cons, List.mem_singleton, List.not_mem_nil, or_false] at hk
  rcases hk with rfl | rfl | rfl | rfl | rfl <;>
    (unfold lsr_operand; rw [hl]
     simp +decide only [Option.bind_eq_bind, Option.some_bind, Option.pure_def, ↓reduceIte,
       zero_page, zero_page_x, zero_page_y, absolute, absolute_x, absolute_y, indirect_x,
       indirect_y, load_address, h1, hf, hload]
     exact ⟨_, rfl⟩)

theorem lsr_operand_falls_through {inst : Ptr} {s : CPU} {opc : Nat}
    (hl : s.load inst = some opc)
    (hk : opc ∉ [0x4A, 0x46, 0x56, 0x4E, 0x5E]) :
    lsr_operand inst s = none := by
  simp only [List.mem_cons, List.mem_singleton, List.not_mem_nil, or_false, not_or] at hk
  obtain ⟨k0, k1, k2, k3, k4⟩ := hk
  unfold lsr_operand
  rw [hl, Option.bind_eq_bind, Option.some_bind,
    if_neg k0, if_neg k1, if_neg k2, if_neg k3, if_neg k4]

theorem ora_operand_defined {inst : Ptr} {s : CPU} {opc b1 b2 : Nat}
    (hpages : 1 ≤ s.header4) (hl : s.load inst = some opc)
    (h1 : s.load (inst.offset 1) = some b1) (h2 : s.load (inst.offset 2) = some b2)
    (hk : opc ∈ [0x09, 0x05, 0x15, 0x0D, 0x1D, 0x19, 0x01, 0x11]) :
    ∃ r, ora_operand inst s = some r := by
  have hf := fix_endian_inst s inst b1 b2 h1 h2
  have hload := load_access_mem s hpages
  simp only [List.mem_cons, List.mem_singleton, List.not_mem_nil, or_false] at hk
  rcases hk with rfl | rfl | rfl | rfl | rfl | rfl | rfl | rfl <;>
    (unfold ora_operand; rw [hl]
     simp +decide only [Option.bind_eq_bind, Option.some_bind, Option.pure_def, ↓reduceIte,
       zero_page, zero_page_x, zero_page_y, absolute, absolute_x, absolute_y, indirect_x,
       indirect_y, load_address, h1, hf, hload]
     exact ⟨_, rfl⟩)

theorem ora_operand_falls_through {inst : Ptr} {s : CPU} {opc : Nat}
    (hl : s.load inst = some opc)
    (hk : opc ∉ [0x09, 0x05, 0x15, 0x0D, 0x1D, 0x19, 0x01, 0x11]) :
    ora_operand inst s = none := by
  simp only [List.mem_cons, List.mem_singleton, List.not_mem_nil, or_false, not_or] at hk
  obtain ⟨k0, k1, k2, k3, k4, k5, k6, k7⟩ := hk
  unfold ora_operand
  rw [hl, Option.bind_eq_bind, Option.some_bind,
    if_neg k0, if_neg k1, if_neg k2, if_neg k3, if_neg k4, if_neg k5, if_neg k6, if_neg k7]

theorem rol_operand_defined {inst : Ptr} {s : CPU} {opc b1 b2 : Nat}
    (hpages : 1 ≤ s.header4) (hl : s.load inst = some opc)
    (h1 : s.load (inst.offset 1) = some b1) (h2 : s.load (inst.offset 2) = some b2)
    (hk : opc ∈ [0x2A, 0x26, 0x36, 0x2E, 0x3E]) :
    ∃ r, rol_operand inst s = some r := by
  have hf := fix_endian_inst s inst b1 b2 h1 h2
  have hload := load_access_mem s hpages
  simp only [List.mem_cons, List.mem_singleton, List.not_mem_nil, or_false] at hk
  rcases hk with rfl | rfl | rfl | rfl | rfl <;>
    (unfold rol_operand; rw [hl]
     simp +decide only [Option.bind_eq_bind, Option.some_bind, Option.pure_def, ↓reduceIte,
       zero_page, zero_page_x, zero_page_y, absolute, absolute_x, absolute_y, indirect_x,
       indirect_y, load_address, h1, hf, hload]
     exact ⟨_, rfl⟩)

theorem rol_operand_falls_through {inst : Ptr} {s : CPU} {opc : Nat}
    (hl : s.load inst = some opc)
    (hk : opc ∉ [0x2A, 0x26, 0x36, 0x2E, 0x3E]) :
    rol_operand inst s = none := by
  simp only [List.mem_cons, List.mem_singleton, List.not_mem_nil, or_false, not_or] at hk
  obtain ⟨k0, k1, k2, k3, k4⟩ := hk
  unfold rol_operand
  rw [hl, Option.bind_eq_bind, Option.some_bind,
    if_neg k0, if_neg k1, if_neg k2, if_neg k3, if_neg k4]

theorem ror_operand_defined {inst : Ptr} {s : CPU} {opc b1 b2 : Nat}
    (hpages : 1 ≤ s.header4) (hl : s.load inst = some opc)
    (h1 : s.load (inst.offset 1) = some b1) (h2 : s.load (inst.offset 2) = some b2)
    (hk : opc ∈ [0x6A, 0x66, 0x76, 0x6E, 0x7E]) :
    ∃ r, ror_operand inst s = some r := by
  have hf := fix_endian_inst s inst b1 b2 h1 h2
  have hload := load_access_mem s hpages
  simp only [List.mem_cons, List.mem_singleton, List.not_mem_nil, or_false] at hk
  rcases hk with rfl | rfl | rfl | rfl | rfl <;>
    (unfold ror_operand; rw [hl]
     simp +decide only [Option.bind_eq_bind, Option.some_bind, Option.pure_def, ↓reduceIte,
       zero_page, zero_page_x, zero_page_y, absolute, absolute_x, absolute_y, indirect_x,
       indirect_y, load_address, h1, hf, hload]
     exact ⟨_, rfl⟩)

theorem ror_operand_falls_through {inst : Ptr} {s : CPU} {opc : Nat}
    (hl : s.load inst = some opc)
    (hk : opc ∉ [0x6A, 0x66, 0x76, 0x6E, 0x7E]) :
    ror_operand inst s = none := by
  simp only [List.mem_cons, List.mem_singleton, List.not_mem_nil, or_false, not_or] at hk
  obtain ⟨k0, k1, k2, k3, k4⟩ := hk
  unfold ror_operand
  rw [hl, Option.bind_eq_bind, Option.some_bind,
    if_neg k0, if_neg k1, if_neg k2, if_neg k3, if_neg k4]

theorem sbc_operand_defined {inst : Ptr} {s : CPU} {opc b1 b2 : Nat}
    (hpages : 1 ≤ s.header4) (hl : s.load inst = some opc)
    (h1 : s.load (inst.offset 1) = some b1) (h2 : s.load (inst.offset 2) = some b2)
    (hk : opc ∈ [0xE9, 0xE5, 0xF5, 0xED, 0xFD, 0xF9, 0xE1, 0xF1]) :
    ∃ r, sbc_operand inst s = some r := by
  have hf := fix_endian_inst s inst b1 b2 h1 h2
  have hload := load_access_mem s hpages
  simp only [List.mem_cons, List.mem_singleton, List.not_mem_nil, or_false] at hk
  rcases hk with rfl | rfl | rfl | rfl | rfl | rfl | rfl | rfl <;>
    (unfold sbc_operand; rw [hl]
     simp +decide only [Option.bind_eq_bind, Option.some_bind, Option.pure_def, ↓reduceIte,
       zero_page, zero_page_x, zero_page_y, absolute, absolute_x, absolute_y, indirect_x,
       indirect_y, load_address, h1, hf, hload]
     exact ⟨_, rfl⟩)

theorem sbc_operand_falls_through {inst : Ptr} {s : CPU} {opc : Nat}
    (hl : s.load inst = some opc)
    (hk : opc ∉ [0xE9, 0xE5, 0xF5, 0xED, 0xFD, 0xF9, 0xE1, 0xF1]) :
    sbc_operand inst s = none := by
  simp only [List.mem_cons, List.mem_singleton, List.not_mem_nil, or_false, not_or] at hk
  obtain ⟨k0, k1, k2, k3, k4, k5, k6, k7⟩ := hk
  unfold sbc_operand
  rw [hl, Option.bind_eq_bind, Option.some_bind,
    if_neg k0, if_neg k1, if_neg k2, if_neg k3, if_neg k4, if_neg k5, if_neg k6, if_neg k7]

theorem sta_operand_defined {inst : Ptr} {s : CPU} {opc b1 b2 : Nat}
    (hpages : 1 ≤ s.header4) (hl : s.load inst = some opc)
    (h1 : s.load (inst.offset 1) = some b1) (h2 : s.load (inst.offset 2) = some b2)
    (hk : opc ∈ [0x85, 0x95, 0x8D, 0x9D, 0x99, 0x81, 0x91]) :
    ∃ r, sta_operand inst s = some r := by
  have hf := fix_endian_inst s inst b1 b2 h1 h2
  have hload := load_access_mem s hpages
  simp only [List.mem_cons, List.mem_singleton, List.not_mem_nil, or_false] at hk
  rcases hk with rfl | rfl | rfl | rfl | rfl | rfl | rfl <;>
    (unfold sta_operand; rw [hl]
     simp +decide only [Option.bind_eq_bind, Option.some_bind, Option.pure_def, ↓reduceIte,
       zero_page, zero_page_x, zero_page_y, absolute, absolute_x, absolute_y, indirect_x,
       indirect_y, load_address, h1, hf, hload]
     exact ⟨_, rfl⟩)

theorem sta_operand_falls_through {inst : Ptr} {s : CPU} {opc : Nat}
    (hl : s.load inst = some opc)
    (hk : opc ∉ [0x85, 0x95, 0x8D, 0x9D, 0x99, 0x81, 0x91]) :
    sta_operand inst s = none := by
  simp only [List.mem_cons, List.mem_singleton, List.not_mem_nil, or_false, not_or] at hk
  obtain ⟨k0, k1, k2, k3, k4, k5, k6⟩ := hk
  unfold sta_operand
  rw [hl, Option.bind_eq_bind, Option.some_bind,
    if_neg k0, if_neg k1, if_neg k2, if_neg k3, if_neg k4, if_neg k5, if_neg k6]

theorem stx_operand_defined {inst : Ptr} {s : CPU} {opc b1 b2 : Nat}
    (hpages : 1 ≤ s.header4) (hl : s.load inst = some opc)
    (h1 : s.load (inst.offset 1) = some b1) (h2 : s.load (inst.offset 2) = some b2)
    (hk : opc ∈ [0x86, 0x96, 0x8E]) :
    ∃ r, stx_operand inst s = some r := by
  have hf := fix_endian_inst s inst b1 b2 h1 h2
  have hload := load_access_mem s hpages
  simp only [List.mem_cons, List.mem_singleton, List.not_mem_nil, or_false] at hk
  rcases hk with rfl | rfl | rfl <;>
    (unfold stx_operand; rw [hl]
     simp +decide only [Option.bind_eq_bind, Option.some_bind, Option.pure_def, ↓reduceIte,
       zero_page, zero_page_x, zero_page_y, absolute, absolute_x, absolute_y, indirect_x,
       indirect_y, load_address, h1, hf, hload]
     exact ⟨_, rfl⟩)

theorem stx_operand_falls_through {inst : Ptr} {s : CPU} {opc : Nat}
    (hl : s.load inst = some opc)
    (hk : opc ∉ [0x86, 0x96, 0x8E]) :
    stx_operand inst s = none := by
  simp only [List.mem_cons, List.mem_singleton, List.not_mem_nil, or_false, not_or] at hk
  obtain ⟨k0, k1, k2⟩ := hk
  unfold stx_operand
  rw [hl, Option.bind_eq_bind, Option.some_bind, if_neg k0, if_neg k1, if_neg k2]

theorem sty_operand_defined {inst : Ptr} {s : CPU} {opc b1 b2 : Nat}
    (hpages : 1 ≤ s.header4) (hl : s.load inst = some opc)
    (h1 : s.load (inst.offset 1) = some b1) (h2 : s.load (inst.offset 2) = some b2)
    (hk : opc ∈ [0x84, 0x94, 0x8C]) :
    ∃ r, sty_operand inst s = some r := by
  have hf := fix_endian_inst s inst b1 b2 h1 h2
  have hload := load_access_mem s hpages
  simp only [List.mem_cons, List.mem_singleton, List.not_mem_nil, or_false] at hk
  rcases hk with rfl | rfl | rfl <;>
    (unfold sty_operand; rw [hl]
     simp +decide only [Option.bind_eq_bind, Option.some_bind, Option.pure_def, ↓reduceIte,
       zero_page, zero_page_x, zero_page_y, absolute, absolute_x, absolute_y, indirect_x,
       indirect_y, load_address, h1, hf, hload]
     exact ⟨_, rfl⟩)

theorem sty_operand_falls_through {inst : Ptr} {s : CPU} {opc : Nat}
    (hl : s.load inst = some opc)
    (hk : opc ∉ [0x84, 0x94, 0x8C]) :
    sty_operand inst s = none := by
  simp only [List.mem_cons, List.mem_singleton, List.not_mem_nil, or_false, not_or] at hk
  obtain ⟨k0, k1, k2⟩ := hk
  unfold sty_operand
  rw [hl, Option.bind_eq_bind, Option.some_bind, if_neg k0, if_neg k1, if_neg k2]

theorem jmp_case {inst : Ptr} {s : CPU} {opc b1 b2 : Nat}
    (hpages : 1 ≤ s.header4) (hl : s.load inst = some opc)
    (h1 : s.load (inst.offset 1) = some b1) (h2 : s.load (inst.offset 2) = some b2)
    (hk : opc ∈ [0x4C, 0x6C]) :
    ∃ t, jmp inst s = some ({ s with pc := t }, ⟨"JMP", 3⟩) ∧
      (opc = 0x4C ∧ fix_endian s (inst.offset 1) = some t ∨
       opc = 0x6C ∧ (fix_endian s (inst.offset 1)).bind (load_address s) = some t) := by
  have hf := fix_endian_inst s inst b1 b2 h1 h2
  have hload := load_access_mem s hpages
  simp only [List.mem_cons, List.mem_singleton, List.not_mem_nil, or_false] at hk
  rcases hk with rfl | rfl
  · refine ⟨((b2 <<< 8) + b1) % 65536, ?_, Or.inl ⟨rfl, hf⟩⟩
    unfold jmp
    rw [hl]
    simp +decide only [Option.bind_eq_bind, Option.some_bind, Option.pure_def, ↓reduceIte, hf]
  · have hla : ∃ t, load_address s (((b2 <<< 8) + b1) % 65536) = some t := by
      unfold load_address
      simp only [Option.bind_eq_bind, Option.some_bind, Option.pure_def, hload]
      exact ⟨_, rfl⟩
    obtain ⟨t, ht⟩ := hla
    refine ⟨t, ?_, Or.inr ⟨rfl, by rw [hf, Option.some_bind, ht]⟩⟩
    unfold jmp
    rw [hl]
    simp +decide only [Option.bind_eq_bind, Option.some_bind, Option.pure_def, ↓reduceIte, hf, ht]

theorem jmp_falls_through {inst : Ptr} {s : CPU} {opc : Nat} (hl : s.load inst = some opc)
    (hk : opc ∉ [0x4C, 0x6C]) : jmp inst s = some (s, ⟨"JMP", 3⟩) := by
  simp only [List.mem_cons, List.mem_singleton, List.not_mem_nil, or_false, not_or] at hk
  obtain ⟨k0, k1⟩ := hk
  unfold jmp
  rw [hl, Option.bind_eq_bind, Option.some_bind, if_neg k0, if_neg k1]
  rfl

theorem ill_nop_case {inst : Ptr} {s : CPU} {opc : Nat} (hl : s.load inst = some opc)
    (hk : opc ∈ [0x1A, 0x3A, 0x5A, 0x7A, 0xDA, 0xFA, 0x80, 0x82, 0x89, 0xC2, 0xE2, 0x04, 0x44,
        0x64, 0x14, 0x34, 0x54, 0x74, 0xD4, 0xF4, 0x0C, 0x1C, 0x3C, 0x5C, 0x7C, 0xDC,
        0xFC]) :
    (opc ∈ [0x1A, 0x3A, 0x5A, 0x7A, 0xDA, 0xFA] ∧
      ill_nop inst s = some ({ s with pc := (s.pc + 1) % 65536 }, ⟨"NOP", 1⟩)) ∨
    (opc ∈ [0x80, 0x82, 0x89, 0xC2, 0xE2, 0x04, 0x44, 0x64, 0x14, 0x34, 0x54, 0x74, 0xD4,
        0xF4] ∧
      ill_nop inst s = some ({ s with pc := (s.pc + 2) % 65536 }, ⟨"NOP", 2⟩)) ∨
    (opc ∈ [0x0C, 0x1C, 0x3C, 0x5C, 0x7C, 0xDC, 0xFC] ∧
      ill_nop inst s = some ({ s with pc := (s.pc + 3) % 65536 }, ⟨"NOP", 3⟩)) := by
  simp only [List.mem_cons, List.mem_singleton, List.not_mem_nil, or_false] at hk
  rcases hk with rfl | rfl | rfl | rfl | rfl | rfl | rfl | rfl | rfl | rfl | rfl | rfl | rfl |
    rfl | rfl | rfl | rfl | rfl | rfl | rfl | rfl | rfl | rfl | rfl | rfl | rfl | rfl <;>
    (unfold ill_nop; rw [hl]
     simp +decide only [Option.bind_eq_bind, Option.some_bind, Option.pure_def, ↓reduceIte,
       List.mem_cons, List.mem_singleton, List.not_mem_nil, or_false, true_and, false_and,
       or_true, true_or, or_self])

/-- C31: for the instruction bytes `opc b1 b2` at `inst` (inside their array, with at
least one PRG page), every opcode that `exec_inst` routes to `adc`, `and_`, `asl`,
`bit`, `cmp`, `cpx`, `cpy`, `dec`, `eor`, `inc`, `lda`, `ldx`, `ldy`, `lsr`, `ora`, `rol`,
`ror`, `sbc`, `sta`, `stx` or `sty` is passed to that handler and selects a `case` of
its `switch`: the operand value or location is defined, and it is defined for no
other opcode byte. An opcode routed to `jmp` sets `PC` from the `case` for `$4C` or
`$6C`, and one routed to `ill_nop` is in one of the three `case` groups of its
`switch`. -/
theorem dispatch_handler_agree (s : CPU) (inst : Ptr) (opc b1 b2 : Nat)
    (hpages : 1 ≤ s.header4) (hl : s.load inst = some opc)
    (h1 : s.load (inst.offset 1) = some b1) (h2 : s.load (inst.offset 2) = some b2) :
    ((opc ∈ [0x69, 0x65, 0x75, 0x6D, 0x7D, 0x79, 0x61, 0x71] → exec_inst inst s = adc inst s) ∧
      (opc ∈ [0x69, 0x65, 0x75, 0x6D, 0x7D, 0x79, 0x61, 0x71] ↔ ∃ r, adc_operand inst s = some r)) ∧
    ((opc ∈ [0x29, 0x25, 0x35, 0x2D, 0x3D, 0x39, 0x21, 0x31] → exec_inst inst s = and_ inst s) ∧
      (opc ∈ [0x29, 0x25, 0x35, 0x2D, 0x3D, 0x39, 0x21, 0x31] ↔ ∃ r, and__operand inst s = some r)) ∧
    ((opc ∈ [0x0A, 0x06, 0x16, 0x0E, 0x1E] → exec_inst inst s = asl inst s) ∧
      (opc ∈ [0x0A, 0x06, 0x16, 0x0E, 0x1E] ↔ ∃ r, asl_operand inst s = some r)) ∧
    ((opc ∈ [0x24, 0x2C] → exec_inst inst s = bit inst s) ∧
      (opc ∈ [0x24, 0x2C] ↔ ∃ r, bit_operand inst s = some r)) ∧
    ((opc ∈ [0xC9, 0xC5, 0xD5, 0xCD, 0xDD, 0xD9, 0xC1, 0xD1] → exec_inst inst s = cmp inst s) ∧
      (opc ∈ [0xC9, 0xC5, 0xD5, 0xCD, 0xDD, 0xD9, 0xC1, 0xD1] ↔ ∃ r, cmp_operand inst s = some r)) ∧
    ((opc ∈ [0xE0, 0xE4, 0xEC] → exec_inst inst s = cpx inst s) ∧
      (opc ∈ [0xE0, 0xE4, 0xEC] ↔ ∃ r, cpx_operand inst s = some r)) ∧
    ((opc ∈ [0xC0, 0xC4, 0xCC] → exec_inst inst s = cpy inst s) ∧
      (opc ∈ [0xC0, 0xC4, 0xCC] ↔ ∃ r, cpy_operand inst s = some r)) ∧
    ((opc ∈ [0xC6, 0xD6, 0xCE, 0xDE] → exec_inst inst s = dec inst s) ∧
      (opc ∈ [0xC6, 0xD6, 0xCE, 0xDE] ↔ ∃ r, dec_operand inst s = some r)) ∧
    ((opc ∈ [0x49, 0x45, 0x55, 0x4D, 0x5D, 0x59, 0x41, 0x51] → exec_inst inst s = eor inst s) ∧
      (opc ∈ [0x49, 0x45, 0x55, 0x4D, 0x5D, 0x59, 0x41, 0x51] ↔ ∃ r, eor_operand inst s = some r)) ∧
    ((opc ∈ [0xE6, 0xF6, 0xEE, 0xFE] → exec_inst inst s = inc inst s) ∧
      (opc ∈ [0xE6, 0xF6, 0xEE, 0xFE] ↔ ∃ r, inc_operand inst s = some r)) ∧
    ((opc ∈ [0xA9, 0xA5, 0xB5, 0xAD, 0xBD, 0xB9, 0xA1, 0xB1] → exec_inst inst s = lda inst s) ∧
      (opc ∈ [0xA9, 0xA5, 0xB5, 0xAD, 0xBD, 0xB9, 0xA1, 0xB1] ↔ ∃ r, lda_operand inst s = some r)) ∧
    ((opc ∈ [0xA2, 0xA6, 0xB6, 0xAE, 0xBE] → exec_inst inst s = ldx inst s) ∧
      (opc ∈ [0xA2, 0xA6, 0xB6, 0xAE, 0xBE] ↔ ∃ r, ldx_operand inst s = some r)) ∧
    ((opc ∈ [0xA0, 0xA4, 0xB4, 0xAC, 0xBC] → exec_inst inst s = ldy inst s) ∧
      (opc ∈ [0xA0, 0xA4, 0xB4, 0xAC, 0xBC] ↔ ∃ r, ldy_operand inst s = some r)) ∧
    ((opc ∈ [0x4A, 0x46, 0x56, 0x4E, 0x5E] → exec_inst inst s = lsr inst s) ∧
      (opc ∈ [0x4A, 0x46, 0x56, 0x4E, 0x5E] ↔ ∃ r, lsr_operand inst s = some r)) ∧
    ((opc ∈ [0x09, 0x05, 0x15, 0x0D, 0x1D, 0x19, 0x01, 0x11] → exec_inst inst s = ora inst s) ∧
      (opc ∈ [0x09, 0x05, 0x15, 0x0D, 0x1D, 0x19, 0x01, 0x11] ↔ ∃ r, ora_operand inst s = some r)) ∧
    ((opc ∈ [0x2A, 0x26, 0x36, 0x2E, 0x3E] → exec_inst inst s = rol inst s) ∧
      (opc ∈ [0x2A, 0x26, 0x36, 0x2E, 0x3E] ↔ ∃ r, rol_operand inst s = some r)) ∧
    ((opc ∈ [0x6A, 0x66, 0x76, 0x6E, 0x7E] → exec_inst inst s = ror inst s) ∧
      (opc ∈ [0x6A, 0x66, 0x76, 0x6E, 0x7E] ↔ ∃ r, ror_operand inst s = some r)) ∧
    ((opc ∈ [0xE9, 0xE5, 0xF5, 0xED, 0xFD, 0xF9, 0xE1, 0xF1] → exec_inst inst s = sbc inst s) ∧
      (opc ∈ [0xE9, 0xE5, 0xF5, 0xED, 0xFD, 0xF9, 0xE1, 0xF1] ↔ ∃ r, sbc_operand inst s = some r)) ∧
    ((opc ∈ [0x85, 0x95, 0x8D, 0x9D, 0x99, 0x81, 0x91] → exec_inst inst s = sta inst s) ∧
      (opc ∈ [0x85, 0x95, 0x8D, 0x9D, 0x99, 0x81, 0x91] ↔ ∃ r, sta_operand inst s = some r)) ∧
    ((opc ∈ [0x86, 0x96, 0x8E] → exec_inst inst s = stx inst s) ∧
      (opc ∈ [0x86, 0x96, 0x8E] ↔ ∃ r, stx_operand inst s = some r)) ∧
    ((opc ∈ [0x84, 0x94, 0x8C] → exec_inst inst s = sty inst s) ∧
      (opc ∈ [0x84, 0x94, 0x8C] ↔ ∃ r, sty_operand inst s = some r)) ∧
    (opc ∈ [0x4C, 0x6C] → exec_inst inst s = jmp inst s ∧
      ∃ t, jmp inst s = some ({ s with pc := t }, ⟨"JMP", 3⟩) ∧
        (opc = 0x4C ∧ fix_endian s (inst.offset 1) = some t ∨
         opc = 0x6C ∧ (fix_endian s (inst.offset 1)).bind (load_address s) = some t)) ∧
    (opc ∈ [0x1A, 0x3A, 0x5A, 0x7A, 0xDA, 0xFA, 0x80, 0x82, 0x89, 0xC2, 0xE2, 0x04, 0x44,
        0x64, 0x14, 0x34, 0x54, 0x74, 0xD4, 0xF4, 0x0C, 0x1C, 0x3C, 0x5C, 0x7C, 0xDC,
        0xFC] →
      exec_inst inst s = ill_nop inst s ∧
      ((opc ∈ [0x1A, 0x3A, 0x5A, 0x7A, 0xDA, 0xFA] ∧
          ill_nop inst s = some ({ s with pc := (s.pc + 1) % 65536 }, ⟨"NOP", 1⟩)) ∨
       (opc ∈ [0x80, 0x82, 0x89, 0xC2, 0xE2, 0x04, 0x44, 0x64, 0x14, 0x34, 0x54, 0x74, 0xD4,
        0xF4] ∧
          ill_nop inst s = some ({ s with pc := (s.pc + 2) % 65536 }, ⟨"NOP", 2⟩)) ∨
       (opc ∈ [0x0C, 0x1C, 0x3C, 0x5C, 0x7C, 0xDC, 0xFC] ∧
          ill_nop inst s = some ({ s with pc := (s.pc + 3) % 65536 }, ⟨"NOP", 3⟩)))) := by
  have ft : ∀ {α : Type} {o : Option α} {P : Prop},
      (¬ P → o = none) → (∃ r, o = some r) → P :=
    fun hnone hsome => by
      by_contra hp
      obtain ⟨r, hr⟩ := hsome
      rw [hnone hp] at hr
      exact absurd hr (by simp)
  refine ⟨?_, ?_, ?_, ?_, ?_, ?_, ?_, ?_, ?_, ?_, ?_, ?_, ?_, ?_, ?_, ?_, ?_, ?_, ?_, ?_, ?_, ?_, ?_⟩
  · exact ⟨adc_routed hl, adc_operand_defined hpages hl h1 h2,
      ft (adc_operand_falls_through hl)⟩
  · exact ⟨and__routed hl, and__operand_defined hpages hl h1 h2,
      ft (and__operand_falls_through hl)⟩
  · exact ⟨asl_routed hl, asl_operand_defined hpages hl h1 h2,
      ft (asl_operand_falls_through hl)⟩
  · exact ⟨bit_routed hl, bit_operand_defined hpages hl h1 h2,
      ft (bit_operand_falls_through hl)⟩
  · exact ⟨cmp_routed hl, cmp_operand_defined hpages hl h1 h2,
      ft (cmp_operand_falls_through hl)⟩
  · exact ⟨cpx_routed hl, cpx_operand_defined hpages hl h1 h2,
      ft (cpx_operand_falls_through hl)⟩
  · exact ⟨cpy_routed hl, cpy_operand_defined hpages hl h1 h2,
      ft (cpy_operand_falls_through hl)⟩
  · exact ⟨dec_routed hl, dec_operand_defined hpages hl h1 h2,
      ft (dec_operand_falls_through hl)⟩
  · exact ⟨eor_routed hl, eor_operand_defined hpages hl h1 h2,
      ft (eor_operand_falls_through hl)⟩
  · exact ⟨inc_routed hl, inc_operand_defined hpages hl h1 h2,
      ft (inc_operand_falls_through hl)⟩
  · exact ⟨lda_routed hl, lda_operand_defined hpages hl h1 h2,
      ft (lda_operand_falls_through hl)⟩
  · exact ⟨ldx_routed hl, ldx_operand_defined hpages hl h1 h2,
      ft (ldx_operand_falls_through hl)⟩
  · exact ⟨ldy_routed hl, ldy_operand_defined hpages hl h1 h2,
      ft (ldy_operand_falls_through hl)⟩
  · exact ⟨lsr_routed hl, lsr_operand_defined hpages hl h1 h2,
      ft (lsr_operand_falls_through hl)⟩
  · exact ⟨ora_routed hl, ora_operand_defined hpages hl h1 h2,
      ft (ora_operand_falls_through hl)⟩
  · exact ⟨rol_routed hl, rol_operand_defined hpages hl h1 h2,
      ft (rol_operand_falls_through hl)⟩
  · exact ⟨ror_routed hl, ror_operand_defined hpages hl h1 h2,
      ft (ror_operand_falls_through hl)⟩
  · exact ⟨sbc_routed hl, sbc_operand_defined hpages hl h1 h2,
      ft (sbc_operand_falls_through hl)⟩
  · exact ⟨sta_routed hl, sta_operand_defined hpages hl h1 h2,
      ft (sta_operand_falls_through hl)⟩
  · exact ⟨stx_routed hl, stx_operand_defined hpages hl h1 h2,
      ft (stx_operand_falls_through hl)⟩
  · exact ⟨sty_routed hl, sty_operand_defined hpages hl h1 h2,
      ft (sty_operand_falls_through hl)⟩
  · exact fun hk => ⟨jmp_routed hl hk, jmp_case hpages hl h1 h2 hk⟩
  · exact fun hk => ⟨ill_nop_routed hl hk, ill_nop_case hl hk⟩

theorem dispatch_handler_agree_witness :
    exec_inst (access_mem 1 0xC000) adc_sample = adc (access_mem 1 0xC000) adc_sample ∧
    ∃ r, adc_operand (access_mem 1 0xC000) adc_sample = some r :=
  have h := dispatch_handler_agree adc_sample (access_mem 1 0xC000) 0x69 0x50 0x00
    (by decide) (by decide) (by decide) (by decide)
  ⟨h.1.1 (by decide), h.1.2.1 (by decide)⟩

end NESemu
